import Mathlib

/-!
Verification of poximv2, a single-hart RV32IM simulator with machine-mode traps

Shallow embedding of `src/sidneijunior_202400018369_poximv2.c`.

Conventions of the embedding.

* `uint32_t`, `uint64_t` and `uint8_t` values are natural numbers; every
  operation that can leave the range is followed by an explicit reduction
  (`u32`, `u64`, `% 256`).
* `int32_t` values are integers obtained by `i32` (two's complement reading
  of a 32-bit pattern) and stored back with `ofInt32`; signed arithmetic
  wraps, `>>` on a signed value is the arithmetic shift `Int.shiftRight`,
  signed `/` and `%` truncate toward zero (`Int.tdiv`, `Int.tmod`), and the
  bitwise operators on signed values act on the 32-bit patterns.
* The global variables of the program are the fields of `State`.  The
  arrays `registers`, `csrs` and `memory` are functions from indices.
* The input stream read by `fgetc`/`getchar` is the list `input` of the
  bytes still to be read; the bytes written by `putchar`/`fputc` are
  appended to `uart_out`; every `fprintf(output_file, ...)` appends one
  `TraceLine` (the program counter and the mnemonic of the formatted line)
  to `trace`.  Messages printed with `printf` are not part of the state.
-/

namespace Poximv2

/-! ## Constants -/

def CSR_MSTATUS : Nat := 0x300
def CSR_MIE : Nat := 0x304
def CSR_MTVEC : Nat := 0x305
def CSR_MEPC : Nat := 0x341
def CSR_MCAUSE : Nat := 0x342
def CSR_MTVAL : Nat := 0x343
def CSR_MIP : Nat := 0x344

def CAUSE_INSN_ACCESS : Nat := 0x1
def CAUSE_ILLEGAL_INSTR : Nat := 0x2
def CAUSE_LOAD_ACCESS : Nat := 0x5
def CAUSE_STORE_ACCESS : Nat := 0x7
def CAUSE_ECALL_MMODE : Nat := 0xb

def INTERRUPT_BIT : Nat := 0x80000000
def CAUSE_MTI : Nat := INTERRUPT_BIT ||| 7
def CAUSE_MEI : Nat := INTERRUPT_BIT ||| 11

def CLINT_BASE : Nat := 0x02000000
def CLINT_SIZE : Nat := 0x00010000
def PLIC_BASE : Nat := 0x0c000000
def PLIC_SIZE : Nat := 0x00400000
def UART_BASE : Nat := 0x10000000
def UART_SIZE : Nat := 0x100
def RAM_BASE : Nat := 0x80000000
def MEM_SIZE : Nat := 1024 * 1024

/-! ## Machine integers -/

/-- Conversion to `uint32_t`. -/
def u32 (n : Nat) : Nat := n % 2 ^ 32

/-- Conversion to `uint64_t`. -/
def u64 (n : Nat) : Nat := n % 2 ^ 64

/-- The cast `(int32_t)` of a 32-bit pattern. -/
def i32 (n : Nat) : Int := if u32 n < 2 ^ 31 then (u32 n : Int) else (u32 n : Int) - 2 ^ 32

/-- The cast `(int8_t)` of a value (its low 8 bits, two's complement). -/
def i8 (n : Nat) : Int := if n % 2 ^ 8 < 2 ^ 7 then ((n % 2 ^ 8 : Nat) : Int) else ((n % 2 ^ 8 : Nat) : Int) - 2 ^ 8

/-- The cast `(int16_t)` of a value (its low 16 bits, two's complement). -/
def i16 (n : Nat) : Int := if n % 2 ^ 16 < 2 ^ 15 then ((n % 2 ^ 16 : Nat) : Int) else ((n % 2 ^ 16 : Nat) : Int) - 2 ^ 16

/-- Conversion of a signed value to `uint32_t` (reduction modulo `2^32`). -/
def ofInt32 (i : Int) : Nat := (i % 2 ^ 32).toNat

/-- Conversion of a signed value to `uint64_t` (reduction modulo `2^64`). -/
def ofInt64 (i : Int) : Nat := (i % 2 ^ 64).toNat

/-- The operator `~` on a `uint32_t`. -/
def not32 (n : Nat) : Nat := 0xFFFFFFFF ^^^ u32 n

/-- An array with the element at index `k` replaced by `v`. -/
def setAt (f : Nat → Nat) (k v : Nat) : Nat → Nat := fun i => if i = k then v else f i

/-! ## State -/

/-- One line written to `output_file`: the program counter printed at its
start and the mnemonic (or message tag) that follows. -/
structure TraceLine where
  pc : Nat
  text : String
deriving DecidableEq, Repr

/-- The global variables of the simulator. -/
structure State where
  registers : Nat → Nat
  pc : Nat
  csrs : Nat → Nat
  memory : Nat → Nat
  mtime : Nat
  mtimecmp : Nat
  trap_occurred : Nat
  input : List (Fin 256)
  eof_warned : Nat
  uart_out : List Nat
  trace : List TraceLine

/-- Effect of `fprintf(output_file, ...)`: one more line in the trace. -/
def emit (s : State) (pc : Nat) (text : String) : State :=
  { s with trace := s.trace ++ [⟨pc, text⟩] }

/-- Guarded register write `if (rd != 0) registers[rd] = v;`. -/
def write_rd (s : State) (rd v : Nat) : State :=
  if rd ≠ 0 then { s with registers := setAt s.registers rd v } else s

/-! ## Trap controller -/

/-- Embedding of `raise_exception`. -/
def raise_exception (s : State) (cause tval : Nat) : State :=
  if s.trap_occurred ≠ 0 then s
  else
    let csrs1 := setAt s.csrs CSR_MEPC s.pc
    let csrs2 := setAt csrs1 CSR_MCAUSE cause
    let csrs3 := setAt csrs2 CSR_MTVAL tval
    { s with csrs := csrs3, pc := csrs3 CSR_MTVEC &&& 0xFFFFFFFC, trap_occurred := 1 }

/-! ## Bus dispatcher -/

/-- The loop `for (i = 0; i < n; i++) val |= (uint32_t)memory[index + i] << (8*i);`
started from `val = 0`. -/
def load_loop (memory : Nat → Nat) (index : Nat) : Nat → Nat
  | 0 => 0
  | n + 1 => load_loop memory index n ||| u32 (memory (index + n) <<< (8 * n))

/-- The loop `for (i = 0; i < n; i++) memory[index + i] = (value >> (8*i)) & 0xFF;`. -/
def store_loop (index value : Nat) : Nat → (Nat → Nat) → (Nat → Nat)
  | 0, memory => memory
  | n + 1, memory => setAt (store_loop index value n memory) (index + n) ((value >>> (8 * n)) &&& 0xFF)

/-- The UART branch of `bus_load`: one character is taken from the input
stream; at end of input the first read yields 10 and later reads yield
`0xFFFFFFFF` (`eof_warned` is the function's static flag). -/
def uart_read (s : State) : Nat × State :=
  match s.input with
  | c :: rest => (c.val, { s with input := rest })
  | [] =>
    if s.eof_warned = 0 then (10, { s with eof_warned := 1 })
    else (0xFFFFFFFF, s)

/-- Embedding of `bus_load`: the returned word and the state afterwards.
Every call passes `size_bytes` 1, 2 or 4, for which the `int` expression
`MEM_SIZE - size_bytes` is the natural-number difference. -/
def bus_load (s : State) (addr size_bytes : Nat) : Nat × State :=
  if addr ≥ RAM_BASE ∧ addr < RAM_BASE + MEM_SIZE then
    let index := addr - RAM_BASE
    if index > MEM_SIZE - size_bytes then (0, raise_exception s CAUSE_LOAD_ACCESS addr)
    else (load_loop s.memory index size_bytes, s)
  else if addr ≥ CLINT_BASE ∧ addr < CLINT_BASE + CLINT_SIZE then
    if addr = 0x02004000 then (u32 s.mtimecmp, s)
    else if addr = 0x02004004 then (u32 (s.mtimecmp >>> 32), s)
    else if addr = 0x0200bff8 then (u32 s.mtime, s)
    else if addr = 0x0200bffc then (u32 (s.mtime >>> 32), s)
    else (0, s)
  else if addr ≥ PLIC_BASE ∧ addr < PLIC_BASE + PLIC_SIZE then (0, s)
  else if addr ≥ UART_BASE ∧ addr < UART_BASE + UART_SIZE then uart_read s
  else (0, raise_exception s CAUSE_LOAD_ACCESS addr)

/-- Embedding of `bus_store` (`size_bytes` is 1, 2 or 4 in every call). -/
def bus_store (s : State) (addr value size_bytes : Nat) : State :=
  if addr ≥ RAM_BASE ∧ addr < RAM_BASE + MEM_SIZE then
    let index := addr - RAM_BASE
    if index > MEM_SIZE - size_bytes then raise_exception s CAUSE_STORE_ACCESS addr
    else { s with memory := store_loop index value size_bytes s.memory }
  else if addr = UART_BASE then
    { s with uart_out := s.uart_out ++ [value % 256] }
  else if addr ≥ CLINT_BASE ∧ addr < CLINT_BASE + CLINT_SIZE then
    if addr = 0x02004000 then
      { s with mtimecmp := (s.mtimecmp &&& 0xFFFFFFFF00000000) ||| value }
    else if addr = 0x02004004 then
      { s with mtimecmp := (s.mtimecmp &&& 0x00000000FFFFFFFF) ||| u64 (value <<< 32) }
    else s
  else if addr ≥ PLIC_BASE ∧ addr < PLIC_BASE + PLIC_SIZE then s
  else raise_exception s CAUSE_STORE_ACCESS addr

/-- Embedding of `read_word_from_memory`. -/
def read_word_from_memory (s : State) (address : Nat) : Nat × State :=
  bus_load s address 4

/-- Embedding of `read_half_word_from_memory`: the result is cast to `uint16_t`. -/
def read_half_word_from_memory (s : State) (address : Nat) : Nat × State :=
  ((bus_load s address 2).1 % 2 ^ 16, (bus_load s address 2).2)

/-- Embedding of `read_byte_from_memory`: the result is cast to `uint8_t`. -/
def read_byte_from_memory (s : State) (address : Nat) : Nat × State :=
  ((bus_load s address 1).1 % 2 ^ 8, (bus_load s address 1).2)

/-- Embedding of `write_word_to_memory`. -/
def write_word_to_memory (s : State) (address value : Nat) : State :=
  bus_store s address value 4

/-- Embedding of `write_half_word_to_memory`: the parameter is a `uint16_t`. -/
def write_half_word_to_memory (s : State) (address value : Nat) : State :=
  bus_store s address (value % 2 ^ 16) 2

/-- Embedding of `write_byte_to_memory`: the parameter is a `uint8_t`. -/
def write_byte_to_memory (s : State) (address value : Nat) : State :=
  bus_store s address (value % 2 ^ 8) 1

/-! ## Decoder and executor -/

/-- How a `case` of the opcode switch in `execute_instruction` is left:
by `break` (with the value of the local `pc_updated`), or by `return`. -/
inductive Flow where
  | brk (s : State) (pc_updated : Nat)
  | ret (s : State)

/-- The I-type immediate `(int32_t)(instruction & 0xFFF00000) >> 20`. -/
def imm_i (instruction : Nat) : Int := Int.shiftRight (i32 (instruction &&& 0xFFF00000)) 20

/-- The S-type immediate: `imm = (imm_11_5 << 5) | imm_4_0; imm = (int32_t)(imm << 20) >> 20`. -/
def imm_s (instruction : Nat) : Int :=
  let imm_11_5 := (instruction >>> 25) &&& 0x7F
  let imm_4_0 := (instruction >>> 7) &&& 0x1F
  let imm := u32 ((imm_11_5 <<< 5) ||| imm_4_0)
  Int.shiftRight (i32 (u32 (imm <<< 20))) 20

/-- The B-type offset of the branch case. -/
def imm_b (instruction : Nat) : Int :=
  let imm_12 := (instruction >>> 31) &&& 1
  let imm_10_5 := (instruction >>> 25) &&& 0x3F
  let imm_4_1 := (instruction >>> 8) &&& 0xF
  let imm_11 := (instruction >>> 7) &&& 1
  let offset := u32 ((imm_12 <<< 12) ||| (imm_11 <<< 11) ||| (imm_10_5 <<< 5) ||| (imm_4_1 <<< 1))
  Int.shiftRight (i32 (u32 (offset <<< 19))) 19

/-- The J-type offset of the `jal` case. -/
def imm_j (instruction : Nat) : Int :=
  let imm_20 := (instruction >>> 31) &&& 1
  let imm_10_1 := (instruction >>> 21) &&& 0x3FF
  let imm_11 := (instruction >>> 20) &&& 1
  let imm_19_12 := (instruction >>> 12) &&& 0xFF
  let offset := u32 ((imm_20 <<< 20) ||| (imm_19_12 <<< 12) ||| (imm_11 <<< 11) ||| (imm_10_1 <<< 1))
  Int.shiftRight (i32 (u32 (offset <<< 11))) 11

/-- The `case 0x13` of the opcode switch (OP-IMM). -/
def exec_op_imm (s : State) (instruction current_pc : Nat) : Flow :=
  let rd := (instruction >>> 7) &&& 0x1F
  let funct3 := (instruction >>> 12) &&& 0x7
  let rs1 := (instruction >>> 15) &&& 0x1F
  let imm := imm_i instruction
  let val_rs1 := s.registers rs1
  let shamt := ofInt32 imm &&& 0x1F
  if funct3 = 0x0 then
    .brk (emit (write_rd s rd (u32 (val_rs1 + ofInt32 imm))) current_pc "addi") 0
  else if funct3 = 0x1 then
    .brk (emit (write_rd s rd (u32 (val_rs1 <<< shamt))) current_pc "slli") 0
  else if funct3 = 0x2 then
    .brk (emit (write_rd s rd (if i32 val_rs1 < imm then 1 else 0)) current_pc "slti") 0
  else if funct3 = 0x3 then
    .brk (emit (write_rd s rd (if val_rs1 < ofInt32 imm then 1 else 0)) current_pc "sltiu") 0
  else if funct3 = 0x4 then
    .brk (emit (write_rd s rd (val_rs1 ^^^ ofInt32 imm)) current_pc "xori") 0
  else if funct3 = 0x5 then
    let funct7 := (instruction >>> 25) &&& 0x7F
    if funct7 = 0x00 then
      .brk (emit (write_rd s rd (val_rs1 >>> shamt)) current_pc "srli") 0
    else if funct7 = 0x20 then
      .brk (emit (write_rd s rd (ofInt32 (Int.shiftRight (i32 val_rs1) shamt))) current_pc "srai") 0
    else .brk s 0
  else if funct3 = 0x6 then
    .brk (emit (write_rd s rd (val_rs1 ||| ofInt32 imm)) current_pc "ori") 0
  else if funct3 = 0x7 then
    .brk (emit (write_rd s rd (val_rs1 &&& ofInt32 imm)) current_pc "andi") 0
  else .brk (raise_exception s CAUSE_ILLEGAL_INSTR instruction) 0

/-- The nested `funct7`/`funct3` switches of `case 0x33`: the mnemonic and
the value of `res` when `instr_valid` is set, `none` when it is left 0.
`v_urs1`, `v_urs2` are the register values; `v_rs1`, `v_rs2` their signed
readings. -/
def op_result (funct7 funct3 v_urs1 v_urs2 : Nat) : Option (String × Nat) :=
  let v_rs1 : Int := i32 v_urs1
  let v_rs2 : Int := i32 v_urs2
  let shamt := v_urs2 &&& 0x1F
  if funct7 = 0x00 then
    if funct3 = 0x0 then some ("add", ofInt32 (v_rs1 + v_rs2))
    else if funct3 = 0x1 then some ("sll", u32 (v_urs1 <<< shamt))
    else if funct3 = 0x2 then some ("slt", if v_rs1 < v_rs2 then 1 else 0)
    else if funct3 = 0x3 then some ("sltu", if v_urs1 < v_urs2 then 1 else 0)
    else if funct3 = 0x4 then some ("xor", ofInt32 v_rs1 ^^^ ofInt32 v_rs2)
    else if funct3 = 0x5 then some ("srl", v_urs1 >>> shamt)
    else if funct3 = 0x6 then some ("or", ofInt32 v_rs1 ||| ofInt32 v_rs2)
    else if funct3 = 0x7 then some ("and", ofInt32 v_rs1 &&& ofInt32 v_rs2)
    else none
  else if funct7 = 0x20 then
    if funct3 = 0x0 then some ("sub", ofInt32 (v_rs1 - v_rs2))
    else if funct3 = 0x5 then some ("sra", ofInt32 (Int.shiftRight v_rs1 shamt))
    else none
  else if funct7 = 0x01 then
    let s64_rs1 : Int := v_rs1
    let s64_rs2 : Int := v_rs2
    let u64_rs1 : Nat := v_urs1
    let u64_rs2 : Nat := v_urs2
    if funct3 = 0x0 then some ("mul", ofInt32 (v_rs1 * v_rs2))
    else if funct3 = 0x1 then some ("mulh", ofInt32 (Int.shiftRight (s64_rs1 * s64_rs2) 32))
    else if funct3 = 0x2 then some ("mulhsu", u32 (u64 (ofInt64 s64_rs1 * u64_rs2) >>> 32))
    else if funct3 = 0x3 then some ("mulhu", u32 (u64 (u64_rs1 * u64_rs2) >>> 32))
    else if funct3 = 0x4 then
      some ("div",
        if v_rs2 = 0 then ofInt32 (-1)
        else if ofInt32 v_rs1 = 0x80000000 ∧ v_rs2 = -1 then 0x80000000
        else ofInt32 (Int.tdiv v_rs1 v_rs2))
    else if funct3 = 0x5 then
      some ("divu", if v_urs2 = 0 then ofInt32 (-1) else v_urs1 / v_urs2)
    else if funct3 = 0x6 then
      some ("rem",
        if v_rs2 = 0 then ofInt32 v_rs1
        else if ofInt32 v_rs1 = 0x80000000 ∧ v_rs2 = -1 then 0
        else ofInt32 (Int.tmod v_rs1 v_rs2))
    else if funct3 = 0x7 then
      some ("remu", if v_urs2 = 0 then v_urs1 else v_urs1 % v_urs2)
    else none
  else none

/-- The `case 0x33` of the opcode switch (OP). -/
def exec_op (s : State) (instruction current_pc : Nat) : Flow :=
  let rd := (instruction >>> 7) &&& 0x1F
  let funct3 := (instruction >>> 12) &&& 0x7
  let rs1 := (instruction >>> 15) &&& 0x1F
  let rs2 := (instruction >>> 20) &&& 0x1F
  let funct7 := (instruction >>> 25) &&& 0x7F
  match op_result funct7 funct3 (s.registers rs1) (s.registers rs2) with
  | some (name, res) => .brk (write_rd (emit s current_pc name) rd res) 0
  | none => .brk (raise_exception s CAUSE_ILLEGAL_INSTR instruction) 0

/-- The `case 0x6F` of the opcode switch (`jal`). -/
def exec_jal (s : State) (instruction current_pc : Nat) : Flow :=
  let rd := (instruction >>> 7) &&& 0x1F
  let offset := imm_j instruction
  let return_address := u32 (current_pc + 4)
  let target_address := u32 (current_pc + ofInt32 offset)
  let s1 := write_rd s rd return_address
  .brk (emit { s1 with pc := target_address } current_pc "jal") 1

/-- The `case 0x63` of the opcode switch (branches). -/
def exec_branch (s : State) (instruction current_pc : Nat) : Flow :=
  let funct3 := (instruction >>> 12) &&& 0x7
  let rs1 := (instruction >>> 15) &&& 0x1F
  let rs2 := (instruction >>> 20) &&& 0x1F
  let offset := imm_b instruction
  let val_rs1 : Int := i32 (s.registers rs1)
  let val_rs2 : Int := i32 (s.registers rs2)
  let u_val_rs1 := s.registers rs1
  let u_val_rs2 := s.registers rs2
  let taken (name : String) (condition_met : Bool) : Flow :=
    let s1 := emit s current_pc name
    if condition_met then .brk { s1 with pc := u32 (current_pc + ofInt32 offset) } 1
    else .brk s1 0
  if funct3 = 0x0 then taken "beq" (decide (val_rs1 = val_rs2))
  else if funct3 = 0x1 then taken "bne" (decide (val_rs1 ≠ val_rs2))
  else if funct3 = 0x4 then taken "blt" (decide (val_rs1 < val_rs2))
  else if funct3 = 0x5 then taken "bge" (decide (val_rs1 ≥ val_rs2))
  else if funct3 = 0x6 then taken "bltu" (decide (u_val_rs1 < u_val_rs2))
  else if funct3 = 0x7 then taken "bgeu" (decide (u_val_rs1 ≥ u_val_rs2))
  else .ret (raise_exception s CAUSE_ILLEGAL_INSTR instruction)

/-- The `case 0x37` of the opcode switch (`lui`). -/
def exec_lui (s : State) (instruction current_pc : Nat) : Flow :=
  let rd := (instruction >>> 7) &&& 0x1F
  let imm_u := instruction &&& 0xFFFFF000
  .brk (emit (write_rd s rd imm_u) current_pc "lui") 0

/-- The `case 0x17` of the opcode switch (`auipc`). -/
def exec_auipc (s : State) (instruction current_pc : Nat) : Flow :=
  let rd := (instruction >>> 7) &&& 0x1F
  let imm_u : Int := i32 (instruction &&& 0xFFFFF000)
  let res := u32 (current_pc + ofInt32 imm_u)
  .brk (emit (write_rd s rd res) current_pc "auipc") 0

/-- The `case 0x67` of the opcode switch (`jalr`). -/
def exec_jalr (s : State) (instruction current_pc : Nat) : Flow :=
  let rd := (instruction >>> 7) &&& 0x1F
  let rs1 := (instruction >>> 15) &&& 0x1F
  let imm := imm_i instruction
  let val_rs1 := s.registers rs1
  let return_address := u32 (current_pc + 4)
  let target_address := u32 (val_rs1 + ofInt32 imm) &&& 0xFFFFFFFE
  let s1 := write_rd s rd return_address
  .brk (emit { s1 with pc := target_address } current_pc "jalr") 1

/-- The statement after the `funct3` switch of the load case:
`if (!trap_occurred) { if (rd != 0) registers[rd] = res; fprintf(...); }`. -/
def load_writeback (s : State) (rd res current_pc : Nat) (name : String) : Flow :=
  if s.trap_occurred = 0 then .brk (emit (write_rd s rd res) current_pc name) 0
  else .brk s 0

/-- The `case 0x03` of the opcode switch (loads). -/
def exec_load (s : State) (instruction current_pc : Nat) : Flow :=
  let rd := (instruction >>> 7) &&& 0x1F
  let funct3 := (instruction >>> 12) &&& 0x7
  let rs1 := (instruction >>> 15) &&& 0x1F
  let imm := imm_i instruction
  let val_rs1 := s.registers rs1
  let address := u32 (val_rs1 + ofInt32 imm)
  if funct3 = 0x0 then
    let r := read_byte_from_memory s address
    let res := if r.2.trap_occurred = 0 then ofInt32 (i8 r.1) else 0
    load_writeback r.2 rd res current_pc "lb"
  else if funct3 = 0x1 then
    let r := read_half_word_from_memory s address
    let res := if r.2.trap_occurred = 0 then ofInt32 (i16 r.1) else 0
    load_writeback r.2 rd res current_pc "lh"
  else if funct3 = 0x2 then
    let r := read_word_from_memory s address
    load_writeback r.2 rd r.1 current_pc "lw"
  else if funct3 = 0x4 then
    let r := read_byte_from_memory s address
    let res := if r.2.trap_occurred = 0 then r.1 else 0
    load_writeback r.2 rd res current_pc "lbu"
  else if funct3 = 0x5 then
    let r := read_half_word_from_memory s address
    let res := if r.2.trap_occurred = 0 then r.1 else 0
    load_writeback r.2 rd res current_pc "lhu"
  else .ret (raise_exception s CAUSE_ILLEGAL_INSTR instruction)

/-- The statement `if (!trap_occurred) fprintf(...)` after a store. -/
def store_trace (s : State) (current_pc : Nat) (name : String) : Flow :=
  if s.trap_occurred = 0 then .brk (emit s current_pc name) 0 else .brk s 0

/-- The `case 0x23` of the opcode switch (stores). -/
def exec_store (s : State) (instruction current_pc : Nat) : Flow :=
  let funct3 := (instruction >>> 12) &&& 0x7
  let rs1 := (instruction >>> 15) &&& 0x1F
  let rs2 := (instruction >>> 20) &&& 0x1F
  let imm := imm_s instruction
  let val_rs1 := s.registers rs1
  let val_rs2 := s.registers rs2
  let address := u32 (val_rs1 + ofInt32 imm)
  if funct3 = 0x0 then store_trace (write_byte_to_memory s address val_rs2) current_pc "sb"
  else if funct3 = 0x1 then store_trace (write_half_word_to_memory s address val_rs2) current_pc "sh"
  else if funct3 = 0x2 then store_trace (write_word_to_memory s address val_rs2) current_pc "sw"
  else .ret (raise_exception s CAUSE_ILLEGAL_INSTR instruction)

/-- The CSR read-modify-write tail of `case 0x73`:
`csrs[csr_addr] = new_val; if (rd != 0) registers[rd] = csr_val;`. -/
def csr_commit (s : State) (rd csr_addr csr_val new_val current_pc : Nat) (name : String) : Flow :=
  let s1 := emit s current_pc name
  .brk (write_rd { s1 with csrs := setAt s1.csrs csr_addr new_val } rd csr_val) 0

/-- The `case 0x73` of the opcode switch (SYSTEM / CSR). -/
def exec_system (s : State) (instruction current_pc : Nat) : Flow :=
  let funct3 := (instruction >>> 12) &&& 0x7
  let rd := (instruction >>> 7) &&& 0x1F
  let rs1 := (instruction >>> 15) &&& 0x1F
  let csr_addr := (instruction >>> 20) &&& 0xFFF
  let uimm := rs1
  if funct3 = 0 then
    if csr_addr = 0 then .brk (emit (raise_exception s CAUSE_ECALL_MMODE 0) current_pc "ecall") 0
    else if csr_addr = 1 then .brk (emit s current_pc "ebreak") 0
    else if csr_addr = 0x302 then .brk (emit { s with pc := s.csrs CSR_MEPC } current_pc "mret") 1
    else .brk (raise_exception s CAUSE_ILLEGAL_INSTR instruction) 0
  else
    let csr_val := s.csrs csr_addr
    if funct3 = 0x1 then csr_commit s rd csr_addr csr_val (s.registers rs1) current_pc "csrrw"
    else if funct3 = 0x2 then csr_commit s rd csr_addr csr_val (csr_val ||| s.registers rs1) current_pc "csrrs"
    else if funct3 = 0x3 then csr_commit s rd csr_addr csr_val (csr_val &&& not32 (s.registers rs1)) current_pc "csrrc"
    else if funct3 = 0x5 then csr_commit s rd csr_addr csr_val uimm current_pc "csrrwi"
    else if funct3 = 0x6 then csr_commit s rd csr_addr csr_val (csr_val ||| uimm) current_pc "csrrsi"
    else if funct3 = 0x7 then csr_commit s rd csr_addr csr_val (csr_val &&& not32 uimm) current_pc "csrrci"
    else .ret (raise_exception s CAUSE_ILLEGAL_INSTR instruction)

/-- The opcode switch of `execute_instruction`. -/
def dispatch (s : State) (instruction current_pc : Nat) : Flow :=
  let opcode := instruction &&& 0x7F
  if opcode = 0x13 then exec_op_imm s instruction current_pc
  else if opcode = 0x33 then exec_op s instruction current_pc
  else if opcode = 0x6F then exec_jal s instruction current_pc
  else if opcode = 0x63 then exec_branch s instruction current_pc
  else if opcode = 0x37 then exec_lui s instruction current_pc
  else if opcode = 0x17 then exec_auipc s instruction current_pc
  else if opcode = 0x67 then exec_jalr s instruction current_pc
  else if opcode = 0x03 then exec_load s instruction current_pc
  else if opcode = 0x23 then exec_store s instruction current_pc
  else if opcode = 0x73 then exec_system s instruction current_pc
  else .brk (emit (raise_exception s CAUSE_ILLEGAL_INSTR instruction) current_pc "Erro") 0

/-- The end of `execute_instruction`: a `return` inside the switch leaves
at once; after a `break`, `if (!pc_updated && !trap_occurred) { pc += 4; }`. -/
def finish : Flow → State
  | .ret s => s
  | .brk s pc_updated =>
    if pc_updated = 0 ∧ s.trap_occurred = 0 then { s with pc := u32 (s.pc + 4) } else s

/-- Embedding of `execute_instruction`. -/
def execute_instruction (s : State) (instruction current_pc : Nat) : State :=
  finish (dispatch { s with trap_occurred := 0 } instruction current_pc)

/-! ## Hart loop -/

/-- Outcome of one iteration of the `while (1)` loop of `main`: the loop is
left by `break`, or goes on to the next iteration. -/
inductive StepResult where
  | halted (s : State)
  | running (s : State)

/-- The state carried by a step result. -/
def StepResult.state : StepResult → State
  | .halted s => s
  | .running s => s

/-- Whether the loop was left by `break`. -/
def StepResult.is_halted : StepResult → Bool
  | .halted _ => true
  | .running _ => false

/-- The word fetched at byte index `idx` of the memory array. -/
def fetch (memory : Nat → Nat) (idx : Nat) : Nat :=
  u32 (memory idx ||| (memory (idx + 1) <<< 8) ||| (memory (idx + 2) <<< 16) ||| (memory (idx + 3) <<< 24))

/-- The part of a loop iteration after `execute_instruction`: the timer tick,
the refresh of `mip`, the timer interrupt and `registers[0] = 0`. -/
def after_execute (s1 : State) : State :=
  let s2 := { s1 with mtime := u64 (s1.mtime + 1) }
  let s3 :=
    if s2.mtime ≥ s2.mtimecmp then { s2 with csrs := setAt s2.csrs CSR_MIP (s2.csrs CSR_MIP ||| 0x80) }
    else { s2 with csrs := setAt s2.csrs CSR_MIP (s2.csrs CSR_MIP &&& 0xFFFFFF7F) }
  let mstatus := s3.csrs CSR_MSTATUS
  let mie := s3.csrs CSR_MIE
  let mip := s3.csrs CSR_MIP
  let s4 :=
    if (mstatus &&& 0x8) ≠ 0 ∧ (mie &&& 0x80) ≠ 0 ∧ (mip &&& 0x80) ≠ 0 then raise_exception s3 CAUSE_MTI 0
    else s3
  { s4 with registers := setAt s4.registers 0 0 }

/-- One iteration of the `while (1)` loop of `main`. -/
def hart_step (s : State) : StepResult :=
  if s.pc = 0 then .halted s
  else if s.pc % 4 ≠ 0 then .running (raise_exception s CAUSE_INSN_ACCESS s.pc)
  else
    let idx := u32 (s.pc + (2 ^ 32 - 0x80000000))
    if idx > MEM_SIZE - 4 then .running (raise_exception s CAUSE_INSN_ACCESS s.pc)
    else
      let instruction := fetch s.memory idx
      let pc_atual := s.pc
      if instruction = 0x00100073 then .halted (emit s pc_atual "ebreak")
      else if instruction = 0 then .halted s
      else .running (after_execute (execute_instruction s instruction pc_atual))

/-- The outcome of at most `n` loop iterations from `s`: the loop stops at
the first iteration that halts. -/
def run : Nat → State → StepResult
  | 0, s => .running s
  | n + 1, s =>
    match run n s with
    | .halted s1 => .halted s1
    | .running s1 => hart_step s1

/-- Whether the iteration started in `s` gets to the call of
`execute_instruction`: it passes the `pc == 0` test, the alignment and range
tests of the fetch, and the two tests on the fetched word. -/
def reaches_execute (s : State) : Bool :=
  decide (s.pc ≠ 0 ∧ s.pc % 4 = 0 ∧ u32 (s.pc + (2 ^ 32 - 0x80000000)) ≤ MEM_SIZE - 4 ∧
    fetch s.memory (u32 (s.pc + (2 ^ 32 - 0x80000000))) ≠ 0x00100073 ∧
    fetch s.memory (u32 (s.pc + (2 ^ 32 - 0x80000000))) ≠ 0)

/-- The number of calls of `execute_instruction` made by the first `n`
iterations of the loop started in `s`. -/
def executed : Nat → State → Nat
  | 0, _ => 0
  | n + 1, s =>
    match run n s with
    | .halted _ => executed n s
    | .running t => executed n s + (if reaches_execute t then 1 else 0)

/-- The state `main` enters the loop with: the globals as initialised, the
memory array holding the loaded image, `input` the bytes of the input stream. -/
def init (image : Nat → Nat) (input : List (Fin 256)) : State :=
  { registers := fun _ => 0
    pc := 0x80000000
    csrs := fun _ => 0
    memory := image
    mtime := 0
    mtimecmp := 2 ^ 64 - 1
    trap_occurred := 0
    input := input
    eof_warned := 0
    uart_out := []
    trace := [] }

/-- Well-formed states: every variable holds a value of its C type. -/
structure State.wf (s : State) : Prop where
  registers_lt : ∀ i, s.registers i < 2 ^ 32
  pc_lt : s.pc < 2 ^ 32
  csrs_lt : ∀ i, s.csrs i < 2 ^ 32
  memory_lt : ∀ i, s.memory i < 2 ^ 8
  mtime_lt : s.mtime < 2 ^ 64
  mtimecmp_lt : s.mtimecmp < 2 ^ 64

/-! ## Specification-side notions and sample states -/

/-- The little-endian value of the `n` bytes at `index`: the byte at the
lowest address is the least significant. -/
def le_value (memory : Nat → Nat) (index : Nat) : Nat → Nat
  | 0 => 0
  | n + 1 => le_value memory index n + memory (index + n) * 256 ^ n

/-- Sign extension of a `bits`-bit value to 32 bits. -/
def sign_extend (bits v : Nat) : Nat :=
  if v < 2 ^ (bits - 1) then v else v + (2 ^ 32 - 2 ^ bits)

/-- Number of bytes a load with the given `funct3` accesses: 1 for `lb`/`lbu`
(0, 4), 2 for `lh`/`lhu` (1, 5), 4 for `lw` (2). -/
def load_width (funct3 : Nat) : Nat :=
  if funct3 = 0 ∨ funct3 = 4 then 1 else if funct3 = 1 ∨ funct3 = 5 then 2 else 4

/-- Extension of a loaded value to 32 bits: sign extension from bit 7 for
`lb` (0) and from bit 15 for `lh` (1), zero extension otherwise. -/
def load_extend (funct3 v : Nat) : Nat :=
  if funct3 = 0 then sign_extend 8 v else if funct3 = 1 then sign_extend 16 v else v

/-- The address of a load: `x[rs1]` plus the sign-extended 12-bit immediate
field `inst[31:20]`, modulo `2^32`. -/
def load_address (s : State) (instruction : Nat) : Nat :=
  (s.registers ((instruction >>> 15) &&& 0x1F) + sign_extend 12 (instruction >>> 20)) % 2 ^ 32

/-- The 12-bit S-type immediate field `{inst[31:25], inst[11:7]}`. -/
def s_type_field (instruction : Nat) : Nat :=
  (instruction / 2 ^ 25 % 2 ^ 7) * 2 ^ 5 + instruction / 2 ^ 7 % 2 ^ 5

/-- The address of a store: `x[rs1]` plus the sign-extended 12-bit S-type
immediate field, modulo `2^32`. -/
def store_address (s : State) (instruction : Nat) : Nat :=
  (s.registers ((instruction >>> 15) &&& 0x1F) + sign_extend 12 (s_type_field instruction)) % 2 ^ 32

/-- The signed (two's complement) reading of a 32-bit value. -/
def signed32 (a : Nat) : Int := if a < 2 ^ 31 then (a : Int) else (a : Int) - 2 ^ 32

/-- Arithmetic right shift of a 32-bit value by `n`: the floor of the signed
value over `2^n`, as a 32-bit pattern. -/
def asr32 (a n : Nat) : Nat := ((signed32 a / 2 ^ n) % 2 ^ 32).toNat

/-- Signed quotient truncated toward zero: the magnitude is the floor of
`|x| / |y|` and the sign is the product of the signs. -/
def trunc_div (x y : Int) : Int := Int.sign x * Int.sign y * ((x.natAbs / y.natAbs : Nat) : Int)

/-- Remainder of the truncating division: the magnitude is `|x| mod |y|` and
the sign is the sign of the dividend. -/
def trunc_rem (x y : Int) : Int := Int.sign x * ((x.natAbs % y.natAbs : Nat) : Int)

/-- Bits 63..32 of a product taken as a 64-bit two's complement number. -/
def high_word (p : Int) : Nat := ((p % 2 ^ 64) / 2 ^ 32).toNat

/-- The 13-bit B-type field `{inst[31], inst[7], inst[30:25], inst[11:8], 0}`. -/
def b_type_field (inst : Nat) : Nat :=
  (inst / 2 ^ 31 % 2) * 2 ^ 12 + (inst / 2 ^ 7 % 2) * 2 ^ 11 + (inst / 2 ^ 25 % 2 ^ 6) * 2 ^ 5 +
    (inst / 2 ^ 8 % 2 ^ 4) * 2

/-- The 21-bit J-type field `{inst[31], inst[19:12], inst[20], inst[30:21], 0}`. -/
def j_type_field (inst : Nat) : Nat :=
  (inst / 2 ^ 31 % 2) * 2 ^ 20 + (inst / 2 ^ 12 % 2 ^ 8) * 2 ^ 12 + (inst / 2 ^ 20 % 2) * 2 ^ 11 +
    (inst / 2 ^ 21 % 2 ^ 10) * 2

/-- The branch condition selected by `funct3` on the register values `a`
and `b`: `beq` (0), `bne` (1), `blt` (4), `bge` (5), `bltu` (6), `bgeu` (7). -/
def branch_taken (funct3 a b : Nat) : Bool :=
  if funct3 = 0 then decide (a = b)
  else if funct3 = 1 then decide (a ≠ b)
  else if funct3 = 4 then decide (signed32 a < signed32 b)
  else if funct3 = 5 then decide (signed32 a ≥ signed32 b)
  else if funct3 = 6 then decide (a < b)
  else decide (a ≥ b)

/-- The instruction word of `lui rd, hi` (`hi` the 20-bit upper immediate). -/
def enc_lui (rd hi : Nat) : Nat := hi * 2 ^ 12 + rd * 2 ^ 7 + 0x37

/-- The instruction word of `addi rd, rs1, lo` (`lo` the 12-bit immediate field). -/
def enc_addi (rd rs1 lo : Nat) : Nat := lo * 2 ^ 20 + rs1 * 2 ^ 15 + rd * 2 ^ 7 + 0x13

/-- The source operand of a CSR instruction: `x[rs1]` for `funct3` 1, 2, 3
and the zero-extended 5-bit `rs1` field for `funct3` 5, 6, 7. -/
def csr_source (s : State) (instruction : Nat) : Nat :=
  if (instruction >>> 12) &&& 0x7 < 4 then s.registers ((instruction >>> 15) &&& 0x1F)
  else (instruction >>> 15) &&& 0x1F

/-- The value a CSR instruction writes, from the old value `o` and the
source `src`: `src` for csrrw/csrrwi (1, 5), `o | src` for csrrs/csrrsi
(2, 6), `o & ~src` for csrrc/csrrci (3, 7). -/
def csr_new_value (funct3 o src : Nat) : Nat :=
  if funct3 = 1 ∨ funct3 = 5 then src
  else if funct3 = 2 ∨ funct3 = 6 then o ||| src
  else o &&& not32 src

/-- The state a `case` of the opcode switch is left with. -/
def Flow.state : Flow → State
  | .brk s _ => s
  | .ret s => s

/-- The relation between the state `s` before an instruction and the state
`t` after it that the trap discipline asks for when the instruction traps:
no register, memory byte, timer or device stream has changed, `mtvec` is
untouched and `pc` is the trap vector with its low two bits cleared. -/
def TrapFrame (s t : State) : Prop :=
  t.registers = s.registers ∧ t.memory = s.memory ∧ t.mtime = s.mtime ∧
  t.mtimecmp = s.mtimecmp ∧ t.input = s.input ∧ t.eof_warned = s.eof_warned ∧
  t.uart_out = s.uart_out ∧ t.csrs CSR_MTVEC = s.csrs CSR_MTVEC ∧
  t.pc = s.csrs CSR_MTVEC &&& 0xFFFFFFFC

/-- A memory image holding `addi x0, x0, 0` (word `0x00000013`) at every
word of the RAM. -/
def nop_image : Nat → Nat := fun i => if i % 4 = 0 then 0x13 else 0

/-- The initial state on `nop_image` with `mstatus.MIE = 1`, `mie.MTIE = 1`,
`mtvec = 0x80000100` and `mtimecmp = 5`. -/
def timer_state : State :=
  { init nop_image [] with
    csrs := setAt (setAt (setAt (fun _ => 0) CSR_MSTATUS 0x8) CSR_MIE 0x80) CSR_MTVEC 0x80000100
    mtimecmp := 5 }

/-- A state used to instantiate the theorems: the initial state on an empty
image, with `mtvec = 0x80000103`, `x1 = 0x800FFFFC` and `pc = 0x80000008`. -/
def demo_state : State :=
  { init (fun _ => 0) [] with
    csrs := setAt (fun _ => 0) CSR_MTVEC 0x80000103
    registers := setAt (fun _ => 0) 1 0x800FFFFC
    pc := 0x80000008 }

/-- The state `demo_state` with the bytes `0x34, 0x92` stored at the RAM
indices `0xFFFFC, 0xFFFFD` (addresses `0x800FFFFC, 0x800FFFFD`). -/
def demo_loaded : State :=
  { demo_state with memory := fun i => if i = 0xFFFFC then 0x34 else if i = 0xFFFFD then 0x92 else 0 }

/-- The state `demo_state` with `x1 = 0x800FFFFC` and `x2 = 0xDEADBEEF`. -/
def demo_store : State :=
  { demo_state with
    registers := fun i => if i = 1 then 0x800FFFFC else if i = 2 then 0xDEADBEEF else 0 }

/-- The state `demo_state` with `x1 = 0x80000000`, `x2 = 0xFFFFFFFF`,
`x4 = 0xFFFFFFF9` (that is -7) and `x5 = 2`. -/
def demo_div : State :=
  { demo_state with
    registers := fun i =>
      if i = 1 then 0x80000000 else if i = 2 then 0xFFFFFFFF else if i = 4 then 0xFFFFFFF9
      else if i = 5 then 2 else 0 }

/-- The state `demo_state` with the trap flag set. -/
def demo_trapped : State := { demo_state with trap_occurred := 1 }

/-- A memory image holding `csrrwi x0, mtvec, 4` (word `0x30525073`) at
`0x80000000` and `ecall` (word `0x00000073`) at `0x80000004`. -/
def stale_image : Nat → Nat := fun i => [0x73, 0x50, 0x52, 0x30, 0x73, 0x00, 0x00, 0x00].getD i 0

/-- The state after `n` successive calls `bus_load(addr, size_bytes)`. -/
def after_loads (addr size_bytes : Nat) : Nat → State → State
  | 0, s => s
  | n + 1, s => (bus_load (after_loads addr size_bytes n s) addr size_bytes).2

/-- The value returned by call number `n` (counted from 0) of successive
calls `bus_load(addr, size_bytes)` started in `s`. -/
def nth_load (addr size_bytes n : Nat) (s : State) : Nat :=
  (bus_load (after_loads addr size_bytes n s) addr size_bytes).1

/-- The state `demo_state` with the input stream holding the two bytes
`0x41, 0xFF`. -/
def demo_input : State := { demo_state with input := [0x41, 0xFF] }

/-- A memory image holding the word `0x001000F3` at `0x80000000`: opcode
0x73, `funct3` 0, immediate field 1, like `ebreak`, but with `rd = 1`. -/
def loose_ebreak_image : Nat → Nat := fun i => [0xF3, 0x00, 0x10, 0x00].getD i 0

/-- A memory image holding `ecall` (word `0x00000073`) at `0x80000000`. -/
def ecall_image : Nat → Nat := fun i => [0x73, 0x00, 0x00, 0x00].getD i 0

/-- A memory image holding `beq x0, x0, -4` (word `0xFE000EE3`) at
`0x80000000`. -/
def branch_back_image : Nat → Nat := fun i => [0xE3, 0x0E, 0x00, 0xFE].getD i 0

/-- A memory image holding `beq x0, x0, 0` (word `0x00000063`) at
`0x80000000`. -/
def self_loop_image : Nat → Nat := fun i => [0x63, 0x00, 0x00, 0x00].getD i 0

/-! ## Checked array accesses -/

/-- A checked read of `memory[i]`: `none` when `i` is outside the array of
`MEM_SIZE` bytes. -/
def memory_read (memory : Nat → Nat) (i : Nat) : Option Nat :=
  if i < MEM_SIZE then some (memory i) else none

/-- The load loop of `bus_load` with every read of `memory[index + i]`
checked. -/
def load_loop_checked (memory : Nat → Nat) (index : Nat) : Nat → Option Nat
  | 0 => some 0
  | n + 1 =>
    match load_loop_checked memory index n, memory_read memory (index + n) with
    | some v, some b => some (v ||| u32 (b <<< (8 * n)))
    | _, _ => none

/-- The store loop of `bus_store` with every write of `memory[index + i]`
checked. -/
def store_loop_checked (index value : Nat) : Nat → (Nat → Nat) → Option (Nat → Nat)
  | 0, memory => some memory
  | n + 1, memory =>
    match store_loop_checked index value n memory with
    | some m =>
      if index + n < MEM_SIZE then some (setAt m (index + n) ((value >>> (8 * n)) &&& 0xFF))
      else none
    | none => none

/-- The function `bus_load` with the array reads of its RAM branch checked;
the other branches read no array element. -/
def bus_load_checked (s : State) (addr size_bytes : Nat) : Option (Nat × State) :=
  if addr ≥ RAM_BASE ∧ addr < RAM_BASE + MEM_SIZE then
    let index := addr - RAM_BASE
    if index > MEM_SIZE - size_bytes then some (0, raise_exception s CAUSE_LOAD_ACCESS addr)
    else
      match load_loop_checked s.memory index size_bytes with
      | some v => some (v, s)
      | none => none
  else some (bus_load s addr size_bytes)

/-- The function `bus_store` with the array writes of its RAM branch
checked; the other branches write no array element. -/
def bus_store_checked (s : State) (addr value size_bytes : Nat) : Option State :=
  if addr ≥ RAM_BASE ∧ addr < RAM_BASE + MEM_SIZE then
    let index := addr - RAM_BASE
    if index > MEM_SIZE - size_bytes then some (raise_exception s CAUSE_STORE_ACCESS addr)
    else
      match store_loop_checked index value size_bytes s.memory with
      | some m => some { s with memory := m }
      | none => none
  else some (bus_store s addr value size_bytes)

/-- The instruction fetch of the hart loop with its four array reads
checked. -/
def fetch_checked (memory : Nat → Nat) (idx : Nat) : Option Nat :=
  match memory_read memory idx, memory_read memory (idx + 1), memory_read memory (idx + 2),
    memory_read memory (idx + 3) with
  | some b0, some b1, some b2, some b3 =>
    some (u32 (b0 ||| (b1 <<< 8) ||| (b2 <<< 16) ||| (b3 <<< 24)))
  | _, _, _, _ => none

/-- One iteration of the hart loop with the fetch checked (`idx` and
`pc_atual` written out). -/
def hart_step_checked (s : State) : Option StepResult :=
  if s.pc = 0 then some (.halted s)
  else if s.pc % 4 ≠ 0 then some (.running (raise_exception s CAUSE_INSN_ACCESS s.pc))
  else if u32 (s.pc + (2 ^ 32 - 0x80000000)) > MEM_SIZE - 4 then
    some (.running (raise_exception s CAUSE_INSN_ACCESS s.pc))
  else
    match fetch_checked s.memory (u32 (s.pc + (2 ^ 32 - 0x80000000))) with
    | none => none
    | some instruction =>
      if instruction = 0x00100073 then some (.halted (emit s s.pc "ebreak"))
      else if instruction = 0 then some (.halted s)
      else some (.running (after_execute (execute_instruction s instruction s.pc)))

/-- The state `demo_state` with `pc` at the last word of RAM. -/
def demo_last_word : State := { demo_state with pc := 0x800FFFFC }

/-- The trace discipline of one instruction taking `s` to `t`: either no
trap and exactly one more line in the trace, or a trap and the trace as
before. -/
def OneLineOrTrap (s t : State) : Prop :=
  (t.trap_occurred = 0 ∧ ∃ l, t.trace = s.trace ++ [l]) ∨
  (t.trap_occurred = 1 ∧ t.trace = s.trace)

end Poximv2

/-! # The simpler variant (POXIMV1)

Embedding of `execute_instruction` of `SidneiJunior_202400018369_POXIMV1.c`
and of the memory helpers it calls. The decoding expressions of the two
sources are the same text, so the immediates `imm_i`, `imm_s`, `imm_b`,
`imm_j` and the integer conversions are shared. Messages printed to
`stdout` are not part of the state. -/

namespace Poximv1

/-- The global variables of the simpler simulator, with the lines written
to `output_file`. -/
structure State where
  registers : Nat → Nat
  pc : Nat
  memory : Nat → Nat
  trace : List Poximv2.TraceLine

/-- Effect of `fprintf(output_file, ...)`: one more line in the trace. -/
def emit (s : State) (pc : Nat) (text : String) : State :=
  { s with trace := s.trace ++ [⟨pc, text⟩] }

/-- Guarded register write `if (rd != 0) registers[rd] = v;`. -/
def write_rd (s : State) (rd v : Nat) : State :=
  if rd ≠ 0 then { s with registers := Poximv2.setAt s.registers rd v } else s

/-- Embedding of `read_word_from_memory`. -/
def read_word_from_memory (s : State) (address : Nat) : Nat :=
  let index := Poximv2.u32 (address + (2 ^ 32 - 0x80000000))
  if index > Poximv2.MEM_SIZE - 4 then 0
  else
    let byte0 := s.memory index
    let byte1 := s.memory (index + 1)
    let byte2 := s.memory (index + 2)
    let byte3 := s.memory (index + 3)
    Poximv2.u32 (byte0 ||| (byte1 <<< 8) ||| (byte2 <<< 16) ||| (byte3 <<< 24))

/-- Embedding of `write_word_to_memory`. -/
def write_word_to_memory (s : State) (address value : Nat) : State :=
  let index := Poximv2.u32 (address + (2 ^ 32 - 0x80000000))
  if index > Poximv2.MEM_SIZE - 4 then s
  else
    let m0 := Poximv2.setAt s.memory index (value &&& 0x000000FF)
    let m1 := Poximv2.setAt m0 (index + 1) ((value &&& 0x0000FF00) >>> 8)
    let m2 := Poximv2.setAt m1 (index + 2) ((value &&& 0x00FF0000) >>> 16)
    let m3 := Poximv2.setAt m2 (index + 3) ((value &&& 0xFF000000) >>> 24)
    { s with memory := m3 }

/-- Embedding of `read_byte_from_memory`. -/
def read_byte_from_memory (s : State) (address : Nat) : Nat :=
  let index := Poximv2.u32 (address + (2 ^ 32 - 0x80000000))
  if index > Poximv2.MEM_SIZE - 1 then 0 else s.memory index

/-- Embedding of `read_half_word_from_memory`: the result is a `uint16_t`. -/
def read_half_word_from_memory (s : State) (address : Nat) : Nat :=
  let index := Poximv2.u32 (address + (2 ^ 32 - 0x80000000))
  if index > Poximv2.MEM_SIZE - 2 then 0
  else
    let byte0 := s.memory index
    let byte1 := s.memory (index + 1)
    (byte0 ||| (byte1 <<< 8)) % 2 ^ 16

/-- Embedding of `write_byte_to_memory`: the parameter is a `uint8_t`. -/
def write_byte_to_memory (s : State) (address value : Nat) : State :=
  let index := Poximv2.u32 (address + (2 ^ 32 - 0x80000000))
  if index > Poximv2.MEM_SIZE - 1 then s
  else { s with memory := Poximv2.setAt s.memory index (value % 2 ^ 8) }

/-- Embedding of `write_half_word_to_memory`: the parameter is a `uint16_t`. -/
def write_half_word_to_memory (s : State) (address value : Nat) : State :=
  let index := Poximv2.u32 (address + (2 ^ 32 - 0x80000000))
  if index > Poximv2.MEM_SIZE - 2 then s
  else
    let m0 := Poximv2.setAt s.memory index ((value % 2 ^ 16) &&& 0x00FF)
    let m1 := Poximv2.setAt m0 (index + 1) (((value % 2 ^ 16) &&& 0xFF00) >>> 8)
    { s with memory := m1 }

/-- The state a `case` of the opcode switch is left with: by `break`, with
the value of `pc_updated`, or by `return`. -/
inductive Flow where
  | brk (s : State) (pc_updated : Nat)
  | ret (s : State)

/-- The `case 0x13` of the opcode switch (OP-IMM). -/
def exec_op_imm (s : State) (instruction current_pc : Nat) : Flow :=
  let rd := (instruction >>> 7) &&& 0x1F
  let funct3 := (instruction >>> 12) &&& 0x7
  let rs1 := (instruction >>> 15) &&& 0x1F
  let imm := Poximv2.imm_i instruction
  let val_rs1 := s.registers rs1
  let shamt := Poximv2.ofInt32 imm &&& 0x1F
  if funct3 = 0x0 then
    .brk (emit (write_rd s rd (Poximv2.u32 (val_rs1 + Poximv2.ofInt32 imm))) current_pc "addi") 0
  else if funct3 = 0x1 then
    .brk (emit (write_rd s rd (Poximv2.u32 (val_rs1 <<< shamt))) current_pc "slli") 0
  else if funct3 = 0x2 then
    .brk (emit (write_rd s rd (if Poximv2.i32 val_rs1 < imm then 1 else 0)) current_pc "slti") 0
  else if funct3 = 0x3 then
    .brk (emit (write_rd s rd (if val_rs1 < Poximv2.ofInt32 imm then 1 else 0)) current_pc "sltiu") 0
  else if funct3 = 0x4 then
    .brk (emit (write_rd s rd (val_rs1 ^^^ Poximv2.ofInt32 imm)) current_pc "xori") 0
  else if funct3 = 0x5 then
    let funct7 := (instruction >>> 25) &&& 0x7F
    if funct7 = 0x00 then
      .brk (emit (write_rd s rd (val_rs1 >>> shamt)) current_pc "srli") 0
    else if funct7 = 0x20 then
      .brk (emit (write_rd s rd
        (Poximv2.ofInt32 (Int.shiftRight (Poximv2.i32 val_rs1) shamt))) current_pc "srai") 0
    else .brk s 0
  else if funct3 = 0x6 then
    .brk (emit (write_rd s rd (val_rs1 ||| Poximv2.ofInt32 imm)) current_pc "ori") 0
  else if funct3 = 0x7 then
    .brk (emit (write_rd s rd (val_rs1 &&& Poximv2.ofInt32 imm)) current_pc "andi") 0
  else .brk { emit s current_pc "Erro" with pc := 0 } 0

/-- The nested `funct7`/`funct3` switches of `case 0x33`: the mnemonic and
the value of `res` of the case that runs, `none` when no case runs. -/
def op_result (funct7 funct3 v_urs1 v_urs2 : Nat) : Option (String × Nat) :=
  let v_rs1 : Int := Poximv2.i32 v_urs1
  let v_rs2 : Int := Poximv2.i32 v_urs2
  let shamt := v_urs2 &&& 0x1F
  if funct7 = 0x00 then
    if funct3 = 0x0 then some ("add", Poximv2.ofInt32 (v_rs1 + v_rs2))
    else if funct3 = 0x1 then some ("sll", Poximv2.u32 (v_urs1 <<< shamt))
    else if funct3 = 0x2 then some ("slt", if v_rs1 < v_rs2 then 1 else 0)
    else if funct3 = 0x3 then some ("sltu", if v_urs1 < v_urs2 then 1 else 0)
    else if funct3 = 0x4 then some ("xor", Poximv2.ofInt32 v_rs1 ^^^ Poximv2.ofInt32 v_rs2)
    else if funct3 = 0x5 then some ("srl", v_urs1 >>> shamt)
    else if funct3 = 0x6 then some ("or", Poximv2.ofInt32 v_rs1 ||| Poximv2.ofInt32 v_rs2)
    else if funct3 = 0x7 then some ("and", Poximv2.ofInt32 v_rs1 &&& Poximv2.ofInt32 v_rs2)
    else none
  else if funct7 = 0x20 then
    if funct3 = 0x0 then some ("sub", Poximv2.ofInt32 (v_rs1 - v_rs2))
    else if funct3 = 0x5 then some ("sra", Poximv2.ofInt32 (Int.shiftRight v_rs1 shamt))
    else none
  else if funct7 = 0x01 then
    let s64_rs1 : Int := v_rs1
    let s64_rs2 : Int := v_rs2
    let u64_rs1 : Nat := v_urs1
    let u64_rs2 : Nat := v_urs2
    if funct3 = 0x0 then some ("mul", Poximv2.ofInt32 (v_rs1 * v_rs2))
    else if funct3 = 0x1 then
      some ("mulh", Poximv2.ofInt32 (Int.shiftRight (s64_rs1 * s64_rs2) 32))
    else if funct3 = 0x2 then
      some ("mulhsu", Poximv2.u32 (Poximv2.u64 (Poximv2.ofInt64 s64_rs1 * u64_rs2) >>> 32))
    else if funct3 = 0x3 then some ("mulhu", Poximv2.u32 (Poximv2.u64 (u64_rs1 * u64_rs2) >>> 32))
    else if funct3 = 0x4 then
      some ("div",
        if v_rs2 = 0 then 0xFFFFFFFF
        else if Poximv2.ofInt32 v_rs1 = 0x80000000 ∧ v_rs2 = -1 then 0x80000000
        else Poximv2.ofInt32 (Int.tdiv v_rs1 v_rs2))
    else if funct3 = 0x5 then
      some ("divu", if v_urs2 = 0 then 0xFFFFFFFF else v_urs1 / v_urs2)
    else if funct3 = 0x6 then
      some ("rem",
        if v_rs2 = 0 then Poximv2.ofInt32 v_rs1
        else if Poximv2.ofInt32 v_rs1 = 0x80000000 ∧ v_rs2 = -1 then 0
        else Poximv2.ofInt32 (Int.tmod v_rs1 v_rs2))
    else if funct3 = 0x7 then
      some ("remu", if v_urs2 = 0 then v_urs1 else v_urs1 % v_urs2)
    else none
  else none

/-- The `case 0x33` of the opcode switch (OP): each case writes `rd` and
its line; no case runs for the other `funct7`/`funct3` pairs. -/
def exec_op (s : State) (instruction current_pc : Nat) : Flow :=
  let rd := (instruction >>> 7) &&& 0x1F
  let funct3 := (instruction >>> 12) &&& 0x7
  let rs1 := (instruction >>> 15) &&& 0x1F
  let rs2 := (instruction >>> 20) &&& 0x1F
  let funct7 := (instruction >>> 25) &&& 0x7F
  match op_result funct7 funct3 (s.registers rs1) (s.registers rs2) with
  | some (name, res) => .brk (emit (write_rd s rd res) current_pc name) 0
  | none => .brk s 0

/-- The `case 0x6F` of the opcode switch (`jal`). -/
def exec_jal (s : State) (instruction current_pc : Nat) : Flow :=
  let rd := (instruction >>> 7) &&& 0x1F
  let offset := Poximv2.imm_j instruction
  let return_address := Poximv2.u32 (current_pc + 4)
  let target_address := Poximv2.u32 (current_pc + Poximv2.ofInt32 offset)
  let s1 := write_rd s rd return_address
  .brk (emit { s1 with pc := target_address } current_pc "jal") 1

/-- The `case 0x63` of the opcode switch (branches); for `funct3` 2 and 3
no case of the inner switch runs and the branch is not taken. -/
def exec_branch (s : State) (instruction current_pc : Nat) : Flow :=
  let funct3 := (instruction >>> 12) &&& 0x7
  let rs1 := (instruction >>> 15) &&& 0x1F
  let rs2 := (instruction >>> 20) &&& 0x1F
  let offset := Poximv2.imm_b instruction
  let val_rs1 : Int := Poximv2.i32 (s.registers rs1)
  let val_rs2 : Int := Poximv2.i32 (s.registers rs2)
  let u_val_rs1 := s.registers rs1
  let u_val_rs2 := s.registers rs2
  let taken (name : String) (condition_met : Bool) : Flow :=
    let s1 := emit s current_pc name
    if condition_met then
      .brk { s1 with pc := Poximv2.u32 (current_pc + Poximv2.ofInt32 offset) } 1
    else .brk s1 0
  if funct3 = 0x0 then taken "beq" (decide (val_rs1 = val_rs2))
  else if funct3 = 0x1 then taken "bne" (decide (val_rs1 ≠ val_rs2))
  else if funct3 = 0x4 then taken "blt" (decide (val_rs1 < val_rs2))
  else if funct3 = 0x5 then taken "bge" (decide (val_rs1 ≥ val_rs2))
  else if funct3 = 0x6 then taken "bltu" (decide (u_val_rs1 < u_val_rs2))
  else if funct3 = 0x7 then taken "bgeu" (decide (u_val_rs1 ≥ u_val_rs2))
  else taken "???" false

/-- The `case 0x37` of the opcode switch (`lui`). -/
def exec_lui (s : State) (instruction current_pc : Nat) : Flow :=
  let rd := (instruction >>> 7) &&& 0x1F
  let imm_u := instruction &&& 0xFFFFF000
  .brk (emit (write_rd s rd imm_u) current_pc "lui") 0

/-- The `case 0x17` of the opcode switch (`auipc`). -/
def exec_auipc (s : State) (instruction current_pc : Nat) : Flow :=
  let rd := (instruction >>> 7) &&& 0x1F
  let imm_u : Int := Poximv2.i32 (instruction &&& 0xFFFFF000)
  let res := Poximv2.u32 (current_pc + Poximv2.ofInt32 imm_u)
  .brk (emit (write_rd s rd res) current_pc "auipc") 0

/-- The `case 0x67` of the opcode switch (`jalr`). -/
def exec_jalr (s : State) (instruction current_pc : Nat) : Flow :=
  let rd := (instruction >>> 7) &&& 0x1F
  let rs1 := (instruction >>> 15) &&& 0x1F
  let imm := Poximv2.imm_i instruction
  let val_rs1 := s.registers rs1
  let return_address := Poximv2.u32 (current_pc + 4)
  let target_address := Poximv2.u32 (val_rs1 + Poximv2.ofInt32 imm) &&& 0xFFFFFFFE
  let s1 := write_rd s rd return_address
  .brk (emit { s1 with pc := target_address } current_pc "jalr") 1

/-- The `case 0x03` of the opcode switch (loads). -/
def exec_load (s : State) (instruction current_pc : Nat) : Flow :=
  let rd := (instruction >>> 7) &&& 0x1F
  let funct3 := (instruction >>> 12) &&& 0x7
  let rs1 := (instruction >>> 15) &&& 0x1F
  let imm := Poximv2.imm_i instruction
  let val_rs1 := s.registers rs1
  let address := Poximv2.u32 (val_rs1 + Poximv2.ofInt32 imm)
  if funct3 = 0x0 then
    let res := Poximv2.ofInt32 (Poximv2.i8 (read_byte_from_memory s address))
    .brk (emit (write_rd s rd res) current_pc "lb") 0
  else if funct3 = 0x1 then
    let res := Poximv2.ofInt32 (Poximv2.i16 (read_half_word_from_memory s address))
    .brk (emit (write_rd s rd res) current_pc "lh") 0
  else if funct3 = 0x2 then
    .brk (emit (write_rd s rd (read_word_from_memory s address)) current_pc "lw") 0
  else if funct3 = 0x4 then
    .brk (emit (write_rd s rd (read_byte_from_memory s address)) current_pc "lbu") 0
  else if funct3 = 0x5 then
    .brk (emit (write_rd s rd (read_half_word_from_memory s address)) current_pc "lhu") 0
  else .ret { emit s current_pc "Erro" with pc := 0 }

/-- The `case 0x23` of the opcode switch (stores). -/
def exec_store (s : State) (instruction current_pc : Nat) : Flow :=
  let funct3 := (instruction >>> 12) &&& 0x7
  let rs1 := (instruction >>> 15) &&& 0x1F
  let rs2 := (instruction >>> 20) &&& 0x1F
  let imm := Poximv2.imm_s instruction
  let val_rs1 := s.registers rs1
  let val_rs2 := s.registers rs2
  let address := Poximv2.u32 (val_rs1 + Poximv2.ofInt32 imm)
  if funct3 = 0x0 then .brk (emit (write_byte_to_memory s address val_rs2) current_pc "sb") 0
  else if funct3 = 0x1 then
    .brk (emit (write_half_word_to_memory s address val_rs2) current_pc "sh") 0
  else if funct3 = 0x2 then .brk (emit (write_word_to_memory s address val_rs2) current_pc "sw") 0
  else .ret { emit s current_pc "Erro" with pc := 0 }

/-- The opcode switch of `execute_instruction`. -/
def dispatch (s : State) (instruction current_pc : Nat) : Flow :=
  let opcode := instruction &&& 0x7F
  if opcode = 0x13 then exec_op_imm s instruction current_pc
  else if opcode = 0x33 then exec_op s instruction current_pc
  else if opcode = 0x6F then exec_jal s instruction current_pc
  else if opcode = 0x63 then exec_branch s instruction current_pc
  else if opcode = 0x37 then exec_lui s instruction current_pc
  else if opcode = 0x17 then exec_auipc s instruction current_pc
  else if opcode = 0x67 then exec_jalr s instruction current_pc
  else if opcode = 0x03 then exec_load s instruction current_pc
  else if opcode = 0x23 then exec_store s instruction current_pc
  else .brk { emit s current_pc "Erro" with pc := 0 } 0

/-- The end of `execute_instruction`: a `return` inside the switch leaves
at once; after a `break`, `if (!pc_updated) { pc += 4; }`. -/
def finish : Flow → State
  | .ret s => s
  | .brk s pc_updated => if pc_updated = 0 then { s with pc := Poximv2.u32 (s.pc + 4) } else s

/-- Embedding of `execute_instruction` of the simpler variant. -/
def execute_instruction (s : State) (instruction current_pc : Nat) : State :=
  finish (dispatch s instruction current_pc)

end Poximv1

namespace Poximv2

/-- The simpler-variant state holding the registers, `pc` and memory of a
state of the richer variant, with an empty trace. -/
def to_v1 (s : State) : Poximv1.State :=
  { registers := s.registers, pc := s.pc, memory := s.memory, trace := [] }

/-- Two states, one of each variant, hold the same registers, the same
`pc` and the same memory. -/
def Agree (t1 : Poximv1.State) (t2 : State) : Prop :=
  t1.registers = t2.registers ∧ t1.pc = t2.pc ∧ t1.memory = t2.memory

/-- Two switch outcomes, one of each variant: both by `break` with the same
`pc_updated`, in agreeing states, with no trap raised in the richer one. -/
def FlowAgree : Poximv1.Flow → Flow → Prop
  | .brk t1 u1, .brk t2 u2 => u1 = u2 ∧ Agree t1 t2 ∧ t2.trap_occurred = 0
  | _, _ => False

/-- The width in bytes of a store with the given `funct3`: 1 for `sb`, 2
for `sh`, 4 for `sw`. -/
def store_width (funct3 : Nat) : Nat :=
  if funct3 = 0 then 1 else if funct3 = 1 then 2 else 4

/-- The instruction words on which the two variants are compared: OP-IMM;
OP with one of the 18 decoded operations; LUI, AUIPC, JAL, JALR; the six
branches; loads and stores whose bytes lie wholly in RAM. -/
def common_instruction (s : State) (instruction : Nat) : Prop :=
  let opcode := instruction &&& 0x7F
  let funct3 := (instruction >>> 12) &&& 0x7
  let funct7 := (instruction >>> 25) &&& 0x7F
  let rs1 := (instruction >>> 15) &&& 0x1F
  opcode = 0x13 ∨
  (opcode = 0x33 ∧ (funct7 = 0x00 ∨ (funct7 = 0x20 ∧ (funct3 = 0 ∨ funct3 = 5)) ∨ funct7 = 0x01)) ∨
  opcode = 0x37 ∨ opcode = 0x17 ∨ opcode = 0x6F ∨ opcode = 0x67 ∨
  (opcode = 0x63 ∧ (funct3 = 0 ∨ funct3 = 1 ∨ funct3 = 4 ∨ funct3 = 5 ∨ funct3 = 6 ∨ funct3 = 7)) ∨
  (opcode = 0x03 ∧ (funct3 = 0 ∨ funct3 = 1 ∨ funct3 = 2 ∨ funct3 = 4 ∨ funct3 = 5) ∧
    RAM_BASE ≤ u32 (s.registers rs1 + ofInt32 (imm_i instruction)) ∧
    u32 (s.registers rs1 + ofInt32 (imm_i instruction)) + load_width funct3 ≤
      RAM_BASE + MEM_SIZE) ∨
  (opcode = 0x23 ∧ (funct3 = 0 ∨ funct3 = 1 ∨ funct3 = 2) ∧
    RAM_BASE ≤ u32 (s.registers rs1 + ofInt32 (imm_s instruction)) ∧
    u32 (s.registers rs1 + ofInt32 (imm_s instruction)) + store_width funct3 ≤
      RAM_BASE + MEM_SIZE)

end Poximv2


/-! # Theorems -/

namespace Poximv2

/-! ## Field lemmas -/

@[simp]
theorem emit_registers (s : State) (p : Nat) (t : String) : (emit s p t).registers = s.registers := rfl
@[simp]
theorem emit_pc (s : State) (p : Nat) (t : String) : (emit s p t).pc = s.pc := rfl
@[simp]
theorem emit_csrs (s : State) (p : Nat) (t : String) : (emit s p t).csrs = s.csrs := rfl
@[simp]
theorem emit_memory (s : State) (p : Nat) (t : String) : (emit s p t).memory = s.memory := rfl
@[simp]
theorem emit_mtime (s : State) (p : Nat) (t : String) : (emit s p t).mtime = s.mtime := rfl
@[simp]
theorem emit_mtimecmp (s : State) (p : Nat) (t : String) : (emit s p t).mtimecmp = s.mtimecmp := rfl
@[simp]
theorem emit_trap_occurred (s : State) (p : Nat) (t : String) :
    (emit s p t).trap_occurred = s.trap_occurred := rfl

@[simp]
theorem write_rd_pc (s : State) (rd v : Nat) : (write_rd s rd v).pc = s.pc := by
  unfold write_rd; split <;> rfl
@[simp]
theorem write_rd_csrs (s : State) (rd v : Nat) : (write_rd s rd v).csrs = s.csrs := by
  unfold write_rd; split <;> rfl
@[simp]
theorem write_rd_memory (s : State) (rd v : Nat) : (write_rd s rd v).memory = s.memory := by
  unfold write_rd; split <;> rfl
@[simp]
theorem write_rd_mtime (s : State) (rd v : Nat) : (write_rd s rd v).mtime = s.mtime := by
  unfold write_rd; split <;> rfl
@[simp]
theorem write_rd_mtimecmp (s : State) (rd v : Nat) : (write_rd s rd v).mtimecmp = s.mtimecmp := by
  unfold write_rd; split <;> rfl
@[simp]
theorem write_rd_trap_occurred (s : State) (rd v : Nat) :
    (write_rd s rd v).trap_occurred = s.trap_occurred := by
  unfold write_rd; split <;> rfl

theorem write_rd_registers (s : State) (rd v : Nat) :
    (write_rd s rd v).registers = if rd ≠ 0 then setAt s.registers rd v else s.registers := by
  unfold write_rd; split <;> rfl

@[simp]
theorem write_rd_registers_zero (s : State) (rd v : Nat) :
    (write_rd s rd v).registers 0 = s.registers 0 := by
  unfold write_rd
  split
  · next h => simp [setAt, Ne.symm h]
  · rfl

@[simp]
theorem raise_exception_registers (s : State) (c t : Nat) :
    (raise_exception s c t).registers = s.registers := by
  unfold raise_exception; split <;> rfl
@[simp]
theorem raise_exception_memory (s : State) (c t : Nat) :
    (raise_exception s c t).memory = s.memory := by
  unfold raise_exception; split <;> rfl
@[simp]
theorem raise_exception_mtime (s : State) (c t : Nat) :
    (raise_exception s c t).mtime = s.mtime := by
  unfold raise_exception; split <;> rfl
@[simp]
theorem raise_exception_mtimecmp (s : State) (c t : Nat) :
    (raise_exception s c t).mtimecmp = s.mtimecmp := by
  unfold raise_exception; split <;> rfl

/-- With the flag clear, `raise_exception` is the record update of its body. -/
theorem raise_exception_of_clear (s : State) (c t : Nat) (h : s.trap_occurred = 0) :
    raise_exception s c t =
      { s with
        csrs := setAt (setAt (setAt s.csrs CSR_MEPC s.pc) CSR_MCAUSE c) CSR_MTVAL t
        pc := s.csrs CSR_MTVEC &&& 0xFFFFFFFC
        trap_occurred := 1 } := by
  unfold raise_exception
  simp [h, setAt, CSR_MTVEC, CSR_MTVAL, CSR_MCAUSE, CSR_MEPC]

/-- Clearing the low two bits of a word leaves a multiple of four. -/
theorem and_fffffffc_mod_four (x : Nat) : (x &&& 0xFFFFFFFC) % 4 = 0 := by
  have h := Nat.and_pow_two_sub_one_eq_mod (x &&& 0xFFFFFFFC) 2
  have h2 : (x &&& 0xFFFFFFFC) &&& (2 ^ 2 - 1) = 0 := by
    rw [Nat.and_assoc]
    have : (0xFFFFFFFC : Nat) &&& (2 ^ 2 - 1) = 0 := by decide
    rw [this, Nat.and_zero]
  rw [h2] at h
  exact h.symm

/-- The effect of `raise_exception` when the flag is clear, field by field. -/
theorem raise_exception_fresh (s : State) (cause tval : Nat) (h : s.trap_occurred = 0) :
    (raise_exception s cause tval).csrs CSR_MEPC = s.pc ∧
    (raise_exception s cause tval).csrs CSR_MCAUSE = cause ∧
    (raise_exception s cause tval).csrs CSR_MTVAL = tval ∧
    (raise_exception s cause tval).pc = s.csrs CSR_MTVEC &&& not32 0x3 ∧
    (raise_exception s cause tval).pc % 4 = 0 ∧
    (raise_exception s cause tval).trap_occurred = 1 ∧
    (raise_exception s cause tval).registers = s.registers ∧
    (raise_exception s cause tval).memory = s.memory ∧
    (raise_exception s cause tval).mtime = s.mtime ∧
    (raise_exception s cause tval).mtimecmp = s.mtimecmp ∧
    (∀ i, i ≠ CSR_MEPC → i ≠ CSR_MCAUSE → i ≠ CSR_MTVAL →
      (raise_exception s cause tval).csrs i = s.csrs i) ∧
    (raise_exception s cause tval).csrs CSR_MSTATUS = s.csrs CSR_MSTATUS ∧
    (raise_exception s cause tval).csrs CSR_MIE = s.csrs CSR_MIE ∧
    (raise_exception s cause tval).csrs CSR_MIP = s.csrs CSR_MIP ∧
    (raise_exception s cause tval).csrs CSR_MTVEC = s.csrs CSR_MTVEC := by
  have hn : not32 0x3 = 0xFFFFFFFC := by decide
  rw [raise_exception_of_clear s cause tval h, hn]
  refine ⟨?_, ?_, ?_, rfl, and_fffffffc_mod_four _, rfl, rfl, rfl, rfl, rfl, ?_, ?_, ?_, ?_, ?_⟩
  · simp [setAt, CSR_MTVAL, CSR_MCAUSE, CSR_MEPC]
  · simp [setAt, CSR_MTVAL, CSR_MCAUSE]
  · simp [setAt]
  · intro i h1 h2 h3
    simp [setAt, h1, h2, h3]
  · simp [setAt, CSR_MTVAL, CSR_MCAUSE, CSR_MEPC, CSR_MSTATUS]
  · simp [setAt, CSR_MTVAL, CSR_MCAUSE, CSR_MEPC, CSR_MIE]
  · simp [setAt, CSR_MTVAL, CSR_MCAUSE, CSR_MEPC, CSR_MIP]
  · simp [setAt, CSR_MTVAL, CSR_MCAUSE, CSR_MEPC, CSR_MTVEC]

/-- With the flag set, `raise_exception` returns its argument. -/
theorem raise_exception_of_set (s : State) (cause tval : Nat) (h : s.trap_occurred = 1) :
    raise_exception s cause tval = s := by
  unfold raise_exception
  simp [h]

/-- C2: with `trap_occurred == 0`, `raise_exception(cause, tval)` stores the
old pc in `mepc`, the cause in `mcause`, the value in `mtval`, sets
`pc = mtvec & ~3` (a multiple of 4) and `trap_occurred = 1`, and leaves the
registers, the memory, `mtime`, `mtimecmp` and every other CSR (among them
`mstatus`, `mie`, `mip`, `mtvec`) as they were. -/
theorem raise_exception_sets_trap (s : State) (cause tval : Nat) (h : s.trap_occurred = 0) :
    (raise_exception s cause tval).csrs CSR_MEPC = s.pc ∧
    (raise_exception s cause tval).csrs CSR_MCAUSE = cause ∧
    (raise_exception s cause tval).csrs CSR_MTVAL = tval ∧
    (raise_exception s cause tval).pc = s.csrs CSR_MTVEC &&& not32 0x3 ∧
    (raise_exception s cause tval).pc % 4 = 0 ∧
    (raise_exception s cause tval).trap_occurred = 1 ∧
    (raise_exception s cause tval).registers = s.registers ∧
    (raise_exception s cause tval).memory = s.memory ∧
    (raise_exception s cause tval).mtime = s.mtime ∧
    (raise_exception s cause tval).mtimecmp = s.mtimecmp ∧
    (∀ i, i ≠ CSR_MEPC → i ≠ CSR_MCAUSE → i ≠ CSR_MTVAL →
      (raise_exception s cause tval).csrs i = s.csrs i) ∧
    (raise_exception s cause tval).csrs CSR_MSTATUS = s.csrs CSR_MSTATUS ∧
    (raise_exception s cause tval).csrs CSR_MIE = s.csrs CSR_MIE ∧
    (raise_exception s cause tval).csrs CSR_MIP = s.csrs CSR_MIP ∧
    (raise_exception s cause tval).csrs CSR_MTVEC = s.csrs CSR_MTVEC :=
  raise_exception_fresh s cause tval h

/-- C3: with `trap_occurred == 1`, `raise_exception(cause, tval)` returns the
state it was given: nothing changes (the first trap wins). -/
theorem raise_exception_ignored (s : State) (cause tval : Nat) (h : s.trap_occurred = 1) :
    raise_exception s cause tval = s := by
  unfold raise_exception
  simp [h]

/-- Instance of C2 at `demo_state` with cause 5 and value `0x90000000`. -/
theorem raise_exception_sets_trap_witness :
    demo_state.trap_occurred = 0 ∧
    (raise_exception demo_state 5 0x90000000).csrs CSR_MEPC = 0x80000008 ∧
    (raise_exception demo_state 5 0x90000000).csrs CSR_MCAUSE = 5 ∧
    (raise_exception demo_state 5 0x90000000).csrs CSR_MTVAL = 0x90000000 ∧
    (raise_exception demo_state 5 0x90000000).pc = 0x80000100 ∧
    (raise_exception demo_state 5 0x90000000).trap_occurred = 1 :=
  ⟨rfl, (raise_exception_sets_trap demo_state 5 0x90000000 rfl).1,
    (raise_exception_sets_trap demo_state 5 0x90000000 rfl).2.1,
    (raise_exception_sets_trap demo_state 5 0x90000000 rfl).2.2.1,
    (raise_exception_sets_trap demo_state 5 0x90000000 rfl).2.2.2.1.trans (by decide),
    (raise_exception_sets_trap demo_state 5 0x90000000 rfl).2.2.2.2.2.1⟩

/-- Instance of C3 at `demo_trapped`. -/
theorem raise_exception_ignored_witness :
    demo_trapped.trap_occurred = 1 ∧ raise_exception demo_trapped 7 0x90000000 = demo_trapped :=
  ⟨rfl, raise_exception_ignored demo_trapped 7 0x90000000 rfl⟩

/-! ## Bus dispatcher -/

@[simp]
theorem uart_read_trap_occurred (s : State) : (uart_read s).2.trap_occurred = s.trap_occurred := by
  unfold uart_read
  split
  · rfl
  · split <;> rfl

theorem raise_exception_trap_of_clear (s : State) (c t : Nat) (h : s.trap_occurred = 0) :
    (raise_exception s c t).trap_occurred = 1 := by
  rw [raise_exception_of_clear s c t h]

theorem raise_exception_mcause_of_clear (s : State) (c t : Nat) (h : s.trap_occurred = 0) :
    (raise_exception s c t).csrs CSR_MCAUSE = c := (raise_exception_fresh s c t h).2.1

theorem raise_exception_mtval_of_clear (s : State) (c t : Nat) (h : s.trap_occurred = 0) :
    (raise_exception s c t).csrs CSR_MTVAL = t := (raise_exception_fresh s c t h).2.2.1

/-- C6: with `trap_occurred == 0` and a size in {1,2,4}, `bus_load(addr, size)`
raises a trap exactly when `addr` is outside the four mapped ranges (CLINT,
PLIC, UART, RAM) or is in RAM with `[addr, addr+size)` crossing the RAM end;
a raised trap has `mcause == 5`, `mtval == addr`, and the value returned is 0. -/
theorem bus_load_trap_iff (s : State) (addr size : Nat)
    (hsize : size = 1 ∨ size = 2 ∨ size = 4) (h0 : s.trap_occurred = 0) :
    ((bus_load s addr size).2.trap_occurred = 1 ↔
      (¬ ((0x02000000 ≤ addr ∧ addr < 0x02000000 + 0x10000) ∨
          (0x0C000000 ≤ addr ∧ addr < 0x0C000000 + 0x400000) ∨
          (0x10000000 ≤ addr ∧ addr < 0x10000000 + 0x100) ∨
          (0x80000000 ≤ addr ∧ addr < 0x80000000 + 0x100000)) ∨
       ((0x80000000 ≤ addr ∧ addr < 0x80000000 + 0x100000) ∧
          0x80000000 + 0x100000 < addr + size))) ∧
    ((bus_load s addr size).2.trap_occurred = 1 →
      (bus_load s addr size).2.csrs CSR_MCAUSE = 5 ∧
      (bus_load s addr size).2.csrs CSR_MTVAL = addr ∧
      (bus_load s addr size).1 = 0) := by
  have hr := raise_exception_trap_of_clear s CAUSE_LOAD_ACCESS addr h0
  have hc := raise_exception_mcause_of_clear s CAUSE_LOAD_ACCESS addr h0
  have hv := raise_exception_mtval_of_clear s CAUSE_LOAD_ACCESS addr h0
  simp only [CAUSE_LOAD_ACCESS] at hr hc hv
  unfold bus_load
  simp only [RAM_BASE, MEM_SIZE, CLINT_BASE, CLINT_SIZE, PLIC_BASE, PLIC_SIZE, UART_BASE, UART_SIZE,
    CAUSE_LOAD_ACCESS]
  split_ifs with h1 h2 h3 h4 h5 h6 h7 h8 h9 <;>
    simp only [hr, hc, hv, h0, uart_read_trap_occurred] <;>
    refine ⟨?_, ?_⟩ <;> first | omega | (intro h; omega) | (simp <;> omega)

/-- Instance of C6: a word load at `0x800FFFFE` crosses the RAM end and traps. -/
theorem bus_load_trap_iff_witness :
    ((4 : Nat) = 1 ∨ (4 : Nat) = 2 ∨ (4 : Nat) = 4) ∧ demo_state.trap_occurred = 0 ∧
    (bus_load demo_state 0x800FFFFE 4).2.trap_occurred = 1 ∧
    (bus_load demo_state 0x800FFFFE 4).2.csrs CSR_MCAUSE = 5 ∧
    (bus_load demo_state 0x800FFFFE 4).2.csrs CSR_MTVAL = 0x800FFFFE ∧
    (bus_load demo_state 0x800FFFFE 4).1 = 0 :=
  ⟨by decide, rfl,
    (bus_load_trap_iff demo_state 0x800FFFFE 4 (by decide) rfl).1.2 (by decide),
    (bus_load_trap_iff demo_state 0x800FFFFE 4 (by decide) rfl).2
      ((bus_load_trap_iff demo_state 0x800FFFFE 4 (by decide) rfl).1.2 (by decide))⟩

/-- What `bus_store` does on the code: with `trap_occurred == 0` and a size in
{1,2,4} it raises a trap exactly when `addr` is outside CLINT, PLIC and RAM
and is not the single address `UART_BASE`, or is in RAM with the access
crossing the RAM end; a raised trap has `mcause == 7` and `mtval == addr`. -/
theorem bus_store_trap_iff_base_only (s : State) (addr value size : Nat)
    (hsize : size = 1 ∨ size = 2 ∨ size = 4) (h0 : s.trap_occurred = 0) :
    ((bus_store s addr value size).trap_occurred = 1 ↔
      (¬ ((0x02000000 ≤ addr ∧ addr < 0x02000000 + 0x10000) ∨
          (0x0C000000 ≤ addr ∧ addr < 0x0C000000 + 0x400000) ∨
          addr = 0x10000000 ∨
          (0x80000000 ≤ addr ∧ addr < 0x80000000 + 0x100000)) ∨
       ((0x80000000 ≤ addr ∧ addr < 0x80000000 + 0x100000) ∧
          0x80000000 + 0x100000 < addr + size))) ∧
    ((bus_store s addr value size).trap_occurred = 1 →
      (bus_store s addr value size).csrs CSR_MCAUSE = 7 ∧
      (bus_store s addr value size).csrs CSR_MTVAL = addr) := by
  have hr := raise_exception_trap_of_clear s CAUSE_STORE_ACCESS addr h0
  have hc := raise_exception_mcause_of_clear s CAUSE_STORE_ACCESS addr h0
  have hv := raise_exception_mtval_of_clear s CAUSE_STORE_ACCESS addr h0
  simp only [CAUSE_STORE_ACCESS] at hr hc hv
  unfold bus_store
  simp only [RAM_BASE, MEM_SIZE, CLINT_BASE, CLINT_SIZE, PLIC_BASE, PLIC_SIZE, UART_BASE,
    CAUSE_STORE_ACCESS]
  split_ifs with h1 h2 h3 h4 h5 h6 h7 <;>
    simp only [hr, hc, hv, h0] <;>
    refine ⟨?_, ?_⟩ <;> first | omega | (intro h; omega) | (simp <;> omega)

/-- C7 (failing input): a one-byte store to `0x10000001`, an address inside
the UART range `0x10000000..0x100000FF`, raises a store access fault
(`mcause == 7`, `mtval == 0x10000001`), although `bus_load` serves the same
address without a fault. -/
theorem bus_store_uart_offset_faults :
    demo_state.trap_occurred = 0 ∧
    (bus_store demo_state 0x10000001 0x41 1).trap_occurred = 1 ∧
    (bus_store demo_state 0x10000001 0x41 1).csrs CSR_MCAUSE = 7 ∧
    (bus_store demo_state 0x10000001 0x41 1).csrs CSR_MTVAL = 0x10000001 ∧
    (bus_load demo_state 0x10000001 1).2.trap_occurred = 0 := by
  refine ⟨rfl, ?_, ?_, ?_, ?_⟩ <;> decide

/-! ## Little-endian bytes -/

theorem lor_shiftLeft_eq_add (a b k : Nat) (ha : a < 2 ^ k) : a ||| (b <<< k) = a + 2 ^ k * b := by
  rw [Nat.shiftLeft_eq, Nat.mul_comm b, Nat.lor_comm, ← Nat.mul_add_lt_is_or ha, Nat.add_comm]

theorem and_ff_eq_mod (x : Nat) : x &&& 0xFF = x % 256 :=
  Nat.and_pow_two_sub_one_eq_mod x 8

theorem load_loop_one (m : Nat → Nat) (idx : Nat) (h0 : m idx < 256) :
    load_loop m idx 1 = m idx := by
  simp only [load_loop, u32, Nat.add_zero, Nat.mul_zero, Nat.shiftLeft_zero, Nat.zero_or]
  omega

theorem load_loop_two (m : Nat → Nat) (idx : Nat) (h0 : m idx < 256) (h1 : m (idx + 1) < 256) :
    load_loop m idx 2 = m idx + 256 * m (idx + 1) := by
  simp only [load_loop, u32, Nat.add_zero, Nat.mul_zero, Nat.shiftLeft_zero, Nat.zero_or,
    Nat.mul_one]
  rw [Nat.mod_eq_of_lt (show m idx < 2 ^ 32 by omega)]
  have e1 : m (idx + 1) <<< 8 = 2 ^ 8 * m (idx + 1) := by rw [Nat.shiftLeft_eq, Nat.mul_comm]
  have e1' : (m (idx + 1) <<< 8) % 2 ^ 32 = m (idx + 1) <<< 8 := by rw [e1]; omega
  rw [e1', lor_shiftLeft_eq_add _ _ 8 (by omega)]
  norm_num

theorem load_loop_four (m : Nat → Nat) (idx : Nat) (h0 : m idx < 256) (h1 : m (idx + 1) < 256)
    (h2 : m (idx + 2) < 256) (h3 : m (idx + 3) < 256) :
    load_loop m idx 4 =
      m idx + 256 * m (idx + 1) + 65536 * m (idx + 2) + 16777216 * m (idx + 3) := by
  simp only [load_loop, u32, Nat.add_zero, Nat.mul_zero, Nat.shiftLeft_zero, Nat.zero_or,
    Nat.mul_one]
  rw [Nat.mod_eq_of_lt (show m idx < 2 ^ 32 by omega)]
  have e1 : m (idx + 1) <<< 8 = 2 ^ 8 * m (idx + 1) := by rw [Nat.shiftLeft_eq, Nat.mul_comm]
  have e2 : m (idx + 2) <<< (8 * 2) = 2 ^ 16 * m (idx + 2) := by rw [Nat.shiftLeft_eq, Nat.mul_comm]
  have e3 : m (idx + 3) <<< (8 * 3) = 2 ^ 24 * m (idx + 3) := by rw [Nat.shiftLeft_eq, Nat.mul_comm]
  have e1' : (m (idx + 1) <<< 8) % 2 ^ 32 = m (idx + 1) <<< 8 := by rw [e1]; omega
  have e2' : (m (idx + 2) <<< (8 * 2)) % 2 ^ 32 = m (idx + 2) <<< 16 := by rw [e2]; omega
  have e3' : (m (idx + 3) <<< (8 * 3)) % 2 ^ 32 = m (idx + 3) <<< 24 := by rw [e3]; omega
  rw [e1', e2', e3', lor_shiftLeft_eq_add _ _ 8 (by omega),
    lor_shiftLeft_eq_add _ _ 16 (by omega), lor_shiftLeft_eq_add _ _ 24 (by omega)]
  norm_num

theorem store_loop_four_get (m : Nat → Nat) (idx v : Nat) :
    store_loop idx v 4 m idx = v % 256 ∧
    store_loop idx v 4 m (idx + 1) = v / 256 % 256 ∧
    store_loop idx v 4 m (idx + 2) = v / 65536 % 256 ∧
    store_loop idx v 4 m (idx + 3) = v / 16777216 % 256 := by
  refine ⟨?_, ?_, ?_, ?_⟩ <;>
    simp [store_loop, setAt, and_ff_eq_mod, Nat.shiftRight_eq_div_pow]

theorem store_loop_two_get (m : Nat → Nat) (idx v : Nat) :
    store_loop idx v 2 m idx = v % 256 ∧
    store_loop idx v 2 m (idx + 1) = v / 256 % 256 := by
  refine ⟨?_, ?_⟩ <;>
    simp [store_loop, setAt, and_ff_eq_mod, Nat.shiftRight_eq_div_pow]

theorem store_loop_one_get (m : Nat → Nat) (idx v : Nat) :
    store_loop idx v 1 m idx = v % 256 := by
  simp [store_loop, setAt, and_ff_eq_mod]

/-- The round trip at the level of the bus: for a 32-bit `x` and
`0x80000000 <= addr <= 0x80100000 - 4`, a 4-byte `bus_store` of `x` at `addr`
leaves the trap flag alone, and a 4-byte `bus_load` at `addr` in any later
state whose memory still holds the stored bytes `addr..addr+3` returns
exactly `x` and the state unchanged; likewise the half-word wrappers on the
low 16 bits and the byte wrappers on the low 8 bits. -/
theorem bus_store_load_roundtrip (s : State) (addr x : Nat)
    (hlo : 0x80000000 ≤ addr) (hhi : addr ≤ 0x80100000 - 4) (hx : x < 2 ^ 32) :
    ((bus_store s addr x 4).trap_occurred = s.trap_occurred ∧
      ∀ s2 : State,
        (∀ i, i < 4 → s2.memory (addr - RAM_BASE + i) = (bus_store s addr x 4).memory (addr - RAM_BASE + i)) →
        bus_load s2 addr 4 = (x, s2)) ∧
    ((write_half_word_to_memory s addr x).trap_occurred = s.trap_occurred ∧
      ∀ s2 : State,
        (∀ i, i < 2 → s2.memory (addr - RAM_BASE + i) =
          (write_half_word_to_memory s addr x).memory (addr - RAM_BASE + i)) →
        read_half_word_from_memory s2 addr = (x % 2 ^ 16, s2)) ∧
    ((write_byte_to_memory s addr x).trap_occurred = s.trap_occurred ∧
      ∀ s2 : State,
        (∀ i, i < 1 → s2.memory (addr - RAM_BASE + i) =
          (write_byte_to_memory s addr x).memory (addr - RAM_BASE + i)) →
        read_byte_from_memory s2 addr = (x % 2 ^ 8, s2)) := by
  have hram : addr ≥ RAM_BASE ∧ addr < RAM_BASE + MEM_SIZE := by
    simp only [RAM_BASE, MEM_SIZE]; omega
  have hin4 : ¬ (addr - RAM_BASE > MEM_SIZE - 4) := by simp only [RAM_BASE, MEM_SIZE]; omega
  have hin2 : ¬ (addr - RAM_BASE > MEM_SIZE - 2) := by simp only [RAM_BASE, MEM_SIZE]; omega
  have hin1 : ¬ (addr - RAM_BASE > MEM_SIZE - 1) := by simp only [RAM_BASE, MEM_SIZE]; omega
  have st4 : bus_store s addr x 4 = { s with memory := store_loop (addr - RAM_BASE) x 4 s.memory } := by
    unfold bus_store; rw [if_pos hram]; simp only [if_neg hin4]
  have st2 : write_half_word_to_memory s addr x =
      { s with memory := store_loop (addr - RAM_BASE) (x % 2 ^ 16) 2 s.memory } := by
    unfold write_half_word_to_memory bus_store; rw [if_pos hram]; simp only [if_neg hin2]
  have st1 : write_byte_to_memory s addr x =
      { s with memory := store_loop (addr - RAM_BASE) (x % 2 ^ 8) 1 s.memory } := by
    unfold write_byte_to_memory bus_store; rw [if_pos hram]; simp only [if_neg hin1]
  have ld : ∀ (s2 : State) (n : Nat), ¬ (addr - RAM_BASE > MEM_SIZE - n) →
      bus_load s2 addr n = (load_loop s2.memory (addr - RAM_BASE) n, s2) := by
    intro s2 n hn
    unfold bus_load; rw [if_pos hram]; simp only [if_neg hn]
  have m4 : (bus_store s addr x 4).memory = store_loop (addr - RAM_BASE) x 4 s.memory := by
    rw [st4]
  have m2 : (write_half_word_to_memory s addr x).memory =
      store_loop (addr - RAM_BASE) (x % 2 ^ 16) 2 s.memory := by rw [st2]
  have m1 : (write_byte_to_memory s addr x).memory =
      store_loop (addr - RAM_BASE) (x % 2 ^ 8) 1 s.memory := by rw [st1]
  refine ⟨⟨by rw [st4], ?_⟩, ⟨by rw [st2], ?_⟩, ⟨by rw [st1], ?_⟩⟩
  · intro s2 hmem
    rw [m4] at hmem
    obtain ⟨g0, g1, g2, g3⟩ := store_loop_four_get s.memory (addr - RAM_BASE) x
    have b0 := hmem 0 (by omega)
    have b1 := hmem 1 (by omega)
    have b2 := hmem 2 (by omega)
    have b3 := hmem 3 (by omega)
    rw [Nat.add_zero, g0] at b0
    rw [g1] at b1
    rw [g2] at b2
    rw [g3] at b3
    rw [ld s2 4 hin4, load_loop_four _ _ (by omega) (by omega) (by omega) (by omega)]
    rw [b0, b1, b2, b3]
    exact congrArg (fun v => (v, s2)) (by omega)
  · intro s2 hmem
    rw [m2] at hmem
    obtain ⟨g0, g1⟩ := store_loop_two_get s.memory (addr - RAM_BASE) (x % 2 ^ 16)
    have b0 := hmem 0 (by omega)
    have b1 := hmem 1 (by omega)
    rw [Nat.add_zero, g0] at b0
    rw [g1] at b1
    unfold read_half_word_from_memory
    rw [ld s2 2 hin2, load_loop_two _ _ (by omega) (by omega)]
    rw [b0, b1]
    exact congrArg (fun v => (v, s2)) (by omega)
  · intro s2 hmem
    rw [m1] at hmem
    have b0 := hmem 0 (by omega)
    rw [Nat.add_zero, store_loop_one_get] at b0
    unfold read_byte_from_memory
    rw [ld s2 1 hin1, load_loop_one _ _ (by omega)]
    rw [b0]
    exact congrArg (fun v => (v, s2)) (by omega)



/-- The bus-level round trip on `0xDEADBEEF` stored at the last word of RAM. -/
theorem bus_store_load_roundtrip_demo :
    (0x80000000 : Nat) ≤ 0x800FFFFC ∧ (0x800FFFFC : Nat) ≤ 0x80100000 - 4 ∧
    (0xDEADBEEF : Nat) < 2 ^ 32 ∧
    bus_load (bus_store demo_state 0x800FFFFC 0xDEADBEEF 4) 0x800FFFFC 4 =
      (0xDEADBEEF, bus_store demo_state 0x800FFFFC 0xDEADBEEF 4) ∧
    read_half_word_from_memory (write_half_word_to_memory demo_state 0x800FFFFC 0xDEADBEEF) 0x800FFFFC =
      (0xBEEF, write_half_word_to_memory demo_state 0x800FFFFC 0xDEADBEEF) ∧
    read_byte_from_memory (write_byte_to_memory demo_state 0x800FFFFC 0xDEADBEEF) 0x800FFFFC =
      (0xEF, write_byte_to_memory demo_state 0x800FFFFC 0xDEADBEEF) :=
  ⟨by decide, by decide, by decide,
    (bus_store_load_roundtrip demo_state 0x800FFFFC 0xDEADBEEF (by decide) (by decide) (by decide)).1.2
      _ (fun _ _ => rfl),
    (bus_store_load_roundtrip demo_state 0x800FFFFC 0xDEADBEEF (by decide) (by decide) (by decide)).2.1.2
      _ (fun _ _ => rfl),
    (bus_store_load_roundtrip demo_state 0x800FFFFC 0xDEADBEEF (by decide) (by decide) (by decide)).2.2.2
      _ (fun _ _ => rfl)⟩

/-! ## Executor -/

theorem dispatch_op_imm (s : State) (instruction current_pc : Nat) (h : instruction &&& 0x7F = 0x13) :
    dispatch s instruction current_pc = exec_op_imm s instruction current_pc := by
  unfold dispatch; simp [h]

theorem dispatch_op (s : State) (instruction current_pc : Nat) (h : instruction &&& 0x7F = 0x33) :
    dispatch s instruction current_pc = exec_op s instruction current_pc := by
  unfold dispatch; simp [h]

theorem dispatch_jal (s : State) (instruction current_pc : Nat) (h : instruction &&& 0x7F = 0x6F) :
    dispatch s instruction current_pc = exec_jal s instruction current_pc := by
  unfold dispatch; simp [h]

theorem dispatch_branch (s : State) (instruction current_pc : Nat) (h : instruction &&& 0x7F = 0x63) :
    dispatch s instruction current_pc = exec_branch s instruction current_pc := by
  unfold dispatch; simp [h]

theorem dispatch_lui (s : State) (instruction current_pc : Nat) (h : instruction &&& 0x7F = 0x37) :
    dispatch s instruction current_pc = exec_lui s instruction current_pc := by
  unfold dispatch; simp [h]

theorem dispatch_auipc (s : State) (instruction current_pc : Nat) (h : instruction &&& 0x7F = 0x17) :
    dispatch s instruction current_pc = exec_auipc s instruction current_pc := by
  unfold dispatch; simp [h]

theorem dispatch_jalr (s : State) (instruction current_pc : Nat) (h : instruction &&& 0x7F = 0x67) :
    dispatch s instruction current_pc = exec_jalr s instruction current_pc := by
  unfold dispatch; simp [h]

theorem dispatch_load (s : State) (instruction current_pc : Nat) (h : instruction &&& 0x7F = 0x03) :
    dispatch s instruction current_pc = exec_load s instruction current_pc := by
  unfold dispatch; simp [h]

theorem dispatch_store (s : State) (instruction current_pc : Nat) (h : instruction &&& 0x7F = 0x23) :
    dispatch s instruction current_pc = exec_store s instruction current_pc := by
  unfold dispatch; simp [h]

theorem dispatch_system (s : State) (instruction current_pc : Nat) (h : instruction &&& 0x7F = 0x73) :
    dispatch s instruction current_pc = exec_system s instruction current_pc := by
  unfold dispatch; simp [h]

theorem ofInt32_i32_add (a b : Nat) (ha : a < 2 ^ 32) (hb : b < 2 ^ 32) :
    ofInt32 (i32 a + i32 b) = (a + b) % 2 ^ 32 := by
  unfold ofInt32 i32 u32
  rw [Nat.mod_eq_of_lt ha, Nat.mod_eq_of_lt hb]
  split_ifs <;> omega

/-- C10: `add rd, rs1, rs2` (opcode 0x33, funct7 0x00, funct3 0) with
`rd != 0`, `x[rs1] = a` and `x[rs2] = b` 32-bit values leaves
`x[rd] == (a + b) mod 2^32`, every other register unchanged, `pc` advanced
by 4 and no trap raised. -/
theorem add_correct (s : State) (instruction current_pc : Nat)
    (hop : instruction &&& 0x7F = 0x33)
    (hf3 : (instruction >>> 12) &&& 0x7 = 0)
    (hf7 : (instruction >>> 25) &&& 0x7F = 0x00)
    (hrd : (instruction >>> 7) &&& 0x1F ≠ 0)
    (ha : s.registers ((instruction >>> 15) &&& 0x1F) < 2 ^ 32)
    (hb : s.registers ((instruction >>> 20) &&& 0x1F) < 2 ^ 32) :
    (execute_instruction s instruction current_pc).registers ((instruction >>> 7) &&& 0x1F) =
      (s.registers ((instruction >>> 15) &&& 0x1F) + s.registers ((instruction >>> 20) &&& 0x1F)) % 2 ^ 32 ∧
    (∀ i, i ≠ (instruction >>> 7) &&& 0x1F →
      (execute_instruction s instruction current_pc).registers i = s.registers i) ∧
    (execute_instruction s instruction current_pc).pc = (s.pc + 4) % 2 ^ 32 ∧
    (execute_instruction s instruction current_pc).trap_occurred = 0 := by
  have hres : op_result ((instruction >>> 25) &&& 0x7F) ((instruction >>> 12) &&& 0x7)
      (s.registers ((instruction >>> 15) &&& 0x1F)) (s.registers ((instruction >>> 20) &&& 0x1F)) =
      some ("add", (s.registers ((instruction >>> 15) &&& 0x1F) +
        s.registers ((instruction >>> 20) &&& 0x1F)) % 2 ^ 32) := by
    rw [hf3, hf7]
    simp only [op_result, if_true]
    rw [ofInt32_i32_add _ _ ha hb]
  have hexec : execute_instruction s instruction current_pc =
      { write_rd (emit { s with trap_occurred := 0 } current_pc "add") ((instruction >>> 7) &&& 0x1F)
          ((s.registers ((instruction >>> 15) &&& 0x1F) +
            s.registers ((instruction >>> 20) &&& 0x1F)) % 2 ^ 32) with
        pc := u32 (s.pc + 4) } := by
    unfold execute_instruction
    rw [dispatch_op _ _ _ hop]
    unfold exec_op
    simp only [hres]
    simp [finish]
  rw [hexec]
  refine ⟨?_, ?_, rfl, ?_⟩
  · simp [write_rd_registers, hrd, setAt]
  · intro i hi
    simp [write_rd_registers, hrd, setAt, hi]
  · simp

/-- Instance of C10: `add x3, x1, x1` with `x1 = 0x800FFFFC` wraps to `0x001FFFF8`. -/
theorem add_correct_witness :
    (0x001081B3 : Nat) &&& 0x7F = 0x33 ∧ ((0x001081B3 : Nat) >>> 7) &&& 0x1F ≠ 0 ∧
    demo_state.registers 1 < 2 ^ 32 ∧
    (execute_instruction demo_state 0x001081B3 0x80000008).registers 3 = 0x001FFFF8 ∧
    (∀ i, i ≠ 3 → (execute_instruction demo_state 0x001081B3 0x80000008).registers i =
      demo_state.registers i) ∧
    (execute_instruction demo_state 0x001081B3 0x80000008).pc = 0x8000000C ∧
    (execute_instruction demo_state 0x001081B3 0x80000008).trap_occurred = 0 :=
  ⟨by decide, by decide, by decide,
    add_correct demo_state 0x001081B3 0x80000008 (by decide) (by decide) (by decide) (by decide)
      (by decide) (by decide)⟩

/-! ## Trapping instructions -/

theorem trapFrame_raise (s : State) (c t : Nat) (h : s.trap_occurred = 0) :
    TrapFrame s (raise_exception s c t) := by
  rw [raise_exception_of_clear s c t h]
  refine ⟨rfl, rfl, rfl, rfl, rfl, rfl, rfl, ?_, rfl⟩
  simp [setAt, CSR_MTVAL, CSR_MCAUSE, CSR_MEPC, CSR_MTVEC]

theorem trapFrame_emit (s t : State) (p : Nat) (n : String) (h : TrapFrame s t) :
    TrapFrame s (emit t p n) := h

theorem bus_store_of_trap (s : State) (addr value size : Nat) (h0 : s.trap_occurred = 0)
    (h : (bus_store s addr value size).trap_occurred = 1) :
    bus_store s addr value size = raise_exception s CAUSE_STORE_ACCESS addr := by
  revert h
  unfold bus_store
  simp only []
  split_ifs <;> simp [h0]

theorem bus_load_of_trap (s : State) (addr size : Nat) (h0 : s.trap_occurred = 0)
    (h : (bus_load s addr size).2.trap_occurred = 1) :
    (bus_load s addr size).2 = raise_exception s CAUSE_LOAD_ACCESS addr := by
  revert h
  unfold bus_load
  simp only []
  split_ifs <;> simp [h0]

theorem exec_op_imm_trap (s : State) (instruction current_pc : Nat) (h0 : s.trap_occurred = 0)
    (h : (exec_op_imm s instruction current_pc).state.trap_occurred = 1) :
    TrapFrame s (exec_op_imm s instruction current_pc).state := by
  revert h
  unfold exec_op_imm
  simp only []
  split_ifs <;> simp [Flow.state, h0]
  exact fun _ => trapFrame_raise s _ _ h0

theorem exec_op_trap (s : State) (instruction current_pc : Nat) (h0 : s.trap_occurred = 0)
    (h : (exec_op s instruction current_pc).state.trap_occurred = 1) :
    TrapFrame s (exec_op s instruction current_pc).state := by
  revert h
  unfold exec_op
  simp only []
  split <;> simp [Flow.state, h0]
  exact fun _ => trapFrame_raise s _ _ h0

theorem exec_jal_trap (s : State) (instruction current_pc : Nat) (h0 : s.trap_occurred = 0) :
    (exec_jal s instruction current_pc).state.trap_occurred = 0 := by
  simp [exec_jal, Flow.state, h0]

theorem exec_jalr_trap (s : State) (instruction current_pc : Nat) (h0 : s.trap_occurred = 0) :
    (exec_jalr s instruction current_pc).state.trap_occurred = 0 := by
  simp [exec_jalr, Flow.state, h0]

theorem exec_lui_trap (s : State) (instruction current_pc : Nat) (h0 : s.trap_occurred = 0) :
    (exec_lui s instruction current_pc).state.trap_occurred = 0 := by
  simp [exec_lui, Flow.state, h0]

theorem exec_auipc_trap (s : State) (instruction current_pc : Nat) (h0 : s.trap_occurred = 0) :
    (exec_auipc s instruction current_pc).state.trap_occurred = 0 := by
  simp [exec_auipc, Flow.state, h0]

theorem exec_branch_trap (s : State) (instruction current_pc : Nat) (h0 : s.trap_occurred = 0)
    (h : (exec_branch s instruction current_pc).state.trap_occurred = 1) :
    TrapFrame s (exec_branch s instruction current_pc).state := by
  revert h
  unfold exec_branch
  simp only []
  split_ifs <;> simp [Flow.state, h0]
  exact fun _ => trapFrame_raise s _ _ h0

theorem load_writeback_of_trap (t : State) (rd res current_pc : Nat) (name : String)
    (h : (load_writeback t rd res current_pc name).state.trap_occurred = 1) :
    (load_writeback t rd res current_pc name).state = t ∧ t.trap_occurred = 1 := by
  revert h
  unfold load_writeback
  split_ifs with h1 <;> simp [Flow.state, h1]

theorem store_trace_of_trap (t : State) (current_pc : Nat) (name : String)
    (h : (store_trace t current_pc name).state.trap_occurred = 1) :
    (store_trace t current_pc name).state = t ∧ t.trap_occurred = 1 := by
  revert h
  unfold store_trace
  split_ifs with h1 <;> simp [Flow.state, h1]

theorem exec_load_trap (s : State) (instruction current_pc : Nat) (h0 : s.trap_occurred = 0)
    (h : (exec_load s instruction current_pc).state.trap_occurred = 1) :
    TrapFrame s (exec_load s instruction current_pc).state := by
  revert h
  unfold exec_load
  simp only [read_byte_from_memory, read_half_word_from_memory, read_word_from_memory]
  split_ifs
  all_goals first
    | (intro h
       obtain ⟨e, ht⟩ := load_writeback_of_trap _ _ _ _ _ h
       rw [e, bus_load_of_trap s _ _ h0 ht]
       exact trapFrame_raise s _ _ h0)
    | (intro _
       exact trapFrame_raise s _ _ h0)

theorem exec_store_trap (s : State) (instruction current_pc : Nat) (h0 : s.trap_occurred = 0)
    (h : (exec_store s instruction current_pc).state.trap_occurred = 1) :
    TrapFrame s (exec_store s instruction current_pc).state := by
  revert h
  unfold exec_store
  simp only [write_byte_to_memory, write_half_word_to_memory, write_word_to_memory]
  split_ifs
  all_goals first
    | (intro h
       obtain ⟨e, ht⟩ := store_trace_of_trap _ _ _ h
       rw [e, bus_store_of_trap s _ _ _ h0 ht]
       exact trapFrame_raise s _ _ h0)
    | (intro _
       exact trapFrame_raise s _ _ h0)

theorem exec_system_trap (s : State) (instruction current_pc : Nat) (h0 : s.trap_occurred = 0)
    (h : (exec_system s instruction current_pc).state.trap_occurred = 1) :
    TrapFrame s (exec_system s instruction current_pc).state := by
  revert h
  unfold exec_system
  simp only [csr_commit]
  split_ifs <;> simp [Flow.state, h0]
  all_goals exact fun _ => trapFrame_raise s _ _ h0

theorem dispatch_other (s : State) (instruction current_pc : Nat)
    (h1 : instruction &&& 0x7F ≠ 0x13) (h2 : instruction &&& 0x7F ≠ 0x33)
    (h3 : instruction &&& 0x7F ≠ 0x6F) (h4 : instruction &&& 0x7F ≠ 0x63)
    (h5 : instruction &&& 0x7F ≠ 0x37) (h6 : instruction &&& 0x7F ≠ 0x17)
    (h7 : instruction &&& 0x7F ≠ 0x67) (h8 : instruction &&& 0x7F ≠ 0x03)
    (h9 : instruction &&& 0x7F ≠ 0x23) (h10 : instruction &&& 0x7F ≠ 0x73) :
    dispatch s instruction current_pc =
      .brk (emit (raise_exception s CAUSE_ILLEGAL_INSTR instruction) current_pc "Erro") 0 := by
  unfold dispatch; simp [h1, h2, h3, h4, h5, h6, h7, h8, h9, h10]

theorem dispatch_trap (s : State) (instruction current_pc : Nat) (h0 : s.trap_occurred = 0)
    (h : (dispatch s instruction current_pc).state.trap_occurred = 1) :
    TrapFrame s (dispatch s instruction current_pc).state := by
  by_cases h1 : instruction &&& 0x7F = 0x13
  · rw [dispatch_op_imm _ _ _ h1] at h ⊢; exact exec_op_imm_trap s _ _ h0 h
  by_cases h2 : instruction &&& 0x7F = 0x33
  · rw [dispatch_op _ _ _ h2] at h ⊢; exact exec_op_trap s _ _ h0 h
  by_cases h3 : instruction &&& 0x7F = 0x6F
  · rw [dispatch_jal _ _ _ h3, exec_jal_trap s _ _ h0] at h; exact absurd h (by decide)
  by_cases h4 : instruction &&& 0x7F = 0x63
  · rw [dispatch_branch _ _ _ h4] at h ⊢; exact exec_branch_trap s _ _ h0 h
  by_cases h5 : instruction &&& 0x7F = 0x37
  · rw [dispatch_lui _ _ _ h5, exec_lui_trap s _ _ h0] at h; exact absurd h (by decide)
  by_cases h6 : instruction &&& 0x7F = 0x17
  · rw [dispatch_auipc _ _ _ h6, exec_auipc_trap s _ _ h0] at h; exact absurd h (by decide)
  by_cases h7 : instruction &&& 0x7F = 0x67
  · rw [dispatch_jalr _ _ _ h7, exec_jalr_trap s _ _ h0] at h; exact absurd h (by decide)
  by_cases h8 : instruction &&& 0x7F = 0x03
  · rw [dispatch_load _ _ _ h8] at h ⊢; exact exec_load_trap s _ _ h0 h
  by_cases h9 : instruction &&& 0x7F = 0x23
  · rw [dispatch_store _ _ _ h9] at h ⊢; exact exec_store_trap s _ _ h0 h
  by_cases h10 : instruction &&& 0x7F = 0x73
  · rw [dispatch_system _ _ _ h10] at h ⊢; exact exec_system_trap s _ _ h0 h
  rw [dispatch_other _ _ _ h1 h2 h3 h4 h5 h6 h7 h8 h9 h10]
  exact trapFrame_emit s _ _ _ (trapFrame_raise s _ _ h0)

theorem finish_trap_occurred (fl : Flow) : (finish fl).trap_occurred = fl.state.trap_occurred := by
  cases fl with
  | ret s => rfl
  | brk s u =>
    simp only [finish, Flow.state]
    split_ifs <;> rfl

theorem finish_of_trap (fl : Flow) (h : fl.state.trap_occurred = 1) : finish fl = fl.state := by
  cases fl with
  | ret s => rfl
  | brk s u =>
    have h1 : s.trap_occurred = 1 := h
    simp [finish, h1, Flow.state]

/-- C4: when `execute_instruction` ends with `trap_occurred == 1`, every
general register, every memory byte, `mtime` and `mtimecmp` (and the UART
streams) have the value they had before the call, and `pc` is
`csrs[mtvec] & ~3`, not the sequential successor computed by `pc += 4`. -/
theorem trap_leaves_state_untouched (s : State) (instruction current_pc : Nat)
    (h : (execute_instruction s instruction current_pc).trap_occurred = 1) :
    (∀ i, (execute_instruction s instruction current_pc).registers i = s.registers i) ∧
    (∀ i, (execute_instruction s instruction current_pc).memory i = s.memory i) ∧
    (execute_instruction s instruction current_pc).mtime = s.mtime ∧
    (execute_instruction s instruction current_pc).mtimecmp = s.mtimecmp ∧
    (execute_instruction s instruction current_pc).input = s.input ∧
    (execute_instruction s instruction current_pc).uart_out = s.uart_out ∧
    (execute_instruction s instruction current_pc).pc = s.csrs CSR_MTVEC &&& not32 0x3 ∧
    (execute_instruction s instruction current_pc).csrs CSR_MTVEC = s.csrs CSR_MTVEC := by
  have hn : not32 0x3 = 0xFFFFFFFC := by decide
  unfold execute_instruction at h ⊢
  rw [finish_trap_occurred] at h
  rw [finish_of_trap _ h, hn]
  obtain ⟨h1, h2, h3, h4, h5, _, h7, h8, h9⟩ :=
    dispatch_trap { s with trap_occurred := 0 } instruction current_pc rfl h
  exact ⟨fun i => by rw [h1], fun i => by rw [h2], h3, h4, h5, h7, h9, h8⟩

/-- Instance of C4: `lw x5, 0(x0)` faults at address 0 and leaves the registers alone. -/
theorem trap_leaves_state_untouched_witness :
    (execute_instruction demo_state 0x00002283 0x80000008).trap_occurred = 1 ∧
    (execute_instruction demo_state 0x00002283 0x80000008).registers 5 = 0 ∧
    (execute_instruction demo_state 0x00002283 0x80000008).registers 1 = 0x800FFFFC ∧
    (execute_instruction demo_state 0x00002283 0x80000008).mtime = 0 ∧
    (execute_instruction demo_state 0x00002283 0x80000008).pc = 0x80000100 :=
  ⟨by decide,
    (trap_leaves_state_untouched demo_state 0x00002283 0x80000008 (by decide)).1 5,
    (trap_leaves_state_untouched demo_state 0x00002283 0x80000008 (by decide)).1 1,
    (trap_leaves_state_untouched demo_state 0x00002283 0x80000008 (by decide)).2.2.1,
    (trap_leaves_state_untouched demo_state 0x00002283 0x80000008 (by decide)).2.2.2.2.2.2.1.trans
      (by decide)⟩

/-! ## The zero register -/

@[simp]
theorem uart_read_registers (s : State) : (uart_read s).2.registers = s.registers := by
  unfold uart_read
  split
  · rfl
  · split <;> rfl

@[simp]
theorem bus_load_registers (s : State) (addr size : Nat) :
    (bus_load s addr size).2.registers = s.registers := by
  unfold bus_load
  simp only []
  split_ifs <;> simp

@[simp]
theorem bus_store_registers (s : State) (addr value size : Nat) :
    (bus_store s addr value size).registers = s.registers := by
  unfold bus_store
  simp only []
  split_ifs <;> simp

theorem exec_op_imm_x0 (s : State) (instruction current_pc : Nat) :
    (exec_op_imm s instruction current_pc).state.registers 0 = s.registers 0 := by
  unfold exec_op_imm
  simp only []
  split_ifs <;> simp [Flow.state]

theorem exec_op_x0 (s : State) (instruction current_pc : Nat) :
    (exec_op s instruction current_pc).state.registers 0 = s.registers 0 := by
  unfold exec_op
  simp only []
  split <;> simp [Flow.state]

theorem exec_jal_x0 (s : State) (instruction current_pc : Nat) :
    (exec_jal s instruction current_pc).state.registers 0 = s.registers 0 := by
  simp [exec_jal, Flow.state]

theorem exec_jalr_x0 (s : State) (instruction current_pc : Nat) :
    (exec_jalr s instruction current_pc).state.registers 0 = s.registers 0 := by
  simp [exec_jalr, Flow.state]

theorem exec_lui_x0 (s : State) (instruction current_pc : Nat) :
    (exec_lui s instruction current_pc).state.registers 0 = s.registers 0 := by
  simp [exec_lui, Flow.state]

theorem exec_auipc_x0 (s : State) (instruction current_pc : Nat) :
    (exec_auipc s instruction current_pc).state.registers 0 = s.registers 0 := by
  simp [exec_auipc, Flow.state]

theorem exec_branch_x0 (s : State) (instruction current_pc : Nat) :
    (exec_branch s instruction current_pc).state.registers 0 = s.registers 0 := by
  unfold exec_branch
  simp only []
  split_ifs <;> simp [Flow.state]

theorem exec_load_x0 (s : State) (instruction current_pc : Nat) :
    (exec_load s instruction current_pc).state.registers 0 = s.registers 0 := by
  unfold exec_load
  simp only [read_byte_from_memory, read_half_word_from_memory, read_word_from_memory,
    load_writeback]
  split_ifs <;> simp [Flow.state]

theorem exec_store_x0 (s : State) (instruction current_pc : Nat) :
    (exec_store s instruction current_pc).state.registers 0 = s.registers 0 := by
  unfold exec_store
  simp only [write_byte_to_memory, write_half_word_to_memory, write_word_to_memory, store_trace]
  split_ifs <;> simp [Flow.state]

theorem exec_system_x0 (s : State) (instruction current_pc : Nat) :
    (exec_system s instruction current_pc).state.registers 0 = s.registers 0 := by
  unfold exec_system
  simp only [csr_commit]
  split_ifs <;> simp [Flow.state]

theorem dispatch_x0 (s : State) (instruction current_pc : Nat) :
    (dispatch s instruction current_pc).state.registers 0 = s.registers 0 := by
  by_cases h1 : instruction &&& 0x7F = 0x13
  · rw [dispatch_op_imm _ _ _ h1]; exact exec_op_imm_x0 s _ _
  by_cases h2 : instruction &&& 0x7F = 0x33
  · rw [dispatch_op _ _ _ h2]; exact exec_op_x0 s _ _
  by_cases h3 : instruction &&& 0x7F = 0x6F
  · rw [dispatch_jal _ _ _ h3]; exact exec_jal_x0 s _ _
  by_cases h4 : instruction &&& 0x7F = 0x63
  · rw [dispatch_branch _ _ _ h4]; exact exec_branch_x0 s _ _
  by_cases h5 : instruction &&& 0x7F = 0x37
  · rw [dispatch_lui _ _ _ h5]; exact exec_lui_x0 s _ _
  by_cases h6 : instruction &&& 0x7F = 0x17
  · rw [dispatch_auipc _ _ _ h6]; exact exec_auipc_x0 s _ _
  by_cases h7 : instruction &&& 0x7F = 0x67
  · rw [dispatch_jalr _ _ _ h7]; exact exec_jalr_x0 s _ _
  by_cases h8 : instruction &&& 0x7F = 0x03
  · rw [dispatch_load _ _ _ h8]; exact exec_load_x0 s _ _
  by_cases h9 : instruction &&& 0x7F = 0x23
  · rw [dispatch_store _ _ _ h9]; exact exec_store_x0 s _ _
  by_cases h10 : instruction &&& 0x7F = 0x73
  · rw [dispatch_system _ _ _ h10]; exact exec_system_x0 s _ _
  rw [dispatch_other _ _ _ h1 h2 h3 h4 h5 h6 h7 h8 h9 h10]
  simp [Flow.state]

theorem finish_registers (fl : Flow) : (finish fl).registers = fl.state.registers := by
  cases fl with
  | ret s => rfl
  | brk s u =>
    simp only [finish, Flow.state]
    split_ifs <;> rfl

/-- An instruction never changes `registers[0]`: every register write of
`execute_instruction` is guarded by `rd != 0`. -/
theorem execute_instruction_x0 (s : State) (instruction current_pc : Nat) :
    (execute_instruction s instruction current_pc).registers 0 = s.registers 0 := by
  unfold execute_instruction
  rw [finish_registers, dispatch_x0]

theorem after_execute_x0 (s : State) : (after_execute s).registers 0 = 0 := by
  simp [after_execute, setAt]

theorem hart_step_x0 (s : State) (h : s.registers 0 = 0) : (hart_step s).state.registers 0 = 0 := by
  unfold hart_step
  simp only []
  split_ifs <;> simp [StepResult.state, h, after_execute_x0]

/-- C1: for every memory image (and input stream), after any number of
hart-loop iterations from the initial state `registers[0] == 0`, whatever
instructions were executed (with `rd == 0` or not, trapping or not). -/
theorem x0_zero_at_step_boundary (image : Nat → Nat) (input : List (Fin 256)) (n : Nat) :
    (run n (init image input)).state.registers 0 = 0 := by
  induction n with
  | zero => rfl
  | succ k ih =>
    simp only [run]
    cases hk : run k (init image input) with
    | halted s1 =>
      rw [hk] at ih
      exact ih
    | running s1 =>
      rw [hk] at ih
      exact hart_step_x0 s1 ih

/-! ## Fetch faults -/

/-- With the flag clear, a non-zero `pc` that is misaligned or does not leave
four bytes inside RAM makes the loop iteration raise an instruction-access
fault (`mcause == 1`, `mtval == mepc ==` the old `pc`, `pc == mtvec & ~3`)
and execute nothing. -/
theorem fetch_fault_when_flag_clear (s : State) (h0 : s.trap_occurred = 0) (hpc : s.pc ≠ 0)
    (hlt : s.pc < 2 ^ 32)
    (hbad : s.pc % 4 ≠ 0 ∨ s.pc < 0x80000000 ∨ 0x80100000 < s.pc + 4) :
    hart_step s = .running (raise_exception s CAUSE_INSN_ACCESS s.pc) ∧
    (raise_exception s CAUSE_INSN_ACCESS s.pc).csrs CSR_MCAUSE = 1 ∧
    (raise_exception s CAUSE_INSN_ACCESS s.pc).csrs CSR_MTVAL = s.pc ∧
    (raise_exception s CAUSE_INSN_ACCESS s.pc).csrs CSR_MEPC = s.pc ∧
    (raise_exception s CAUSE_INSN_ACCESS s.pc).pc = s.csrs CSR_MTVEC &&& not32 0x3 ∧
    (raise_exception s CAUSE_INSN_ACCESS s.pc).registers = s.registers ∧
    (raise_exception s CAUSE_INSN_ACCESS s.pc).memory = s.memory ∧
    (raise_exception s CAUSE_INSN_ACCESS s.pc).mtime = s.mtime := by
  obtain ⟨e1, e2, e3, e4, _, _, e7, e8, e9, _⟩ := raise_exception_fresh s CAUSE_INSN_ACCESS s.pc h0
  refine ⟨?_, e2, e3, e1, e4, e7, e8, e9⟩
  unfold hart_step
  simp only [if_neg hpc]
  by_cases h4 : s.pc % 4 ≠ 0
  · simp only [if_pos h4]
  · have hidx : u32 (s.pc + (2 ^ 32 - 0x80000000)) > MEM_SIZE - 4 := by
      simp only [u32, MEM_SIZE]
      omega
    simp only [if_neg h4, if_pos hidx]

/-- With the flag still set from the previous instruction, the same
iteration changes nothing at all: the fault is dropped. -/
theorem fetch_fault_dropped_when_flag_set (s : State) (h1 : s.trap_occurred = 1) (hpc : s.pc ≠ 0)
    (hlt : s.pc < 2 ^ 32)
    (hbad : s.pc % 4 ≠ 0 ∨ s.pc < 0x80000000 ∨ 0x80100000 < s.pc + 4) :
    hart_step s = .running s := by
  unfold hart_step
  simp only [if_neg hpc]
  by_cases h4 : s.pc % 4 ≠ 0
  · simp only [if_pos h4, raise_exception_of_set s _ _ h1]
  · have hidx : u32 (s.pc + (2 ^ 32 - 0x80000000)) > MEM_SIZE - 4 := by
      simp only [u32, MEM_SIZE]
      omega
    simp only [if_neg h4, if_pos hidx, raise_exception_of_set s _ _ h1]

/-- C5 (failing input): the image `csrrwi x0, mtvec, 4; ecall` reaches, after
two iterations, the loop head with `pc == 4` (non-zero, outside RAM) and the
flag `trap_occurred` still 1 from the `ecall`; the third iteration raises no
instruction-access fault: `mcause` stays 11, `mtval` stays 0, `mepc` stays
`0x80000004`; every later iteration leaves the same state and the loop
never halts. -/
theorem fetch_fault_lost_after_trap :
    (run 2 (init stale_image [])).state.pc = 4 ∧
    (run 2 (init stale_image [])).state.trap_occurred = 1 ∧
    (run 3 (init stale_image [])).state.csrs CSR_MCAUSE = 11 ∧
    (run 3 (init stale_image [])).state.csrs CSR_MTVAL = 0 ∧
    (run 3 (init stale_image [])).state.csrs CSR_MEPC = 0x80000004 ∧
    (run 2 (init stale_image [])).is_halted = false ∧
    (∀ n, run (n + 2) (init stale_image []) = run 2 (init stale_image [])) := by
  have hpc : (run 2 (init stale_image [])).state.pc = 4 := by decide
  have htrap : (run 2 (init stale_image [])).state.trap_occurred = 1 := by decide
  have hrun : (run 2 (init stale_image [])).is_halted = false := by decide
  refine ⟨hpc, htrap, by decide, by decide, by decide, hrun, ?_⟩
  intro n
  induction n with
  | zero => rfl
  | succ k ih =>
    have e : run (k + 1 + 2) (init stale_image []) =
        match run (k + 2) (init stale_image []) with
        | .halted s1 => .halted s1
        | .running s1 => hart_step s1 := rfl
    rw [e, ih]
    cases h2 : run 2 (init stale_image []) with
    | halted s1 => rw [h2] at hrun
    | running s1 =>
      rw [h2] at hpc htrap
      have hpc1 : s1.pc = 4 := hpc
      have htrap1 : s1.trap_occurred = 1 := htrap
      exact fetch_fault_dropped_when_flag_set s1 htrap1 (by omega) (by omega) (by omega)

/-! ## Loads -/

theorem and_high_mask (x : Nat) (hx : x < 2 ^ 32) : x &&& 0xFFF00000 = (x >>> 20) <<< 20 := by
  apply Nat.eq_of_testBit_eq
  intro i
  have hm : (0xFFF00000 : Nat) = (2 ^ 12 - 1) <<< 20 := by decide
  rw [hm]
  simp only [Nat.testBit_and, Nat.testBit_shiftLeft, Nat.testBit_shiftRight,
    Nat.testBit_two_pow_sub_one]
  by_cases h20 : 20 ≤ i
  · by_cases h32 : i < 32
    · have : i - 20 < 12 := by omega
      simp [h20, this]
    · have hlt : x < 2 ^ i := lt_of_lt_of_le hx (Nat.pow_le_pow_right (by decide) (by omega))
      have e : 20 + (i - 20) = i := by omega
      simp [h20, Nat.testBit_lt_two_pow hlt, e]
  · simp [h20]

theorem int_shiftRight_eq_div (m : Int) (n : Nat) : Int.shiftRight m n = m / ((2 ^ n : Nat) : Int) :=
  Int.shiftRight_eq_div_pow m n

/-- The I-type immediate computed by the executor is the 12-bit field
`inst[31:20]` sign-extended to 32 bits. -/
theorem ofInt32_imm_i (instruction : Nat) (h : instruction < 2 ^ 32) :
    ofInt32 (imm_i instruction) = sign_extend 12 (instruction >>> 20) := by
  unfold imm_i
  rw [and_high_mask instruction h, int_shiftRight_eq_div]
  simp only [Nat.shiftRight_eq_div_pow, Nat.shiftLeft_eq]
  unfold ofInt32 i32 u32 sign_extend
  have h1 : instruction / 2 ^ 20 < 2 ^ 12 := by omega
  have h2 : (instruction / 2 ^ 20 * 2 ^ 20) % 2 ^ 32 = instruction / 2 ^ 20 * 2 ^ 20 := by omega
  rw [h2]
  generalize instruction / 2 ^ 20 = y at h1
  simp only [Nat.cast_pow, Nat.cast_ofNat]
  split_ifs <;> omega

theorem bus_load_ram (s : State) (addr n : Nat) (hlo : 0x80000000 ≤ addr)
    (hhi : addr + n ≤ 0x80100000) (hn : 0 < n) :
    bus_load s addr n = (load_loop s.memory (addr - 0x80000000) n, s) := by
  have hram : addr ≥ RAM_BASE ∧ addr < RAM_BASE + MEM_SIZE := by
    simp only [RAM_BASE, MEM_SIZE]; omega
  have hin : ¬ (addr - RAM_BASE > MEM_SIZE - n) := by simp only [RAM_BASE, MEM_SIZE]; omega
  unfold bus_load
  rw [if_pos hram]
  simp only [if_neg hin]
  rfl

theorem le_value_one (m : Nat → Nat) (idx : Nat) : le_value m idx 1 = m idx := by
  simp [le_value]

theorem le_value_two (m : Nat → Nat) (idx : Nat) :
    le_value m idx 2 = m idx + 256 * m (idx + 1) := by
  simp [le_value]; omega

theorem le_value_four (m : Nat → Nat) (idx : Nat) :
    le_value m idx 4 = m idx + 256 * m (idx + 1) + 65536 * m (idx + 2) + 16777216 * m (idx + 3) := by
  simp [le_value]; omega

theorem ofInt32_i8 (v : Nat) (h : v < 256) : ofInt32 (i8 v) = sign_extend 8 v := by
  unfold ofInt32 i8 sign_extend
  rw [Nat.mod_eq_of_lt (show v < 2 ^ 8 by omega)]
  split_ifs <;> omega

theorem ofInt32_i16 (v : Nat) (h : v < 65536) : ofInt32 (i16 v) = sign_extend 16 v := by
  unfold ofInt32 i16 sign_extend
  rw [Nat.mod_eq_of_lt (show v < 2 ^ 16 by omega)]
  split_ifs <;> omega

theorem finish_brk_clear (t : State) (h : t.trap_occurred = 0) :
    finish (.brk t 0) = { t with pc := u32 (t.pc + 4) } := by
  simp [finish, h]

theorem load_loop_le_value (m : Nat → Nat) (idx : Nat) (hb : ∀ i, m i < 256) :
    (load_loop m idx 1 = le_value m idx 1 ∧ le_value m idx 1 < 256) ∧
    (load_loop m idx 2 = le_value m idx 2 ∧ le_value m idx 2 < 65536) ∧
    (load_loop m idx 4 = le_value m idx 4 ∧ le_value m idx 4 < 4294967296) := by
  have b0 := hb idx
  have b1 := hb (idx + 1)
  have b2 := hb (idx + 2)
  have b3 := hb (idx + 3)
  rw [load_loop_one m idx b0, load_loop_two m idx b0 b1, load_loop_four m idx b0 b1 b2 b3,
    le_value_one, le_value_two, le_value_four]
  refine ⟨⟨rfl, ?_⟩, ⟨rfl, ?_⟩, ⟨rfl, ?_⟩⟩ <;> omega

theorem load_width_values :
    load_width 0 = 1 ∧ load_width 1 = 2 ∧ load_width 2 = 4 ∧ load_width 4 = 1 ∧ load_width 5 = 2 := by
  decide

theorem load_extend_values (v : Nat) :
    load_extend 0 v = sign_extend 8 v ∧ load_extend 1 v = sign_extend 16 v ∧
    load_extend 2 v = v ∧ load_extend 4 v = v ∧ load_extend 5 v = v := by
  simp [load_extend]

theorem exec_load_lb (s : State) (instruction current_pc : Nat) (h : (instruction >>> 12) &&& 0x7 = 0) :
    exec_load s instruction current_pc =
      load_writeback
        (read_byte_from_memory s (u32 (s.registers ((instruction >>> 15) &&& 0x1F) + ofInt32 (imm_i instruction)))).2
        ((instruction >>> 7) &&& 0x1F)
        (if (read_byte_from_memory s (u32 (s.registers ((instruction >>> 15) &&& 0x1F) + ofInt32 (imm_i instruction)))).2.trap_occurred = 0
          then ofInt32 (i8 (read_byte_from_memory s (u32 (s.registers ((instruction >>> 15) &&& 0x1F) + ofInt32 (imm_i instruction)))).1)
          else 0)
        current_pc "lb" := by
  unfold exec_load; simp [h]

theorem exec_load_lh (s : State) (instruction current_pc : Nat) (h : (instruction >>> 12) &&& 0x7 = 1) :
    exec_load s instruction current_pc =
      load_writeback
        (read_half_word_from_memory s (u32 (s.registers ((instruction >>> 15) &&& 0x1F) + ofInt32 (imm_i instruction)))).2
        ((instruction >>> 7) &&& 0x1F)
        (if (read_half_word_from_memory s (u32 (s.registers ((instruction >>> 15) &&& 0x1F) + ofInt32 (imm_i instruction)))).2.trap_occurred = 0
          then ofInt32 (i16 (read_half_word_from_memory s (u32 (s.registers ((instruction >>> 15) &&& 0x1F) + ofInt32 (imm_i instruction)))).1)
          else 0)
        current_pc "lh" := by
  unfold exec_load; simp [h]

theorem exec_load_lw (s : State) (instruction current_pc : Nat) (h : (instruction >>> 12) &&& 0x7 = 2) :
    exec_load s instruction current_pc =
      load_writeback
        (read_word_from_memory s (u32 (s.registers ((instruction >>> 15) &&& 0x1F) + ofInt32 (imm_i instruction)))).2
        ((instruction >>> 7) &&& 0x1F)
        (read_word_from_memory s (u32 (s.registers ((instruction >>> 15) &&& 0x1F) + ofInt32 (imm_i instruction)))).1
        current_pc "lw" := by
  unfold exec_load; simp [h]

theorem exec_load_lbu (s : State) (instruction current_pc : Nat) (h : (instruction >>> 12) &&& 0x7 = 4) :
    exec_load s instruction current_pc =
      load_writeback
        (read_byte_from_memory s (u32 (s.registers ((instruction >>> 15) &&& 0x1F) + ofInt32 (imm_i instruction)))).2
        ((instruction >>> 7) &&& 0x1F)
        (if (read_byte_from_memory s (u32 (s.registers ((instruction >>> 15) &&& 0x1F) + ofInt32 (imm_i instruction)))).2.trap_occurred = 0
          then (read_byte_from_memory s (u32 (s.registers ((instruction >>> 15) &&& 0x1F) + ofInt32 (imm_i instruction)))).1
          else 0)
        current_pc "lbu" := by
  unfold exec_load; simp [h]

theorem exec_load_lhu (s : State) (instruction current_pc : Nat) (h : (instruction >>> 12) &&& 0x7 = 5) :
    exec_load s instruction current_pc =
      load_writeback
        (read_half_word_from_memory s (u32 (s.registers ((instruction >>> 15) &&& 0x1F) + ofInt32 (imm_i instruction)))).2
        ((instruction >>> 7) &&& 0x1F)
        (if (read_half_word_from_memory s (u32 (s.registers ((instruction >>> 15) &&& 0x1F) + ofInt32 (imm_i instruction)))).2.trap_occurred = 0
          then (read_half_word_from_memory s (u32 (s.registers ((instruction >>> 15) &&& 0x1F) + ofInt32 (imm_i instruction)))).1
          else 0)
        current_pc "lhu" := by
  unfold exec_load; simp [h]

theorem read_byte_ram (s : State) (addr : Nat) (hb : ∀ i, s.memory i < 256)
    (hlo : 0x80000000 ≤ addr) (hhi : addr + 1 ≤ 0x80100000) :
    read_byte_from_memory s addr = (le_value s.memory (addr - 0x80000000) 1, s) := by
  obtain ⟨⟨e1, l1⟩, _, _⟩ := load_loop_le_value s.memory (addr - 0x80000000) hb
  unfold read_byte_from_memory
  rw [bus_load_ram s addr 1 hlo hhi (by decide)]
  simp only [e1]
  exact congrArg (fun v => (v, s)) (by omega)

theorem read_half_word_ram (s : State) (addr : Nat) (hb : ∀ i, s.memory i < 256)
    (hlo : 0x80000000 ≤ addr) (hhi : addr + 2 ≤ 0x80100000) :
    read_half_word_from_memory s addr = (le_value s.memory (addr - 0x80000000) 2, s) := by
  obtain ⟨_, ⟨e2, l2⟩, _⟩ := load_loop_le_value s.memory (addr - 0x80000000) hb
  unfold read_half_word_from_memory
  rw [bus_load_ram s addr 2 hlo hhi (by decide)]
  simp only [e2]
  exact congrArg (fun v => (v, s)) (by omega)

theorem read_word_ram (s : State) (addr : Nat) (hb : ∀ i, s.memory i < 256)
    (hlo : 0x80000000 ≤ addr) (hhi : addr + 4 ≤ 0x80100000) :
    read_word_from_memory s addr = (le_value s.memory (addr - 0x80000000) 4, s) := by
  obtain ⟨_, _, ⟨e4, _⟩⟩ := load_loop_le_value s.memory (addr - 0x80000000) hb
  unfold read_word_from_memory
  rw [bus_load_ram s addr 4 hlo hhi (by decide), e4]

theorem load_writeback_clear (s : State) (rd res current_pc : Nat) (name : String)
    (h0 : s.trap_occurred = 0) :
    load_writeback s rd res current_pc name = .brk (emit (write_rd s rd res) current_pc name) 0 := by
  simp [load_writeback, h0]

/-- The load case on an access that stays inside RAM, with the flag clear:
the case ends by `break` after the write-back of the extended little-endian
value and one trace line. -/
theorem exec_load_ram (s : State) (instruction current_pc : Nat)
    (h0 : s.trap_occurred = 0)
    (hinstr : instruction < 2 ^ 32)
    (hf3 : (instruction >>> 12) &&& 0x7 = 0 ∨ (instruction >>> 12) &&& 0x7 = 1 ∨
      (instruction >>> 12) &&& 0x7 = 2 ∨ (instruction >>> 12) &&& 0x7 = 4 ∨
      (instruction >>> 12) &&& 0x7 = 5)
    (hbytes : ∀ i, s.memory i < 256)
    (hlo : 0x80000000 ≤ load_address s instruction)
    (hhi : load_address s instruction + load_width ((instruction >>> 12) &&& 0x7) ≤ 0x80100000) :
    ∃ name, exec_load s instruction current_pc =
      .brk (emit (write_rd s ((instruction >>> 7) &&& 0x1F)
        (load_extend ((instruction >>> 12) &&& 0x7)
          (le_value s.memory (load_address s instruction - 0x80000000)
            (load_width ((instruction >>> 12) &&& 0x7))))) current_pc name) 0 := by
  have haddr : u32 (s.registers ((instruction >>> 15) &&& 0x1F) + ofInt32 (imm_i instruction)) =
      load_address s instruction := by
    rw [ofInt32_imm_i instruction hinstr]; rfl
  generalize load_address s instruction = address at haddr hlo hhi
  obtain ⟨⟨_, l1⟩, ⟨_, l2⟩, _⟩ := load_loop_le_value s.memory (address - 0x80000000) hbytes
  obtain ⟨w0, w1, w2, w4, w5⟩ := load_width_values
  obtain ⟨x0, x1, x2, x4, x5⟩ :=
    load_extend_values (le_value s.memory (address - 0x80000000) 1)
  obtain ⟨y0, y1, y2, y4, y5⟩ :=
    load_extend_values (le_value s.memory (address - 0x80000000) 2)
  obtain ⟨z0, z1, z2, z4, z5⟩ :=
    load_extend_values (le_value s.memory (address - 0x80000000) 4)
  rcases hf3 with h | h | h | h | h
  · rw [exec_load_lb s _ _ h, haddr, h]
    rw [h, w0] at hhi
    rw [w0, x0, read_byte_ram s address hbytes hlo hhi]
    simp only [h0, if_true, ofInt32_i8 _ l1]
    exact ⟨"lb", load_writeback_clear s _ _ _ _ h0⟩
  · rw [exec_load_lh s _ _ h, haddr, h]
    rw [h, w1] at hhi
    rw [w1, y1, read_half_word_ram s address hbytes hlo hhi]
    simp only [h0, if_true, ofInt32_i16 _ l2]
    exact ⟨"lh", load_writeback_clear s _ _ _ _ h0⟩
  · rw [exec_load_lw s _ _ h, haddr, h]
    rw [h, w2] at hhi
    rw [w2, z2, read_word_ram s address hbytes hlo hhi]
    exact ⟨"lw", load_writeback_clear s _ _ _ _ h0⟩
  · rw [exec_load_lbu s _ _ h, haddr, h]
    rw [h, w4] at hhi
    rw [w4, x4, read_byte_ram s address hbytes hlo hhi]
    simp only [h0, if_true]
    exact ⟨"lbu", load_writeback_clear s _ _ _ _ h0⟩
  · rw [exec_load_lhu s _ _ h, haddr, h]
    rw [h, w5] at hhi
    rw [w5, y5, read_half_word_ram s address hbytes hlo hhi]
    simp only [h0, if_true]
    exact ⟨"lhu", load_writeback_clear s _ _ _ _ h0⟩

/-- C9: a load (`lb`, `lh`, `lw`, `lbu`, `lhu`) with `rd != 0` whose address
`x[rs1] + sext(imm)` leaves the accessed bytes wholly inside RAM sets `x[rd]`
to the little-endian value of the 1, 2 or 4 bytes at that address,
sign-extended from bit 7 for `lb` and bit 15 for `lh`, zero-extended
otherwise; the other registers keep their values, `pc` advances by 4 and no
trap is raised. -/
theorem load_correct (s : State) (instruction current_pc : Nat)
    (hinstr : instruction < 2 ^ 32)
    (hop : instruction &&& 0x7F = 0x03)
    (hf3 : (instruction >>> 12) &&& 0x7 = 0 ∨ (instruction >>> 12) &&& 0x7 = 1 ∨
      (instruction >>> 12) &&& 0x7 = 2 ∨ (instruction >>> 12) &&& 0x7 = 4 ∨
      (instruction >>> 12) &&& 0x7 = 5)
    (hrd : (instruction >>> 7) &&& 0x1F ≠ 0)
    (hbytes : ∀ i, s.memory i < 256)
    (hlo : 0x80000000 ≤ load_address s instruction)
    (hhi : load_address s instruction + load_width ((instruction >>> 12) &&& 0x7) ≤ 0x80100000) :
    (execute_instruction s instruction current_pc).registers ((instruction >>> 7) &&& 0x1F) =
      load_extend ((instruction >>> 12) &&& 0x7)
        (le_value s.memory (load_address s instruction - 0x80000000)
          (load_width ((instruction >>> 12) &&& 0x7))) ∧
    (∀ i, i ≠ (instruction >>> 7) &&& 0x1F →
      (execute_instruction s instruction current_pc).registers i = s.registers i) ∧
    (execute_instruction s instruction current_pc).pc = (s.pc + 4) % 2 ^ 32 ∧
    (execute_instruction s instruction current_pc).trap_occurred = 0 := by
  obtain ⟨name, hexec⟩ := exec_load_ram { s with trap_occurred := 0 } instruction current_pc rfl
    hinstr hf3 hbytes hlo hhi
  unfold execute_instruction
  rw [dispatch_load _ _ _ hop, hexec, finish_brk_clear _ (by simp)]
  refine ⟨?_, ?_, ?_, ?_⟩
  · simp [write_rd_registers, hrd, setAt]
    rfl
  · intro i hi
    simp [write_rd_registers, hrd, setAt, hi]
  · simp [u32]
  · simp

/-- The memory of `demo_loaded` holds bytes. -/
theorem demo_loaded_bytes (i : Nat) : demo_loaded.memory i < 256 := by
  show (if i = 0xFFFFC then 0x34 else if i = 0xFFFFD then 0x92 else 0) < 256
  split_ifs <;> decide

/-- Instance of C9: `lh x5, 0(x1)` reads the bytes `0x34, 0x92` as `0xFFFF9234`. -/
theorem load_correct_witness :
    (0x00009283 : Nat) < 2 ^ 32 ∧ (0x00009283 : Nat) &&& 0x7F = 0x03 ∧
    ((0x00009283 : Nat) >>> 7) &&& 0x1F ≠ 0 ∧
    (∀ i, demo_loaded.memory i < 256) ∧
    0x80000000 ≤ load_address demo_loaded 0x00009283 ∧
    (execute_instruction demo_loaded 0x00009283 0x80000008).registers 5 = 0xFFFF9234 ∧
    (execute_instruction demo_loaded 0x00009283 0x80000008).pc = 0x8000000C ∧
    (execute_instruction demo_loaded 0x00009283 0x80000008).trap_occurred = 0 :=
  ⟨by decide, by decide, by decide, demo_loaded_bytes, by decide,
    (load_correct demo_loaded 0x00009283 0x80000008 (by decide) (by decide) (by decide) (by decide)
      demo_loaded_bytes (by decide) (by decide)).1.trans (by decide),
    (load_correct demo_loaded 0x00009283 0x80000008 (by decide) (by decide) (by decide) (by decide)
      demo_loaded_bytes (by decide) (by decide)).2.2.1,
    (load_correct demo_loaded 0x00009283 0x80000008 (by decide) (by decide) (by decide) (by decide)
      demo_loaded_bytes (by decide) (by decide)).2.2.2⟩

/-! ## Retiring ALU instructions -/

/-- The state after an instruction that emits its line, writes `v` to `rd`
and falls through to `pc += 4`: only `x[rd]` and `pc` (and the trace) move. -/
theorem retire_write_emit (s : State) (rd v current_pc : Nat) (name : String) (hrd : rd ≠ 0) :
    (finish (.brk (write_rd (emit { s with trap_occurred := 0 } current_pc name) rd v) 0)).registers rd = v ∧
    (∀ i, i ≠ rd →
      (finish (.brk (write_rd (emit { s with trap_occurred := 0 } current_pc name) rd v) 0)).registers i =
        s.registers i) ∧
    (finish (.brk (write_rd (emit { s with trap_occurred := 0 } current_pc name) rd v) 0)).pc =
      (s.pc + 4) % 2 ^ 32 ∧
    (finish (.brk (write_rd (emit { s with trap_occurred := 0 } current_pc name) rd v) 0)).trap_occurred = 0 := by
  rw [finish_brk_clear _ (by simp)]
  refine ⟨?_, ?_, ?_, ?_⟩
  · simp [write_rd_registers, hrd, setAt]
  · intro i hi
    simp [write_rd_registers, hrd, setAt, hi]
  · simp [u32]
  · simp

/-- The same with the write before the trace line (the order of OP-IMM). -/
theorem retire_emit_write (s : State) (rd v current_pc : Nat) (name : String) (hrd : rd ≠ 0) :
    (finish (.brk (emit (write_rd { s with trap_occurred := 0 } rd v) current_pc name) 0)).registers rd = v ∧
    (∀ i, i ≠ rd →
      (finish (.brk (emit (write_rd { s with trap_occurred := 0 } rd v) current_pc name) 0)).registers i =
        s.registers i) ∧
    (finish (.brk (emit (write_rd { s with trap_occurred := 0 } rd v) current_pc name) 0)).pc =
      (s.pc + 4) % 2 ^ 32 ∧
    (finish (.brk (emit (write_rd { s with trap_occurred := 0 } rd v) current_pc name) 0)).trap_occurred = 0 := by
  rw [finish_brk_clear _ (by simp)]
  refine ⟨?_, ?_, ?_, ?_⟩
  · simp [write_rd_registers, hrd, setAt]
  · intro i hi
    simp [write_rd_registers, hrd, setAt, hi]
  · simp [u32]
  · simp

/-- An OP instruction whose `funct7`/`funct3` select an operation retires
with the value of `op_result` in `x[rd]`. -/
theorem execute_op_some (s : State) (instruction current_pc v : Nat) (name : String)
    (hop : instruction &&& 0x7F = 0x33)
    (hrd : (instruction >>> 7) &&& 0x1F ≠ 0)
    (hres : op_result ((instruction >>> 25) &&& 0x7F) ((instruction >>> 12) &&& 0x7)
      (s.registers ((instruction >>> 15) &&& 0x1F)) (s.registers ((instruction >>> 20) &&& 0x1F)) =
      some (name, v)) :
    (execute_instruction s instruction current_pc).registers ((instruction >>> 7) &&& 0x1F) = v ∧
    (∀ i, i ≠ (instruction >>> 7) &&& 0x1F →
      (execute_instruction s instruction current_pc).registers i = s.registers i) ∧
    (execute_instruction s instruction current_pc).pc = (s.pc + 4) % 2 ^ 32 ∧
    (execute_instruction s instruction current_pc).trap_occurred = 0 := by
  have hexec : execute_instruction s instruction current_pc =
      finish (.brk (write_rd (emit { s with trap_occurred := 0 } current_pc name)
        ((instruction >>> 7) &&& 0x1F) v) 0) := by
    unfold execute_instruction
    rw [dispatch_op _ _ _ hop]
    unfold exec_op
    simp only [hres]
  rw [hexec]
  exact retire_write_emit s _ v current_pc name hrd

theorem i32_eq_signed32 (a : Nat) (h : a < 2 ^ 32) : i32 a = signed32 a := by
  unfold i32 signed32 u32
  rw [Nat.mod_eq_of_lt h]

/-- The program counter and the trap flag after an instruction that writes
`rd` and emits its line, whatever `rd` is. -/
theorem retire_pc_trap (s : State) (rd v current_pc : Nat) (name : String) :
    ((finish (.brk (write_rd (emit { s with trap_occurred := 0 } current_pc name) rd v) 0)).pc =
      (s.pc + 4) % 2 ^ 32 ∧
     (finish (.brk (write_rd (emit { s with trap_occurred := 0 } current_pc name) rd v) 0)).trap_occurred = 0) ∧
    ((finish (.brk (emit (write_rd { s with trap_occurred := 0 } rd v) current_pc name) 0)).pc =
      (s.pc + 4) % 2 ^ 32 ∧
     (finish (.brk (emit (write_rd { s with trap_occurred := 0 } rd v) current_pc name) 0)).trap_occurred = 0) := by
  rw [finish_brk_clear _ (by simp), finish_brk_clear _ (by simp)]
  simp [u32]

/-- An OP instruction whose `funct7`/`funct3` select an operation advances
`pc` by 4 and raises no trap, whatever `rd` is. -/
theorem execute_op_retires (s : State) (instruction current_pc v : Nat) (name : String)
    (hop : instruction &&& 0x7F = 0x33)
    (hres : op_result ((instruction >>> 25) &&& 0x7F) ((instruction >>> 12) &&& 0x7)
      (s.registers ((instruction >>> 15) &&& 0x1F)) (s.registers ((instruction >>> 20) &&& 0x1F)) =
      some (name, v)) :
    (execute_instruction s instruction current_pc).pc = (s.pc + 4) % 2 ^ 32 ∧
    (execute_instruction s instruction current_pc).trap_occurred = 0 := by
  have hexec : execute_instruction s instruction current_pc =
      finish (.brk (write_rd (emit { s with trap_occurred := 0 } current_pc name)
        ((instruction >>> 7) &&& 0x1F) v) 0) := by
    unfold execute_instruction
    rw [dispatch_op _ _ _ hop]
    unfold exec_op
    simp only [hres]
  rw [hexec]
  exact (retire_pc_trap s _ v current_pc name).1

/-! ## Shifts -/

theorem and_1f_eq_mod (x : Nat) : x &&& 0x1F = x % 32 :=
  Nat.and_pow_two_sub_one_eq_mod x 5

/-- The shift amount of a shift-immediate is the field `inst[24:20]`. -/
theorem shamt_imm_i (instruction : Nat) (h : instruction < 2 ^ 32) :
    ofInt32 (imm_i instruction) &&& 0x1F = (instruction >>> 20) &&& 0x1F := by
  rw [ofInt32_imm_i instruction h, and_1f_eq_mod, and_1f_eq_mod]
  unfold sign_extend
  split_ifs <;> omega

theorem ofInt32_shiftRight (a n : Nat) (h : a < 2 ^ 32) :
    ofInt32 (Int.shiftRight (i32 a) n) = asr32 a n := by
  unfold ofInt32 asr32
  rw [int_shiftRight_eq_div, i32_eq_signed32 a h, Nat.cast_pow, Nat.cast_ofNat]

theorem exec_op_imm_srai (s : State) (instruction current_pc : Nat)
    (hf3 : (instruction >>> 12) &&& 0x7 = 5) (hf7 : (instruction >>> 25) &&& 0x7F = 0x20) :
    exec_op_imm s instruction current_pc =
      .brk (emit (write_rd s ((instruction >>> 7) &&& 0x1F)
        (ofInt32 (Int.shiftRight (i32 (s.registers ((instruction >>> 15) &&& 0x1F)))
          (ofInt32 (imm_i instruction) &&& 0x1F)))) current_pc "srai") 0 := by
  unfold exec_op_imm; simp [hf3, hf7]

theorem op_result_sra (a b : Nat) :
    op_result 0x20 5 a b = some ("sra", ofInt32 (Int.shiftRight (i32 a) (b &&& 0x1F))) := by
  simp [op_result]

/-- C11: with `x[rs1] = a` a 32-bit value, `srai rd, rs1, k` (opcode 0x13,
funct3 5, funct7 0x20) computes the arithmetic right shift of `a` by
`k & 31`, that is `floor(signed(a) / 2^(k & 31)) mod 2^32`, and
`sra rd, rs1, rs2` (opcode 0x33, funct7 0x20, funct3 5) computes the
arithmetic right shift of `a` by `x[rs2] & 31`, whatever the upper 27 bits of
`x[rs2]` are; the value is written to `x[rd]` (when `rd != 0`), `pc` advances
by 4 and no trap is raised. -/
theorem srai_sra_arithmetic (s : State) (instruction current_pc : Nat)
    (hinstr : instruction < 2 ^ 32)
    (hf3 : (instruction >>> 12) &&& 0x7 = 5)
    (hf7 : (instruction >>> 25) &&& 0x7F = 0x20)
    (ha : s.registers ((instruction >>> 15) &&& 0x1F) < 2 ^ 32) :
    (instruction &&& 0x7F = 0x13 →
      exec_op_imm s instruction current_pc =
        .brk (emit (write_rd s ((instruction >>> 7) &&& 0x1F)
          (asr32 (s.registers ((instruction >>> 15) &&& 0x1F)) ((instruction >>> 20) &&& 31)))
          current_pc "srai") 0 ∧
      ((instruction >>> 7) &&& 0x1F ≠ 0 →
        (execute_instruction s instruction current_pc).registers ((instruction >>> 7) &&& 0x1F) =
          asr32 (s.registers ((instruction >>> 15) &&& 0x1F)) ((instruction >>> 20) &&& 31)) ∧
      (execute_instruction s instruction current_pc).pc = (s.pc + 4) % 2 ^ 32 ∧
      (execute_instruction s instruction current_pc).trap_occurred = 0) ∧
    (instruction &&& 0x7F = 0x33 →
      op_result ((instruction >>> 25) &&& 0x7F) ((instruction >>> 12) &&& 0x7)
        (s.registers ((instruction >>> 15) &&& 0x1F)) (s.registers ((instruction >>> 20) &&& 0x1F)) =
        some ("sra", asr32 (s.registers ((instruction >>> 15) &&& 0x1F))
          (s.registers ((instruction >>> 20) &&& 0x1F) &&& 31)) ∧
      ((instruction >>> 7) &&& 0x1F ≠ 0 →
        (execute_instruction s instruction current_pc).registers ((instruction >>> 7) &&& 0x1F) =
          asr32 (s.registers ((instruction >>> 15) &&& 0x1F))
            (s.registers ((instruction >>> 20) &&& 0x1F) &&& 31)) ∧
      (execute_instruction s instruction current_pc).pc = (s.pc + 4) % 2 ^ 32 ∧
      (execute_instruction s instruction current_pc).trap_occurred = 0) := by
  constructor
  · intro hop
    have hcase : ∀ t : State, t.registers = s.registers →
        exec_op_imm t instruction current_pc =
        .brk (emit (write_rd t ((instruction >>> 7) &&& 0x1F)
          (asr32 (s.registers ((instruction >>> 15) &&& 0x1F)) ((instruction >>> 20) &&& 31)))
          current_pc "srai") 0 := by
      intro t ht
      rw [exec_op_imm_srai _ _ _ hf3 hf7, shamt_imm_i instruction hinstr, ht,
        ofInt32_shiftRight _ _ ha]
    have hexec : execute_instruction s instruction current_pc =
        finish (.brk (emit (write_rd { s with trap_occurred := 0 } ((instruction >>> 7) &&& 0x1F)
          (asr32 (s.registers ((instruction >>> 15) &&& 0x1F)) ((instruction >>> 20) &&& 31)))
          current_pc "srai") 0) := by
      unfold execute_instruction
      rw [dispatch_op_imm _ _ _ hop, hcase { s with trap_occurred := 0 } rfl]
    refine ⟨hcase s rfl, ?_, ?_⟩
    · intro hrd
      rw [hexec]
      exact (retire_emit_write s ((instruction >>> 7) &&& 0x1F) _ current_pc "srai" hrd).1
    · rw [hexec]
      exact (retire_pc_trap s ((instruction >>> 7) &&& 0x1F) _ current_pc "srai").2
  · intro hop
    have hres : op_result ((instruction >>> 25) &&& 0x7F) ((instruction >>> 12) &&& 0x7)
        (s.registers ((instruction >>> 15) &&& 0x1F)) (s.registers ((instruction >>> 20) &&& 0x1F)) =
        some ("sra", asr32 (s.registers ((instruction >>> 15) &&& 0x1F))
          (s.registers ((instruction >>> 20) &&& 0x1F) &&& 31)) := by
      rw [hf3, hf7, op_result_sra, ofInt32_shiftRight _ _ ha]
    exact ⟨hres, fun hrd => (execute_op_some s instruction current_pc _ _ hop hrd hres).1,
      execute_op_retires s instruction current_pc _ _ hop hres⟩

/-- Instance of C11: `srai x3, x1, 4` and `sra x3, x1, x1` on `x1 = 0x800FFFFC`
(shift amounts 4 and `0x800FFFFC & 31 = 28`) replicate the sign bit. -/
theorem srai_sra_arithmetic_witness :
    (0x4040D193 : Nat) < 2 ^ 32 ∧ ((0x4040D193 : Nat) >>> 12) &&& 0x7 = 5 ∧
    ((0x4040D193 : Nat) >>> 25) &&& 0x7F = 0x20 ∧ (0x4040D193 : Nat) &&& 0x7F = 0x13 ∧
    (0x4010D1B3 : Nat) &&& 0x7F = 0x33 ∧ demo_state.registers 1 < 2 ^ 32 ∧
    (execute_instruction demo_state 0x4040D193 0x80000008).registers 3 = 0xF800FFFF ∧
    (execute_instruction demo_state 0x4010D1B3 0x80000008).registers 3 = 0xFFFFFFF8 :=
  ⟨by decide, by decide, by decide, by decide, by decide, by decide,
    (((srai_sra_arithmetic demo_state 0x4040D193 0x80000008 (by decide) (by decide) (by decide)
      (by decide)).1 (by decide)).2.1 (by decide)).trans (by decide),
    (((srai_sra_arithmetic demo_state 0x4010D1B3 0x80000008 (by decide) (by decide) (by decide)
      (by decide)).2 (by decide)).2.1 (by decide)).trans (by decide)⟩

/-! ## Division and remainder -/

/-- The truncating quotient `Int.tdiv` has the magnitude `|x| / |y|` and the
product of the signs as its sign. -/
theorem tdiv_eq_trunc_div (x y : Int) : Int.tdiv x y = trunc_div x y := by
  unfold trunc_div
  obtain ⟨m, rfl | rfl⟩ := Int.eq_nat_or_neg x <;> obtain ⟨n, rfl | rfl⟩ := Int.eq_nat_or_neg y
  all_goals
    rcases Nat.eq_zero_or_pos m with hm | hm
    · subst hm; simp
    rcases Nat.eq_zero_or_pos n with hn | hn
    · subst hn; simp
    have hm' : (0 : Int) < m := by exact_mod_cast hm
    have hn' : (0 : Int) < n := by exact_mod_cast hn
    have s1 : Int.sign (m : Int) = 1 := Int.sign_eq_one_of_pos hm'
    have s2 : Int.sign (n : Int) = 1 := Int.sign_eq_one_of_pos hn'
    have s3 : Int.sign (-(m : Int)) = -1 := Int.sign_eq_neg_one_of_neg (by omega)
    have s4 : Int.sign (-(n : Int)) = -1 := Int.sign_eq_neg_one_of_neg (by omega)
    simp [s1, s2, s3, s4]
    exact Int.tdiv_eq_ediv (by omega) (by omega)

/-- The remainder `Int.tmod` has the magnitude `|x| mod |y|` and the sign of
the dividend. -/
theorem tmod_eq_trunc_rem (x y : Int) : Int.tmod x y = trunc_rem x y := by
  unfold trunc_rem
  obtain ⟨m, rfl | rfl⟩ := Int.eq_nat_or_neg x <;> obtain ⟨n, rfl | rfl⟩ := Int.eq_nat_or_neg y
  all_goals
    rcases Nat.eq_zero_or_pos m with hm | hm
    · subst hm; simp
    have hm' : (0 : Int) < m := by exact_mod_cast hm
    have s1 : Int.sign (m : Int) = 1 := Int.sign_eq_one_of_pos hm'
    have s3 : Int.sign (-(m : Int)) = -1 := Int.sign_eq_neg_one_of_neg (by omega)
    simp [s1, s3]
    all_goals first
      | exact Int.tmod_eq_emod (by omega) (by omega)
      | (rw [Int.tmod_def, Int.neg_tdiv, Int.tdiv_eq_ediv (by omega) (by omega)]
         have := Int.emod_add_ediv (m : Int) (n : Int)
         linarith)

theorem signed32_eq_zero (b : Nat) (hb : b < 2 ^ 32) : signed32 b = 0 ↔ b = 0 := by
  unfold signed32; split_ifs <;> constructor <;> intro h <;> omega

theorem signed32_eq_neg_one (b : Nat) (hb : b < 2 ^ 32) : signed32 b = -1 ↔ b = 0xFFFFFFFF := by
  unfold signed32; split_ifs <;> constructor <;> intro h <;> first | omega | contradiction

theorem ofInt32_signed32 (a : Nat) (ha : a < 2 ^ 32) : ofInt32 (signed32 a) = a := by
  unfold ofInt32 signed32; split_ifs <;> omega

theorem op_result_div (a b : Nat) (ha : a < 2 ^ 32) (hb : b < 2 ^ 32) :
    op_result 0x01 4 a b = some ("div",
      if b = 0 then 0xFFFFFFFF
      else if a = 0x80000000 ∧ b = 0xFFFFFFFF then 0x80000000
      else ofInt32 (trunc_div (signed32 a) (signed32 b))) := by
  have e : ofInt32 (-1) = 0xFFFFFFFF := by decide
  simp only [op_result, i32_eq_signed32 a ha, i32_eq_signed32 b hb, signed32_eq_zero b hb,
    signed32_eq_neg_one b hb, ofInt32_signed32 a ha, tdiv_eq_trunc_div, e]
  simp

theorem op_result_divu (a b : Nat) :
    op_result 0x01 5 a b = some ("divu", if b = 0 then 0xFFFFFFFF else a / b) := by
  have e : ofInt32 (-1) = 0xFFFFFFFF := by decide
  simp only [op_result, e]
  simp

theorem op_result_rem (a b : Nat) (ha : a < 2 ^ 32) (hb : b < 2 ^ 32) :
    op_result 0x01 6 a b = some ("rem",
      if b = 0 then a
      else if a = 0x80000000 ∧ b = 0xFFFFFFFF then 0
      else ofInt32 (trunc_rem (signed32 a) (signed32 b))) := by
  simp only [op_result, i32_eq_signed32 a ha, i32_eq_signed32 b hb, signed32_eq_zero b hb,
    signed32_eq_neg_one b hb, ofInt32_signed32 a ha, tmod_eq_trunc_rem]
  simp

theorem op_result_remu (a b : Nat) :
    op_result 0x01 7 a b = some ("remu", if b = 0 then a else a % b) := by
  simp [op_result]

/-- C12: with `x[rs1] = a`, `x[rs2] = b` 32-bit values and `rd != 0`, `div`
(opcode 0x33, funct7 0x01, funct3 4) leaves in `x[rd]`: `0xFFFFFFFF` when
`b == 0`; `0x80000000` when `a == 0x80000000` and `b == 0xFFFFFFFF`; otherwise
the signed quotient truncated toward zero.  `divu` (funct3 5) leaves
`0xFFFFFFFF` when `b == 0` and the floor of `a / b` otherwise.  Neither
raises a trap; both advance `pc` by 4. -/
theorem div_divu_correct (s : State) (instruction current_pc : Nat)
    (hop : instruction &&& 0x7F = 0x33)
    (hf7 : (instruction >>> 25) &&& 0x7F = 0x01)
    (hrd : (instruction >>> 7) &&& 0x1F ≠ 0)
    (ha : s.registers ((instruction >>> 15) &&& 0x1F) < 2 ^ 32)
    (hb : s.registers ((instruction >>> 20) &&& 0x1F) < 2 ^ 32) :
    ((instruction >>> 12) &&& 0x7 = 4 →
      (execute_instruction s instruction current_pc).registers ((instruction >>> 7) &&& 0x1F) =
        (if s.registers ((instruction >>> 20) &&& 0x1F) = 0 then 0xFFFFFFFF
         else if s.registers ((instruction >>> 15) &&& 0x1F) = 0x80000000 ∧
            s.registers ((instruction >>> 20) &&& 0x1F) = 0xFFFFFFFF then 0x80000000
         else ofInt32 (trunc_div (signed32 (s.registers ((instruction >>> 15) &&& 0x1F)))
            (signed32 (s.registers ((instruction >>> 20) &&& 0x1F))))) ∧
      (execute_instruction s instruction current_pc).pc = (s.pc + 4) % 2 ^ 32 ∧
      (execute_instruction s instruction current_pc).trap_occurred = 0) ∧
    ((instruction >>> 12) &&& 0x7 = 5 →
      (execute_instruction s instruction current_pc).registers ((instruction >>> 7) &&& 0x1F) =
        (if s.registers ((instruction >>> 20) &&& 0x1F) = 0 then 0xFFFFFFFF
         else s.registers ((instruction >>> 15) &&& 0x1F) / s.registers ((instruction >>> 20) &&& 0x1F)) ∧
      (execute_instruction s instruction current_pc).pc = (s.pc + 4) % 2 ^ 32 ∧
      (execute_instruction s instruction current_pc).trap_occurred = 0) := by
  constructor
  · intro hf3
    obtain ⟨h1, _, h3, h4⟩ := execute_op_some s instruction current_pc _ _ hop hrd
      (by rw [hf3, hf7]; exact op_result_div _ _ ha hb)
    exact ⟨h1, h3, h4⟩
  · intro hf3
    obtain ⟨h1, _, h3, h4⟩ := execute_op_some s instruction current_pc _ _ hop hrd
      (by rw [hf3, hf7]; exact op_result_divu _ _)
    exact ⟨h1, h3, h4⟩

/-- C13: with `x[rs1] = a`, `x[rs2] = b` 32-bit values and `rd != 0`, `rem`
(opcode 0x33, funct7 0x01, funct3 6) leaves in `x[rd]`: `a` when `b == 0`;
0 when `a == 0x80000000` and `b == 0xFFFFFFFF`; otherwise the remainder of
the truncating division, whose sign is the sign of the dividend.  `remu`
(funct3 7) leaves `a` when `b == 0` and `a mod b` otherwise.  Neither raises
a trap; both advance `pc` by 4. -/
theorem rem_remu_correct (s : State) (instruction current_pc : Nat)
    (hop : instruction &&& 0x7F = 0x33)
    (hf7 : (instruction >>> 25) &&& 0x7F = 0x01)
    (hrd : (instruction >>> 7) &&& 0x1F ≠ 0)
    (ha : s.registers ((instruction >>> 15) &&& 0x1F) < 2 ^ 32)
    (hb : s.registers ((instruction >>> 20) &&& 0x1F) < 2 ^ 32) :
    ((instruction >>> 12) &&& 0x7 = 6 →
      (execute_instruction s instruction current_pc).registers ((instruction >>> 7) &&& 0x1F) =
        (if s.registers ((instruction >>> 20) &&& 0x1F) = 0 then
            s.registers ((instruction >>> 15) &&& 0x1F)
         else if s.registers ((instruction >>> 15) &&& 0x1F) = 0x80000000 ∧
            s.registers ((instruction >>> 20) &&& 0x1F) = 0xFFFFFFFF then 0
         else ofInt32 (trunc_rem (signed32 (s.registers ((instruction >>> 15) &&& 0x1F)))
            (signed32 (s.registers ((instruction >>> 20) &&& 0x1F))))) ∧
      (execute_instruction s instruction current_pc).pc = (s.pc + 4) % 2 ^ 32 ∧
      (execute_instruction s instruction current_pc).trap_occurred = 0) ∧
    ((instruction >>> 12) &&& 0x7 = 7 →
      (execute_instruction s instruction current_pc).registers ((instruction >>> 7) &&& 0x1F) =
        (if s.registers ((instruction >>> 20) &&& 0x1F) = 0 then
            s.registers ((instruction >>> 15) &&& 0x1F)
         else s.registers ((instruction >>> 15) &&& 0x1F) % s.registers ((instruction >>> 20) &&& 0x1F)) ∧
      (execute_instruction s instruction current_pc).pc = (s.pc + 4) % 2 ^ 32 ∧
      (execute_instruction s instruction current_pc).trap_occurred = 0) := by
  constructor
  · intro hf3
    obtain ⟨h1, _, h3, h4⟩ := execute_op_some s instruction current_pc _ _ hop hrd
      (by rw [hf3, hf7]; exact op_result_rem _ _ ha hb)
    exact ⟨h1, h3, h4⟩
  · intro hf3
    obtain ⟨h1, _, h3, h4⟩ := execute_op_some s instruction current_pc _ _ hop hrd
      (by rw [hf3, hf7]; exact op_result_remu _ _)
    exact ⟨h1, h3, h4⟩

/-- Instance of C12 on `demo_div`: `div x3, x1, x2` (INT_MIN by -1),
`div x3, x4, x5` (-7 by 2 gives -3) and `divu x3, x4, x0` (division by zero). -/
theorem div_divu_correct_witness :
    (0x0220C1B3 : Nat) &&& 0x7F = 0x33 ∧ ((0x0220C1B3 : Nat) >>> 25) &&& 0x7F = 0x01 ∧
    ((0x0220C1B3 : Nat) >>> 12) &&& 0x7 = 4 ∧ ((0x020251B3 : Nat) >>> 12) &&& 0x7 = 5 ∧
    demo_div.registers 1 < 2 ^ 32 ∧ demo_div.registers 2 < 2 ^ 32 ∧
    (execute_instruction demo_div 0x0220C1B3 0x80000008).registers 3 = 0x80000000 ∧
    (execute_instruction demo_div 0x025241B3 0x80000008).registers 3 = 0xFFFFFFFD ∧
    (execute_instruction demo_div 0x020251B3 0x80000008).registers 3 = 0xFFFFFFFF ∧
    (execute_instruction demo_div 0x020251B3 0x80000008).trap_occurred = 0 :=
  ⟨by decide, by decide, by decide, by decide, by decide, by decide,
    ((div_divu_correct demo_div 0x0220C1B3 0x80000008 (by decide) (by decide) (by decide)
      (by decide) (by decide)).1 (by decide)).1.trans (by decide),
    ((div_divu_correct demo_div 0x025241B3 0x80000008 (by decide) (by decide) (by decide)
      (by decide) (by decide)).1 (by decide)).1.trans (by decide),
    ((div_divu_correct demo_div 0x020251B3 0x80000008 (by decide) (by decide) (by decide)
      (by decide) (by decide)).2 (by decide)).1.trans (by decide),
    ((div_divu_correct demo_div 0x020251B3 0x80000008 (by decide) (by decide) (by decide)
      (by decide) (by decide)).2 (by decide)).2.2⟩

/-- Instance of C13 on `demo_div`: `rem x3, x1, x2` (INT_MIN by -1),
`rem x3, x4, x5` (-7 by 2 leaves -1) and `remu x3, x4, x0` (division by zero). -/
theorem rem_remu_correct_witness :
    (0x0220E1B3 : Nat) &&& 0x7F = 0x33 ∧ ((0x0220E1B3 : Nat) >>> 25) &&& 0x7F = 0x01 ∧
    ((0x0220E1B3 : Nat) >>> 12) &&& 0x7 = 6 ∧ ((0x020271B3 : Nat) >>> 12) &&& 0x7 = 7 ∧
    demo_div.registers 4 < 2 ^ 32 ∧ demo_div.registers 5 < 2 ^ 32 ∧
    (execute_instruction demo_div 0x0220E1B3 0x80000008).registers 3 = 0 ∧
    (execute_instruction demo_div 0x025261B3 0x80000008).registers 3 = 0xFFFFFFFF ∧
    (execute_instruction demo_div 0x020271B3 0x80000008).registers 3 = 0xFFFFFFF9 ∧
    (execute_instruction demo_div 0x020271B3 0x80000008).trap_occurred = 0 :=
  ⟨by decide, by decide, by decide, by decide, by decide, by decide,
    ((rem_remu_correct demo_div 0x0220E1B3 0x80000008 (by decide) (by decide) (by decide)
      (by decide) (by decide)).1 (by decide)).1.trans (by decide),
    ((rem_remu_correct demo_div 0x025261B3 0x80000008 (by decide) (by decide) (by decide)
      (by decide) (by decide)).1 (by decide)).1.trans (by decide),
    ((rem_remu_correct demo_div 0x020271B3 0x80000008 (by decide) (by decide) (by decide)
      (by decide) (by decide)).2 (by decide)).1.trans (by decide),
    ((rem_remu_correct demo_div 0x020271B3 0x80000008 (by decide) (by decide) (by decide)
      (by decide) (by decide)).2 (by decide)).2.2⟩

/-! ## Multiplication -/

theorem i32_eq_sub (a : Nat) (h : a < 2 ^ 32) :
    i32 a = (a : Int) - 2 ^ 32 * (if a < 2 ^ 31 then 0 else 1) := by
  rw [i32_eq_signed32 a h]
  unfold signed32
  split_ifs <;> omega

/-- The wrapped signed product is the low word of the unsigned product. -/
theorem ofInt32_i32_mul (a b : Nat) (ha : a < 2 ^ 32) (hb : b < 2 ^ 32) :
    ofInt32 (i32 a * i32 b) = (a * b) % 2 ^ 32 := by
  rw [i32_eq_sub a ha, i32_eq_sub b hb]
  generalize (if a < 2 ^ 31 then (0 : Int) else 1) = ka
  generalize (if b < 2 ^ 31 then (0 : Int) else 1) = kb
  have e : ((a : Int) - 2 ^ 32 * ka) * ((b : Int) - 2 ^ 32 * kb) =
      ((a * b : Nat) : Int) + 2 ^ 32 * (2 ^ 32 * ka * kb - (a : Int) * kb - ka * (b : Int)) := by
    push_cast; ring
  unfold ofInt32
  rw [e, Int.add_mul_emod_self_left]
  generalize a * b = p
  omega

theorem op_result_mul (a b : Nat) (ha : a < 2 ^ 32) (hb : b < 2 ^ 32) :
    op_result 0x01 0 a b = some ("mul", (a * b) % 2 ^ 32) := by
  simp only [op_result, ofInt32_i32_mul a b ha hb]
  simp

/-- C14: for 32-bit `a` and `b` with `b != 0`, the result `q` of `divu` on
`(a, b)`, the result `r` of `remu` on `(a, b)` and the result `m` of `mul`
on `(q, b)` satisfy `(m + r) mod 2^32 == a`, `r < b`, and `q * b` fits in
32 bits. -/
theorem divu_mul_remu_reconstruct (a b : Nat) (ha : a < 2 ^ 32) (hb : b < 2 ^ 32) (hb0 : b ≠ 0) :
    ∃ q r m, op_result 0x01 5 a b = some ("divu", q) ∧
      op_result 0x01 7 a b = some ("remu", r) ∧
      op_result 0x01 0 q b = some ("mul", m) ∧
      (m + r) % 2 ^ 32 = a ∧ r < b ∧ q * b < 2 ^ 32 := by
  have hq : a / b * b ≤ a := Nat.div_mul_le_self a b
  have hqr : a / b * b + a % b = a := Nat.div_add_mod' a b
  have hr : a % b < b := Nat.mod_lt a (Nat.pos_of_ne_zero hb0)
  have hqlt : a / b < 2 ^ 32 := lt_of_le_of_lt (Nat.div_le_self a b) ha
  refine ⟨a / b, a % b, (a / b * b) % 2 ^ 32, ?_, ?_, op_result_mul _ _ hqlt hb, ?_, hr, ?_⟩
  · rw [op_result_divu, if_neg hb0]
  · rw [op_result_remu, if_neg hb0]
  · generalize a / b * b = p at hq hqr
    omega
  · omega

/-- Instance of C14: `a = 0xFFFFFFFF`, `b = 7` gives `q = 0x24924924`,
`r = 3`, `m = 0xFFFFFFFC`. -/
theorem divu_mul_remu_reconstruct_witness :
    (0xFFFFFFFF : Nat) < 2 ^ 32 ∧ (7 : Nat) < 2 ^ 32 ∧ (7 : Nat) ≠ 0 ∧
    ∃ q r m, op_result 0x01 5 0xFFFFFFFF 7 = some ("divu", q) ∧
      op_result 0x01 7 0xFFFFFFFF 7 = some ("remu", r) ∧
      op_result 0x01 0 q 7 = some ("mul", m) ∧
      (m + r) % 2 ^ 32 = 0xFFFFFFFF ∧ r < 7 ∧ q * 7 < 2 ^ 32 :=
  ⟨by decide, by decide, by decide,
    divu_mul_remu_reconstruct 0xFFFFFFFF 7 (by decide) (by decide) (by decide)⟩

theorem ofInt32_shiftRight_32 (p : Int) : ofInt32 (Int.shiftRight p 32) = high_word p := by
  unfold ofInt32 high_word
  rw [int_shiftRight_eq_div]
  omega

theorem high_word_floor (p : Int) : high_word p = ((p / 2 ^ 32) % 2 ^ 32).toNat := by
  unfold high_word
  omega

theorem mulhu_value (a b : Nat) :
    u32 (u64 (a * b) >>> 32) = high_word ((a : Int) * (b : Int)) := by
  have e : (a : Int) * (b : Int) = ((a * b : Nat) : Int) := by push_cast; rfl
  rw [e]
  unfold u32 u64 high_word
  rw [Nat.shiftRight_eq_div_pow]
  generalize a * b = p
  omega

theorem mulhsu_value (a b : Nat) (ha : a < 2 ^ 32) :
    u32 (u64 (ofInt64 (i32 a) * b) >>> 32) = high_word (signed32 a * (b : Int)) := by
  rw [i32_eq_signed32 a ha]
  have hcast : ((u64 (ofInt64 (signed32 a) * b) : Nat) : Int) = (signed32 a * (b : Int)) % 2 ^ 64 := by
    unfold u64 ofInt64 signed32
    split_ifs with h
    · have e1 : (((a : Int) % 2 ^ 64).toNat) = a := by omega
      rw [e1]
      push_cast
      rfl
    · have e1 : ((((a : Int) - 2 ^ 32) % 2 ^ 64).toNat) = a + (2 ^ 64 - 2 ^ 32) := by omega
      rw [e1]
      have e2 : (((a + (2 ^ 64 - 2 ^ 32)) * b : Nat) : Int) =
          ((a : Int) - 2 ^ 32) * (b : Int) + 2 ^ 64 * (b : Int) := by
        push_cast; ring
      rw [Int.natCast_mod, e2, Nat.cast_pow, Nat.cast_ofNat, Int.add_mul_emod_self_left]
  unfold u32 high_word
  rw [Nat.shiftRight_eq_div_pow]
  have hy : u64 (ofInt64 (signed32 a) * b) < 2 ^ 64 := Nat.mod_lt _ (by omega)
  generalize u64 (ofInt64 (signed32 a) * b) = y at hcast hy
  generalize (signed32 a * (b : Int)) % 2 ^ 64 = z at hcast
  omega

theorem signed32_eq_sub (a : Nat) :
    signed32 a = (a : Int) - 2 ^ 32 * (if a < 2 ^ 31 then 0 else 1) := by
  unfold signed32
  split_ifs <;> omega

/-- Low word of a product of two values shifted by multiples of `2^32`. -/
theorem ofInt32_mul_shift (a b : Nat) (ka kb : Int) :
    ofInt32 (((a : Int) - 2 ^ 32 * ka) * ((b : Int) - 2 ^ 32 * kb)) = (a * b) % 2 ^ 32 := by
  have e : ((a : Int) - 2 ^ 32 * ka) * ((b : Int) - 2 ^ 32 * kb) =
      ((a * b : Nat) : Int) + 2 ^ 32 * (2 ^ 32 * ka * kb - (a : Int) * kb - ka * (b : Int)) := by
    push_cast; ring
  unfold ofInt32
  rw [e, Int.add_mul_emod_self_left]
  generalize a * b = p
  omega

/-- The signed, the mixed and the unsigned product have the same low word. -/
theorem low_word_products (a b : Nat) :
    ofInt32 (signed32 a * signed32 b) = (a * b) % 2 ^ 32 ∧
    ofInt32 (signed32 a * (b : Int)) = (a * b) % 2 ^ 32 ∧
    ofInt32 ((a : Int) * (b : Int)) = (a * b) % 2 ^ 32 := by
  refine ⟨?_, ?_, ?_⟩
  · rw [signed32_eq_sub a, signed32_eq_sub b]
    exact ofInt32_mul_shift a b _ _
  · rw [signed32_eq_sub a]
    have := ofInt32_mul_shift a b (if a < 2 ^ 31 then 0 else 1) 0
    simpa using this
  · have := ofInt32_mul_shift a b 0 0
    simpa using this

theorem op_result_mulh (a b : Nat) (ha : a < 2 ^ 32) (hb : b < 2 ^ 32) :
    op_result 0x01 1 a b = some ("mulh", high_word (signed32 a * signed32 b)) := by
  simp only [op_result, ofInt32_shiftRight_32, i32_eq_signed32 a ha, i32_eq_signed32 b hb]
  simp

theorem op_result_mulhsu (a b : Nat) (ha : a < 2 ^ 32) :
    op_result 0x01 2 a b = some ("mulhsu", high_word (signed32 a * (b : Int))) := by
  simp only [op_result, mulhsu_value a b ha]
  simp

theorem op_result_mulhu (a b : Nat) :
    op_result 0x01 3 a b = some ("mulhu", high_word ((a : Int) * (b : Int))) := by
  simp only [op_result, mulhu_value a b]
  simp

/-- C15: with `x[rs1] = a` and `x[rs2] = b` 32-bit values, the results of
the M-extension multiplies (opcode 0x33, funct7 0x01) are: for `mul`
(funct3 0) the low 32 bits of the product; for `mulh` (1) bits 63..32 of
`signed(a) * signed(b)`; for `mulhsu` (2) bits 63..32 of
`signed(a) * unsigned(b)`, that is `floor(signed(a) * b / 2^32) mod 2^32`;
for `mulhu` (3) bits 63..32 of `a * b`; the products are exact and taken as
64-bit two's complement numbers, and the three products have the same low
32 bits.  The result is written to `x[rd]` (when `rd != 0`), `pc` advances
by 4 and no trap is raised. -/
theorem multiply_correct (s : State) (instruction current_pc : Nat)
    (hop : instruction &&& 0x7F = 0x33)
    (hf7 : (instruction >>> 25) &&& 0x7F = 0x01)
    (ha : s.registers ((instruction >>> 15) &&& 0x1F) < 2 ^ 32)
    (hb : s.registers ((instruction >>> 20) &&& 0x1F) < 2 ^ 32) :
    ((instruction >>> 12) &&& 0x7 = 0 →
      op_result ((instruction >>> 25) &&& 0x7F) ((instruction >>> 12) &&& 0x7)
        (s.registers ((instruction >>> 15) &&& 0x1F)) (s.registers ((instruction >>> 20) &&& 0x1F)) =
        some ("mul", (s.registers ((instruction >>> 15) &&& 0x1F) *
          s.registers ((instruction >>> 20) &&& 0x1F)) % 2 ^ 32) ∧
      ((instruction >>> 7) &&& 0x1F ≠ 0 →
        (execute_instruction s instruction current_pc).registers ((instruction >>> 7) &&& 0x1F) =
          (s.registers ((instruction >>> 15) &&& 0x1F) * s.registers ((instruction >>> 20) &&& 0x1F)) %
            2 ^ 32)) ∧
    ((instruction >>> 12) &&& 0x7 = 1 →
      op_result ((instruction >>> 25) &&& 0x7F) ((instruction >>> 12) &&& 0x7)
        (s.registers ((instruction >>> 15) &&& 0x1F)) (s.registers ((instruction >>> 20) &&& 0x1F)) =
        some ("mulh", high_word (signed32 (s.registers ((instruction >>> 15) &&& 0x1F)) *
          signed32 (s.registers ((instruction >>> 20) &&& 0x1F)))) ∧
      ((instruction >>> 7) &&& 0x1F ≠ 0 →
        (execute_instruction s instruction current_pc).registers ((instruction >>> 7) &&& 0x1F) =
          high_word (signed32 (s.registers ((instruction >>> 15) &&& 0x1F)) *
            signed32 (s.registers ((instruction >>> 20) &&& 0x1F))))) ∧
    ((instruction >>> 12) &&& 0x7 = 2 →
      op_result ((instruction >>> 25) &&& 0x7F) ((instruction >>> 12) &&& 0x7)
        (s.registers ((instruction >>> 15) &&& 0x1F)) (s.registers ((instruction >>> 20) &&& 0x1F)) =
        some ("mulhsu", high_word (signed32 (s.registers ((instruction >>> 15) &&& 0x1F)) *
          (s.registers ((instruction >>> 20) &&& 0x1F) : Int))) ∧
      high_word (signed32 (s.registers ((instruction >>> 15) &&& 0x1F)) *
          (s.registers ((instruction >>> 20) &&& 0x1F) : Int)) =
        ((signed32 (s.registers ((instruction >>> 15) &&& 0x1F)) *
          (s.registers ((instruction >>> 20) &&& 0x1F) : Int) / 2 ^ 32) % 2 ^ 32).toNat ∧
      ((instruction >>> 7) &&& 0x1F ≠ 0 →
        (execute_instruction s instruction current_pc).registers ((instruction >>> 7) &&& 0x1F) =
          high_word (signed32 (s.registers ((instruction >>> 15) &&& 0x1F)) *
            (s.registers ((instruction >>> 20) &&& 0x1F) : Int)))) ∧
    ((instruction >>> 12) &&& 0x7 = 3 →
      op_result ((instruction >>> 25) &&& 0x7F) ((instruction >>> 12) &&& 0x7)
        (s.registers ((instruction >>> 15) &&& 0x1F)) (s.registers ((instruction >>> 20) &&& 0x1F)) =
        some ("mulhu", high_word ((s.registers ((instruction >>> 15) &&& 0x1F) : Int) *
          (s.registers ((instruction >>> 20) &&& 0x1F) : Int))) ∧
      ((instruction >>> 7) &&& 0x1F ≠ 0 →
        (execute_instruction s instruction current_pc).registers ((instruction >>> 7) &&& 0x1F) =
          high_word ((s.registers ((instruction >>> 15) &&& 0x1F) : Int) *
            (s.registers ((instruction >>> 20) &&& 0x1F) : Int)))) ∧
    (ofInt32 (signed32 (s.registers ((instruction >>> 15) &&& 0x1F)) *
        signed32 (s.registers ((instruction >>> 20) &&& 0x1F))) =
      (s.registers ((instruction >>> 15) &&& 0x1F) * s.registers ((instruction >>> 20) &&& 0x1F)) %
        2 ^ 32 ∧
     ofInt32 (signed32 (s.registers ((instruction >>> 15) &&& 0x1F)) *
        (s.registers ((instruction >>> 20) &&& 0x1F) : Int)) =
      (s.registers ((instruction >>> 15) &&& 0x1F) * s.registers ((instruction >>> 20) &&& 0x1F)) %
        2 ^ 32) ∧
    (((instruction >>> 12) &&& 0x7 = 0 ∨ (instruction >>> 12) &&& 0x7 = 1 ∨
        (instruction >>> 12) &&& 0x7 = 2 ∨ (instruction >>> 12) &&& 0x7 = 3) →
      (execute_instruction s instruction current_pc).pc = (s.pc + 4) % 2 ^ 32 ∧
      (execute_instruction s instruction current_pc).trap_occurred = 0) := by
  obtain ⟨l1, l2, _⟩ := low_word_products (s.registers ((instruction >>> 15) &&& 0x1F))
    (s.registers ((instruction >>> 20) &&& 0x1F))
  have r0 : (instruction >>> 12) &&& 0x7 = 0 →
      op_result ((instruction >>> 25) &&& 0x7F) ((instruction >>> 12) &&& 0x7)
        (s.registers ((instruction >>> 15) &&& 0x1F)) (s.registers ((instruction >>> 20) &&& 0x1F)) =
        some ("mul", ((s.registers ((instruction >>> 15) &&& 0x1F)) * (s.registers ((instruction >>> 20) &&& 0x1F))) % 2 ^ 32) := by
    intro hf3
    rw [hf3, hf7]
    exact op_result_mul _ _ ha hb
  have r1 : (instruction >>> 12) &&& 0x7 = 1 →
      op_result ((instruction >>> 25) &&& 0x7F) ((instruction >>> 12) &&& 0x7)
        (s.registers ((instruction >>> 15) &&& 0x1F)) (s.registers ((instruction >>> 20) &&& 0x1F)) =
        some ("mulh", high_word (signed32 (s.registers ((instruction >>> 15) &&& 0x1F)) * signed32 (s.registers ((instruction >>> 20) &&& 0x1F)))) := by
    intro hf3
    rw [hf3, hf7]
    exact op_result_mulh _ _ ha hb
  have r2 : (instruction >>> 12) &&& 0x7 = 2 →
      op_result ((instruction >>> 25) &&& 0x7F) ((instruction >>> 12) &&& 0x7)
        (s.registers ((instruction >>> 15) &&& 0x1F)) (s.registers ((instruction >>> 20) &&& 0x1F)) =
        some ("mulhsu", high_word (signed32 (s.registers ((instruction >>> 15) &&& 0x1F)) * ((s.registers ((instruction >>> 20) &&& 0x1F)) : Int))) := by
    intro hf3
    rw [hf3, hf7]
    exact op_result_mulhsu _ _ ha
  have r3 : (instruction >>> 12) &&& 0x7 = 3 →
      op_result ((instruction >>> 25) &&& 0x7F) ((instruction >>> 12) &&& 0x7)
        (s.registers ((instruction >>> 15) &&& 0x1F)) (s.registers ((instruction >>> 20) &&& 0x1F)) =
        some ("mulhu", high_word (((s.registers ((instruction >>> 15) &&& 0x1F)) : Int) * ((s.registers ((instruction >>> 20) &&& 0x1F)) : Int))) := by
    intro hf3
    rw [hf3, hf7]
    exact op_result_mulhu _ _
  refine ⟨fun h => ⟨r0 h, fun hrd => (execute_op_some s instruction current_pc _ _ hop hrd (r0 h)).1⟩,
    fun h => ⟨r1 h, fun hrd => (execute_op_some s instruction current_pc _ _ hop hrd (r1 h)).1⟩,
    fun h => ⟨r2 h, high_word_floor _,
      fun hrd => (execute_op_some s instruction current_pc _ _ hop hrd (r2 h)).1⟩,
    fun h => ⟨r3 h, fun hrd => (execute_op_some s instruction current_pc _ _ hop hrd (r3 h)).1⟩,
    ⟨l1, l2⟩, ?_⟩
  rintro (h | h | h | h)
  · exact execute_op_retires s instruction current_pc _ _ hop (r0 h)
  · exact execute_op_retires s instruction current_pc _ _ hop (r1 h)
  · exact execute_op_retires s instruction current_pc _ _ hop (r2 h)
  · exact execute_op_retires s instruction current_pc _ _ hop (r3 h)

/-- Instance of C15 on `demo_div` with `x4 = 0xFFFFFFF9` (-7) and
`x2 = 0xFFFFFFFF`: `mul` gives 7, `mulh` gives 0, `mulhsu` gives `0xFFFFFFF9`
and `mulhu` gives `0xFFFFFFF8`. -/
theorem multiply_correct_witness :
    (0x022221B3 : Nat) &&& 0x7F = 0x33 ∧ ((0x022221B3 : Nat) >>> 25) &&& 0x7F = 0x01 ∧
    ((0x022221B3 : Nat) >>> 12) &&& 0x7 = 2 ∧
    demo_div.registers 4 < 2 ^ 32 ∧ demo_div.registers 2 < 2 ^ 32 ∧
    (execute_instruction demo_div 0x022201B3 0x80000008).registers 3 = 7 ∧
    (execute_instruction demo_div 0x022211B3 0x80000008).registers 3 = 0 ∧
    (execute_instruction demo_div 0x022221B3 0x80000008).registers 3 = 0xFFFFFFF9 ∧
    (execute_instruction demo_div 0x022231B3 0x80000008).registers 3 = 0xFFFFFFF8 ∧
    (execute_instruction demo_div 0x022221B3 0x80000008).trap_occurred = 0 :=
  ⟨by decide, by decide, by decide, by decide, by decide,
    (((multiply_correct demo_div 0x022201B3 0x80000008 (by decide) (by decide) (by decide)
      (by decide)).1 (by decide)).2 (by decide)).trans (by decide),
    (((multiply_correct demo_div 0x022211B3 0x80000008 (by decide) (by decide) (by decide)
      (by decide)).2.1 (by decide)).2 (by decide)).trans (by decide),
    (((multiply_correct demo_div 0x022221B3 0x80000008 (by decide) (by decide) (by decide)
      (by decide)).2.2.1 (by decide)).2.2 (by decide)).trans (by decide),
    (((multiply_correct demo_div 0x022231B3 0x80000008 (by decide) (by decide) (by decide)
      (by decide)).2.2.2.1 (by decide)).2 (by decide)).trans (by decide),
    ((multiply_correct demo_div 0x022221B3 0x80000008 (by decide) (by decide) (by decide)
      (by decide)).2.2.2.2.2 (by decide)).2⟩

/-! ## Set-less-than immediates -/

/-- The I-type immediate as a signed number is the signed reading of the
sign-extended field. -/
theorem imm_i_signed (instruction : Nat) (h : instruction < 2 ^ 32) :
    imm_i instruction = signed32 (sign_extend 12 (instruction >>> 20)) := by
  unfold imm_i
  rw [and_high_mask instruction h, int_shiftRight_eq_div]
  simp only [Nat.shiftRight_eq_div_pow, Nat.shiftLeft_eq]
  unfold i32 u32 sign_extend signed32
  have h1 : instruction / 2 ^ 20 < 2 ^ 12 := by omega
  have h2 : (instruction / 2 ^ 20 * 2 ^ 20) % 2 ^ 32 = instruction / 2 ^ 20 * 2 ^ 20 := by omega
  rw [h2]
  generalize instruction / 2 ^ 20 = y at h1
  simp only [Nat.cast_pow, Nat.cast_ofNat]
  split_ifs <;> omega

theorem exec_op_imm_slti (s : State) (instruction current_pc : Nat)
    (hf3 : (instruction >>> 12) &&& 0x7 = 2) :
    exec_op_imm s instruction current_pc =
      .brk (emit (write_rd s ((instruction >>> 7) &&& 0x1F)
        (if i32 (s.registers ((instruction >>> 15) &&& 0x1F)) < imm_i instruction then 1 else 0))
        current_pc "slti") 0 := by
  unfold exec_op_imm; simp [hf3]

theorem exec_op_imm_sltiu (s : State) (instruction current_pc : Nat)
    (hf3 : (instruction >>> 12) &&& 0x7 = 3) :
    exec_op_imm s instruction current_pc =
      .brk (emit (write_rd s ((instruction >>> 7) &&& 0x1F)
        (if s.registers ((instruction >>> 15) &&& 0x1F) < ofInt32 (imm_i instruction) then 1 else 0))
        current_pc "sltiu") 0 := by
  unfold exec_op_imm; simp [hf3]

/-- C16: with `x[rs1] = a` a 32-bit value and `rd != 0`, `sltiu rd, rs1, imm`
(opcode 0x13, funct3 3) leaves 1 in `x[rd]` when `a < sext12(imm)` as
unsigned 32-bit numbers and 0 otherwise, so with `imm = 0xFFF` the result is
1 exactly when `a != 0xFFFFFFFF`; `slti` (funct3 2) leaves 1 exactly when
`signed(a) < signed(sext12(imm))`.  Both advance `pc` by 4 and raise no
trap. -/
theorem slti_sltiu_correct (s : State) (instruction current_pc : Nat)
    (hinstr : instruction < 2 ^ 32)
    (hop : instruction &&& 0x7F = 0x13)
    (hrd : (instruction >>> 7) &&& 0x1F ≠ 0)
    (ha : s.registers ((instruction >>> 15) &&& 0x1F) < 2 ^ 32) :
    ((instruction >>> 12) &&& 0x7 = 3 →
      (execute_instruction s instruction current_pc).registers ((instruction >>> 7) &&& 0x1F) =
        (if s.registers ((instruction >>> 15) &&& 0x1F) < sign_extend 12 (instruction >>> 20)
          then 1 else 0) ∧
      (instruction >>> 20 = 0xFFF →
        ((execute_instruction s instruction current_pc).registers ((instruction >>> 7) &&& 0x1F) = 1 ↔
          s.registers ((instruction >>> 15) &&& 0x1F) ≠ 0xFFFFFFFF)) ∧
      (execute_instruction s instruction current_pc).pc = (s.pc + 4) % 2 ^ 32 ∧
      (execute_instruction s instruction current_pc).trap_occurred = 0) ∧
    ((instruction >>> 12) &&& 0x7 = 2 →
      (execute_instruction s instruction current_pc).registers ((instruction >>> 7) &&& 0x1F) =
        (if signed32 (s.registers ((instruction >>> 15) &&& 0x1F)) <
            signed32 (sign_extend 12 (instruction >>> 20)) then 1 else 0) ∧
      (execute_instruction s instruction current_pc).pc = (s.pc + 4) % 2 ^ 32 ∧
      (execute_instruction s instruction current_pc).trap_occurred = 0) := by
  constructor
  · intro hf3
    have hexec : execute_instruction s instruction current_pc =
        finish (.brk (emit (write_rd { s with trap_occurred := 0 } ((instruction >>> 7) &&& 0x1F)
          (if s.registers ((instruction >>> 15) &&& 0x1F) < sign_extend 12 (instruction >>> 20)
            then 1 else 0)) current_pc "sltiu") 0) := by
      unfold execute_instruction
      rw [dispatch_op_imm _ _ _ hop, exec_op_imm_sltiu _ _ _ hf3, ofInt32_imm_i instruction hinstr]
    rw [hexec]
    obtain ⟨h1, _, h3, h4⟩ := retire_emit_write s ((instruction >>> 7) &&& 0x1F)
      (if s.registers ((instruction >>> 15) &&& 0x1F) < sign_extend 12 (instruction >>> 20)
        then 1 else 0) current_pc "sltiu" hrd
    refine ⟨h1, ?_, h3, h4⟩
    intro himm
    rw [h1, himm]
    have e : sign_extend 12 0xFFF = 0xFFFFFFFF := by decide
    rw [e]
    split_ifs with hlt
    · exact ⟨fun _ => by omega, fun _ => rfl⟩
    · exact ⟨fun h => absurd h (by decide), fun h => absurd (show _ < _ by omega) hlt⟩
  · intro hf3
    have hexec : execute_instruction s instruction current_pc =
        finish (.brk (emit (write_rd { s with trap_occurred := 0 } ((instruction >>> 7) &&& 0x1F)
          (if signed32 (s.registers ((instruction >>> 15) &&& 0x1F)) <
            signed32 (sign_extend 12 (instruction >>> 20)) then 1 else 0)) current_pc "slti") 0) := by
      unfold execute_instruction
      rw [dispatch_op_imm _ _ _ hop, exec_op_imm_slti _ _ _ hf3, imm_i_signed instruction hinstr]
      simp only [i32_eq_signed32 _ ha]
    rw [hexec]
    obtain ⟨h1, _, h3, h4⟩ := retire_emit_write s ((instruction >>> 7) &&& 0x1F)
      (if signed32 (s.registers ((instruction >>> 15) &&& 0x1F)) <
        signed32 (sign_extend 12 (instruction >>> 20)) then 1 else 0) current_pc "slti" hrd
    exact ⟨h1, h3, h4⟩

/-- Instance of C16 with `imm = 0xFFF`: `sltiu x3, x1, -1` on
`x1 = 0x800FFFFC` gives 1, `sltiu x3, x2, -1` on `x2 = 0xFFFFFFFF` gives 0,
and `slti x3, x1, -1` on `x1 = 0x800FFFFC` gives 1. -/
theorem slti_sltiu_correct_witness :
    (0xFFF0B193 : Nat) < 2 ^ 32 ∧ (0xFFF0B193 : Nat) &&& 0x7F = 0x13 ∧
    ((0xFFF0B193 : Nat) >>> 7) &&& 0x1F ≠ 0 ∧ ((0xFFF0B193 : Nat) >>> 12) &&& 0x7 = 3 ∧
    ((0xFFF0A193 : Nat) >>> 12) &&& 0x7 = 2 ∧ demo_state.registers 1 < 2 ^ 32 ∧
    (execute_instruction demo_state 0xFFF0B193 0x80000008).registers 3 = 1 ∧
    (execute_instruction demo_div 0xFFF13193 0x80000008).registers 3 = 0 ∧
    (execute_instruction demo_state 0xFFF0A193 0x80000008).registers 3 = 1 :=
  ⟨by decide, by decide, by decide, by decide, by decide, by decide,
    ((slti_sltiu_correct demo_state 0xFFF0B193 0x80000008 (by decide) (by decide) (by decide)
      (by decide)).1 (by decide)).1.trans (by decide),
    ((slti_sltiu_correct demo_div 0xFFF13193 0x80000008 (by decide) (by decide) (by decide)
      (by decide)).1 (by decide)).1.trans (by decide),
    ((slti_sltiu_correct demo_state 0xFFF0A193 0x80000008 (by decide) (by decide) (by decide)
      (by decide)).2 (by decide)).1.trans (by decide)⟩

/-! ## Branch and jump offsets -/

/-- A bitwise OR of a multiple of `2^k` with a value below `2^k` is their sum. -/
theorem lor_eq_add_of_disjoint (hi lo k : Nat) (hhi : hi % 2 ^ k = 0) (hlo : lo < 2 ^ k) :
    hi ||| lo = hi + lo := by
  have e : hi = 2 ^ k * (hi / 2 ^ k) := by
    have := Nat.div_add_mod hi (2 ^ k)
    omega
  rw [e]
  exact (Nat.mul_add_lt_is_or hlo _).symm

theorem and_one_eq_mod (x : Nat) : x &&& 1 = x % 2 :=
  Nat.and_pow_two_sub_one_eq_mod x 1

theorem and_f_eq_mod (x : Nat) : x &&& 0xF = x % 16 :=
  Nat.and_pow_two_sub_one_eq_mod x 4

theorem and_3f_eq_mod (x : Nat) : x &&& 0x3F = x % 64 :=
  Nat.and_pow_two_sub_one_eq_mod x 6

theorem and_3ff_eq_mod (x : Nat) : x &&& 0x3FF = x % 1024 :=
  Nat.and_pow_two_sub_one_eq_mod x 10

/-- The value assembled by the branch case before the sign extension is the
13-bit B-type field. -/
theorem b_type_assembled (instruction : Nat) :
    ((((instruction >>> 31) &&& 1) <<< 12) ||| (((instruction >>> 7) &&& 1) <<< 11) |||
      (((instruction >>> 25) &&& 0x3F) <<< 5) ||| (((instruction >>> 8) &&& 0xF) <<< 1)) =
      b_type_field instruction := by
  unfold b_type_field
  simp only [and_one_eq_mod, and_3f_eq_mod, and_f_eq_mod, Nat.shiftRight_eq_div_pow,
    Nat.shiftLeft_eq]
  have ha : instruction / 2 ^ 31 % 2 < 2 := Nat.mod_lt _ (by decide)
  have hb : instruction / 2 ^ 7 % 2 < 2 := Nat.mod_lt _ (by decide)
  have hc : instruction / 2 ^ 25 % 64 < 64 := Nat.mod_lt _ (by decide)
  have hd : instruction / 2 ^ 8 % 16 < 16 := Nat.mod_lt _ (by decide)
  generalize instruction / 2 ^ 31 % 2 = a at ha
  generalize instruction / 2 ^ 7 % 2 = b at hb
  generalize instruction / 2 ^ 25 % 64 = c at hc
  generalize instruction / 2 ^ 8 % 16 = d at hd
  rw [lor_eq_add_of_disjoint (a * 2 ^ 12) (b * 2 ^ 11) 12 (by omega) (by omega),
    lor_eq_add_of_disjoint (a * 2 ^ 12 + b * 2 ^ 11) (c * 2 ^ 5) 11 (by omega) (by omega),
    lor_eq_add_of_disjoint (a * 2 ^ 12 + b * 2 ^ 11 + c * 2 ^ 5) (d * 2 ^ 1) 5 (by omega) (by omega)]

theorem b_type_field_lt (instruction : Nat) :
    b_type_field instruction < 2 ^ 13 ∧ b_type_field instruction % 2 = 0 := by
  unfold b_type_field
  have ha : instruction / 2 ^ 31 % 2 < 2 := Nat.mod_lt _ (by decide)
  have hb : instruction / 2 ^ 7 % 2 < 2 := Nat.mod_lt _ (by decide)
  have hc : instruction / 2 ^ 25 % 2 ^ 6 < 2 ^ 6 := Nat.mod_lt _ (by decide)
  have hd : instruction / 2 ^ 8 % 2 ^ 4 < 2 ^ 4 := Nat.mod_lt _ (by decide)
  constructor <;> omega

/-- The branch offset as a signed number, in terms of the B-type field. -/
theorem imm_b_value (instruction : Nat) :
    imm_b instruction =
      if b_type_field instruction < 2 ^ 12 then (b_type_field instruction : Int)
      else (b_type_field instruction : Int) - 2 ^ 13 := by
  obtain ⟨hlt, _⟩ := b_type_field_lt instruction
  unfold imm_b
  simp only [b_type_assembled]
  rw [int_shiftRight_eq_div]
  generalize b_type_field instruction = v at hlt
  unfold i32 u32
  simp only [Nat.shiftLeft_eq, Nat.cast_pow, Nat.cast_ofNat]
  have h1 : v % 2 ^ 32 = v := by omega
  rw [h1]
  have h2 : (v * 2 ^ 19) % 2 ^ 32 = v * 2 ^ 19 := by omega
  rw [h2]
  split_ifs <;> omega

/-- C17: the branch offset the executor computes for an instruction word is
the 13-bit value `{inst[31], inst[7], inst[30:25], inst[11:8], 0}`
sign-extended from its bit 12 to 32 bits; it is even and, as a signed number,
lies in `[-4096, 4094]`. -/
theorem branch_offset_correct (instruction : Nat) :
    ofInt32 (imm_b instruction) = sign_extend 13 (b_type_field instruction) ∧
    imm_b instruction = signed32 (sign_extend 13 (b_type_field instruction)) ∧
    imm_b instruction % 2 = 0 ∧ ofInt32 (imm_b instruction) % 2 = 0 ∧
    -4096 ≤ imm_b instruction ∧ imm_b instruction ≤ 4094 := by
  obtain ⟨hlt, heven⟩ := b_type_field_lt instruction
  rw [imm_b_value]
  generalize b_type_field instruction = v at hlt heven
  unfold ofInt32 sign_extend signed32
  refine ⟨?_, ?_, ?_, ?_, ?_, ?_⟩ <;> split_ifs <;> omega

/-- The value assembled by the `jal` case before the sign extension is the
21-bit J-type field. -/
theorem j_type_assembled (instruction : Nat) :
    ((((instruction >>> 31) &&& 1) <<< 20) ||| (((instruction >>> 12) &&& 0xFF) <<< 12) |||
      (((instruction >>> 20) &&& 1) <<< 11) ||| (((instruction >>> 21) &&& 0x3FF) <<< 1)) =
      j_type_field instruction := by
  unfold j_type_field
  simp only [and_one_eq_mod, and_ff_eq_mod, and_3ff_eq_mod, Nat.shiftRight_eq_div_pow,
    Nat.shiftLeft_eq]
  have ha : instruction / 2 ^ 31 % 2 < 2 := Nat.mod_lt _ (by decide)
  have hb : instruction / 2 ^ 12 % 256 < 256 := Nat.mod_lt _ (by decide)
  have hc : instruction / 2 ^ 20 % 2 < 2 := Nat.mod_lt _ (by decide)
  have hd : instruction / 2 ^ 21 % 1024 < 1024 := Nat.mod_lt _ (by decide)
  generalize instruction / 2 ^ 31 % 2 = a at ha
  generalize instruction / 2 ^ 12 % 256 = b at hb
  generalize instruction / 2 ^ 20 % 2 = c at hc
  generalize instruction / 2 ^ 21 % 1024 = d at hd
  rw [lor_eq_add_of_disjoint (a * 2 ^ 20) (b * 2 ^ 12) 20 (by omega) (by omega),
    lor_eq_add_of_disjoint (a * 2 ^ 20 + b * 2 ^ 12) (c * 2 ^ 11) 12 (by omega) (by omega),
    lor_eq_add_of_disjoint (a * 2 ^ 20 + b * 2 ^ 12 + c * 2 ^ 11) (d * 2 ^ 1) 11 (by omega) (by omega)]

theorem j_type_field_lt (instruction : Nat) :
    j_type_field instruction < 2 ^ 21 ∧ j_type_field instruction % 2 = 0 := by
  unfold j_type_field
  have ha : instruction / 2 ^ 31 % 2 < 2 := Nat.mod_lt _ (by decide)
  have hb : instruction / 2 ^ 12 % 2 ^ 8 < 2 ^ 8 := Nat.mod_lt _ (by decide)
  have hc : instruction / 2 ^ 20 % 2 < 2 := Nat.mod_lt _ (by decide)
  have hd : instruction / 2 ^ 21 % 2 ^ 10 < 2 ^ 10 := Nat.mod_lt _ (by decide)
  constructor <;> omega

/-- The jump offset as a signed number, in terms of the J-type field. -/
theorem imm_j_value (instruction : Nat) :
    imm_j instruction =
      if j_type_field instruction < 2 ^ 20 then (j_type_field instruction : Int)
      else (j_type_field instruction : Int) - 2 ^ 21 := by
  obtain ⟨hlt, _⟩ := j_type_field_lt instruction
  unfold imm_j
  simp only [j_type_assembled]
  rw [int_shiftRight_eq_div]
  generalize j_type_field instruction = v at hlt
  unfold i32 u32
  simp only [Nat.shiftLeft_eq, Nat.cast_pow, Nat.cast_ofNat]
  have h1 : v % 2 ^ 32 = v := by omega
  rw [h1]
  have h2 : (v * 2 ^ 11) % 2 ^ 32 = v * 2 ^ 11 := by omega
  rw [h2]
  split_ifs <;> omega

/-- C18: the jump offset the executor computes for an instruction word is
the 21-bit value `{inst[31], inst[19:12], inst[20], inst[30:21], 0}`
sign-extended from its bit 20 to 32 bits; it is even and, as a signed number,
lies in `[-2^20, 2^20 - 2]`. -/
theorem jump_offset_correct (instruction : Nat) :
    ofInt32 (imm_j instruction) = sign_extend 21 (j_type_field instruction) ∧
    imm_j instruction = signed32 (sign_extend 21 (j_type_field instruction)) ∧
    imm_j instruction % 2 = 0 ∧ ofInt32 (imm_j instruction) % 2 = 0 ∧
    -2 ^ 20 ≤ imm_j instruction ∧ imm_j instruction ≤ 2 ^ 20 - 2 := by
  obtain ⟨hlt, heven⟩ := j_type_field_lt instruction
  rw [imm_j_value]
  generalize j_type_field instruction = v at hlt heven
  unfold ofInt32 sign_extend signed32
  refine ⟨?_, ?_, ?_, ?_, ?_, ?_⟩ <;> split_ifs <;> omega

/-! ## Jumps -/

theorem finish_brk_updated (t : State) : finish (.brk t 1) = t := by
  simp [finish]

theorem u32_add_ofInt32 (p : Nat) (off : Int) :
    u32 (p + ofInt32 off) = (((p : Int) + off) % 2 ^ 32).toNat := by
  unfold u32 ofInt32
  omega

/-- C19: a `jal` (opcode 0x6F) executed at pc `p` with decoded offset `off`
leaves `pc == (p + off) mod 2^32`; with `rd != 0` it leaves
`x[rd] == (p + 4) mod 2^32` and every other register unchanged; with
`rd == 0` no register changes; no trap is raised. -/
theorem jal_correct (s : State) (instruction p : Nat)
    (hop : instruction &&& 0x7F = 0x6F) :
    (execute_instruction s instruction p).pc = (((p : Int) + imm_j instruction) % 2 ^ 32).toNat ∧
    (execute_instruction s instruction p).pc =
      (p + sign_extend 21 (j_type_field instruction)) % 2 ^ 32 ∧
    ((instruction >>> 7) &&& 0x1F ≠ 0 →
      (execute_instruction s instruction p).registers ((instruction >>> 7) &&& 0x1F) =
        (p + 4) % 2 ^ 32 ∧
      ∀ i, i ≠ (instruction >>> 7) &&& 0x1F →
        (execute_instruction s instruction p).registers i = s.registers i) ∧
    ((instruction >>> 7) &&& 0x1F = 0 →
      ∀ i, (execute_instruction s instruction p).registers i = s.registers i) ∧
    (execute_instruction s instruction p).trap_occurred = 0 := by
  have hexec : execute_instruction s instruction p =
      emit { write_rd { s with trap_occurred := 0 } ((instruction >>> 7) &&& 0x1F) (u32 (p + 4)) with
        pc := u32 (p + ofInt32 (imm_j instruction)) } p "jal" := by
    unfold execute_instruction
    rw [dispatch_jal _ _ _ hop]
    unfold exec_jal
    simp only [finish_brk_updated]
  rw [hexec]
  refine ⟨?_, ?_, ?_, ?_, ?_⟩
  · exact u32_add_ofInt32 p _
  · show u32 (p + ofInt32 (imm_j instruction)) = _
    have hv := imm_j_value instruction
    obtain ⟨hlt, _⟩ := j_type_field_lt instruction
    generalize j_type_field instruction = v at hv hlt
    rw [hv]
    unfold u32 ofInt32 sign_extend
    split_ifs <;> omega
  · intro hrd
    constructor
    · simp [write_rd_registers, hrd, setAt, u32]
    · intro i hi
      simp [write_rd_registers, hrd, setAt, hi]
  · intro hrd i
    simp [write_rd_registers, hrd]
  · simp

/-- Instance of C19: `jal x1, -4` (word `0xFFDFF0EF`) and `jal x0, -4` (word
`0xFFDFF06F`) executed at `0x80000008`. -/
theorem jal_correct_witness :
    (0xFFDFF0EF : Nat) &&& 0x7F = 0x6F ∧ (0xFFDFF06F : Nat) &&& 0x7F = 0x6F ∧
    (execute_instruction demo_state 0xFFDFF0EF 0x80000008).pc = 0x80000004 ∧
    (execute_instruction demo_state 0xFFDFF0EF 0x80000008).registers 1 = 0x8000000C ∧
    (execute_instruction demo_state 0xFFDFF06F 0x80000008).pc = 0x80000004 ∧
    (execute_instruction demo_state 0xFFDFF06F 0x80000008).registers 1 = 0x800FFFFC ∧
    (execute_instruction demo_state 0xFFDFF06F 0x80000008).trap_occurred = 0 :=
  ⟨by decide, by decide,
    (jal_correct demo_state 0xFFDFF0EF 0x80000008 (by decide)).1.trans (by decide),
    ((jal_correct demo_state 0xFFDFF0EF 0x80000008 (by decide)).2.2.1 (by decide)).1.trans
      (by decide),
    (jal_correct demo_state 0xFFDFF06F 0x80000008 (by decide)).1.trans (by decide),
    ((jal_correct demo_state 0xFFDFF06F 0x80000008 (by decide)).2.2.2.1 (by decide)) 1,
    (jal_correct demo_state 0xFFDFF06F 0x80000008 (by decide)).2.2.2.2⟩

theorem and_fffffffe_eq (x : Nat) : x &&& 0xFFFFFFFE = x &&& not32 0x1 := by
  have e : not32 0x1 = 0xFFFFFFFE := by decide
  rw [e]

/-- C20: a `jalr` (opcode 0x67) executed at pc `p` with `x[rs1] = v` before
the instruction and 12-bit immediate `imm` leaves
`pc == ((v + sext12(imm)) mod 2^32) & ~1` and, with `rd != 0`,
`x[rd] == p + 4` (modulo `2^32`); the target is computed from the old value
of `x[rs1]`, also when `rd == rs1`; no trap is raised, whatever the
alignment of the target. -/
theorem jalr_correct (s : State) (instruction p : Nat)
    (hinstr : instruction < 2 ^ 32)
    (hop : instruction &&& 0x7F = 0x67) :
    (execute_instruction s instruction p).pc =
      ((s.registers ((instruction >>> 15) &&& 0x1F) + sign_extend 12 (instruction >>> 20)) % 2 ^ 32) &&&
        not32 0x1 ∧
    ((instruction >>> 7) &&& 0x1F ≠ 0 →
      (execute_instruction s instruction p).registers ((instruction >>> 7) &&& 0x1F) =
        (p + 4) % 2 ^ 32 ∧
      (p + 4 < 2 ^ 32 →
        (execute_instruction s instruction p).registers ((instruction >>> 7) &&& 0x1F) = p + 4) ∧
      ∀ i, i ≠ (instruction >>> 7) &&& 0x1F →
        (execute_instruction s instruction p).registers i = s.registers i) ∧
    ((instruction >>> 7) &&& 0x1F = 0 →
      ∀ i, (execute_instruction s instruction p).registers i = s.registers i) ∧
    (execute_instruction s instruction p).trap_occurred = 0 := by
  have hexec : execute_instruction s instruction p =
      emit { write_rd { s with trap_occurred := 0 } ((instruction >>> 7) &&& 0x1F) (u32 (p + 4)) with
        pc := u32 (s.registers ((instruction >>> 15) &&& 0x1F) + ofInt32 (imm_i instruction)) &&&
          0xFFFFFFFE } p "jalr" := by
    unfold execute_instruction
    rw [dispatch_jalr _ _ _ hop]
    unfold exec_jalr
    simp only [finish_brk_updated]
  rw [hexec]
  refine ⟨?_, ?_, ?_, ?_⟩
  · show u32 (s.registers ((instruction >>> 15) &&& 0x1F) + ofInt32 (imm_i instruction)) &&&
      0xFFFFFFFE = _
    rw [ofInt32_imm_i instruction hinstr, and_fffffffe_eq]
    rfl
  · intro hrd
    refine ⟨?_, ?_, ?_⟩
    · simp [write_rd_registers, hrd, setAt, u32]
    · intro hlt
      simp [write_rd_registers, hrd, setAt, u32]
      omega
    · intro i hi
      simp [write_rd_registers, hrd, setAt, hi]
  · intro hrd i
    simp [write_rd_registers, hrd]
  · simp

/-- Instance of C20 with `rd == rs1`: `jalr x1, 3(x1)` (word `0x003080E7`) at
`0x80000008` with `x1 = 0x800FFFFC` jumps to `0x800FFFFE`, which is not
4-byte aligned, and leaves `x1 = 0x8000000C`. -/
theorem jalr_correct_witness :
    (0x003080E7 : Nat) < 2 ^ 32 ∧ (0x003080E7 : Nat) &&& 0x7F = 0x67 ∧
    ((0x003080E7 : Nat) >>> 7) &&& 0x1F = ((0x003080E7 : Nat) >>> 15) &&& 0x1F ∧
    (execute_instruction demo_state 0x003080E7 0x80000008).pc = 0x800FFFFE ∧
    (execute_instruction demo_state 0x003080E7 0x80000008).registers 1 = 0x8000000C ∧
    (execute_instruction demo_state 0x003080E7 0x80000008).trap_occurred = 0 :=
  ⟨by decide, by decide, by decide,
    (jalr_correct demo_state 0x003080E7 0x80000008 (by decide) (by decide)).1.trans (by decide),
    ((jalr_correct demo_state 0x003080E7 0x80000008 (by decide) (by decide)).2.1 (by decide)).1.trans
      (by decide),
    (jalr_correct demo_state 0x003080E7 0x80000008 (by decide) (by decide)).2.2.2⟩

/-! ## Branches -/

theorem signed32_inj (a b : Nat) (ha : a < 2 ^ 32) (hb : b < 2 ^ 32) :
    signed32 a = signed32 b ↔ a = b := by
  unfold signed32
  split_ifs <;> constructor <;> intro h <;> omega

/-- The branch case for the six branch encodings, in terms of `branch_taken`. -/
theorem exec_branch_taken (s : State) (instruction current_pc : Nat)
    (hf3 : (instruction >>> 12) &&& 0x7 = 0 ∨ (instruction >>> 12) &&& 0x7 = 1 ∨
      (instruction >>> 12) &&& 0x7 = 4 ∨ (instruction >>> 12) &&& 0x7 = 5 ∨
      (instruction >>> 12) &&& 0x7 = 6 ∨ (instruction >>> 12) &&& 0x7 = 7)
    (ha : s.registers ((instruction >>> 15) &&& 0x1F) < 2 ^ 32)
    (hb : s.registers ((instruction >>> 20) &&& 0x1F) < 2 ^ 32) :
    ∃ name, exec_branch s instruction current_pc =
      if branch_taken ((instruction >>> 12) &&& 0x7) (s.registers ((instruction >>> 15) &&& 0x1F))
          (s.registers ((instruction >>> 20) &&& 0x1F)) = true
      then .brk { emit s current_pc name with pc := u32 (current_pc + ofInt32 (imm_b instruction)) } 1
      else .brk (emit s current_pc name) 0 := by
  have hinj := signed32_inj _ _ ha hb
  unfold exec_branch branch_taken
  simp only [i32_eq_signed32 _ ha, i32_eq_signed32 _ hb]
  rcases hf3 with h | h | h | h | h | h <;> rw [h]
  · exact ⟨"beq", by simp [hinj]⟩
  · exact ⟨"bne", by simp [hinj]⟩
  · exact ⟨"blt", by simp⟩
  · exact ⟨"bge", by simp⟩
  · exact ⟨"bltu", by simp⟩
  · exact ⟨"bgeu", by simp⟩

/-- C21: a branch (opcode 0x63, funct3 in {0,1,4,5,6,7}) executed at pc `p`
with `x[rs1] = a`, `x[rs2] = b` 32-bit values and decoded offset `off` tests
`a == b` (beq), `a != b` (bne), `signed(a) < signed(b)` (blt),
`signed(a) >= signed(b)` (bge), `a < b` unsigned (bltu), `a >= b` unsigned
(bgeu); afterwards `pc == (p + off) mod 2^32` if the condition holds and
`p + 4` otherwise; no register, CSR or memory byte changes and no trap is
raised. -/
theorem branch_correct (s : State) (instruction p : Nat)
    (hop : instruction &&& 0x7F = 0x63)
    (hf3 : (instruction >>> 12) &&& 0x7 = 0 ∨ (instruction >>> 12) &&& 0x7 = 1 ∨
      (instruction >>> 12) &&& 0x7 = 4 ∨ (instruction >>> 12) &&& 0x7 = 5 ∨
      (instruction >>> 12) &&& 0x7 = 6 ∨ (instruction >>> 12) &&& 0x7 = 7)
    (ha : s.registers ((instruction >>> 15) &&& 0x1F) < 2 ^ 32)
    (hb : s.registers ((instruction >>> 20) &&& 0x1F) < 2 ^ 32)
    (hpc : s.pc = p) :
    (execute_instruction s instruction p).pc =
      (if branch_taken ((instruction >>> 12) &&& 0x7) (s.registers ((instruction >>> 15) &&& 0x1F))
          (s.registers ((instruction >>> 20) &&& 0x1F)) = true
       then (((p : Int) + imm_b instruction) % 2 ^ 32).toNat
       else (p + 4) % 2 ^ 32) ∧
    (execute_instruction s instruction p).registers = s.registers ∧
    (execute_instruction s instruction p).csrs = s.csrs ∧
    (execute_instruction s instruction p).memory = s.memory ∧
    (execute_instruction s instruction p).trap_occurred = 0 := by
  obtain ⟨name, hexec⟩ := exec_branch_taken { s with trap_occurred := 0 } instruction p hf3 ha hb
  unfold execute_instruction
  rw [dispatch_branch _ _ _ hop, hexec]
  split_ifs with hc
  · rw [finish_brk_updated]
    exact ⟨u32_add_ofInt32 p _, rfl, rfl, rfl, rfl⟩
  · rw [finish_brk_clear _ rfl]
    refine ⟨?_, rfl, rfl, rfl, rfl⟩
    show u32 (s.pc + 4) = _
    rw [hpc]; rfl

/-- Instance of C21 on `demo_div` (`x4 = 0xFFFFFFF9`, `x5 = 2`, `pc = 0x80000008`):
`blt x4, x5, -4` is taken (-7 < 2) and `bltu x4, x5, -4` is not. -/
theorem branch_correct_witness :
    (0xFE524EE3 : Nat) &&& 0x7F = 0x63 ∧ ((0xFE524EE3 : Nat) >>> 12) &&& 0x7 = 4 ∧
    ((0xFE526EE3 : Nat) >>> 12) &&& 0x7 = 6 ∧
    demo_div.registers 4 < 2 ^ 32 ∧ demo_div.registers 5 < 2 ^ 32 ∧ demo_div.pc = 0x80000008 ∧
    (execute_instruction demo_div 0xFE524EE3 0x80000008).pc = 0x80000004 ∧
    (execute_instruction demo_div 0xFE526EE3 0x80000008).pc = 0x8000000C ∧
    (execute_instruction demo_div 0xFE526EE3 0x80000008).registers = demo_div.registers :=
  ⟨by decide, by decide, by decide, by decide, by decide, rfl,
    (branch_correct demo_div 0xFE524EE3 0x80000008 (by decide) (by decide) (by decide) (by decide)
      rfl).1.trans (by decide),
    (branch_correct demo_div 0xFE526EE3 0x80000008 (by decide) (by decide) (by decide) (by decide)
      rfl).1.trans (by decide),
    (branch_correct demo_div 0xFE526EE3 0x80000008 (by decide) (by decide) (by decide) (by decide)
      rfl).2.1⟩

/-! ## addi and lui -/

theorem exec_op_imm_addi (s : State) (instruction current_pc : Nat)
    (hf3 : (instruction >>> 12) &&& 0x7 = 0) :
    exec_op_imm s instruction current_pc =
      .brk (emit (write_rd s ((instruction >>> 7) &&& 0x1F)
        (u32 (s.registers ((instruction >>> 15) &&& 0x1F) + ofInt32 (imm_i instruction))))
        current_pc "addi") 0 := by
  unfold exec_op_imm; simp [hf3]

/-- An `addi` with `rd != 0` retires with `x[rs1] + sext(inst[31:20])` in `x[rd]`. -/
theorem execute_addi (s : State) (instruction current_pc : Nat)
    (hinstr : instruction < 2 ^ 32)
    (hop : instruction &&& 0x7F = 0x13)
    (hf3 : (instruction >>> 12) &&& 0x7 = 0)
    (hrd : (instruction >>> 7) &&& 0x1F ≠ 0) :
    (execute_instruction s instruction current_pc).registers ((instruction >>> 7) &&& 0x1F) =
      (s.registers ((instruction >>> 15) &&& 0x1F) + sign_extend 12 (instruction >>> 20)) % 2 ^ 32 ∧
    (∀ i, i ≠ (instruction >>> 7) &&& 0x1F →
      (execute_instruction s instruction current_pc).registers i = s.registers i) ∧
    (execute_instruction s instruction current_pc).pc = (s.pc + 4) % 2 ^ 32 ∧
    (execute_instruction s instruction current_pc).trap_occurred = 0 := by
  have hexec : execute_instruction s instruction current_pc =
      finish (.brk (emit (write_rd { s with trap_occurred := 0 } ((instruction >>> 7) &&& 0x1F)
        ((s.registers ((instruction >>> 15) &&& 0x1F) + sign_extend 12 (instruction >>> 20)) % 2 ^ 32))
        current_pc "addi") 0) := by
    unfold execute_instruction
    rw [dispatch_op_imm _ _ _ hop, exec_op_imm_addi _ _ _ hf3, ofInt32_imm_i instruction hinstr]
    rfl
  rw [hexec]
  exact retire_emit_write s _ _ current_pc "addi" hrd

/-- C22: an `addi rd, rs1, imm` (opcode 0x13, funct3 0) with `rd != 0`
executed at pc `p` with `x[rs1] = v` leaves
`x[rd] == (v + sext(inst[31:20])) mod 2^32`, the 12-bit immediate being
sign-extended from bit 31 of the instruction, `pc == p + 4` (modulo `2^32`)
and raises no trap. -/
theorem addi_correct (s : State) (instruction p : Nat)
    (hinstr : instruction < 2 ^ 32)
    (hop : instruction &&& 0x7F = 0x13)
    (hf3 : (instruction >>> 12) &&& 0x7 = 0)
    (hrd : (instruction >>> 7) &&& 0x1F ≠ 0)
    (hpc : s.pc = p) :
    (execute_instruction s instruction p).registers ((instruction >>> 7) &&& 0x1F) =
      (s.registers ((instruction >>> 15) &&& 0x1F) + sign_extend 12 (instruction >>> 20)) % 2 ^ 32 ∧
    (execute_instruction s instruction p).pc = (p + 4) % 2 ^ 32 ∧
    (execute_instruction s instruction p).trap_occurred = 0 := by
  obtain ⟨h1, _, h3, h4⟩ := execute_addi s instruction p hinstr hop hf3 hrd
  rw [hpc] at h3
  exact ⟨h1, h3, h4⟩

/-- Instance of C22: the word `0xFFF00293` (`addi t0, zero, -1`) at pc
`0x80000000` in the initial state leaves `x5 == 0xFFFFFFFF` and
`pc == 0x80000004`. -/
theorem addi_correct_witness :
    (0xFFF00293 : Nat) < 2 ^ 32 ∧ (0xFFF00293 : Nat) &&& 0x7F = 0x13 ∧
    ((0xFFF00293 : Nat) >>> 12) &&& 0x7 = 0 ∧ ((0xFFF00293 : Nat) >>> 7) &&& 0x1F ≠ 0 ∧
    (init (fun _ => 0) []).pc = 0x80000000 ∧
    (execute_instruction (init (fun _ => 0) []) 0xFFF00293 0x80000000).registers 5 = 0xFFFFFFFF ∧
    (execute_instruction (init (fun _ => 0) []) 0xFFF00293 0x80000000).pc = 0x80000004 ∧
    (execute_instruction (init (fun _ => 0) []) 0xFFF00293 0x80000000).trap_occurred = 0 :=
  ⟨by decide, by decide, by decide, by decide, rfl,
    (addi_correct (init (fun _ => 0) []) 0xFFF00293 0x80000000 (by decide) (by decide) (by decide)
      (by decide) rfl).1.trans (by decide),
    (addi_correct (init (fun _ => 0) []) 0xFFF00293 0x80000000 (by decide) (by decide) (by decide)
      (by decide) rfl).2.1.trans (by decide),
    (addi_correct (init (fun _ => 0) []) 0xFFF00293 0x80000000 (by decide) (by decide) (by decide)
      (by decide) rfl).2.2⟩

/-- A `lui` with `rd != 0` retires with `inst & 0xFFFFF000` in `x[rd]`. -/
theorem execute_lui (s : State) (instruction current_pc : Nat)
    (hop : instruction &&& 0x7F = 0x37)
    (hrd : (instruction >>> 7) &&& 0x1F ≠ 0) :
    (execute_instruction s instruction current_pc).registers ((instruction >>> 7) &&& 0x1F) =
      instruction &&& 0xFFFFF000 ∧
    (∀ i, i ≠ (instruction >>> 7) &&& 0x1F →
      (execute_instruction s instruction current_pc).registers i = s.registers i) ∧
    (execute_instruction s instruction current_pc).pc = (s.pc + 4) % 2 ^ 32 ∧
    (execute_instruction s instruction current_pc).trap_occurred = 0 := by
  have hexec : execute_instruction s instruction current_pc =
      finish (.brk (emit (write_rd { s with trap_occurred := 0 } ((instruction >>> 7) &&& 0x1F)
        (instruction &&& 0xFFFFF000)) current_pc "lui") 0) := by
    unfold execute_instruction
    rw [dispatch_lui _ _ _ hop]
    rfl
  rw [hexec]
  exact retire_emit_write s _ _ current_pc "lui" hrd

theorem and_7f_eq_mod (x : Nat) : x &&& 0x7F = x % 128 :=
  Nat.and_pow_two_sub_one_eq_mod x 7

theorem and_7_eq_mod (x : Nat) : x &&& 0x7 = x % 8 :=
  Nat.and_pow_two_sub_one_eq_mod x 3

theorem and_upper_mask (x : Nat) (hx : x < 2 ^ 32) : x &&& 0xFFFFF000 = (x >>> 12) <<< 12 := by
  apply Nat.eq_of_testBit_eq
  intro i
  have hm : (0xFFFFF000 : Nat) = (2 ^ 20 - 1) <<< 12 := by decide
  rw [hm]
  simp only [Nat.testBit_and, Nat.testBit_shiftLeft, Nat.testBit_shiftRight,
    Nat.testBit_two_pow_sub_one]
  by_cases h12 : 12 ≤ i
  · by_cases h32 : i < 32
    · have : i - 12 < 20 := by omega
      simp [h12, this]
    · have hlt : x < 2 ^ i := lt_of_lt_of_le hx (Nat.pow_le_pow_right (by decide) (by omega))
      have e : 12 + (i - 12) = i := by omega
      simp [h12, Nat.testBit_lt_two_pow hlt, e]
  · simp [h12]

/-- The fields the executor decodes from the word of `lui rd, hi`. -/
theorem enc_lui_fields (rd hi : Nat) (hrd : rd < 32) (hhi : hi < 2 ^ 20) :
    enc_lui rd hi &&& 0x7F = 0x37 ∧ (enc_lui rd hi >>> 7) &&& 0x1F = rd ∧
    enc_lui rd hi &&& 0xFFFFF000 = hi <<< 12 := by
  have hlt : enc_lui rd hi < 2 ^ 32 := by unfold enc_lui; omega
  rw [and_upper_mask _ hlt, and_7f_eq_mod, and_1f_eq_mod]
  simp only [Nat.shiftRight_eq_div_pow, Nat.shiftLeft_eq]
  unfold enc_lui
  refine ⟨?_, ?_, ?_⟩ <;> omega

/-- The fields the executor decodes from the word of `addi rd, rs1, lo`. -/
theorem enc_addi_fields (rd rs1 lo : Nat) (hrd : rd < 32) (hrs1 : rs1 < 32) (hlo : lo < 2 ^ 12) :
    enc_addi rd rs1 lo < 2 ^ 32 ∧ enc_addi rd rs1 lo &&& 0x7F = 0x13 ∧
    (enc_addi rd rs1 lo >>> 7) &&& 0x1F = rd ∧ (enc_addi rd rs1 lo >>> 12) &&& 0x7 = 0 ∧
    (enc_addi rd rs1 lo >>> 15) &&& 0x1F = rs1 ∧ enc_addi rd rs1 lo >>> 20 = lo := by
  rw [and_7f_eq_mod, and_1f_eq_mod, and_1f_eq_mod, and_7_eq_mod]
  simp only [Nat.shiftRight_eq_div_pow]
  unfold enc_addi
  refine ⟨?_, ?_, ?_, ?_, ?_, ?_⟩ <;> omega

/-- C23: for a 20-bit `hi`, a 12-bit `lo` and `rd != 0`, `lui rd, hi` sets
`x[rd]` to `inst & 0xFFFFF000`, that is `hi << 12`, and `lui rd, hi` followed
by `addi rd, rd, lo` leaves `x[rd] == ((hi << 12) + sext12(lo)) mod 2^32`. -/
theorem lui_addi_correct (s : State) (rd hi lo p1 p2 : Nat)
    (hrd : rd < 32) (hrd0 : rd ≠ 0) (hhi : hi < 2 ^ 20) (hlo : lo < 2 ^ 12) :
    (execute_instruction s (enc_lui rd hi) p1).registers rd = enc_lui rd hi &&& 0xFFFFF000 ∧
    (execute_instruction s (enc_lui rd hi) p1).registers rd = hi <<< 12 ∧
    (execute_instruction (execute_instruction s (enc_lui rd hi) p1) (enc_addi rd rd lo) p2).registers rd =
      ((hi <<< 12) + sign_extend 12 lo) % 2 ^ 32 := by
  obtain ⟨l1, l2, l3⟩ := enc_lui_fields rd hi hrd hhi
  obtain ⟨a1, a2, a3, a4, a5, a6⟩ := enc_addi_fields rd rd lo hrd hrd hlo
  have hl := (execute_lui s (enc_lui rd hi) p1 l1 (by rw [l2]; exact hrd0)).1
  rw [l2] at hl
  have ha := (execute_addi (execute_instruction s (enc_lui rd hi) p1) (enc_addi rd rd lo) p2 a1 a2 a4
    (by rw [a3]; exact hrd0)).1
  rw [a3, a5, a6, hl, l3] at ha
  exact ⟨hl, hl.trans l3, ha⟩

/-- Instance of C23: `lui a0, 0x12345` (word `0x12345537`) followed by
`addi a0, a0, 0x678` (word `0x67850513`) leaves `a0 == 0x12345678`. -/
theorem lui_addi_correct_witness :
    (10 : Nat) < 32 ∧ (10 : Nat) ≠ 0 ∧ (0x12345 : Nat) < 2 ^ 20 ∧ (0x678 : Nat) < 2 ^ 12 ∧
    enc_lui 10 0x12345 = 0x12345537 ∧ enc_addi 10 10 0x678 = 0x67850513 ∧
    (execute_instruction (execute_instruction demo_state 0x12345537 0x80000008) 0x67850513
      0x8000000C).registers 10 = 0x12345678 :=
  ⟨by decide, by decide, by decide, by decide, by decide, by decide,
    (lui_addi_correct demo_state 10 0x12345 0x678 0x80000008 0x8000000C (by decide) (by decide)
      (by decide) (by decide)).2.2.trans (by decide)⟩

/-! ## SYSTEM instructions -/

/-- On a 32-bit value the operator `~` is the complement to `0xFFFFFFFF`. -/
theorem not32_eq_sub (x : Nat) (h : x < 2 ^ 32) : not32 x = 0xFFFFFFFF - x := by
  unfold not32 u32
  rw [Nat.mod_eq_of_lt h]
  apply Nat.eq_of_testBit_eq
  intro i
  have e : (0xFFFFFFFF : Nat) - x = 2 ^ 32 - (x + 1) := by omega
  have e2 : (0xFFFFFFFF : Nat) = 2 ^ 32 - 1 := by decide
  rw [e, Nat.testBit_two_pow_sub_succ h, Nat.testBit_xor, e2, Nat.testBit_two_pow_sub_one]
  by_cases hi : i < 32
  · simp [hi]
  · have hlt : x < 2 ^ i := lt_of_lt_of_le h (Nat.pow_le_pow_right (by decide) (by omega))
    simp [hi, Nat.testBit_lt_two_pow hlt]

/-- The SYSTEM case for the six CSR encodings: the commit of the new value
computed from the old value and the source. -/
theorem exec_system_csr (s : State) (instruction current_pc : Nat)
    (hf3 : (instruction >>> 12) &&& 0x7 = 1 ∨ (instruction >>> 12) &&& 0x7 = 2 ∨
      (instruction >>> 12) &&& 0x7 = 3 ∨ (instruction >>> 12) &&& 0x7 = 5 ∨
      (instruction >>> 12) &&& 0x7 = 6 ∨ (instruction >>> 12) &&& 0x7 = 7) :
    ∃ name, exec_system s instruction current_pc =
      csr_commit s ((instruction >>> 7) &&& 0x1F) ((instruction >>> 20) &&& 0xFFF)
        (s.csrs ((instruction >>> 20) &&& 0xFFF))
        (csr_new_value ((instruction >>> 12) &&& 0x7) (s.csrs ((instruction >>> 20) &&& 0xFFF))
          (csr_source s instruction))
        current_pc name := by
  unfold exec_system csr_new_value csr_source
  rcases hf3 with h | h | h | h | h | h <;> rw [h]
  · exact ⟨"csrrw", by simp⟩
  · exact ⟨"csrrs", by simp⟩
  · exact ⟨"csrrc", by simp⟩
  · exact ⟨"csrrwi", by simp⟩
  · exact ⟨"csrrsi", by simp⟩
  · exact ⟨"csrrci", by simp⟩

/-- The state after a CSR instruction. -/
theorem execute_csr (s : State) (instruction current_pc : Nat)
    (hop : instruction &&& 0x7F = 0x73)
    (hf3 : (instruction >>> 12) &&& 0x7 = 1 ∨ (instruction >>> 12) &&& 0x7 = 2 ∨
      (instruction >>> 12) &&& 0x7 = 3 ∨ (instruction >>> 12) &&& 0x7 = 5 ∨
      (instruction >>> 12) &&& 0x7 = 6 ∨ (instruction >>> 12) &&& 0x7 = 7) :
    ∃ name, execute_instruction s instruction current_pc =
      { write_rd
          { emit { s with trap_occurred := 0 } current_pc name with
            csrs := setAt s.csrs ((instruction >>> 20) &&& 0xFFF)
              (csr_new_value ((instruction >>> 12) &&& 0x7) (s.csrs ((instruction >>> 20) &&& 0xFFF))
                (csr_source s instruction)) }
          ((instruction >>> 7) &&& 0x1F) (s.csrs ((instruction >>> 20) &&& 0xFFF)) with
        pc := u32 (s.pc + 4) } := by
  obtain ⟨name, h⟩ := exec_system_csr { s with trap_occurred := 0 } instruction current_pc hf3
  refine ⟨name, ?_⟩
  unfold execute_instruction
  rw [dispatch_system _ _ _ hop, h]
  unfold csr_commit
  rw [finish_brk_clear _ (by simp)]
  simp only [csr_source, write_rd, emit]
  by_cases hrd : (instruction >>> 7) &&& 0x1F = 0 <;> simp [hrd]

/-- C24: a SYSTEM instruction with `funct3` in {1,2,3,5,6,7} and CSR index
`c` (the 12-bit field, so `c < 4096`), with `o = csrs[c]` before: afterwards
`csrs[c]` is `x[rs1]` (csrrw), `o | x[rs1]` (csrrs), `o & ~x[rs1]` (csrrc),
the 5-bit `rs1` field `u` (csrrwi), `o | u` (csrrsi), `o & ~u` (csrrci);
every other CSR is unchanged, `pc` advances by 4 and no trap is raised. -/
theorem csr_write_correct (s : State) (instruction current_pc : Nat)
    (hop : instruction &&& 0x7F = 0x73)
    (hf3 : (instruction >>> 12) &&& 0x7 = 1 ∨ (instruction >>> 12) &&& 0x7 = 2 ∨
      (instruction >>> 12) &&& 0x7 = 3 ∨ (instruction >>> 12) &&& 0x7 = 5 ∨
      (instruction >>> 12) &&& 0x7 = 6 ∨ (instruction >>> 12) &&& 0x7 = 7) :
    (instruction >>> 20) &&& 0xFFF < 4096 ∧
    (instruction >>> 15) &&& 0x1F < 32 ∧
    ((instruction >>> 12) &&& 0x7 = 1 →
      (execute_instruction s instruction current_pc).csrs ((instruction >>> 20) &&& 0xFFF) =
        s.registers ((instruction >>> 15) &&& 0x1F)) ∧
    ((instruction >>> 12) &&& 0x7 = 2 →
      (execute_instruction s instruction current_pc).csrs ((instruction >>> 20) &&& 0xFFF) =
        s.csrs ((instruction >>> 20) &&& 0xFFF) ||| s.registers ((instruction >>> 15) &&& 0x1F)) ∧
    ((instruction >>> 12) &&& 0x7 = 3 →
      (execute_instruction s instruction current_pc).csrs ((instruction >>> 20) &&& 0xFFF) =
        s.csrs ((instruction >>> 20) &&& 0xFFF) &&&
          not32 (s.registers ((instruction >>> 15) &&& 0x1F))) ∧
    ((instruction >>> 12) &&& 0x7 = 5 →
      (execute_instruction s instruction current_pc).csrs ((instruction >>> 20) &&& 0xFFF) =
        (instruction >>> 15) &&& 0x1F) ∧
    ((instruction >>> 12) &&& 0x7 = 6 →
      (execute_instruction s instruction current_pc).csrs ((instruction >>> 20) &&& 0xFFF) =
        s.csrs ((instruction >>> 20) &&& 0xFFF) ||| ((instruction >>> 15) &&& 0x1F)) ∧
    ((instruction >>> 12) &&& 0x7 = 7 →
      (execute_instruction s instruction current_pc).csrs ((instruction >>> 20) &&& 0xFFF) =
        s.csrs ((instruction >>> 20) &&& 0xFFF) &&& not32 ((instruction >>> 15) &&& 0x1F)) ∧
    (∀ i, i ≠ (instruction >>> 20) &&& 0xFFF →
      (execute_instruction s instruction current_pc).csrs i = s.csrs i) ∧
    (execute_instruction s instruction current_pc).pc = (s.pc + 4) % 2 ^ 32 ∧
    (execute_instruction s instruction current_pc).trap_occurred = 0 := by
  obtain ⟨name, h⟩ := execute_csr s instruction current_pc hop hf3
  have hc : (instruction >>> 20) &&& 0xFFF < 4096 :=
    lt_of_le_of_lt Nat.and_le_right (by decide)
  have hu : (instruction >>> 15) &&& 0x1F < 32 :=
    lt_of_le_of_lt Nat.and_le_right (by decide)
  have hval : (execute_instruction s instruction current_pc).csrs ((instruction >>> 20) &&& 0xFFF) =
      csr_new_value ((instruction >>> 12) &&& 0x7) (s.csrs ((instruction >>> 20) &&& 0xFFF))
        (csr_source s instruction) := by
    rw [h]; simp [setAt]
  refine ⟨hc, hu, ?_, ?_, ?_, ?_, ?_, ?_, ?_, ?_, ?_⟩
  · intro e; rw [hval]; simp [csr_new_value, csr_source, e]
  · intro e; rw [hval]; simp [csr_new_value, csr_source, e]
  · intro e; rw [hval]; simp [csr_new_value, csr_source, e]
  · intro e; rw [hval]; simp [csr_new_value, csr_source, e]
  · intro e; rw [hval]; simp [csr_new_value, csr_source, e]
  · intro e; rw [hval]; simp [csr_new_value, csr_source, e]
  · intro i hi; rw [h]; simp [setAt, hi]
  · rw [h]; rfl
  · rw [h]; simp

/-- Instance of C24: `csrrw x5, 0x340, x1` (word `0x340092F3`) in
`demo_state`, where `x1 = 0x800FFFFC`, leaves `csrs[0x340] = 0x800FFFFC`,
`mtvec` as it was and `pc = 0x8000000C`. -/
theorem csr_write_correct_witness :
    (execute_instruction demo_state 0x340092F3 0x80000008).csrs 0x340 = 0x800FFFFC ∧
    (execute_instruction demo_state 0x340092F3 0x80000008).csrs CSR_MTVEC = 0x80000103 ∧
    (execute_instruction demo_state 0x340092F3 0x80000008).pc = 0x8000000C ∧
    (execute_instruction demo_state 0x340092F3 0x80000008).trap_occurred = 0 :=
  have h := csr_write_correct demo_state 0x340092F3 0x80000008 (by decide) (by decide)
  ⟨h.2.2.1 (by decide), h.2.2.2.2.2.2.2.2.1 CSR_MTVEC (by decide), h.2.2.2.2.2.2.2.2.2.1,
    h.2.2.2.2.2.2.2.2.2.2⟩

/-- C25: a CSR read-modify-write instruction (`funct3` in {1,2,3,5,6,7})
with `rd != 0` leaves in `x[rd]` the value `csrs[c]` held before the
instruction; for `csrrw` with `rs1 == rd` the CSR receives the old register
value and the register the old CSR value. -/
theorem csr_read_correct (s : State) (instruction current_pc : Nat)
    (hop : instruction &&& 0x7F = 0x73)
    (hf3 : (instruction >>> 12) &&& 0x7 = 1 ∨ (instruction >>> 12) &&& 0x7 = 2 ∨
      (instruction >>> 12) &&& 0x7 = 3 ∨ (instruction >>> 12) &&& 0x7 = 5 ∨
      (instruction >>> 12) &&& 0x7 = 6 ∨ (instruction >>> 12) &&& 0x7 = 7)
    (hrd : (instruction >>> 7) &&& 0x1F ≠ 0) :
    (execute_instruction s instruction current_pc).registers ((instruction >>> 7) &&& 0x1F) =
      s.csrs ((instruction >>> 20) &&& 0xFFF) ∧
    ((instruction >>> 12) &&& 0x7 = 1 →
      (instruction >>> 15) &&& 0x1F = (instruction >>> 7) &&& 0x1F →
      (execute_instruction s instruction current_pc).csrs ((instruction >>> 20) &&& 0xFFF) =
        s.registers ((instruction >>> 7) &&& 0x1F) ∧
      (execute_instruction s instruction current_pc).registers ((instruction >>> 7) &&& 0x1F) =
        s.csrs ((instruction >>> 20) &&& 0xFFF)) := by
  obtain ⟨name, h⟩ := execute_csr s instruction current_pc hop hf3
  have hreg : (execute_instruction s instruction current_pc).registers
      ((instruction >>> 7) &&& 0x1F) = s.csrs ((instruction >>> 20) &&& 0xFFF) := by
    rw [h]; simp [write_rd, hrd, setAt, emit]
  refine ⟨hreg, fun e1 e2 => ⟨?_, hreg⟩⟩
  rw [h]
  simp [setAt, csr_new_value, csr_source, e1, e2]

/-- Instance of C25: `csrrw x1, mtvec, x1` (word `0x305090F3`) in
`demo_state` swaps `x1 = 0x800FFFFC` and `mtvec = 0x80000103`. -/
theorem csr_read_correct_witness :
    (execute_instruction demo_state 0x305090F3 0x80000008).registers 1 = 0x80000103 ∧
    (execute_instruction demo_state 0x305090F3 0x80000008).csrs 0x305 = 0x800FFFFC :=
  have h := csr_read_correct demo_state 0x305090F3 0x80000008 (by decide) (by decide) (by decide)
  ⟨h.1, (h.2 (by decide) (by decide)).1⟩

/-- The state after `ecall`: the trap raised from the state with the flag
cleared, and the trace line. -/
theorem execute_ecall (s : State) (instruction current_pc : Nat)
    (hop : instruction &&& 0x7F = 0x73) (hf3 : (instruction >>> 12) &&& 0x7 = 0)
    (himm : (instruction >>> 20) &&& 0xFFF = 0) :
    execute_instruction s instruction current_pc =
      emit (raise_exception { s with trap_occurred := 0 } CAUSE_ECALL_MMODE 0) current_pc "ecall" := by
  unfold execute_instruction
  rw [dispatch_system _ _ _ hop]
  unfold exec_system
  simp only [hf3, himm, if_true]
  rw [finish_of_trap]
  · rfl
  · exact raise_exception_trap_of_clear _ _ _ rfl

/-- The state after `mret`: `pc` is `csrs[mepc]`; apart from it only the
per-instruction trap flag (cleared on entry) and the trace differ. -/
theorem execute_mret (s : State) (instruction current_pc : Nat)
    (hop : instruction &&& 0x7F = 0x73) (hf3 : (instruction >>> 12) &&& 0x7 = 0)
    (himm : (instruction >>> 20) &&& 0xFFF = 0x302) :
    execute_instruction s instruction current_pc =
      { s with
        pc := s.csrs CSR_MEPC
        trap_occurred := 0
        trace := s.trace ++ [⟨current_pc, "mret"⟩] } := by
  unfold execute_instruction
  rw [dispatch_system _ _ _ hop]
  unfold exec_system
  simp only [hf3, himm, if_true]
  simp [finish, emit]

/-- C26: `ecall` (opcode 0x73, `funct3` 0, immediate 0) executed at pc `p`
raises a trap with `mcause == 0x0B`, `mtval == 0`, `mepc == p` and
`pc == mtvec & ~3`; `mret` (immediate 0x302) executed in any state `t` sets
`pc` to `csrs[mepc]` and leaves every register, memory byte, CSR, `mtime`
and `mtimecmp` as they were (the trap flag is the per-instruction reset and
one trace line is written); so an `mret` in a state whose `mepc` is the one
the `ecall` trap wrote returns `pc` to `p`. -/
theorem ecall_mret_correct (s t : State) (ecall mret p q : Nat)
    (hpc : s.pc = p)
    (he : ecall &&& 0x7F = 0x73 ∧ (ecall >>> 12) &&& 0x7 = 0 ∧ (ecall >>> 20) &&& 0xFFF = 0)
    (hm : mret &&& 0x7F = 0x73 ∧ (mret >>> 12) &&& 0x7 = 0 ∧ (mret >>> 20) &&& 0xFFF = 0x302) :
    ((execute_instruction s ecall p).trap_occurred = 1 ∧
      (execute_instruction s ecall p).csrs CSR_MCAUSE = 0x0B ∧
      (execute_instruction s ecall p).csrs CSR_MTVAL = 0 ∧
      (execute_instruction s ecall p).csrs CSR_MEPC = p ∧
      (execute_instruction s ecall p).pc = s.csrs CSR_MTVEC &&& not32 0x3) ∧
    ((execute_instruction t mret q).pc = t.csrs CSR_MEPC ∧
      (execute_instruction t mret q).registers = t.registers ∧
      (execute_instruction t mret q).memory = t.memory ∧
      (execute_instruction t mret q).csrs = t.csrs ∧
      (execute_instruction t mret q).mtime = t.mtime ∧
      (execute_instruction t mret q).mtimecmp = t.mtimecmp ∧
      (execute_instruction t mret q).input = t.input ∧
      (execute_instruction t mret q).uart_out = t.uart_out ∧
      (execute_instruction t mret q).trap_occurred = 0) ∧
    (t.csrs CSR_MEPC = (execute_instruction s ecall p).csrs CSR_MEPC →
      (execute_instruction t mret q).pc = p) ∧
    (execute_instruction (execute_instruction s ecall p) mret q).pc = p := by
  have h1 := execute_ecall s ecall p he.1 he.2.1 he.2.2
  have h2 := execute_mret t mret q hm.1 hm.2.1 hm.2.2
  have h3 := execute_mret (execute_instruction s ecall p) mret q hm.1 hm.2.1 hm.2.2
  obtain ⟨f1, f2, f3, f4, -, f6, -⟩ :=
    raise_exception_fresh { s with trap_occurred := 0 } CAUSE_ECALL_MMODE 0 rfl
  have hmepc : (execute_instruction s ecall p).csrs CSR_MEPC = p := by
    rw [h1, emit_csrs, f1]; exact hpc
  refine ⟨⟨?_, ?_, ?_, hmepc, ?_⟩, ?_, ?_, ?_⟩
  · rw [h1, emit_trap_occurred, f6]
  · rw [h1, emit_csrs, f2]; rfl
  · rw [h1, emit_csrs, f3]
  · rw [h1, emit_pc, f4]
  · rw [h2]; simp
  · intro e; rw [h2]; simp only []; rw [e, hmepc]
  · rw [h3]; exact hmepc

/-- Instance of C26: `ecall` (word `0x00000073`) at `pc = 0x80000008` in
`demo_state` (`mtvec = 0x80000103`) traps to `0x80000100` with
`mcause = 11` and `mepc = 0x80000008`; `mret` (word `0x30200073`) executed
there returns to `0x80000008`. -/
theorem ecall_mret_correct_witness :
    (execute_instruction demo_state 0x00000073 0x80000008).csrs CSR_MCAUSE = 0x0B ∧
    (execute_instruction demo_state 0x00000073 0x80000008).csrs CSR_MEPC = 0x80000008 ∧
    (execute_instruction demo_state 0x00000073 0x80000008).pc = 0x80000100 ∧
    (execute_instruction (execute_instruction demo_state 0x00000073 0x80000008)
      0x30200073 0x80000100).pc = 0x80000008 :=
  have h := ecall_mret_correct demo_state demo_state 0x00000073 0x30200073 0x80000008 0x80000100
    rfl (by decide) (by decide)
  ⟨h.1.2.1, h.1.2.2.2.1, h.1.2.2.2.2, h.2.2.2⟩

/-! ## Illegal instructions -/

/-- The OP case selects no operation exactly for the `funct7`/`funct3`
pairs outside the three decoded groups. -/
theorem op_result_none_iff (funct7 funct3 a b : Nat) (h3 : funct3 < 8) :
    op_result funct7 funct3 a b = none ↔
      ¬ (funct7 = 0x00 ∨ (funct7 = 0x20 ∧ (funct3 = 0 ∨ funct3 = 5)) ∨ funct7 = 0x01) := by
  by_cases h0 : funct7 = 0x00
  · subst h0
    interval_cases funct3 <;> simp [op_result]
  · by_cases h20 : funct7 = 0x20
    · subst h20
      interval_cases funct3 <;> simp [op_result]
    · by_cases h1 : funct7 = 0x01
      · subst h1
        interval_cases funct3 <;> simp [op_result]
      · simp [op_result, h0, h20, h1]

/-- An OP instruction whose `funct7`/`funct3` select no operation ends in
the illegal-instruction trap raised from the state with the flag cleared. -/
theorem execute_op_none (s : State) (instruction current_pc : Nat)
    (hop : instruction &&& 0x7F = 0x33)
    (hres : op_result ((instruction >>> 25) &&& 0x7F) ((instruction >>> 12) &&& 0x7)
      (s.registers ((instruction >>> 15) &&& 0x1F)) (s.registers ((instruction >>> 20) &&& 0x1F)) =
      none) :
    execute_instruction s instruction current_pc =
      raise_exception { s with trap_occurred := 0 } CAUSE_ILLEGAL_INSTR instruction := by
  unfold execute_instruction
  rw [dispatch_op _ _ _ hop]
  unfold exec_op
  simp only [hres]
  rw [finish_of_trap]
  · rfl
  · exact raise_exception_trap_of_clear _ _ _ rfl

/-- An instruction word whose opcode is none of the ten decoded ones ends
in the illegal-instruction trap, after the error line is written. -/
theorem execute_other (s : State) (instruction current_pc : Nat)
    (h1 : instruction &&& 0x7F ≠ 0x13) (h2 : instruction &&& 0x7F ≠ 0x33)
    (h3 : instruction &&& 0x7F ≠ 0x6F) (h4 : instruction &&& 0x7F ≠ 0x63)
    (h5 : instruction &&& 0x7F ≠ 0x37) (h6 : instruction &&& 0x7F ≠ 0x17)
    (h7 : instruction &&& 0x7F ≠ 0x67) (h8 : instruction &&& 0x7F ≠ 0x03)
    (h9 : instruction &&& 0x7F ≠ 0x23) (h10 : instruction &&& 0x7F ≠ 0x73) :
    execute_instruction s instruction current_pc =
      emit (raise_exception { s with trap_occurred := 0 } CAUSE_ILLEGAL_INSTR instruction)
        current_pc "Erro" := by
  unfold execute_instruction
  rw [dispatch_other _ _ _ h1 h2 h3 h4 h5 h6 h7 h8 h9 h10, finish_of_trap]
  · rfl
  · exact raise_exception_trap_of_clear _ _ _ rfl

/-- C27: for an instruction word with opcode 0x33 executed at its pc `p`,
`execute_instruction` ends with the trap flag set if and only if the
(`funct7`, `funct3`) pair is not one of: `funct7` 0x00 with any `funct3`,
`funct7` 0x20 with `funct3` 0 or 5, `funct7` 0x01 with any `funct3`; the
trap then has `mcause == 2`, `mtval ==` the instruction word and
`mepc == p`. Every word whose low 7 bits are none of the ten handled
opcodes raises the same trap. -/
theorem illegal_instruction_correct (s : State) (instruction p : Nat) (hpc : s.pc = p) :
    (instruction &&& 0x7F = 0x33 →
      ((execute_instruction s instruction p).trap_occurred = 1 ↔
        ¬ ((instruction >>> 25) &&& 0x7F = 0x00 ∨
          ((instruction >>> 25) &&& 0x7F = 0x20 ∧
            ((instruction >>> 12) &&& 0x7 = 0 ∨ (instruction >>> 12) &&& 0x7 = 5)) ∨
          (instruction >>> 25) &&& 0x7F = 0x01)) ∧
      ((execute_instruction s instruction p).trap_occurred = 1 →
        (execute_instruction s instruction p).csrs CSR_MCAUSE = 2 ∧
        (execute_instruction s instruction p).csrs CSR_MTVAL = instruction ∧
        (execute_instruction s instruction p).csrs CSR_MEPC = p)) ∧
    (instruction &&& 0x7F ≠ 0x13 → instruction &&& 0x7F ≠ 0x33 →
      instruction &&& 0x7F ≠ 0x6F → instruction &&& 0x7F ≠ 0x63 →
      instruction &&& 0x7F ≠ 0x37 → instruction &&& 0x7F ≠ 0x17 →
      instruction &&& 0x7F ≠ 0x67 → instruction &&& 0x7F ≠ 0x03 →
      instruction &&& 0x7F ≠ 0x23 → instruction &&& 0x7F ≠ 0x73 →
      (execute_instruction s instruction p).trap_occurred = 1 ∧
      (execute_instruction s instruction p).csrs CSR_MCAUSE = 2 ∧
      (execute_instruction s instruction p).csrs CSR_MTVAL = instruction ∧
      (execute_instruction s instruction p).csrs CSR_MEPC = p) := by
  obtain ⟨f1, f2, f3, -, -, f6, -⟩ :=
    raise_exception_fresh { s with trap_occurred := 0 } CAUSE_ILLEGAL_INSTR instruction rfl
  have f1p : (raise_exception { s with trap_occurred := 0 } CAUSE_ILLEGAL_INSTR instruction).csrs
      CSR_MEPC = p := by rw [f1]; exact hpc
  have hlt : (instruction >>> 12) &&& 0x7 < 8 := by rw [and_7_eq_mod]; omega
  constructor
  · intro hop
    have hiff := op_result_none_iff ((instruction >>> 25) &&& 0x7F) ((instruction >>> 12) &&& 0x7)
      (s.registers ((instruction >>> 15) &&& 0x1F)) (s.registers ((instruction >>> 20) &&& 0x1F)) hlt
    cases hres : op_result ((instruction >>> 25) &&& 0x7F) ((instruction >>> 12) &&& 0x7)
      (s.registers ((instruction >>> 15) &&& 0x1F)) (s.registers ((instruction >>> 20) &&& 0x1F)) with
    | none =>
      have hx := execute_op_none s instruction p hop hres
      rw [hx]
      exact ⟨⟨fun _ => hiff.mp hres, fun _ => f6⟩, fun _ => ⟨f2, f3, f1p⟩⟩
    | some r =>
      obtain ⟨name, v⟩ := r
      have hx := (execute_op_retires s instruction p v name hop hres).2
      have hleg : ¬ ¬ ((instruction >>> 25) &&& 0x7F = 0x00 ∨
          ((instruction >>> 25) &&& 0x7F = 0x20 ∧
            ((instruction >>> 12) &&& 0x7 = 0 ∨ (instruction >>> 12) &&& 0x7 = 5)) ∨
          (instruction >>> 25) &&& 0x7F = 0x01) := by
        intro hn
        rw [hiff.mpr hn] at hres
        exact Option.noConfusion hres
      constructor
      · constructor
        · intro h; rw [hx] at h; exact absurd h (by decide)
        · intro h; exact absurd h hleg
      · intro h; rw [hx] at h; exact absurd h (by decide)
  · intro h1 h2 h3 h4 h5 h6 h7 h8 h9 h10
    rw [execute_other s instruction p h1 h2 h3 h4 h5 h6 h7 h8 h9 h10]
    exact ⟨f6, f2, f3, f1p⟩

/-- Instance of C27 in `demo_state` at `pc = 0x80000008`: the word
`0x40001033` (opcode 0x33, `funct7` 0x20, `funct3` 1) traps with
`mcause = 2`, `mtval = 0x40001033`, `mepc = 0x80000008`; the word
`0x40000033` (`sub`) does not trap; the word `0xFFFFFFFF` (opcode 0x7F)
traps. -/
theorem illegal_instruction_correct_witness :
    ((execute_instruction demo_state 0x40001033 0x80000008).trap_occurred = 1 ∧
      (execute_instruction demo_state 0x40001033 0x80000008).csrs CSR_MCAUSE = 2 ∧
      (execute_instruction demo_state 0x40001033 0x80000008).csrs CSR_MTVAL = 0x40001033 ∧
      (execute_instruction demo_state 0x40001033 0x80000008).csrs CSR_MEPC = 0x80000008) ∧
    ¬ (execute_instruction demo_state 0x40000033 0x80000008).trap_occurred = 1 ∧
    ((execute_instruction demo_state 0xFFFFFFFF 0x80000008).trap_occurred = 1 ∧
      (execute_instruction demo_state 0xFFFFFFFF 0x80000008).csrs CSR_MCAUSE = 2 ∧
      (execute_instruction demo_state 0xFFFFFFFF 0x80000008).csrs CSR_MTVAL = 0xFFFFFFFF ∧
      (execute_instruction demo_state 0xFFFFFFFF 0x80000008).csrs CSR_MEPC = 0x80000008) :=
  have ha := (illegal_instruction_correct demo_state 0x40001033 0x80000008 rfl).1 (by decide)
  have hb := (illegal_instruction_correct demo_state 0x40000033 0x80000008 rfl).1 (by decide)
  have hc := (illegal_instruction_correct demo_state 0xFFFFFFFF 0x80000008 rfl).2
    (by decide) (by decide) (by decide) (by decide) (by decide) (by decide) (by decide)
    (by decide) (by decide) (by decide)
  have hta := ha.1.mpr (by decide)
  ⟨⟨hta, ha.2 hta⟩, fun h => hb.1.mp h (by decide), hc⟩

/-! ## Timer: the pending bit -/

theorem or_80_and_80 (x : Nat) : (x ||| 0x80) &&& 0x80 ≠ 0 := by
  intro h
  have h7 := congrArg (fun v => Nat.testBit v 7) h
  simp only [Nat.testBit_and, Nat.testBit_or, Nat.zero_testBit] at h7
  have e : Nat.testBit 0x80 7 = true := by decide
  rw [e] at h7
  simp at h7

theorem and_not_80_and_80 (x : Nat) : (x &&& 0xFFFFFF7F) &&& 0x80 = 0 := by
  rw [Nat.and_assoc]
  have e : (0xFFFFFF7F : Nat) &&& 0x80 = 0 := by decide
  rw [e, Nat.and_zero]

@[simp]
theorem raise_exception_mip (s : State) (c t : Nat) :
    (raise_exception s c t).csrs CSR_MIP = s.csrs CSR_MIP := by
  unfold raise_exception
  split_ifs <;> simp [setAt, CSR_MIP, CSR_MEPC, CSR_MCAUSE, CSR_MTVAL]

/-- The end of an executing iteration leaves `mip` bit 7 equal to
`mtime >= mtimecmp`, whatever the instruction left in `mip`, `mtime` and
`mtimecmp`. -/
theorem after_execute_mtip (s : State) :
    ((after_execute s).csrs CSR_MIP &&& 0x80 ≠ 0 ↔ (after_execute s).mtime ≥ (after_execute s).mtimecmp) := by
  unfold after_execute
  simp only []
  by_cases hge : u64 (s.mtime + 1) ≥ s.mtimecmp
  · simp only [hge, if_true]
    split_ifs <;>
      simp [setAt, or_80_and_80, hge]
  · simp only [hge, if_false]
    split_ifs <;>
      simp [setAt, and_not_80_and_80, hge]

/-- One iteration of the hart loop preserves "`mip` bit 7 equals
`mtime >= mtimecmp`". -/
theorem hart_step_mtip (s : State)
    (h : s.csrs CSR_MIP &&& 0x80 ≠ 0 ↔ s.mtime ≥ s.mtimecmp) :
    ((hart_step s).state.csrs CSR_MIP &&& 0x80 ≠ 0 ↔
      (hart_step s).state.mtime ≥ (hart_step s).state.mtimecmp) := by
  unfold hart_step
  simp only []
  split_ifs
  · exact h
  · simpa [StepResult.state] using h
  · simpa [StepResult.state] using h
  · simpa [StepResult.state] using h
  · exact h
  · exact after_execute_mtip _

/-- C28: in every state reached from the initial state (all CSRs zero,
`mtime` 0, `mtimecmp` `2^64 - 1`) by hart-loop iterations, bit 7 of
`csrs[0x344]` is set if and only if `mtime >= mtimecmp`. The iterations run
whatever instructions the image holds, so the equivalence holds whatever
was written to `mip` or `mtimecmp` during a step. -/
theorem mtip_tracks_timer (image : Nat → Nat) (input : List (Fin 256)) (n : Nat) :
    ((run n (init image input)).state.csrs 0x344 &&& 0x80 ≠ 0 ↔
      (run n (init image input)).state.mtime ≥ (run n (init image input)).state.mtimecmp) := by
  induction n with
  | zero => simp [run, StepResult.state, init]
  | succ k ih =>
    cases hr : run k (init image input) with
    | halted t =>
      have e : run (k + 1) (init image input) = .halted t := by simp [run, hr]
      rw [hr] at ih
      rw [e]
      exact ih
    | running t =>
      have e : run (k + 1) (init image input) = hart_step t := by simp [run, hr]
      rw [hr] at ih
      rw [e]
      exact hart_step_mtip t ih

/-! ## Timer: the counter -/

@[simp]
theorem uart_read_mtime (s : State) : (uart_read s).2.mtime = s.mtime := by
  unfold uart_read
  split
  · rfl
  · split <;> rfl

@[simp]
theorem bus_load_mtime (s : State) (addr size : Nat) :
    (bus_load s addr size).2.mtime = s.mtime := by
  unfold bus_load
  simp only []
  split_ifs <;> simp

@[simp]
theorem bus_store_mtime (s : State) (addr value size : Nat) :
    (bus_store s addr value size).mtime = s.mtime := by
  unfold bus_store
  simp only []
  split_ifs <;> simp

theorem exec_op_imm_mtime (s : State) (instruction current_pc : Nat) :
    (exec_op_imm s instruction current_pc).state.mtime = s.mtime := by
  unfold exec_op_imm
  simp only []
  split_ifs <;> simp [Flow.state]

theorem exec_op_mtime (s : State) (instruction current_pc : Nat) :
    (exec_op s instruction current_pc).state.mtime = s.mtime := by
  unfold exec_op
  simp only []
  split <;> simp [Flow.state]

theorem exec_jal_mtime (s : State) (instruction current_pc : Nat) :
    (exec_jal s instruction current_pc).state.mtime = s.mtime := by
  simp [exec_jal, Flow.state]

theorem exec_jalr_mtime (s : State) (instruction current_pc : Nat) :
    (exec_jalr s instruction current_pc).state.mtime = s.mtime := by
  simp [exec_jalr, Flow.state]

theorem exec_lui_mtime (s : State) (instruction current_pc : Nat) :
    (exec_lui s instruction current_pc).state.mtime = s.mtime := by
  simp [exec_lui, Flow.state]

theorem exec_auipc_mtime (s : State) (instruction current_pc : Nat) :
    (exec_auipc s instruction current_pc).state.mtime = s.mtime := by
  simp [exec_auipc, Flow.state]

theorem exec_branch_mtime (s : State) (instruction current_pc : Nat) :
    (exec_branch s instruction current_pc).state.mtime = s.mtime := by
  unfold exec_branch
  simp only []
  split_ifs <;> simp [Flow.state]

theorem exec_load_mtime (s : State) (instruction current_pc : Nat) :
    (exec_load s instruction current_pc).state.mtime = s.mtime := by
  unfold exec_load
  simp only [read_byte_from_memory, read_half_word_from_memory, read_word_from_memory,
    load_writeback]
  split_ifs <;> simp [Flow.state]

theorem exec_store_mtime (s : State) (instruction current_pc : Nat) :
    (exec_store s instruction current_pc).state.mtime = s.mtime := by
  unfold exec_store
  simp only [write_byte_to_memory, write_half_word_to_memory, write_word_to_memory, store_trace]
  split_ifs <;> simp [Flow.state]

theorem exec_system_mtime (s : State) (instruction current_pc : Nat) :
    (exec_system s instruction current_pc).state.mtime = s.mtime := by
  unfold exec_system
  simp only [csr_commit]
  split_ifs <;> simp [Flow.state]

theorem dispatch_mtime (s : State) (instruction current_pc : Nat) :
    (dispatch s instruction current_pc).state.mtime = s.mtime := by
  by_cases h1 : instruction &&& 0x7F = 0x13
  · rw [dispatch_op_imm _ _ _ h1]; exact exec_op_imm_mtime s _ _
  by_cases h2 : instruction &&& 0x7F = 0x33
  · rw [dispatch_op _ _ _ h2]; exact exec_op_mtime s _ _
  by_cases h3 : instruction &&& 0x7F = 0x6F
  · rw [dispatch_jal _ _ _ h3]; exact exec_jal_mtime s _ _
  by_cases h4 : instruction &&& 0x7F = 0x63
  · rw [dispatch_branch _ _ _ h4]; exact exec_branch_mtime s _ _
  by_cases h5 : instruction &&& 0x7F = 0x37
  · rw [dispatch_lui _ _ _ h5]; exact exec_lui_mtime s _ _
  by_cases h6 : instruction &&& 0x7F = 0x17
  · rw [dispatch_auipc _ _ _ h6]; exact exec_auipc_mtime s _ _
  by_cases h7 : instruction &&& 0x7F = 0x67
  · rw [dispatch_jalr _ _ _ h7]; exact exec_jalr_mtime s _ _
  by_cases h8 : instruction &&& 0x7F = 0x03
  · rw [dispatch_load _ _ _ h8]; exact exec_load_mtime s _ _
  by_cases h9 : instruction &&& 0x7F = 0x23
  · rw [dispatch_store _ _ _ h9]; exact exec_store_mtime s _ _
  by_cases h10 : instruction &&& 0x7F = 0x73
  · rw [dispatch_system _ _ _ h10]; exact exec_system_mtime s _ _
  rw [dispatch_other _ _ _ h1 h2 h3 h4 h5 h6 h7 h8 h9 h10]
  simp [Flow.state]

theorem finish_mtime (fl : Flow) : (finish fl).mtime = fl.state.mtime := by
  cases fl with
  | ret s => rfl
  | brk s u =>
    simp only [finish, Flow.state]
    split_ifs <;> rfl

/-- No instruction changes `mtime`: the bus accepts stores to `mtimecmp`
only, and nothing else in `execute_instruction` writes the counter. -/
theorem execute_instruction_mtime (s : State) (instruction current_pc : Nat) :
    (execute_instruction s instruction current_pc).mtime = s.mtime := by
  unfold execute_instruction
  rw [finish_mtime, dispatch_mtime]

theorem after_execute_mtime (s : State) : (after_execute s).mtime = u64 (s.mtime + 1) := by
  unfold after_execute
  simp only []
  split_ifs <;> simp

/-- An iteration for which `reaches_execute` holds is the one that calls
`execute_instruction` on the fetched word. -/
theorem hart_step_of_reaches (s : State) (h : reaches_execute s = true) :
    hart_step s = .running (after_execute (execute_instruction s
      (fetch s.memory (u32 (s.pc + (2 ^ 32 - 0x80000000)))) s.pc)) := by
  unfold reaches_execute at h
  simp only [decide_eq_true_eq] at h
  obtain ⟨h1, h2, h3, h4, h5⟩ := h
  unfold hart_step
  simp only []
  rw [if_neg h1, if_neg (by omega), if_neg (by omega), if_neg h4, if_neg h5]

/-- An iteration for which `reaches_execute` fails halts or raises a fetch
fault; either way `mtime` is left alone. -/
theorem hart_step_mtime_of_not_reaches (s : State) (h : reaches_execute s = false) :
    (hart_step s).state.mtime = s.mtime := by
  unfold reaches_execute at h
  simp only [decide_eq_false_iff_not] at h
  unfold hart_step
  simp only []
  split_ifs with h1 h2 h3 h4 h5
  · rfl
  · simp [StepResult.state]
  · simp [StepResult.state]
  · simp [StepResult.state]
  · rfl
  · exact absurd ⟨h1, by omega, by omega, h4, h5⟩ h

/-- The counter after `n` iterations from a state with `mtime = 0`. -/
theorem run_mtime (s : State) (h : s.mtime = 0) (n : Nat) :
    (run n s).state.mtime = executed n s % 2 ^ 64 := by
  induction n with
  | zero => simp [run, StepResult.state, executed, h]
  | succ k ih =>
    cases hr : run k s with
    | halted t =>
      have e : run (k + 1) s = .halted t := by simp [run, hr]
      have e2 : executed (k + 1) s = executed k s := by simp [executed, hr]
      rw [hr] at ih
      rw [e, e2]
      exact ih
    | running t =>
      have e : run (k + 1) s = hart_step t := by simp [run, hr]
      have e2 : executed (k + 1) s = executed k s + (if reaches_execute t then 1 else 0) := by
        simp [executed, hr]
      rw [hr] at ih
      have ih2 : t.mtime = executed k s % 2 ^ 64 := ih
      rw [e, e2]
      cases hx : reaches_execute t with
      | true =>
        rw [hart_step_of_reaches t hx]
        simp only [StepResult.state, after_execute_mtime, execute_instruction_mtime, u64, if_true]
        rw [ih2]
        omega
      | false =>
        rw [hart_step_mtime_of_not_reaches t hx, ih2]
        simp

theorem executed_le (s : State) (n : Nat) : executed n s ≤ n := by
  induction n with
  | zero => simp [executed]
  | succ k ih =>
    cases hr : run k s with
    | halted t =>
      have e2 : executed (k + 1) s = executed k s := by simp [executed, hr]
      omega
    | running t =>
      have e2 : executed (k + 1) s = executed k s + (if reaches_execute t then 1 else 0) := by
        simp [executed, hr]
      rw [e2]
      split_ifs <;> omega

/-- C29: an iteration of the hart loop that reaches `execute_instruction`
(it is then the call on the fetched word followed by the end of the
iteration) increases `mtime` by exactly 1 modulo `2^64`, whatever the
instruction; an iteration that halts or raises a fetch fault leaves `mtime`
unchanged; so after `n` iterations from the initial state `mtime` is the
number of executed instructions (modulo `2^64`, which it does not reach
while `n < 2^64`). -/
theorem mtime_counts_instructions (s : State) (image : Nat → Nat) (input : List (Fin 256))
    (n : Nat) :
    (reaches_execute s = true →
      hart_step s = .running (after_execute (execute_instruction s
        (fetch s.memory (u32 (s.pc + (2 ^ 32 - 0x80000000)))) s.pc)) ∧
      (∀ instruction current_pc, (execute_instruction s instruction current_pc).mtime = s.mtime) ∧
      (hart_step s).state.mtime = (s.mtime + 1) % 2 ^ 64) ∧
    (reaches_execute s = false → (hart_step s).state.mtime = s.mtime) ∧
    (run n (init image input)).state.mtime = executed n (init image input) % 2 ^ 64 ∧
    (n < 2 ^ 64 → (run n (init image input)).state.mtime = executed n (init image input)) := by
  have hrun := run_mtime (init image input) rfl n
  refine ⟨fun h => ⟨hart_step_of_reaches s h, execute_instruction_mtime s, ?_⟩,
    hart_step_mtime_of_not_reaches s, hrun, fun hn => ?_⟩
  · rw [hart_step_of_reaches s h]
    simp [StepResult.state, after_execute_mtime, execute_instruction_mtime, u64]
  · rw [hrun]
    exact Nat.mod_eq_of_lt (lt_of_le_of_lt (executed_le _ n) hn)

/-- Instance of C29: on the image of `addi x0, x0, 0` words the first
iteration leaves `mtime = 1` and three iterations leave `mtime = 3`, all
three of them executing. -/
theorem mtime_counts_instructions_witness :
    (hart_step (init nop_image [])).state.mtime = 1 ∧
    (run 3 (init nop_image [])).state.mtime = 3 ∧
    executed 3 (init nop_image []) = 3 :=
  have h := mtime_counts_instructions (init nop_image []) nop_image [] 3
  ⟨(h.1 (by decide)).2.2, (h.2.2.2 (by decide)).trans (by decide), by decide⟩

/-- Instance of C29 for a halting iteration: on the empty image the fetched
word is 0, the loop halts and `mtime` stays 0. -/
theorem mtime_unchanged_on_halt :
    reaches_execute (init (fun _ => 0) []) = false ∧
    (hart_step (init (fun _ => 0) [])).state.mtime = 0 :=
  ⟨by decide, hart_step_mtime_of_not_reaches _ (by decide)⟩

/-! ## Timer: the interrupt -/

/-- The end of an iteration whose instruction did not trap, when the timer
interrupt is enabled and due: the interrupt is raised from the state the
instruction left. -/
theorem after_execute_timer_taken (s1 : State) (h0 : s1.trap_occurred = 0)
    (hs : s1.csrs CSR_MSTATUS &&& 0x8 ≠ 0) (he : s1.csrs CSR_MIE &&& 0x80 ≠ 0)
    (hge : u64 (s1.mtime + 1) ≥ s1.mtimecmp) :
    (after_execute s1).csrs CSR_MCAUSE = 0x80000007 ∧
    (after_execute s1).csrs CSR_MTVAL = 0 ∧
    (after_execute s1).csrs CSR_MEPC = s1.pc ∧
    (after_execute s1).pc = s1.csrs CSR_MTVEC &&& not32 0x3 ∧
    (after_execute s1).trap_occurred = 1 := by
  have hs2 : s1.csrs 0x300 &&& 0x8 ≠ 0 := hs
  have he2 : s1.csrs 0x304 &&& 0x80 ≠ 0 := he
  have hor := or_80_and_80 (s1.csrs 0x344)
  have hn : not32 0x3 = 0xFFFFFFFC := by decide
  unfold after_execute
  simp only [hge, if_true, hn]
  simp [setAt, CSR_MIP, CSR_MSTATUS, CSR_MIE, CSR_MCAUSE, CSR_MTVAL, CSR_MEPC, CSR_MTVEC,
    CAUSE_MTI, INTERRUPT_BIT, hs2, he2, hor, raise_exception, h0]

/-- The end of an iteration whose instruction did not trap, when the timer
interrupt is disabled or not due: no trap is raised, `pc` and the trap CSRs
are the ones the instruction left. -/
theorem after_execute_timer_not_taken (s1 : State) (h0 : s1.trap_occurred = 0)
    (hc : ¬ (s1.csrs CSR_MSTATUS &&& 0x8 ≠ 0 ∧ s1.csrs CSR_MIE &&& 0x80 ≠ 0 ∧
      u64 (s1.mtime + 1) ≥ s1.mtimecmp)) :
    (after_execute s1).pc = s1.pc ∧
    (after_execute s1).trap_occurred = 0 ∧
    (after_execute s1).csrs CSR_MCAUSE = s1.csrs CSR_MCAUSE ∧
    (after_execute s1).csrs CSR_MTVAL = s1.csrs CSR_MTVAL ∧
    (after_execute s1).csrs CSR_MEPC = s1.csrs CSR_MEPC := by
  have hand := and_not_80_and_80 (s1.csrs 0x344)
  have hor := or_80_and_80 (s1.csrs 0x344)
  have hc2 : ¬ (s1.csrs 0x300 &&& 0x8 ≠ 0 ∧ s1.csrs 0x304 &&& 0x80 ≠ 0 ∧
      u64 (s1.mtime + 1) ≥ s1.mtimecmp) := hc
  unfold after_execute
  simp only []
  by_cases hge : u64 (s1.mtime + 1) ≥ s1.mtimecmp
  · have hd : ¬ (s1.csrs 0x300 &&& 0x8 ≠ 0 ∧ s1.csrs 0x304 &&& 0x80 ≠ 0) :=
      fun h => hc2 ⟨h.1, h.2, hge⟩
    simp only [hge, if_true]
    by_cases hs : s1.csrs 0x300 &&& 0x8 = 0
    · simp [setAt, CSR_MIP, CSR_MSTATUS, CSR_MIE, CSR_MCAUSE, CSR_MTVAL, CSR_MEPC, hs, h0]
    · have hie : s1.csrs 0x304 &&& 0x80 = 0 := by
        by_contra hx
        exact hd ⟨hs, hx⟩
      simp [setAt, CSR_MIP, CSR_MSTATUS, CSR_MIE, CSR_MCAUSE, CSR_MTVAL, CSR_MEPC, hie, h0]
  · simp only [hge, if_false]
    simp [setAt, CSR_MIP, CSR_MSTATUS, CSR_MIE, CSR_MCAUSE, CSR_MTVAL, CSR_MEPC, hand, h0]

/-- C30: for a hart-loop iteration that executes an instruction without
trapping, with `s1` the state the instruction leaves: if `mstatus` bit 3
and `mie` bit 7 are set in `s1` and the incremented `mtime` is
`>= mtimecmp`, the iteration ends with `mcause == 0x80000007`, `mtval == 0`,
`mepc ==` the `pc` the instruction produced and `pc == mtvec & ~3`;
otherwise it ends with no trap, `pc` and the trap CSRs as the instruction
left them. -/
theorem timer_interrupt_correct (s : State) (hreach : reaches_execute s = true)
    (hnt : (execute_instruction s (fetch s.memory (u32 (s.pc + (2 ^ 32 - 0x80000000))))
      s.pc).trap_occurred = 0) :
    ((execute_instruction s (fetch s.memory (u32 (s.pc + (2 ^ 32 - 0x80000000)))) s.pc).csrs
          CSR_MSTATUS &&& 0x8 ≠ 0 ∧
      (execute_instruction s (fetch s.memory (u32 (s.pc + (2 ^ 32 - 0x80000000)))) s.pc).csrs
          CSR_MIE &&& 0x80 ≠ 0 ∧
      (s.mtime + 1) % 2 ^ 64 ≥
        (execute_instruction s (fetch s.memory (u32 (s.pc + (2 ^ 32 - 0x80000000))))
          s.pc).mtimecmp →
      (hart_step s).state.csrs CSR_MCAUSE = 0x80000007 ∧
      (hart_step s).state.csrs CSR_MTVAL = 0 ∧
      (hart_step s).state.csrs CSR_MEPC =
        (execute_instruction s (fetch s.memory (u32 (s.pc + (2 ^ 32 - 0x80000000)))) s.pc).pc ∧
      (hart_step s).state.pc =
        (execute_instruction s (fetch s.memory (u32 (s.pc + (2 ^ 32 - 0x80000000)))) s.pc).csrs
          CSR_MTVEC &&& not32 0x3 ∧
      (hart_step s).state.trap_occurred = 1) ∧
    (¬ ((execute_instruction s (fetch s.memory (u32 (s.pc + (2 ^ 32 - 0x80000000)))) s.pc).csrs
          CSR_MSTATUS &&& 0x8 ≠ 0 ∧
      (execute_instruction s (fetch s.memory (u32 (s.pc + (2 ^ 32 - 0x80000000)))) s.pc).csrs
          CSR_MIE &&& 0x80 ≠ 0 ∧
      (s.mtime + 1) % 2 ^ 64 ≥
        (execute_instruction s (fetch s.memory (u32 (s.pc + (2 ^ 32 - 0x80000000))))
          s.pc).mtimecmp) →
      (hart_step s).state.pc =
        (execute_instruction s (fetch s.memory (u32 (s.pc + (2 ^ 32 - 0x80000000)))) s.pc).pc ∧
      (hart_step s).state.trap_occurred = 0 ∧
      (hart_step s).state.csrs CSR_MCAUSE =
        (execute_instruction s (fetch s.memory (u32 (s.pc + (2 ^ 32 - 0x80000000)))) s.pc).csrs
          CSR_MCAUSE ∧
      (hart_step s).state.csrs CSR_MTVAL =
        (execute_instruction s (fetch s.memory (u32 (s.pc + (2 ^ 32 - 0x80000000)))) s.pc).csrs
          CSR_MTVAL ∧
      (hart_step s).state.csrs CSR_MEPC =
        (execute_instruction s (fetch s.memory (u32 (s.pc + (2 ^ 32 - 0x80000000)))) s.pc).csrs
          CSR_MEPC) := by
  have hm := execute_instruction_mtime s
    (fetch s.memory (u32 (s.pc + (2 ^ 32 - 0x80000000)))) s.pc
  rw [hart_step_of_reaches s hreach]
  simp only [StepResult.state]
  constructor
  · intro h
    refine after_execute_timer_taken _ hnt h.1 h.2.1 ?_
    rw [hm]
    exact h.2.2
  · intro h
    refine after_execute_timer_not_taken _ hnt ?_
    rw [hm]
    exact h

/-- Instance of C30: from `timer_state` (`mstatus.MIE = 1`, `mie.MTIE = 1`,
`mtimecmp = 5`, `mtime = 0`, every word `addi x0, x0, 0`) the first four
iterations end with no trap and `mcause = 0`; the fifth ends with
`mcause = 0x80000007`, `mepc = 0x80000014`, `mtval = 0` and
`pc = 0x80000100`. -/
theorem timer_interrupt_correct_witness :
    ((run 1 timer_state).state.csrs CSR_MCAUSE = 0 ∧
      (run 2 timer_state).state.csrs CSR_MCAUSE = 0 ∧
      (run 3 timer_state).state.csrs CSR_MCAUSE = 0 ∧
      (run 4 timer_state).state.csrs CSR_MCAUSE = 0 ∧
      (run 4 timer_state).state.trap_occurred = 0 ∧
      (run 4 timer_state).state.pc = 0x80000010 ∧
      (run 4 timer_state).state.mtime = 4) ∧
    run 5 timer_state = hart_step (run 4 timer_state).state ∧
    (hart_step (run 4 timer_state).state).state.csrs CSR_MCAUSE = 0x80000007 ∧
    (hart_step (run 4 timer_state).state).state.csrs CSR_MTVAL = 0 ∧
    (hart_step (run 4 timer_state).state).state.csrs CSR_MEPC = 0x80000014 ∧
    (hart_step (run 4 timer_state).state).state.pc = 0x80000100 ∧
    (hart_step (run 3 timer_state).state).state.trap_occurred = 0 :=
  have h5 := timer_interrupt_correct (run 4 timer_state).state (by decide) (by decide)
  have h4 := timer_interrupt_correct (run 3 timer_state).state (by decide) (by decide)
  have t5 := h5.1 (by decide)
  ⟨by decide, rfl, t5.1, t5.2.1, t5.2.2.1, t5.2.2.2.1, (h4.2 (by decide)).2.1⟩

/-! ## Malformed shift-immediates -/

/-- The state after an OP-IMM word with `funct3 == 5` whose `funct7` is
neither 0x00 nor 0x20: neither branch of the `if`/`else if` runs. -/
theorem execute_malformed_shift (s : State) (instruction current_pc : Nat)
    (hop : instruction &&& 0x7F = 0x13) (hf3 : (instruction >>> 12) &&& 0x7 = 5)
    (h00 : (instruction >>> 25) &&& 0x7F ≠ 0x00) (h20 : (instruction >>> 25) &&& 0x7F ≠ 0x20) :
    execute_instruction s instruction current_pc =
      { s with trap_occurred := 0, pc := u32 (s.pc + 4) } := by
  unfold execute_instruction
  rw [dispatch_op_imm _ _ _ hop]
  unfold exec_op_imm
  simp only [hf3]
  simp [h00, h20, finish]

/-- C40: an OP-IMM word (opcode 0x13) with `funct3 == 5` whose `funct7`
field is neither 0x00 nor 0x20 raises no trap, writes no register, emits no
trace line and advances `pc` by 4; memory and CSRs are untouched as well. -/
theorem malformed_shift_is_nop (s : State) (instruction current_pc : Nat)
    (hop : instruction &&& 0x7F = 0x13) (hf3 : (instruction >>> 12) &&& 0x7 = 5)
    (h00 : (instruction >>> 25) &&& 0x7F ≠ 0x00) (h20 : (instruction >>> 25) &&& 0x7F ≠ 0x20) :
    (execute_instruction s instruction current_pc).trap_occurred = 0 ∧
    (execute_instruction s instruction current_pc).registers = s.registers ∧
    (execute_instruction s instruction current_pc).trace = s.trace ∧
    (execute_instruction s instruction current_pc).pc = (s.pc + 4) % 2 ^ 32 ∧
    (execute_instruction s instruction current_pc).memory = s.memory ∧
    (execute_instruction s instruction current_pc).csrs = s.csrs := by
  rw [execute_malformed_shift s instruction current_pc hop hf3 h00 h20]
  exact ⟨rfl, rfl, rfl, rfl, rfl, rfl⟩

/-- Instance of C40: the word `0x2000D293` (opcode 0x13, `funct3` 5,
`funct7` 0x10, `rd = 5`, `rs1 = 1`) in `demo_state` leaves `x5 = 0`, the
trace empty, the trap flag clear and `pc = 0x8000000C`. -/
theorem malformed_shift_is_nop_witness :
    (execute_instruction demo_state 0x2000D293 0x80000008).trap_occurred = 0 ∧
    (execute_instruction demo_state 0x2000D293 0x80000008).registers 5 = 0 ∧
    (execute_instruction demo_state 0x2000D293 0x80000008).trace = [] ∧
    (execute_instruction demo_state 0x2000D293 0x80000008).pc = 0x8000000C :=
  have h := malformed_shift_is_nop demo_state 0x2000D293 0x80000008
    (by decide) (by decide) (by decide) (by decide)
  ⟨h.1, congrFun h.2.1 5, h.2.2.1, h.2.2.2.1⟩

/-! ## Division identity -/

theorem ofInt32_mul (x y : Int) : (ofInt32 x * ofInt32 y) % 2 ^ 32 = ofInt32 (x * y) := by
  have hx : x = ((ofInt32 x : Nat) : Int) - 2 ^ 32 * (-(x / 2 ^ 32)) := by
    unfold ofInt32; omega
  have hy : y = ((ofInt32 y : Nat) : Int) - 2 ^ 32 * (-(y / 2 ^ 32)) := by
    unfold ofInt32; omega
  have h := ofInt32_mul_shift (ofInt32 x) (ofInt32 y) (-(x / 2 ^ 32)) (-(y / 2 ^ 32))
  rw [← hx, ← hy] at h
  exact h.symm

theorem ofInt32_add (x y : Int) : (ofInt32 x + ofInt32 y) % 2 ^ 32 = ofInt32 (x + y) := by
  unfold ofInt32; omega

/-- The wrapped product of the truncated quotient and the divisor, plus the
truncated remainder, is the dividend. -/
theorem trunc_div_rem_reconstruct (a b : Nat) (ha : a < 2 ^ 32) (hb : b < 2 ^ 32) :
    ((ofInt32 (trunc_div (signed32 a) (signed32 b)) * b) % 2 ^ 32 +
      ofInt32 (trunc_rem (signed32 a) (signed32 b))) % 2 ^ 32 = a := by
  have hid := Int.tdiv_add_tmod' (signed32 a) (signed32 b)
  rw [tdiv_eq_trunc_div, tmod_eq_trunc_rem] at hid
  have h1 := ofInt32_mul (trunc_div (signed32 a) (signed32 b)) (signed32 b)
  rw [ofInt32_signed32 b hb] at h1
  rw [h1, ofInt32_add, hid, ofInt32_signed32 a ha]

/-- C39: for all 32-bit `a` and `b`, with `q`, `r` the results of `div`,
`rem` on `(a, b)` and `m` the result of `mul` on `(q, b)`:
`(m + r) mod 2^32 == a`; and with `qu`, `ru` the results of `divu`, `remu`
and `mu` the result of `mul` on `(qu, b)`: `(mu + ru) mod 2^32 == a`. The
cases `b == 0` and `a == 0x80000000`, `b == 0xFFFFFFFF` are included. -/
theorem div_rem_reconstruct (a b : Nat) (ha : a < 2 ^ 32) (hb : b < 2 ^ 32) :
    (∃ q r m, op_result 0x01 4 a b = some ("div", q) ∧
      op_result 0x01 6 a b = some ("rem", r) ∧
      op_result 0x01 0 q b = some ("mul", m) ∧
      (m + r) % 2 ^ 32 = a) ∧
    (∃ qu ru mu, op_result 0x01 5 a b = some ("divu", qu) ∧
      op_result 0x01 7 a b = some ("remu", ru) ∧
      op_result 0x01 0 qu b = some ("mul", mu) ∧
      (mu + ru) % 2 ^ 32 = a) := by
  have hlt : ∀ x : Int, ofInt32 x < 2 ^ 32 := by
    intro x; unfold ofInt32; omega
  constructor
  · by_cases hb0 : b = 0
    · refine ⟨0xFFFFFFFF, a, 0, ?_, ?_, ?_, ?_⟩
      · rw [op_result_div a b ha hb, if_pos hb0]
      · rw [op_result_rem a b ha hb, if_pos hb0]
      · rw [op_result_mul _ b (by decide) hb, hb0]; rfl
      · omega
    · by_cases hov : a = 0x80000000 ∧ b = 0xFFFFFFFF
      · refine ⟨0x80000000, 0, 0x80000000, ?_, ?_, ?_, ?_⟩
        · rw [op_result_div a b ha hb, if_neg hb0, if_pos hov]
        · rw [op_result_rem a b ha hb, if_neg hb0, if_pos hov]
        · rw [op_result_mul _ b (by decide) hb, hov.2]; rfl
        · rw [hov.1]; rfl
      · refine ⟨ofInt32 (trunc_div (signed32 a) (signed32 b)),
          ofInt32 (trunc_rem (signed32 a) (signed32 b)),
          (ofInt32 (trunc_div (signed32 a) (signed32 b)) * b) % 2 ^ 32, ?_, ?_, ?_, ?_⟩
        · rw [op_result_div a b ha hb, if_neg hb0, if_neg hov]
        · rw [op_result_rem a b ha hb, if_neg hb0, if_neg hov]
        · exact op_result_mul _ b (hlt _) hb
        · exact trunc_div_rem_reconstruct a b ha hb
  · by_cases hb0 : b = 0
    · refine ⟨0xFFFFFFFF, a, 0, ?_, ?_, ?_, ?_⟩
      · rw [op_result_divu, if_pos hb0]
      · rw [op_result_remu, if_pos hb0]
      · rw [op_result_mul _ b (by decide) hb, hb0]; rfl
      · omega
    · have hqr : a / b * b + a % b = a := Nat.div_add_mod' a b
      have hqlt : a / b < 2 ^ 32 := lt_of_le_of_lt (Nat.div_le_self a b) ha
      refine ⟨a / b, a % b, (a / b * b) % 2 ^ 32, ?_, ?_, op_result_mul _ _ hqlt hb, ?_⟩
      · rw [op_result_divu, if_neg hb0]
      · rw [op_result_remu, if_neg hb0]
      · generalize a / b * b = p at hqr
        omega

/-- Instance of C39 at the overflow pair `a = 0x80000000`, `b = 0xFFFFFFFF`:
`div` gives `0x80000000`, `rem` gives 0, and `0x80000000 * 0xFFFFFFFF`
wraps to `0x80000000`. -/
theorem div_rem_reconstruct_witness :
    (∃ q r m, op_result 0x01 4 0x80000000 0xFFFFFFFF = some ("div", q) ∧
      op_result 0x01 6 0x80000000 0xFFFFFFFF = some ("rem", r) ∧
      op_result 0x01 0 q 0xFFFFFFFF = some ("mul", m) ∧
      (m + r) % 2 ^ 32 = 0x80000000) ∧
    (∃ qu ru mu, op_result 0x01 5 0x80000000 0xFFFFFFFF = some ("divu", qu) ∧
      op_result 0x01 7 0x80000000 0xFFFFFFFF = some ("remu", ru) ∧
      op_result 0x01 0 qu 0xFFFFFFFF = some ("mul", mu) ∧
      (mu + ru) % 2 ^ 32 = 0x80000000) :=
  div_rem_reconstruct 0x80000000 0xFFFFFFFF (by decide) (by decide)

/-! ## CLINT registers -/

theorem and_high_half (m : Nat) (hm : m < 2 ^ 64) :
    m &&& 0xFFFFFFFF00000000 = (m >>> 32) <<< 32 := by
  apply Nat.eq_of_testBit_eq
  intro i
  have e : (0xFFFFFFFF00000000 : Nat) = (2 ^ 32 - 1) <<< 32 := by decide
  rw [e]
  simp only [Nat.testBit_and, Nat.testBit_shiftLeft, Nat.testBit_shiftRight,
    Nat.testBit_two_pow_sub_one]
  by_cases h32 : 32 ≤ i
  · by_cases h64 : i < 64
    · have : i - 32 < 32 := by omega
      simp [h32, this]
    · have hlt : m < 2 ^ i := lt_of_lt_of_le hm (Nat.pow_le_pow_right (by decide) (by omega))
      have e2 : 32 + (i - 32) = i := by omega
      simp [h32, Nat.testBit_lt_two_pow hlt, e2]
  · simp [h32]

/-- The value `mtimecmp` takes when its low half is stored. -/
theorem mtimecmp_low_store (m v : Nat) (hm : m < 2 ^ 64) (hv : v < 2 ^ 32) :
    (m &&& 0xFFFFFFFF00000000) ||| v = v + 2 ^ 32 * (m / 2 ^ 32) := by
  rw [and_high_half m hm, Nat.lor_comm, lor_shiftLeft_eq_add v _ 32 hv, Nat.shiftRight_eq_div_pow]

/-- The value `mtimecmp` takes when its high half is stored. -/
theorem mtimecmp_high_store (m v : Nat) (hv : v < 2 ^ 32) :
    (m &&& 0x00000000FFFFFFFF) ||| u64 (v <<< 32) = m % 2 ^ 32 + 2 ^ 32 * v := by
  have e1 : m &&& 0x00000000FFFFFFFF = m % 2 ^ 32 := Nat.and_pow_two_sub_one_eq_mod m 32
  have e2 : u64 (v <<< 32) = v <<< 32 := by
    unfold u64
    rw [Nat.shiftLeft_eq]
    omega
  rw [e1, e2, lor_shiftLeft_eq_add _ v 32 (Nat.mod_lt _ (by decide))]

theorem bus_store_mtimecmp_lo (s : State) (v size_bytes : Nat) :
    bus_store s 0x02004000 v size_bytes =
      { s with mtimecmp := (s.mtimecmp &&& 0xFFFFFFFF00000000) ||| v } := by
  simp [bus_store, RAM_BASE, MEM_SIZE, UART_BASE, CLINT_BASE, CLINT_SIZE]

theorem bus_store_mtimecmp_hi (s : State) (v size_bytes : Nat) :
    bus_store s 0x02004004 v size_bytes =
      { s with mtimecmp := (s.mtimecmp &&& 0x00000000FFFFFFFF) ||| u64 (v <<< 32) } := by
  simp [bus_store, RAM_BASE, MEM_SIZE, UART_BASE, CLINT_BASE, CLINT_SIZE]

theorem bus_load_mtimecmp_lo (s : State) (size_bytes : Nat) :
    bus_load s 0x02004000 size_bytes = (u32 s.mtimecmp, s) := by
  simp [bus_load, RAM_BASE, MEM_SIZE, CLINT_BASE, CLINT_SIZE]

theorem bus_load_mtimecmp_hi (s : State) (size_bytes : Nat) :
    bus_load s 0x02004004 size_bytes = (u32 (s.mtimecmp >>> 32), s) := by
  simp [bus_load, RAM_BASE, MEM_SIZE, CLINT_BASE, CLINT_SIZE]

/-- C33: a 4-byte store of a 32-bit `v` to `0x02004000` sets the low 32
bits of `mtimecmp` to `v` and preserves the high 32 bits; a 4-byte store
to `0x02004004` sets the high 32 bits to `v` and preserves the low 32
bits; a following 4-byte load from the same address returns `v` and
leaves the state as it is; the store changes neither the trap flag nor
memory nor `mtime`. -/
theorem clint_mtimecmp_store_load (s : State) (v : Nat) (hv : v < 2 ^ 32)
    (hm : s.mtimecmp < 2 ^ 64) :
    ((bus_store s 0x02004000 v 4).mtimecmp % 2 ^ 32 = v ∧
      (bus_store s 0x02004000 v 4).mtimecmp / 2 ^ 32 = s.mtimecmp / 2 ^ 32 ∧
      (bus_store s 0x02004000 v 4).trap_occurred = s.trap_occurred ∧
      (bus_store s 0x02004000 v 4).memory = s.memory ∧
      (bus_store s 0x02004000 v 4).mtime = s.mtime ∧
      bus_load (bus_store s 0x02004000 v 4) 0x02004000 4 = (v, bus_store s 0x02004000 v 4)) ∧
    ((bus_store s 0x02004004 v 4).mtimecmp / 2 ^ 32 = v ∧
      (bus_store s 0x02004004 v 4).mtimecmp % 2 ^ 32 = s.mtimecmp % 2 ^ 32 ∧
      (bus_store s 0x02004004 v 4).trap_occurred = s.trap_occurred ∧
      (bus_store s 0x02004004 v 4).memory = s.memory ∧
      (bus_store s 0x02004004 v 4).mtime = s.mtime ∧
      bus_load (bus_store s 0x02004004 v 4) 0x02004004 4 = (v, bus_store s 0x02004004 v 4)) := by
  have hlo : (bus_store s 0x02004000 v 4).mtimecmp = v + 2 ^ 32 * (s.mtimecmp / 2 ^ 32) := by
    rw [bus_store_mtimecmp_lo]
    exact mtimecmp_low_store _ _ hm hv
  have hhi : (bus_store s 0x02004004 v 4).mtimecmp = s.mtimecmp % 2 ^ 32 + 2 ^ 32 * v := by
    rw [bus_store_mtimecmp_hi]
    exact mtimecmp_high_store _ _ hv
  refine ⟨⟨?_, ?_, ?_, ?_, ?_, ?_⟩, ?_, ?_, ?_, ?_, ?_, ?_⟩
  · rw [hlo]; omega
  · rw [hlo]; omega
  · rw [bus_store_mtimecmp_lo]
  · rw [bus_store_mtimecmp_lo]
  · rw [bus_store_mtimecmp_lo]
  · rw [bus_load_mtimecmp_lo, hlo]
    exact congrArg (fun x => (x, bus_store s 0x02004000 v 4)) (by unfold u32; omega)
  · rw [hhi]; omega
  · rw [hhi]; omega
  · rw [bus_store_mtimecmp_hi]
  · rw [bus_store_mtimecmp_hi]
  · rw [bus_store_mtimecmp_hi]
  · rw [bus_load_mtimecmp_hi, hhi, Nat.shiftRight_eq_div_pow]
    exact congrArg (fun x => (x, bus_store s 0x02004004 v 4)) (by unfold u32; omega)

/-- Instance of C33 in `demo_state` (`mtimecmp = 2^64 - 1`): storing
`0x12345678` to `0x02004000` leaves `mtimecmp = 0xFFFFFFFF12345678`, and to
`0x02004004` leaves `mtimecmp = 0x12345678FFFFFFFF`. -/
theorem clint_mtimecmp_store_load_witness :
    (bus_store demo_state 0x02004000 0x12345678 4).mtimecmp % 2 ^ 32 = 0x12345678 ∧
    (bus_store demo_state 0x02004000 0x12345678 4).mtimecmp / 2 ^ 32 = 0xFFFFFFFF ∧
    (bus_store demo_state 0x02004004 0x12345678 4).mtimecmp / 2 ^ 32 = 0x12345678 ∧
    (bus_store demo_state 0x02004004 0x12345678 4).mtimecmp % 2 ^ 32 = 0xFFFFFFFF ∧
    (bus_load (bus_store demo_state 0x02004004 0x12345678 4) 0x02004004 4).1 = 0x12345678 :=
  have h := clint_mtimecmp_store_load demo_state 0x12345678 (by decide) (by decide)
  ⟨h.1.1, h.1.2.1, h.2.1, h.2.2.1, congrArg Prod.fst h.2.2.2.2.2.2⟩

/-- The claim C34 fails: a 4-byte store of 5 to `0x0200BFF8` in
`demo_state` leaves `mtime` at 0, so its low 32 bits are not 5; and a
store of 5 to `0x0200BFFC` leaves the high 32 bits at 0. -/
theorem clint_mtime_store_counterexample :
    (bus_store demo_state 0x0200BFF8 5 4).mtime = 0 ∧
    ¬ ((bus_store demo_state 0x0200BFF8 5 4).mtime % 2 ^ 32 = 5) ∧
    ¬ ((bus_store demo_state 0x0200BFFC 5 4).mtime / 2 ^ 32 = 5) := by
  decide

/-- C34 (amended): a store to CLINT offset `+0xBFF8` or `+0xBFFC` is
discarded: the whole state, `mtime` included, is as before and no trap is
raised. The two offsets are read-only: a load returns the low, respectively
high, 32 bits of `mtime`. -/
theorem clint_mtime_store_discarded (s : State) (v size_bytes : Nat) :
    bus_store s 0x0200BFF8 v size_bytes = s ∧
    bus_store s 0x0200BFFC v size_bytes = s ∧
    bus_load s 0x0200BFF8 size_bytes = (s.mtime % 2 ^ 32, s) ∧
    bus_load s 0x0200BFFC size_bytes = ((s.mtime / 2 ^ 32) % 2 ^ 32, s) := by
  refine ⟨?_, ?_, ?_, ?_⟩
  · simp [bus_store, RAM_BASE, MEM_SIZE, UART_BASE, CLINT_BASE, CLINT_SIZE]
  · simp [bus_store, RAM_BASE, MEM_SIZE, UART_BASE, CLINT_BASE, CLINT_SIZE]
  · simp [bus_load, RAM_BASE, MEM_SIZE, CLINT_BASE, CLINT_SIZE, u32]
  · simp [bus_load, RAM_BASE, MEM_SIZE, CLINT_BASE, CLINT_SIZE, u32, Nat.shiftRight_eq_div_pow]

/-! ## UART input -/

theorem bus_load_uart (s : State) (size_bytes : Nat) :
    bus_load s UART_BASE size_bytes = uart_read s := by
  simp [bus_load, RAM_BASE, MEM_SIZE, CLINT_BASE, CLINT_SIZE, PLIC_BASE, PLIC_SIZE, UART_BASE,
    UART_SIZE]

theorem uart_read_byte (t : State) (c : Fin 256) (rest : List (Fin 256))
    (h : t.input = c :: rest) : uart_read t = (c.val, { t with input := rest }) := by
  unfold uart_read
  rw [h]

theorem uart_read_first_eof (t : State) (h : t.input = []) (hw : t.eof_warned = 0) :
    uart_read t = (10, { t with eof_warned := 1 }) := by
  unfold uart_read
  rw [h]
  simp [hw]

theorem uart_read_later_eof (t : State) (h : t.input = []) (hw : t.eof_warned ≠ 0) :
    uart_read t = (0xFFFFFFFF, t) := by
  unfold uart_read
  rw [h]
  simp [hw]

/-- One read of the UART when `k` bytes of input remain to be skipped:
what it returns and what it leaves. -/
theorem uart_read_at (bs : List (Fin 256)) (t : State) (k : Nat)
    (hin : t.input = bs.drop k) (hw : t.eof_warned = 0 ↔ k ≤ bs.length) :
    ((uart_read t).2.input = bs.drop (k + 1) ∧
      ((uart_read t).2.eof_warned = 0 ↔ k + 1 ≤ bs.length) ∧
      (uart_read t).2.trap_occurred = t.trap_occurred) ∧
    (∀ h : k < bs.length, (uart_read t).1 = (bs.get ⟨k, h⟩).val) ∧
    (k = bs.length → (uart_read t).1 = 0x0000000A) ∧
    (k > bs.length → (uart_read t).1 = 0xFFFFFFFF) := by
  by_cases hk : k < bs.length
  · have hd : t.input = bs.get ⟨k, hk⟩ :: bs.drop (k + 1) := by
      rw [hin]; exact List.drop_eq_getElem_cons hk
    have hw0 : t.eof_warned = 0 := hw.mpr (by omega)
    rw [uart_read_byte t _ _ hd]
    refine ⟨⟨rfl, ?_, rfl⟩, fun _ => rfl, fun h => by omega, fun h => by omega⟩
    constructor
    · intro _; omega
    · intro _; exact hw0
  · have hd : t.input = [] := by
      rw [hin]; exact List.drop_eq_nil_of_le (by omega)
    have hd1 : bs.drop (k + 1) = [] := List.drop_eq_nil_of_le (by omega)
    by_cases hw0 : t.eof_warned = 0
    · have hkl : k = bs.length := by have := hw.mp hw0; omega
      rw [uart_read_first_eof t hd hw0]
      refine ⟨⟨by rw [hd1]; exact hd, ?_, rfl⟩, fun h => absurd h hk, fun _ => rfl,
        fun h => by omega⟩
      constructor
      · intro h; exact absurd h Nat.one_ne_zero
      · intro h; omega
    · have hkl : k > bs.length := by
        by_contra hc
        exact hw0 (hw.mpr (by omega))
      rw [uart_read_later_eof t hd hw0]
      refine ⟨⟨by rw [hd1]; exact hd, ?_, rfl⟩, fun h => absurd h hk, fun h => by omega,
        fun _ => rfl⟩
      constructor
      · intro h; exact absurd h hw0
      · intro h; omega

/-- The state after `n` reads of the UART: `n` bytes of the input are
consumed, the end-of-input flag is set once a read found the input empty,
and the trap flag is as before. -/
theorem after_loads_uart (s : State) (size_bytes : Nat) (h0 : s.eof_warned = 0) (n : Nat) :
    (after_loads UART_BASE size_bytes n s).input = s.input.drop n ∧
    ((after_loads UART_BASE size_bytes n s).eof_warned = 0 ↔ n ≤ s.input.length) ∧
    (after_loads UART_BASE size_bytes n s).trap_occurred = s.trap_occurred := by
  induction n with
  | zero => simp [after_loads, h0]
  | succ k ih =>
    obtain ⟨i1, i2, i3⟩ := ih
    have h := (uart_read_at s.input (after_loads UART_BASE size_bytes k s) k i1 i2).1
    simp only [after_loads, bus_load_uart]
    exact ⟨h.1, h.2.1, h.2.2.trans i3⟩

/-- C35: with the input stream the list `s.input` and no end of input seen
yet, load number `n` (from 0) of successive loads from `UART_BASE` returns
byte `n` of the list, a value below 256, while `n` is less than the length;
the load after the last byte returns `0x0000000A`; every later load returns
`0xFFFFFFFF`; and the trap flag after any number of loads is the one
before. -/
theorem uart_input_sequence (s : State) (size_bytes : Nat) (h0 : s.eof_warned = 0) (n : Nat) :
    (∀ h : n < s.input.length,
      nth_load UART_BASE size_bytes n s = (s.input.get ⟨n, h⟩).val ∧
      nth_load UART_BASE size_bytes n s < 256) ∧
    (n = s.input.length → nth_load UART_BASE size_bytes n s = 0x0000000A) ∧
    (n > s.input.length → nth_load UART_BASE size_bytes n s = 0xFFFFFFFF) ∧
    (after_loads UART_BASE size_bytes n s).trap_occurred = s.trap_occurred := by
  obtain ⟨i1, i2, i3⟩ := after_loads_uart s size_bytes h0 n
  obtain ⟨-, r1, r2, r3⟩ := uart_read_at s.input (after_loads UART_BASE size_bytes n s) n i1 i2
  unfold nth_load
  rw [bus_load_uart]
  exact ⟨fun h => ⟨r1 h, by rw [r1 h]; exact (s.input.get ⟨n, h⟩).isLt⟩, r2, r3, i3⟩

/-- Instance of C35 on `demo_input` (input bytes `0x41, 0xFF`): four
successive loads return `0x41`, `0xFF`, `0x0A`, `0xFFFFFFFF`. -/
theorem uart_input_sequence_witness :
    nth_load UART_BASE 4 0 demo_input = 0x41 ∧
    nth_load UART_BASE 4 1 demo_input = 0xFF ∧
    nth_load UART_BASE 4 2 demo_input = 0x0A ∧
    nth_load UART_BASE 4 3 demo_input = 0xFFFFFFFF ∧
    (after_loads UART_BASE 4 4 demo_input).trap_occurred = 0 :=
  ⟨((uart_input_sequence demo_input 4 rfl 0).1 (by decide)).1,
    ((uart_input_sequence demo_input 4 rfl 1).1 (by decide)).1,
    (uart_input_sequence demo_input 4 rfl 2).2.1 rfl,
    (uart_input_sequence demo_input 4 rfl 3).2.2.1 (by decide),
    (uart_input_sequence demo_input 4 rfl 4).2.2.2⟩

/-! ## Termination of the hart loop -/

/-- The loop is left exactly at `pc == 0`, at an all-zero word and at the
word `0x00100073`, the last two fetched at an aligned `pc` inside RAM. -/
theorem hart_step_halted_iff (s : State) :
    (hart_step s).is_halted = true ↔
      s.pc = 0 ∨
      (s.pc % 4 = 0 ∧ u32 (s.pc + (2 ^ 32 - 0x80000000)) ≤ MEM_SIZE - 4 ∧
        (fetch s.memory (u32 (s.pc + (2 ^ 32 - 0x80000000))) = 0 ∨
          fetch s.memory (u32 (s.pc + (2 ^ 32 - 0x80000000))) = 0x00100073)) := by
  unfold hart_step
  simp only []
  split_ifs with h1 h2 h3 h4 h5
  · simp [StepResult.is_halted, h1]
  · simp only [StepResult.is_halted]
    constructor
    · intro h; exact absurd h (by decide)
    · rintro (h | ⟨h, -⟩)
      · exact absurd h h1
      · exact absurd h h2
  · simp only [StepResult.is_halted]
    constructor
    · intro h; exact absurd h (by decide)
    · rintro (h | ⟨-, h, -⟩)
      · exact absurd h h1
      · omega
  · simp only [StepResult.is_halted]
    exact ⟨fun _ => Or.inr ⟨by omega, by omega, Or.inr h4⟩, fun _ => trivial⟩
  · simp only [StepResult.is_halted]
    exact ⟨fun _ => Or.inr ⟨by omega, by omega, Or.inl h5⟩, fun _ => trivial⟩
  · simp only [StepResult.is_halted]
    constructor
    · intro h; exact absurd h (by decide)
    · rintro (h | ⟨-, -, h | h⟩)
      · exact absurd h h1
      · exact absurd h h5
      · exact absurd h h4

theorem hart_step_of_pc_zero (s : State) (h : s.pc = 0) : hart_step s = .halted s := by
  unfold hart_step
  simp [h]

theorem raise_exception_of_flag (s : State) (c t : Nat) (h : s.trap_occurred ≠ 0) :
    raise_exception s c t = s := by
  unfold raise_exception
  simp [h]

/-- An instruction that ends with the trap flag set leaves `pc` at the trap
vector and `mtvec` as it was. -/
theorem execute_instruction_trap_pc (s : State) (instruction current_pc : Nat)
    (h : (execute_instruction s instruction current_pc).trap_occurred = 1) :
    (execute_instruction s instruction current_pc).pc =
      (execute_instruction s instruction current_pc).csrs CSR_MTVEC &&& 0xFFFFFFFC := by
  unfold execute_instruction at h ⊢
  rw [finish_trap_occurred] at h
  rw [finish_of_trap _ h]
  obtain ⟨-, -, -, -, -, -, -, h8, h9⟩ :=
    dispatch_trap { s with trap_occurred := 0 } instruction current_pc rfl h
  rw [h9, h8]

/-- The end of an executing iteration that leaves the trap flag set has
`pc` at the trap vector, provided the instruction did so when it trapped. -/
theorem after_execute_trap_pc (s1 : State) (h : (after_execute s1).trap_occurred = 1)
    (hp : s1.trap_occurred = 1 → s1.pc = s1.csrs CSR_MTVEC &&& 0xFFFFFFFC) :
    (after_execute s1).pc = (after_execute s1).csrs CSR_MTVEC &&& 0xFFFFFFFC := by
  have hp2 : s1.trap_occurred = 1 → s1.pc = s1.csrs 0x305 &&& 0xFFFFFFFC := hp
  unfold after_execute at h ⊢
  simp only [] at h ⊢
  by_cases h0 : s1.trap_occurred = 0
  · split_ifs at h ⊢ <;>
      simp_all [raise_exception, setAt, CSR_MIP, CSR_MSTATUS, CSR_MIE, CSR_MCAUSE, CSR_MTVAL,
        CSR_MEPC, CSR_MTVEC]
  · split_ifs at h ⊢ <;>
      simp_all [raise_exception, setAt, CSR_MIP, CSR_MSTATUS, CSR_MIE, CSR_MCAUSE, CSR_MTVAL,
        CSR_MEPC, CSR_MTVEC]

/-- An iteration that does not halt and ends with the trap flag set (the
flag clear at loop head, or an instruction executed) has taken a trap: `pc`
is the trap vector. -/
theorem hart_step_trap_pc (s : State) (hs : s.trap_occurred = 0 ∨ reaches_execute s = true)
    (hh : (hart_step s).is_halted = false)
    (ht : (hart_step s).state.trap_occurred = 1) :
    (hart_step s).state.pc = (hart_step s).state.csrs CSR_MTVEC &&& 0xFFFFFFFC := by
  cases hr : reaches_execute s with
  | true =>
    rw [hart_step_of_reaches s hr] at ht ⊢
    exact after_execute_trap_pc _ ht (execute_instruction_trap_pc s _ _)
  | false =>
    have h0 : s.trap_occurred = 0 := by
      rcases hs with h | h
      · exact h
      · rw [hr] at h; exact absurd h (by decide)
    obtain ⟨-, -, -, f4, -, -, -, -, -, -, -, -, -, -, f15⟩ :=
      raise_exception_fresh s CAUSE_INSN_ACCESS s.pc h0
    have hn : not32 0x3 = 0xFFFFFFFC := by decide
    rw [hn] at f4
    unfold reaches_execute at hr
    simp only [decide_eq_false_iff_not] at hr
    unfold hart_step at hh ht ⊢
    simp only [] at hh ht ⊢
    split_ifs at hh ht ⊢ with h1 h2 h3 h4 h5
    · simp [StepResult.is_halted] at hh
    · simp only [StepResult.state]; rw [f4, f15]
    · simp only [StepResult.state]; rw [f4, f15]
    · simp [StepResult.is_halted] at hh
    · simp [StepResult.is_halted] at hh
    · exact absurd ⟨h1, by omega, by omega, h4, h5⟩ hr

/-- The state after a SYSTEM word with `funct3 == 0` and immediate field 1:
the `ebreak` line is written and the instruction retires. -/
theorem execute_ebreak_word (s : State) (instruction current_pc : Nat)
    (hop : instruction &&& 0x7F = 0x73) (hf3 : (instruction >>> 12) &&& 0x7 = 0)
    (himm : (instruction >>> 20) &&& 0xFFF = 1) :
    execute_instruction s instruction current_pc =
      { s with
        trap_occurred := 0
        trace := s.trace ++ [⟨current_pc, "ebreak"⟩]
        pc := u32 (s.pc + 4) } := by
  unfold execute_instruction
  rw [dispatch_system _ _ _ hop]
  unfold exec_system
  simp only [hf3, himm, if_true]
  simp [finish, emit]

/-- The end of an iteration writes nothing to the trace. -/
theorem after_execute_trace (s1 : State) : (after_execute s1).trace = s1.trace := by
  unfold after_execute
  simp only []
  split_ifs <;> simp [raise_exception] <;> split_ifs <;> rfl

/-- The claim C31 fails for an `ebreak`-like word with a non-zero `rd`
field: the word `0x001000F3` has opcode 0x73, `funct3` 0 and immediate
field 1, it is fetched at the valid pc `0x80000000`, and the iteration does
not leave the loop: it writes an `ebreak` line and goes on at
`0x80000004`. -/
theorem loose_ebreak_does_not_halt :
    fetch loose_ebreak_image 0 = 0x001000F3 ∧
    ((0x001000F3 : Nat) &&& 0x7F = 0x73 ∧ ((0x001000F3 : Nat) >>> 12) &&& 0x7 = 0 ∧
      ((0x001000F3 : Nat) >>> 20) &&& 0xFFF = 1) ∧
    (hart_step (init loose_ebreak_image [])).is_halted = false ∧
    (hart_step (init loose_ebreak_image [])).state.pc = 0x80000004 ∧
    (hart_step (init loose_ebreak_image [])).state.trace = [⟨0x80000000, "ebreak"⟩] := by
  decide

/-- C31 (amended): an iteration of the hart loop leaves the loop if and
only if `pc == 0` at loop head, or the word fetched at a valid `pc`
(aligned, with its four bytes in RAM) is all-zero or is exactly
`0x00100073`; an iteration that takes a trap while `mtvec & ~3 == 0` ends
with `pc == 0`, so that the next iteration leaves the loop, changing
nothing; and a SYSTEM word (opcode 0x73) with `funct3 == 0` and immediate
field 1 other than `0x00100073`, fetched at a valid `pc`, does not end the
loop: it is executed, writes one `ebreak` line to the trace and retires
(`pc` advanced by 4, no trap, registers, memory and CSRs untouched). -/
theorem hart_loop_halts_iff (s : State) :
    ((hart_step s).is_halted = true ↔
      s.pc = 0 ∨
      (s.pc % 4 = 0 ∧ u32 (s.pc + (2 ^ 32 - 0x80000000)) ≤ MEM_SIZE - 4 ∧
        (fetch s.memory (u32 (s.pc + (2 ^ 32 - 0x80000000))) = 0 ∨
          fetch s.memory (u32 (s.pc + (2 ^ 32 - 0x80000000))) = 0x00100073))) ∧
    ((s.trap_occurred = 0 ∨ reaches_execute s = true) →
      (hart_step s).is_halted = false →
      (hart_step s).state.trap_occurred = 1 →
      (hart_step s).state.csrs CSR_MTVEC &&& not32 0x3 = 0 →
      (hart_step s).state.pc = 0 ∧
      hart_step (hart_step s).state = .halted (hart_step s).state) ∧
    (s.pc ≠ 0 → s.pc % 4 = 0 → u32 (s.pc + (2 ^ 32 - 0x80000000)) ≤ MEM_SIZE - 4 →
      fetch s.memory (u32 (s.pc + (2 ^ 32 - 0x80000000))) &&& 0x7F = 0x73 →
      (fetch s.memory (u32 (s.pc + (2 ^ 32 - 0x80000000))) >>> 12) &&& 0x7 = 0 →
      (fetch s.memory (u32 (s.pc + (2 ^ 32 - 0x80000000))) >>> 20) &&& 0xFFF = 1 →
      fetch s.memory (u32 (s.pc + (2 ^ 32 - 0x80000000))) ≠ 0x00100073 →
      (hart_step s).is_halted = false ∧
      hart_step s = .running (after_execute (execute_instruction s
        (fetch s.memory (u32 (s.pc + (2 ^ 32 - 0x80000000)))) s.pc)) ∧
      (execute_instruction s (fetch s.memory (u32 (s.pc + (2 ^ 32 - 0x80000000)))) s.pc).trace =
        s.trace ++ [⟨s.pc, "ebreak"⟩] ∧
      (execute_instruction s (fetch s.memory (u32 (s.pc + (2 ^ 32 - 0x80000000)))) s.pc).pc =
        (s.pc + 4) % 2 ^ 32 ∧
      (execute_instruction s (fetch s.memory (u32 (s.pc + (2 ^ 32 - 0x80000000))))
        s.pc).trap_occurred = 0 ∧
      (execute_instruction s (fetch s.memory (u32 (s.pc + (2 ^ 32 - 0x80000000))))
        s.pc).registers = s.registers ∧
      (execute_instruction s (fetch s.memory (u32 (s.pc + (2 ^ 32 - 0x80000000))))
        s.pc).memory = s.memory ∧
      (execute_instruction s (fetch s.memory (u32 (s.pc + (2 ^ 32 - 0x80000000))))
        s.pc).csrs = s.csrs ∧
      (hart_step s).state.trace = s.trace ++ [⟨s.pc, "ebreak"⟩]) := by
  refine ⟨hart_step_halted_iff s, fun hs hh ht hv => ?_, fun h1 h2 h3 hop hf3 himm hne => ?_⟩
  · have hn : not32 0x3 = 0xFFFFFFFC := by decide
    rw [hn] at hv
    have hpc : (hart_step s).state.pc = 0 := by
      rw [hart_step_trap_pc s hs hh ht, hv]
    exact ⟨hpc, hart_step_of_pc_zero _ hpc⟩
  · have hw0 : fetch s.memory (u32 (s.pc + (2 ^ 32 - 0x80000000))) ≠ 0 := by
      intro h0
      rw [h0] at hop
      exact absurd hop (by decide)
    have hr : reaches_execute s = true := by
      unfold reaches_execute
      simp only [decide_eq_true_eq]
      exact ⟨h1, h2, h3, hne, hw0⟩
    have hstep := hart_step_of_reaches s hr
    have hex := execute_ebreak_word s _ s.pc hop hf3 himm
    refine ⟨by rw [hstep]; rfl, hstep, ?_, ?_, ?_, ?_, ?_, ?_, ?_⟩
    · rw [hex]
    · rw [hex]; rfl
    · rw [hex]
    · rw [hex]
    · rw [hex]
    · rw [hex]
    · rw [hstep]
      show (after_execute _).trace = _
      rw [after_execute_trace, hex]

/-- Instance of C31: on the empty image the first fetched word is zero and
the loop is left at once; on `ecall_image`, with `mtvec = 0`, the `ecall`
traps to `pc = 0` and the second iteration leaves the loop; on
`loose_ebreak_image` the word `0x001000F3` writes its `ebreak` line and the
loop goes on at `0x80000004`. -/
theorem hart_loop_halts_iff_witness :
    (hart_step (init (fun _ => 0) [])).is_halted = true ∧
    (hart_step (init ecall_image [])).state.pc = 0 ∧
    (run 2 (init ecall_image [])).is_halted = true ∧
    (hart_step (init loose_ebreak_image [])).is_halted = false ∧
    (hart_step (init loose_ebreak_image [])).state.trace = [⟨0x80000000, "ebreak"⟩] ∧
    (execute_instruction (init loose_ebreak_image []) 0x001000F3 0x80000000).pc = 0x80000004 :=
  have h := (hart_loop_halts_iff (init ecall_image [])).2.1 (Or.inl rfl) (by decide) (by decide)
    (by decide)
  have hl := (hart_loop_halts_iff (init loose_ebreak_image [])).2.2 (by decide) (by decide)
    (by decide) (by decide) (by decide) (by decide) (by decide)
  ⟨(hart_loop_halts_iff (init (fun _ => 0) [])).1.mpr (by decide), h.1, by decide, hl.1,
    hl.2.2.2.2.2.2.2.2, hl.2.2.2.1⟩

/-! ## A branch in a loop -/

/-- The claim C36 fails: `beq x0, x0, -4` is the word `0xFE000EE3`, whose
decoded offset is `-4`; executed at `0x80000000` from the initial state it
leaves `pc = 0x7FFFFFFC`, not `0x80000000`; the next fetch faults to
`mtvec = 0` and the third iteration leaves the loop with `mtime == 1`. -/
theorem branch_back_leaves_pc :
    fetch branch_back_image 0 = 0xFE000EE3 ∧
    imm_b 0xFE000EE3 = -4 ∧
    ((0xFE000EE3 : Nat) &&& 0x7F = 0x63 ∧ ((0xFE000EE3 : Nat) >>> 12) &&& 0x7 = 0 ∧
      ((0xFE000EE3 : Nat) >>> 15) &&& 0x1F = 0 ∧ ((0xFE000EE3 : Nat) >>> 20) &&& 0x1F = 0) ∧
    (hart_step (init branch_back_image [])).state.pc = 0x7FFFFFFC ∧
    ¬ ((hart_step (init branch_back_image [])).state.pc = (init branch_back_image []).pc) ∧
    (run 2 (init branch_back_image [])).state.pc = 0 ∧
    (run 3 (init branch_back_image [])).is_halted = true ∧
    (run 3 (init branch_back_image [])).state.mtime = 1 := by
  decide

/-- The state after `beq x0, x0, 0`: the branch is taken, to its own
address. -/
theorem execute_self_branch (t : State) (p : Nat) :
    execute_instruction t 0x00000063 p =
      { emit { t with trap_occurred := 0 } p "beq" with pc := u32 (p + 0) } := by
  have hi : imm_b 0x00000063 = 0 := by decide
  have ho : ofInt32 0 = 0 := by decide
  unfold execute_instruction
  rw [dispatch_branch _ _ _ (by decide)]
  unfold exec_branch
  simp only [hi, ho]
  simp [finish]

/-- One iteration on the self-branch: the branch is executed, `pc` stays,
`mtime` is incremented, and memory, `x0` and `mstatus` are as before. -/
theorem hart_step_self_branch (t : State) (hpc : t.pc = 0x80000000)
    (hw : fetch t.memory 0 = 0x00000063) (hms : t.csrs CSR_MSTATUS = 0) :
    reaches_execute t = true ∧
    (hart_step t).is_halted = false ∧
    (hart_step t).state.pc = 0x80000000 ∧
    (hart_step t).state.memory = t.memory ∧
    (hart_step t).state.csrs CSR_MSTATUS = 0 ∧
    (hart_step t).state.mtime = (t.mtime + 1) % 2 ^ 64 ∧
    (hart_step t).state.registers = setAt t.registers 0 0 := by
  have hidx : u32 (t.pc + (2 ^ 32 - 0x80000000)) = 0 := by rw [hpc]; decide
  have hr : reaches_execute t = true := by
    unfold reaches_execute
    rw [hidx, hw, hpc]
    decide
  have hms2 : t.csrs 0x300 = 0 := hms
  refine ⟨hr, ?_⟩
  rw [hart_step_of_reaches t hr, hidx, hw, execute_self_branch, hpc]
  unfold after_execute
  simp only [StepResult.is_halted, StepResult.state]
  split_ifs <;>
    simp_all [setAt, emit, u32, u64, CSR_MIP, CSR_MSTATUS, CSR_MIE, raise_exception]

/-- The loop on the self-branch after `n` iterations: still running at the
same `pc`, with `n` instructions executed. -/
theorem run_self_branch (image : Nat → Nat) (input : List (Fin 256))
    (hw : fetch image 0 = 0x00000063) (n : Nat) :
    ∃ t, run n (init image input) = .running t ∧ t.pc = 0x80000000 ∧ t.memory = image ∧
      t.csrs CSR_MSTATUS = 0 ∧ t.mtime = n % 2 ^ 64 ∧ executed n (init image input) = n := by
  induction n with
  | zero => exact ⟨init image input, rfl, rfl, rfl, rfl, rfl, rfl⟩
  | succ k ih =>
    obtain ⟨t, hrun, hpc, hmem, hms, hmt, hex⟩ := ih
    have hw2 : fetch t.memory 0 = 0x00000063 := by rw [hmem]; exact hw
    obtain ⟨s1, s2, s3, s4, s5, s6, -⟩ := hart_step_self_branch t hpc hw2 hms
    have e : run (k + 1) (init image input) = hart_step t := by simp [run, hrun]
    have e2 : executed (k + 1) (init image input) = k + 1 := by
      simp [executed, hrun, s1, hex]
    cases hst : hart_step t with
    | halted u => rw [hst] at s2; simp [StepResult.is_halted] at s2
    | running u =>
      rw [hst] at s3 s4 s5 s6
      refine ⟨u, by rw [e, hst], s3, by rw [← hmem]; exact s4, s5, ?_, e2⟩
      have s6b : u.mtime = (t.mtime + 1) % 2 ^ 64 := s6
      rw [s6b, hmt]
      omega

/-- C36 (amended): starting from the initial state with the instruction
`beq x0, x0, 0` (word `0x00000063`, a branch to its own address) at the PC,
every iteration executes that branch and leaves `pc` unchanged: after `n`
iterations the loop is still running at `pc == 0x80000000`, `n`
instructions have been executed and `mtime == n` (modulo `2^64`). -/
theorem branch_to_self_loops (image : Nat → Nat) (input : List (Fin 256))
    (hw : fetch image 0 = 0x00000063) (n : Nat) :
    (run n (init image input)).is_halted = false ∧
    (run n (init image input)).state.pc = 0x80000000 ∧
    reaches_execute (run n (init image input)).state = true ∧
    fetch (run n (init image input)).state.memory 0 = 0x00000063 ∧
    executed n (init image input) = n ∧
    (run n (init image input)).state.mtime = n % 2 ^ 64 ∧
    (n < 2 ^ 64 → (run n (init image input)).state.mtime = n) := by
  obtain ⟨t, hrun, hpc, hmem, hms, hmt, hex⟩ := run_self_branch image input hw n
  have hw2 : fetch t.memory 0 = 0x00000063 := by rw [hmem]; exact hw
  rw [hrun]
  refine ⟨rfl, hpc, (hart_step_self_branch t hpc hw2 hms).1, hw2, hex, hmt, fun hn => ?_⟩
  have h : t.mtime = n % 2 ^ 64 := hmt
  simp only [StepResult.state]
  omega

/-- Instance of C36 (amended): on `self_loop_image`, after 3 iterations the
loop is running at `pc = 0x80000000` with `mtime = 3`. -/
theorem branch_to_self_loops_witness :
    (run 3 (init self_loop_image [])).is_halted = false ∧
    (run 3 (init self_loop_image [])).state.pc = 0x80000000 ∧
    (run 3 (init self_loop_image [])).state.mtime = 3 :=
  have h := branch_to_self_loops self_loop_image [] (by decide) 3
  ⟨h.1, h.2.1, h.2.2.2.2.2.2 (by decide)⟩

/-! ## Array bounds -/

theorem memory_read_of_lt (memory : Nat → Nat) (i : Nat) (h : i < MEM_SIZE) :
    memory_read memory i = some (memory i) := by
  simp [memory_read, h]

/-- A load loop whose `n` bytes end inside the array takes no out-of-range
branch. -/
theorem load_loop_checked_eq (memory : Nat → Nat) (index n : Nat) (h : index + n ≤ MEM_SIZE) :
    load_loop_checked memory index n = some (load_loop memory index n) := by
  induction n with
  | zero => rfl
  | succ k ih =>
    have hk : index + k < MEM_SIZE := by omega
    simp only [load_loop_checked, load_loop, ih (by omega), memory_read_of_lt _ _ hk]

/-- A store loop whose `n` bytes end inside the array takes no out-of-range
branch. -/
theorem store_loop_checked_eq (index value n : Nat) (memory : Nat → Nat)
    (h : index + n ≤ MEM_SIZE) :
    store_loop_checked index value n memory = some (store_loop index value n memory) := by
  induction n with
  | zero => rfl
  | succ k ih =>
    have hk : index + k < MEM_SIZE := by omega
    simp only [store_loop_checked, store_loop, ih (by omega), if_pos hk]

theorem fetch_checked_eq (memory : Nat → Nat) (idx : Nat) (h : idx ≤ MEM_SIZE - 4) :
    fetch_checked memory idx = some (fetch memory idx) := by
  have hm : MEM_SIZE = 1048576 := by decide
  have h0 : idx < MEM_SIZE := by omega
  have h1 : idx + 1 < MEM_SIZE := by omega
  have h2 : idx + 2 < MEM_SIZE := by omega
  have h3 : idx + 3 < MEM_SIZE := by omega
  simp only [fetch_checked, fetch, memory_read_of_lt _ _ h0, memory_read_of_lt _ _ h1,
    memory_read_of_lt _ _ h2, memory_read_of_lt _ _ h3]

/-- The loop iteration with the checked fetch takes no out-of-range branch. -/
theorem hart_step_checked_eq (s : State) : hart_step_checked s = some (hart_step s) := by
  unfold hart_step_checked hart_step
  by_cases h1 : s.pc = 0
  · rw [if_pos h1, if_pos h1]
  · rw [if_neg h1, if_neg h1]
    by_cases h2 : s.pc % 4 ≠ 0
    · rw [if_pos h2, if_pos h2]
    · rw [if_neg h2, if_neg h2]
      by_cases h3 : u32 (s.pc + (2 ^ 32 - 0x80000000)) > MEM_SIZE - 4
      · rw [if_pos h3]
        exact congrArg some (if_pos h3).symm
      · rw [if_neg h3,
          fetch_checked_eq _ _ (show u32 (s.pc + (2 ^ 32 - 0x80000000)) ≤ MEM_SIZE - 4 by omega)]
        refine Eq.trans ?_ (congrArg some (if_neg h3).symm)
        by_cases h4 : fetch s.memory (u32 (s.pc + (2 ^ 32 - 0x80000000))) = 0x00100073
        · exact (if_pos h4).trans (congrArg some (if_pos h4).symm)
        · refine (if_neg h4).trans (Eq.trans ?_ (congrArg some (if_neg h4).symm))
          by_cases h5 : fetch s.memory (u32 (s.pc + (2 ^ 32 - 0x80000000))) = 0
          · exact (if_pos h5).trans (congrArg some (if_pos h5).symm)
          · exact (if_neg h5).trans (congrArg some (if_neg h5).symm)

/-- C38: for every address, every size in {1, 2, 4} and every `pc`, the
embeddings of `bus_load`, `bus_store` and of the loop iteration with checked
array accesses never take the out-of-range branch: they return the result
of the unchecked ones. In the RAM branch the accessed indices
`index .. index + size - 1` are below `MEM_SIZE`, and past the fetch guard
the four fetched indices are below `MEM_SIZE`. -/
theorem memory_accesses_in_bounds (s : State) (addr value size_bytes : Nat)
    (hsize : size_bytes = 1 ∨ size_bytes = 2 ∨ size_bytes = 4) :
    bus_load_checked s addr size_bytes = some (bus_load s addr size_bytes) ∧
    bus_store_checked s addr value size_bytes = some (bus_store s addr value size_bytes) ∧
    hart_step_checked s = some (hart_step s) ∧
    (addr ≥ RAM_BASE → addr < RAM_BASE + MEM_SIZE → ¬ (addr - RAM_BASE > MEM_SIZE - size_bytes) →
      ∀ i, i < size_bytes → addr - RAM_BASE + i < MEM_SIZE) ∧
    (¬ (u32 (s.pc + (2 ^ 32 - 0x80000000)) > MEM_SIZE - 4) →
      ∀ i, i < 4 → u32 (s.pc + (2 ^ 32 - 0x80000000)) + i < MEM_SIZE) := by
  have hm : MEM_SIZE = 1048576 := by decide
  refine ⟨?_, ?_, ?_, ?_, ?_⟩
  · by_cases h1 : addr ≥ RAM_BASE ∧ addr < RAM_BASE + MEM_SIZE
    · by_cases h2 : addr - RAM_BASE > MEM_SIZE - size_bytes
      · simp only [bus_load_checked, bus_load, if_pos h1, if_pos h2]
      · simp only [bus_load_checked, bus_load, if_pos h1, if_neg h2,
          load_loop_checked_eq _ _ _ (show addr - RAM_BASE + size_bytes ≤ MEM_SIZE by omega)]
    · simp only [bus_load_checked, if_neg h1]
  · by_cases h1 : addr ≥ RAM_BASE ∧ addr < RAM_BASE + MEM_SIZE
    · by_cases h2 : addr - RAM_BASE > MEM_SIZE - size_bytes
      · simp only [bus_store_checked, bus_store, if_pos h1, if_pos h2]
      · simp only [bus_store_checked, bus_store, if_pos h1, if_neg h2,
          store_loop_checked_eq _ _ _ _ (show addr - RAM_BASE + size_bytes ≤ MEM_SIZE by omega)]
    · simp only [bus_store_checked, if_neg h1]
  · exact hart_step_checked_eq s
  · intro _ _ h i hi
    omega
  · intro h i hi
    omega

/-- Instance of C38 at the last word of RAM: a 4-byte load and store at
`0x800FFFFC` and the fetch at `pc = 0x800FFFFC` stay inside the array (the
last index read is `0xFFFFF`), and a 4-byte load at `0x800FFFFD` is refused
before any array access. -/
theorem memory_accesses_in_bounds_witness :
    (bus_load_checked demo_last_word 0x800FFFFC 4).isSome = true ∧
    (bus_store_checked demo_last_word 0x800FFFFC 7 4).isSome = true ∧
    (hart_step_checked demo_last_word).isSome = true ∧
    (bus_load_checked demo_last_word 0x800FFFFD 4).isSome = true ∧
    (0x800FFFFC - RAM_BASE + 3 < MEM_SIZE) :=
  have h := memory_accesses_in_bounds demo_last_word 0x800FFFFC 7 4 (by decide)
  have h2 := memory_accesses_in_bounds demo_last_word 0x800FFFFD 7 4 (by decide)
  ⟨congrArg Option.isSome h.1, congrArg Option.isSome h.2.1, congrArg Option.isSome h.2.2.1,
    congrArg Option.isSome h2.1,
    h.2.2.2.1 (by decide) (by decide) (by decide) 3 (by decide)⟩

/-! ## Trace lines -/

@[simp]
theorem emit_trace (s : State) (p : Nat) (t : String) :
    (emit s p t).trace = s.trace ++ [⟨p, t⟩] := rfl

@[simp]
theorem write_rd_trace (s : State) (rd v : Nat) : (write_rd s rd v).trace = s.trace := by
  unfold write_rd; split_ifs <;> rfl

@[simp]
theorem raise_exception_trace (s : State) (c t : Nat) :
    (raise_exception s c t).trace = s.trace := by
  unfold raise_exception; split_ifs <;> rfl

@[simp]
theorem uart_read_trace (s : State) : (uart_read s).2.trace = s.trace := by
  unfold uart_read
  split
  · rfl
  · split <;> rfl

@[simp]
theorem bus_load_trace (s : State) (addr size : Nat) :
    (bus_load s addr size).2.trace = s.trace := by
  unfold bus_load
  simp only []
  split_ifs <;> simp

@[simp]
theorem bus_store_trace (s : State) (addr value size : Nat) :
    (bus_store s addr value size).trace = s.trace := by
  unfold bus_store
  simp only []
  split_ifs <;> simp

theorem uart_read_trap (s : State) : (uart_read s).2.trap_occurred = s.trap_occurred := by
  unfold uart_read
  split
  · rfl
  · split <;> rfl

/-- A bus load from a state with the flag clear leaves the flag 0 or 1. -/
theorem bus_load_trap_cases (s : State) (addr size : Nat) (h0 : s.trap_occurred = 0) :
    (bus_load s addr size).2.trap_occurred = 0 ∨ (bus_load s addr size).2.trap_occurred = 1 := by
  unfold bus_load
  simp only []
  split_ifs <;> simp [h0, uart_read_trap, raise_exception_trap_of_clear]

/-- A bus store from a state with the flag clear leaves the flag 0 or 1. -/
theorem bus_store_trap_cases (s : State) (addr value size : Nat) (h0 : s.trap_occurred = 0) :
    (bus_store s addr value size).trap_occurred = 0 ∨
      (bus_store s addr value size).trap_occurred = 1 := by
  unfold bus_store
  simp only []
  split_ifs <;> simp [h0, raise_exception_trap_of_clear]

theorem oneLine_raise (s : State) (c t : Nat) (h0 : s.trap_occurred = 0) :
    OneLineOrTrap s (raise_exception s c t) :=
  Or.inr ⟨raise_exception_trap_of_clear s c t h0, raise_exception_trace s c t⟩

theorem oneLine_emit_write (s : State) (rd v p : Nat) (n : String) (h0 : s.trap_occurred = 0) :
    OneLineOrTrap s (emit (write_rd s rd v) p n) :=
  Or.inl ⟨by simp [h0], ⟨⟨p, n⟩, by simp⟩⟩

theorem oneLine_write_emit (s : State) (rd v p : Nat) (n : String) (h0 : s.trap_occurred = 0) :
    OneLineOrTrap s (write_rd (emit s p n) rd v) :=
  Or.inl ⟨by simp [h0], ⟨⟨p, n⟩, by simp⟩⟩

theorem oneLine_emit (s : State) (p : Nat) (n : String) (h0 : s.trap_occurred = 0) :
    OneLineOrTrap s (emit s p n) :=
  Or.inl ⟨by simp [h0], ⟨⟨p, n⟩, by simp⟩⟩

theorem exec_op_imm_oneLine (s : State) (instruction current_pc : Nat) (h0 : s.trap_occurred = 0)
    (hm : ¬ ((instruction >>> 12) &&& 0x7 = 5 ∧ (instruction >>> 25) &&& 0x7F ≠ 0x00 ∧
      (instruction >>> 25) &&& 0x7F ≠ 0x20)) :
    OneLineOrTrap s (exec_op_imm s instruction current_pc).state := by
  unfold exec_op_imm
  simp only []
  split_ifs <;>
    first
    | exact oneLine_emit_write s _ _ _ _ h0
    | exact oneLine_raise s _ _ h0
    | exact absurd ⟨by assumption, by assumption, by assumption⟩ hm

theorem exec_op_oneLine (s : State) (instruction current_pc : Nat) (h0 : s.trap_occurred = 0) :
    OneLineOrTrap s (exec_op s instruction current_pc).state := by
  unfold exec_op
  simp only []
  split
  · exact oneLine_write_emit s _ _ _ _ h0
  · exact oneLine_raise s _ _ h0

theorem exec_jal_oneLine (s : State) (instruction current_pc : Nat) (h0 : s.trap_occurred = 0) :
    OneLineOrTrap s (exec_jal s instruction current_pc).state := by
  refine Or.inl ⟨?_, ⟨⟨current_pc, "jal"⟩, ?_⟩⟩ <;> simp [exec_jal, Flow.state, h0]

theorem exec_jalr_oneLine (s : State) (instruction current_pc : Nat) (h0 : s.trap_occurred = 0) :
    OneLineOrTrap s (exec_jalr s instruction current_pc).state := by
  refine Or.inl ⟨?_, ⟨⟨current_pc, "jalr"⟩, ?_⟩⟩ <;> simp [exec_jalr, Flow.state, h0]

theorem exec_lui_oneLine (s : State) (instruction current_pc : Nat) (h0 : s.trap_occurred = 0) :
    OneLineOrTrap s (exec_lui s instruction current_pc).state := by
  refine Or.inl ⟨?_, ⟨⟨current_pc, "lui"⟩, ?_⟩⟩ <;> simp [exec_lui, Flow.state, h0]

theorem exec_auipc_oneLine (s : State) (instruction current_pc : Nat) (h0 : s.trap_occurred = 0) :
    OneLineOrTrap s (exec_auipc s instruction current_pc).state := by
  refine Or.inl ⟨?_, ⟨⟨current_pc, "auipc"⟩, ?_⟩⟩ <;> simp [exec_auipc, Flow.state, h0]

theorem exec_branch_oneLine (s : State) (instruction current_pc : Nat) (h0 : s.trap_occurred = 0) :
    OneLineOrTrap s (exec_branch s instruction current_pc).state := by
  unfold exec_branch
  simp only []
  split_ifs <;>
    simp [OneLineOrTrap, Flow.state, h0, raise_exception_trap_of_clear]

/-- The write-back of a load, after a bus access that left the trace alone
and the flag 0 or 1. -/
theorem load_writeback_oneLine (s t : State) (rd res p : Nat) (n : String)
    (htr : t.trace = s.trace) (hc : t.trap_occurred = 0 ∨ t.trap_occurred = 1) :
    OneLineOrTrap s (load_writeback t rd res p n).state := by
  unfold load_writeback
  rcases hc with h | h
  · rw [if_pos h]
    exact Or.inl ⟨by simp [Flow.state, h], ⟨⟨p, n⟩, by simp [Flow.state, htr]⟩⟩
  · rw [if_neg (by omega)]
    exact Or.inr ⟨h, htr⟩

theorem store_trace_oneLine (s t : State) (p : Nat) (n : String)
    (htr : t.trace = s.trace) (hc : t.trap_occurred = 0 ∨ t.trap_occurred = 1) :
    OneLineOrTrap s (store_trace t p n).state := by
  unfold store_trace
  rcases hc with h | h
  · rw [if_pos h]
    exact Or.inl ⟨by simp [Flow.state, h], ⟨⟨p, n⟩, by simp [Flow.state, htr]⟩⟩
  · rw [if_neg (by omega)]
    exact Or.inr ⟨h, htr⟩

theorem exec_load_oneLine (s : State) (instruction current_pc : Nat) (h0 : s.trap_occurred = 0) :
    OneLineOrTrap s (exec_load s instruction current_pc).state := by
  unfold exec_load
  simp only [read_byte_from_memory, read_half_word_from_memory, read_word_from_memory]
  split_ifs <;>
    first
    | exact load_writeback_oneLine s _ _ _ _ _ (bus_load_trace s _ _) (bus_load_trap_cases s _ _ h0)
    | exact oneLine_raise s _ _ h0

theorem exec_store_oneLine (s : State) (instruction current_pc : Nat) (h0 : s.trap_occurred = 0) :
    OneLineOrTrap s (exec_store s instruction current_pc).state := by
  unfold exec_store
  simp only [write_byte_to_memory, write_half_word_to_memory, write_word_to_memory]
  split_ifs <;>
    first
    | exact store_trace_oneLine s _ _ _ (bus_store_trace s _ _ _)
        (bus_store_trap_cases s _ _ _ h0)
    | exact oneLine_raise s _ _ h0

theorem exec_system_oneLine (s : State) (instruction current_pc : Nat) (h0 : s.trap_occurred = 0)
    (hx : ¬ ((instruction >>> 12) &&& 0x7 = 0 ∧
      ((instruction >>> 20) &&& 0xFFF = 0 ∨ (instruction >>> 20) &&& 0xFFF = 1 ∨
        (instruction >>> 20) &&& 0xFFF = 0x302))) :
    OneLineOrTrap s (exec_system s instruction current_pc).state := by
  unfold exec_system
  simp only [csr_commit]
  by_cases h1 : (instruction >>> 12) &&& 0x7 = 0
  · have c0 : ¬ (instruction >>> 20) &&& 0xFFF = 0 := fun h => hx ⟨h1, Or.inl h⟩
    have c1 : ¬ (instruction >>> 20) &&& 0xFFF = 1 := fun h => hx ⟨h1, Or.inr (Or.inl h)⟩
    have c2 : ¬ (instruction >>> 20) &&& 0xFFF = 0x302 := fun h => hx ⟨h1, Or.inr (Or.inr h)⟩
    rw [if_pos h1, if_neg c0, if_neg c1, if_neg c2]
    exact oneLine_raise s _ _ h0
  · rw [if_neg h1]
    split_ifs <;>
      simp [OneLineOrTrap, Flow.state, h0, raise_exception_trap_of_clear]

theorem finish_trace (fl : Flow) : (finish fl).trace = fl.state.trace := by
  cases fl with
  | ret s => rfl
  | brk s u =>
    simp only [finish, Flow.state]
    split_ifs <;> rfl

theorem oneLine_finish (s : State) (fl : Flow) (h : OneLineOrTrap s fl.state) :
    OneLineOrTrap s (finish fl) := by
  unfold OneLineOrTrap at h ⊢
  rw [finish_trace, finish_trap_occurred]
  exact h

/-- The trace discipline through the opcode switch, for the ten decoded
opcodes, leaving out `ecall`, `ebreak`, `mret` and the shift-immediates
with an undecoded `funct7`. -/
theorem dispatch_oneLine (s : State) (instruction current_pc : Nat) (h0 : s.trap_occurred = 0)
    (hop : instruction &&& 0x7F = 0x13 ∨ instruction &&& 0x7F = 0x33 ∨
      instruction &&& 0x7F = 0x6F ∨ instruction &&& 0x7F = 0x63 ∨
      instruction &&& 0x7F = 0x37 ∨ instruction &&& 0x7F = 0x17 ∨
      instruction &&& 0x7F = 0x67 ∨ instruction &&& 0x7F = 0x03 ∨
      instruction &&& 0x7F = 0x23 ∨ instruction &&& 0x7F = 0x73)
    (hsys : ¬ (instruction &&& 0x7F = 0x73 ∧ (instruction >>> 12) &&& 0x7 = 0 ∧
      ((instruction >>> 20) &&& 0xFFF = 0 ∨ (instruction >>> 20) &&& 0xFFF = 1 ∨
        (instruction >>> 20) &&& 0xFFF = 0x302)))
    (hsh : ¬ (instruction &&& 0x7F = 0x13 ∧ (instruction >>> 12) &&& 0x7 = 5 ∧
      (instruction >>> 25) &&& 0x7F ≠ 0x00 ∧ (instruction >>> 25) &&& 0x7F ≠ 0x20)) :
    OneLineOrTrap s (dispatch s instruction current_pc).state := by
  rcases hop with h | h | h | h | h | h | h | h | h | h
  · rw [dispatch_op_imm _ _ _ h]
    exact exec_op_imm_oneLine s _ _ h0 (fun hm => hsh ⟨h, hm⟩)
  · rw [dispatch_op _ _ _ h]; exact exec_op_oneLine s _ _ h0
  · rw [dispatch_jal _ _ _ h]; exact exec_jal_oneLine s _ _ h0
  · rw [dispatch_branch _ _ _ h]; exact exec_branch_oneLine s _ _ h0
  · rw [dispatch_lui _ _ _ h]; exact exec_lui_oneLine s _ _ h0
  · rw [dispatch_auipc _ _ _ h]; exact exec_auipc_oneLine s _ _ h0
  · rw [dispatch_jalr _ _ _ h]; exact exec_jalr_oneLine s _ _ h0
  · rw [dispatch_load _ _ _ h]; exact exec_load_oneLine s _ _ h0
  · rw [dispatch_store _ _ _ h]; exact exec_store_oneLine s _ _ h0
  · rw [dispatch_system _ _ _ h]
    exact exec_system_oneLine s _ _ h0 (fun hm => hsys ⟨h, hm⟩)

/-- The claim C32 fails on two words that are neither `ecall`, `ebreak`
nor `mret`: `0xFFFFFFFF` (opcode 0x7F, not decoded) raises a trap and
writes a line to the trace; `0x2000D293` (opcode 0x13, `funct3` 5, `funct7`
0x10) raises no trap and writes no line. -/
theorem trace_line_counterexample :
    ((execute_instruction demo_state 0xFFFFFFFF 0x80000008).trap_occurred = 1 ∧
      (execute_instruction demo_state 0xFFFFFFFF 0x80000008).trace =
        [⟨0x80000008, "Erro"⟩] ∧
      ¬ ((0xFFFFFFFF : Nat) &&& 0x7F = 0x73)) ∧
    ((execute_instruction demo_state 0x2000D293 0x80000008).trap_occurred = 0 ∧
      (execute_instruction demo_state 0x2000D293 0x80000008).trace = [] ∧
      demo_state.trace = [] ∧
      ¬ ((0x2000D293 : Nat) &&& 0x7F = 0x73)) := by
  decide

/-- C32 (amended): for every instruction word with one of the ten decoded
opcodes, other than `ecall`, `ebreak`, `mret` and other than an OP-IMM word
with `funct3 == 5` and `funct7` outside {0x00, 0x20}, `execute_instruction`
ends with the trap flag 0 or 1, writes exactly one line to the trace when
no trap occurred and nothing when a trap occurred. A word with any other
opcode raises a trap and writes one line, the unknown-opcode message. -/
theorem trace_line_discipline (s : State) (instruction current_pc : Nat) :
    ((instruction &&& 0x7F = 0x13 ∨ instruction &&& 0x7F = 0x33 ∨
        instruction &&& 0x7F = 0x6F ∨ instruction &&& 0x7F = 0x63 ∨
        instruction &&& 0x7F = 0x37 ∨ instruction &&& 0x7F = 0x17 ∨
        instruction &&& 0x7F = 0x67 ∨ instruction &&& 0x7F = 0x03 ∨
        instruction &&& 0x7F = 0x23 ∨ instruction &&& 0x7F = 0x73) →
      ¬ (instruction &&& 0x7F = 0x73 ∧ (instruction >>> 12) &&& 0x7 = 0 ∧
        ((instruction >>> 20) &&& 0xFFF = 0 ∨ (instruction >>> 20) &&& 0xFFF = 1 ∨
          (instruction >>> 20) &&& 0xFFF = 0x302)) →
      ¬ (instruction &&& 0x7F = 0x13 ∧ (instruction >>> 12) &&& 0x7 = 5 ∧
        (instruction >>> 25) &&& 0x7F ≠ 0x00 ∧ (instruction >>> 25) &&& 0x7F ≠ 0x20) →
      ((execute_instruction s instruction current_pc).trap_occurred = 0 ∨
        (execute_instruction s instruction current_pc).trap_occurred = 1) ∧
      ((execute_instruction s instruction current_pc).trap_occurred = 0 →
        ∃ l, (execute_instruction s instruction current_pc).trace = s.trace ++ [l]) ∧
      ((execute_instruction s instruction current_pc).trap_occurred = 1 →
        (execute_instruction s instruction current_pc).trace = s.trace)) ∧
    (instruction &&& 0x7F ≠ 0x13 → instruction &&& 0x7F ≠ 0x33 →
      instruction &&& 0x7F ≠ 0x6F → instruction &&& 0x7F ≠ 0x63 →
      instruction &&& 0x7F ≠ 0x37 → instruction &&& 0x7F ≠ 0x17 →
      instruction &&& 0x7F ≠ 0x67 → instruction &&& 0x7F ≠ 0x03 →
      instruction &&& 0x7F ≠ 0x23 → instruction &&& 0x7F ≠ 0x73 →
      (execute_instruction s instruction current_pc).trap_occurred = 1 ∧
      (execute_instruction s instruction current_pc).trace =
        s.trace ++ [⟨current_pc, "Erro"⟩]) := by
  constructor
  · intro hop hsys hsh
    have h : OneLineOrTrap s (execute_instruction s instruction current_pc) :=
      oneLine_finish _ _
        (dispatch_oneLine { s with trap_occurred := 0 } instruction current_pc rfl hop hsys hsh)
    rcases h with ⟨h1, h2⟩ | ⟨h1, h2⟩
    · exact ⟨Or.inl h1, fun _ => h2, fun h => by rw [h1] at h; exact absurd h (by decide)⟩
    · exact ⟨Or.inr h1, fun h => by rw [h1] at h; exact absurd h (by decide), fun _ => h2⟩
  · intro h1 h2 h3 h4 h5 h6 h7 h8 h9 h10
    rw [execute_other s instruction current_pc h1 h2 h3 h4 h5 h6 h7 h8 h9 h10]
    exact ⟨by simp [raise_exception_trap_of_clear], by simp⟩

/-- Instance of C32 (amended) in `demo_state`: `addi x5, x1, -1` (word
`0xFFF08293`) raises no trap and writes one line; `lw x5, 0(x0)` (word
`0x00002283`) faults and writes none. -/
theorem trace_line_discipline_witness :
    (∃ l, (execute_instruction demo_state 0xFFF08293 0x80000008).trace = [] ++ [l]) ∧
    (execute_instruction demo_state 0x00002283 0x80000008).trace = [] :=
  ⟨((trace_line_discipline demo_state 0xFFF08293 0x80000008).1
      (by decide) (by decide) (by decide)).2.1 (by decide),
    ((trace_line_discipline demo_state 0x00002283 0x80000008).1
      (by decide) (by decide) (by decide)).2.2 (by decide)⟩

/-! ## The two variants -/

theorem flowAgree_retire (t1 : Poximv1.State) (t2 : State) (rd v p : Nat) (n1 n2 : String)
    (h : Agree t1 t2) (h0 : t2.trap_occurred = 0) :
    FlowAgree (.brk (Poximv1.emit (Poximv1.write_rd t1 rd v) p n1) 0)
      (.brk (emit (write_rd t2 rd v) p n2) 0) := by
  obtain ⟨hr, hp, hm⟩ := h
  by_cases hrd : rd = 0 <;>
    simp [FlowAgree, Agree, Poximv1.emit, Poximv1.write_rd, emit, write_rd, hrd, hr, hp, hm, h0]

theorem flowAgree_retire_swap (t1 : Poximv1.State) (t2 : State) (rd v p : Nat) (n1 n2 : String)
    (h : Agree t1 t2) (h0 : t2.trap_occurred = 0) :
    FlowAgree (.brk (Poximv1.emit (Poximv1.write_rd t1 rd v) p n1) 0)
      (.brk (write_rd (emit t2 p n2) rd v) 0) := by
  obtain ⟨hr, hp, hm⟩ := h
  by_cases hrd : rd = 0 <;>
    simp [FlowAgree, Agree, Poximv1.emit, Poximv1.write_rd, emit, write_rd, hrd, hr, hp, hm, h0]

theorem flowAgree_jump (t1 : Poximv1.State) (t2 : State) (rd v tgt p : Nat) (n1 n2 : String)
    (h : Agree t1 t2) (h0 : t2.trap_occurred = 0) :
    FlowAgree (.brk (Poximv1.emit { Poximv1.write_rd t1 rd v with pc := tgt } p n1) 1)
      (.brk (emit { write_rd t2 rd v with pc := tgt } p n2) 1) := by
  obtain ⟨hr, hp, hm⟩ := h
  by_cases hrd : rd = 0 <;>
    simp [FlowAgree, Agree, Poximv1.emit, Poximv1.write_rd, emit, write_rd, hrd, hr, hp, hm, h0]

theorem flowAgree_branch (t1 : Poximv1.State) (t2 : State) (tgt p : Nat) (n1 n2 : String)
    (c : Bool) (h : Agree t1 t2) (h0 : t2.trap_occurred = 0) :
    FlowAgree
      (if c then .brk { Poximv1.emit t1 p n1 with pc := tgt } 1 else .brk (Poximv1.emit t1 p n1) 0)
      (if c then .brk { emit t2 p n2 with pc := tgt } 1 else .brk (emit t2 p n2) 0) := by
  obtain ⟨hr, hp, hm⟩ := h
  cases c <;> simp [FlowAgree, Agree, Poximv1.emit, emit, hr, hp, hm, h0]

/-- Agreeing outcomes of the switch end in agreeing states. -/
theorem finish_agree (f1 : Poximv1.Flow) (f2 : Flow) (h : FlowAgree f1 f2) :
    Agree (Poximv1.finish f1) (finish f2) := by
  cases f1 with
  | ret t1 => cases f2 <;> exact absurd h (by simp [FlowAgree])
  | brk t1 u1 =>
    cases f2 with
    | ret t2 => exact absurd h (by simp [FlowAgree])
    | brk t2 u2 =>
      obtain ⟨hu, ⟨hr, hp, hm⟩, h0⟩ := h
      subst hu
      by_cases hz : u1 = 0 <;>
        simp [Poximv1.finish, finish, Agree, hz, h0, hr, hp, hm]

theorem exec_op_imm_agree (s1 : Poximv1.State) (s2 : State) (instruction current_pc : Nat)
    (h : Agree s1 s2) (h0 : s2.trap_occurred = 0) :
    FlowAgree (Poximv1.exec_op_imm s1 instruction current_pc)
      (exec_op_imm s2 instruction current_pc) := by
  have hlt : (instruction >>> 12) &&& 0x7 < 8 := by rw [and_7_eq_mod]; omega
  unfold Poximv1.exec_op_imm exec_op_imm
  simp only []
  rw [h.1]
  by_cases c0 : (instruction >>> 12) &&& 0x7 = 0x0
  · rw [if_pos c0, if_pos c0]; exact flowAgree_retire s1 s2 _ _ _ _ _ h h0
  rw [if_neg c0, if_neg c0]
  by_cases c1 : (instruction >>> 12) &&& 0x7 = 0x1
  · rw [if_pos c1, if_pos c1]; exact flowAgree_retire s1 s2 _ _ _ _ _ h h0
  rw [if_neg c1, if_neg c1]
  by_cases c2 : (instruction >>> 12) &&& 0x7 = 0x2
  · rw [if_pos c2, if_pos c2]; exact flowAgree_retire s1 s2 _ _ _ _ _ h h0
  rw [if_neg c2, if_neg c2]
  by_cases c3 : (instruction >>> 12) &&& 0x7 = 0x3
  · rw [if_pos c3, if_pos c3]; exact flowAgree_retire s1 s2 _ _ _ _ _ h h0
  rw [if_neg c3, if_neg c3]
  by_cases c4 : (instruction >>> 12) &&& 0x7 = 0x4
  · rw [if_pos c4, if_pos c4]; exact flowAgree_retire s1 s2 _ _ _ _ _ h h0
  rw [if_neg c4, if_neg c4]
  by_cases c5 : (instruction >>> 12) &&& 0x7 = 0x5
  · rw [if_pos c5, if_pos c5]
    by_cases d0 : (instruction >>> 25) &&& 0x7F = 0x00
    · rw [if_pos d0, if_pos d0]; exact flowAgree_retire s1 s2 _ _ _ _ _ h h0
    rw [if_neg d0, if_neg d0]
    by_cases d1 : (instruction >>> 25) &&& 0x7F = 0x20
    · rw [if_pos d1, if_pos d1]; exact flowAgree_retire s1 s2 _ _ _ _ _ h h0
    rw [if_neg d1, if_neg d1]
    exact ⟨rfl, h, h0⟩
  rw [if_neg c5, if_neg c5]
  by_cases c6 : (instruction >>> 12) &&& 0x7 = 0x6
  · rw [if_pos c6, if_pos c6]; exact flowAgree_retire s1 s2 _ _ _ _ _ h h0
  rw [if_neg c6, if_neg c6]
  by_cases c7 : (instruction >>> 12) &&& 0x7 = 0x7
  · rw [if_pos c7, if_pos c7]; exact flowAgree_retire s1 s2 _ _ _ _ _ h h0
  rw [if_neg c7, if_neg c7]
  omega

/-- The two `case 0x33` switches compute the same result: `0xFFFFFFFF` in
the simpler variant is the value `-1` of the richer one. -/
theorem op_result_agree (funct7 funct3 a b : Nat) :
    Poximv1.op_result funct7 funct3 a b = op_result funct7 funct3 a b := by
  have e : ofInt32 (-1) = 0xFFFFFFFF := by decide
  unfold Poximv1.op_result op_result
  rw [e]

theorem exec_op_agree (s1 : Poximv1.State) (s2 : State) (instruction current_pc : Nat)
    (h : Agree s1 s2) (h0 : s2.trap_occurred = 0)
    (hleg : (instruction >>> 25) &&& 0x7F = 0x00 ∨
      ((instruction >>> 25) &&& 0x7F = 0x20 ∧
        ((instruction >>> 12) &&& 0x7 = 0 ∨ (instruction >>> 12) &&& 0x7 = 5)) ∨
      (instruction >>> 25) &&& 0x7F = 0x01) :
    FlowAgree (Poximv1.exec_op s1 instruction current_pc) (exec_op s2 instruction current_pc) := by
  have hlt : (instruction >>> 12) &&& 0x7 < 8 := by rw [and_7_eq_mod]; omega
  have hiff := op_result_none_iff ((instruction >>> 25) &&& 0x7F) ((instruction >>> 12) &&& 0x7)
    (s2.registers ((instruction >>> 15) &&& 0x1F)) (s2.registers ((instruction >>> 20) &&& 0x1F)) hlt
  unfold Poximv1.exec_op exec_op
  simp only []
  rw [h.1, op_result_agree]
  cases hres : op_result ((instruction >>> 25) &&& 0x7F) ((instruction >>> 12) &&& 0x7)
    (s2.registers ((instruction >>> 15) &&& 0x1F)) (s2.registers ((instruction >>> 20) &&& 0x1F)) with
  | none => exact absurd hleg (hiff.mp hres)
  | some r => exact flowAgree_retire_swap s1 s2 _ _ _ _ _ h h0

theorem exec_lui_agree (s1 : Poximv1.State) (s2 : State) (instruction current_pc : Nat)
    (h : Agree s1 s2) (h0 : s2.trap_occurred = 0) :
    FlowAgree (Poximv1.exec_lui s1 instruction current_pc) (exec_lui s2 instruction current_pc) :=
  flowAgree_retire s1 s2 _ _ _ _ _ h h0

theorem exec_auipc_agree (s1 : Poximv1.State) (s2 : State) (instruction current_pc : Nat)
    (h : Agree s1 s2) (h0 : s2.trap_occurred = 0) :
    FlowAgree (Poximv1.exec_auipc s1 instruction current_pc)
      (exec_auipc s2 instruction current_pc) :=
  flowAgree_retire s1 s2 _ _ _ _ _ h h0

theorem exec_jal_agree (s1 : Poximv1.State) (s2 : State) (instruction current_pc : Nat)
    (h : Agree s1 s2) (h0 : s2.trap_occurred = 0) :
    FlowAgree (Poximv1.exec_jal s1 instruction current_pc) (exec_jal s2 instruction current_pc) :=
  flowAgree_jump s1 s2 _ _ _ _ _ _ h h0

theorem exec_jalr_agree (s1 : Poximv1.State) (s2 : State) (instruction current_pc : Nat)
    (h : Agree s1 s2) (h0 : s2.trap_occurred = 0) :
    FlowAgree (Poximv1.exec_jalr s1 instruction current_pc)
      (exec_jalr s2 instruction current_pc) := by
  unfold Poximv1.exec_jalr exec_jalr
  simp only []
  rw [h.1]
  exact flowAgree_jump s1 s2 _ _ _ _ _ _ h h0

theorem exec_branch_agree (s1 : Poximv1.State) (s2 : State) (instruction current_pc : Nat)
    (h : Agree s1 s2) (h0 : s2.trap_occurred = 0)
    (hf3 : (instruction >>> 12) &&& 0x7 = 0 ∨ (instruction >>> 12) &&& 0x7 = 1 ∨
      (instruction >>> 12) &&& 0x7 = 4 ∨ (instruction >>> 12) &&& 0x7 = 5 ∨
      (instruction >>> 12) &&& 0x7 = 6 ∨ (instruction >>> 12) &&& 0x7 = 7) :
    FlowAgree (Poximv1.exec_branch s1 instruction current_pc)
      (exec_branch s2 instruction current_pc) := by
  unfold Poximv1.exec_branch exec_branch
  simp only []
  rw [h.1]
  rcases hf3 with e | e | e | e | e | e <;> rw [e] <;>
    exact flowAgree_branch s1 s2 _ _ _ _ _ h h0

/-! ### Memory accesses inside RAM -/

theorem v1_index (addr : Nat) (hlo : 0x80000000 ≤ addr) (hhi : addr < 2 ^ 32) :
    u32 (addr + (2 ^ 32 - 0x80000000)) = addr - 0x80000000 := by
  unfold u32; omega

theorem v1_read_byte (s1 : Poximv1.State) (addr : Nat) (hlo : 0x80000000 ≤ addr)
    (hhi : addr + 1 ≤ 0x80100000) :
    Poximv1.read_byte_from_memory s1 addr = le_value s1.memory (addr - 0x80000000) 1 := by
  have hm : MEM_SIZE = 1048576 := by decide
  unfold Poximv1.read_byte_from_memory
  simp only []
  rw [v1_index addr hlo (by omega), if_neg (by omega), le_value_one]

theorem v1_read_half_word (s1 : Poximv1.State) (addr : Nat) (hb : ∀ i, s1.memory i < 256)
    (hlo : 0x80000000 ≤ addr) (hhi : addr + 2 ≤ 0x80100000) :
    Poximv1.read_half_word_from_memory s1 addr = le_value s1.memory (addr - 0x80000000) 2 := by
  have hm : MEM_SIZE = 1048576 := by decide
  have b0 := hb (addr - 0x80000000)
  have b1 := hb (addr - 0x80000000 + 1)
  unfold Poximv1.read_half_word_from_memory
  simp only []
  rw [v1_index addr hlo (by omega), if_neg (by omega), le_value_two,
    lor_shiftLeft_eq_add _ _ 8 (by omega)]
  omega

theorem v1_read_word (s1 : Poximv1.State) (addr : Nat) (hb : ∀ i, s1.memory i < 256)
    (hlo : 0x80000000 ≤ addr) (hhi : addr + 4 ≤ 0x80100000) :
    Poximv1.read_word_from_memory s1 addr = le_value s1.memory (addr - 0x80000000) 4 := by
  have hm : MEM_SIZE = 1048576 := by decide
  have b0 := hb (addr - 0x80000000)
  have b1 := hb (addr - 0x80000000 + 1)
  have b2 := hb (addr - 0x80000000 + 2)
  have b3 := hb (addr - 0x80000000 + 3)
  unfold Poximv1.read_word_from_memory
  simp only []
  rw [v1_index addr hlo (by omega), if_neg (by omega), le_value_four,
    lor_shiftLeft_eq_add _ _ 8 (by omega), lor_shiftLeft_eq_add _ _ 16 (by omega),
    lor_shiftLeft_eq_add _ _ 24 (by omega)]
  unfold u32
  omega

theorem exec_load_agree (s1 : Poximv1.State) (s2 : State) (instruction current_pc : Nat)
    (h : Agree s1 s2) (h0 : s2.trap_occurred = 0) (hb : ∀ i, s2.memory i < 256)
    (hf3 : (instruction >>> 12) &&& 0x7 = 0 ∨ (instruction >>> 12) &&& 0x7 = 1 ∨
      (instruction >>> 12) &&& 0x7 = 2 ∨ (instruction >>> 12) &&& 0x7 = 4 ∨
      (instruction >>> 12) &&& 0x7 = 5)
    (hlo : RAM_BASE ≤ u32 (s2.registers ((instruction >>> 15) &&& 0x1F) +
      ofInt32 (imm_i instruction)))
    (hhi : u32 (s2.registers ((instruction >>> 15) &&& 0x1F) + ofInt32 (imm_i instruction)) +
      load_width ((instruction >>> 12) &&& 0x7) ≤ RAM_BASE + MEM_SIZE) :
    FlowAgree (Poximv1.exec_load s1 instruction current_pc)
      (exec_load s2 instruction current_pc) := by
  have hb1 : ∀ i, s1.memory i < 256 := by rw [h.2.2]; exact hb
  have hlo2 : 0x80000000 ≤ u32 (s2.registers ((instruction >>> 15) &&& 0x1F) +
      ofInt32 (imm_i instruction)) := hlo
  have hR : RAM_BASE + MEM_SIZE = 0x80100000 := by decide
  rw [hR] at hhi
  rcases hf3 with e | e | e | e | e
  · rw [e] at hhi
    have hhi2 : u32 (s2.registers ((instruction >>> 15) &&& 0x1F) +
      ofInt32 (imm_i instruction)) + 1 ≤ 0x80100000 := hhi
    rw [exec_load_lb s2 _ _ e, read_byte_ram s2 _ hb hlo2 hhi2, load_writeback_clear _ _ _ _ _ h0,
      if_pos h0]
    unfold Poximv1.exec_load
    simp only [e]
    rw [h.1, v1_read_byte s1 _ hlo2 hhi2, h.2.2]
    exact flowAgree_retire s1 s2 _ _ _ _ _ h h0
  · rw [e] at hhi
    have hhi2 : u32 (s2.registers ((instruction >>> 15) &&& 0x1F) +
      ofInt32 (imm_i instruction)) + 2 ≤ 0x80100000 := hhi
    rw [exec_load_lh s2 _ _ e, read_half_word_ram s2 _ hb hlo2 hhi2,
      load_writeback_clear _ _ _ _ _ h0, if_pos h0]
    unfold Poximv1.exec_load
    simp [e]
    rw [h.1, v1_read_half_word s1 _ hb1 hlo2 hhi2, h.2.2]
    exact flowAgree_retire s1 s2 _ _ _ _ _ h h0
  · rw [e] at hhi
    have hhi2 : u32 (s2.registers ((instruction >>> 15) &&& 0x1F) +
      ofInt32 (imm_i instruction)) + 4 ≤ 0x80100000 := hhi
    rw [exec_load_lw s2 _ _ e, read_word_ram s2 _ hb hlo2 hhi2,
      load_writeback_clear _ _ _ _ _ h0]
    unfold Poximv1.exec_load
    simp [e]
    rw [h.1, v1_read_word s1 _ hb1 hlo2 hhi2, h.2.2]
    exact flowAgree_retire s1 s2 _ _ _ _ _ h h0
  · rw [e] at hhi
    have hhi2 : u32 (s2.registers ((instruction >>> 15) &&& 0x1F) +
      ofInt32 (imm_i instruction)) + 1 ≤ 0x80100000 := hhi
    rw [exec_load_lbu s2 _ _ e, read_byte_ram s2 _ hb hlo2 hhi2,
      load_writeback_clear _ _ _ _ _ h0, if_pos h0]
    unfold Poximv1.exec_load
    simp [e]
    rw [h.1, v1_read_byte s1 _ hlo2 hhi2, h.2.2]
    exact flowAgree_retire s1 s2 _ _ _ _ _ h h0
  · rw [e] at hhi
    have hhi2 : u32 (s2.registers ((instruction >>> 15) &&& 0x1F) +
      ofInt32 (imm_i instruction)) + 2 ≤ 0x80100000 := hhi
    rw [exec_load_lhu s2 _ _ e, read_half_word_ram s2 _ hb hlo2 hhi2,
      load_writeback_clear _ _ _ _ _ h0, if_pos h0]
    unfold Poximv1.exec_load
    simp [e]
    rw [h.1, v1_read_half_word s1 _ hb1 hlo2 hhi2, h.2.2]
    exact flowAgree_retire s1 s2 _ _ _ _ _ h h0

/-- A byte selected by a mask and shifted down is the byte of the shifted
value. -/
theorem and_byte_shift (v k : Nat) : (v &&& (0xFF <<< k)) >>> k = (v >>> k) % 256 := by
  rw [← and_ff_eq_mod]
  apply Nat.eq_of_testBit_eq
  intro i
  simp only [Nat.testBit_shiftRight, Nat.testBit_and, Nat.testBit_shiftLeft]
  have e : k + i - k = i := by omega
  simp [e]

theorem store_bytes_agree (v : Nat) :
    v &&& 0x000000FF = (v >>> (8 * 0)) &&& 0xFF ∧
    (v &&& 0x0000FF00) >>> 8 = (v >>> (8 * 1)) &&& 0xFF ∧
    (v &&& 0x00FF0000) >>> 16 = (v >>> (8 * 2)) &&& 0xFF ∧
    (v &&& 0xFF000000) >>> 24 = (v >>> (8 * 3)) &&& 0xFF := by
  have e1 : (0x0000FF00 : Nat) = 0xFF <<< 8 := by decide
  have e2 : (0x00FF0000 : Nat) = 0xFF <<< 16 := by decide
  have e3 : (0xFF000000 : Nat) = 0xFF <<< 24 := by decide
  refine ⟨by simp, ?_, ?_, ?_⟩
  · rw [e1, and_byte_shift, and_ff_eq_mod]
  · rw [e2, and_byte_shift, and_ff_eq_mod]
  · rw [e3, and_byte_shift, and_ff_eq_mod]

theorem bus_store_ram (s : State) (addr v n : Nat) (hlo : 0x80000000 ≤ addr)
    (hhi : addr + n ≤ 0x80100000) (hn : 0 < n) :
    bus_store s addr v n = { s with memory := store_loop (addr - 0x80000000) v n s.memory } := by
  have h1 : addr ≥ RAM_BASE ∧ addr < RAM_BASE + MEM_SIZE := by
    simp only [RAM_BASE, MEM_SIZE]; omega
  have h2 : ¬ (addr - RAM_BASE > MEM_SIZE - n) := by
    simp only [RAM_BASE, MEM_SIZE]; omega
  unfold bus_store
  simp only []
  rw [if_pos h1, if_neg h2]
  rfl

theorem store_loop_one_eq (m : Nat → Nat) (idx v : Nat) :
    store_loop idx (v % 2 ^ 8) 1 m = setAt m idx (v % 2 ^ 8) := by
  simp [store_loop, and_ff_eq_mod]

theorem store_loop_two_eq (m : Nat → Nat) (idx v : Nat) :
    store_loop idx v 2 m =
      setAt (setAt m idx (v &&& 0x00FF)) (idx + 1) ((v &&& 0xFF00) >>> 8) := by
  obtain ⟨e0, e1, -, -⟩ := store_bytes_agree v
  rw [e0, e1]
  simp only [store_loop, Nat.add_zero]

theorem store_loop_four_eq (m : Nat → Nat) (idx v : Nat) :
    store_loop idx v 4 m =
      setAt (setAt (setAt (setAt m idx (v &&& 0x000000FF)) (idx + 1) ((v &&& 0x0000FF00) >>> 8))
        (idx + 2) ((v &&& 0x00FF0000) >>> 16)) (idx + 3) ((v &&& 0xFF000000) >>> 24) := by
  obtain ⟨e0, e1, e2, e3⟩ := store_bytes_agree v
  rw [e0, e1, e2, e3]
  simp only [store_loop, Nat.add_zero]

theorem v1_write_byte (s1 : Poximv1.State) (addr v : Nat) (hlo : 0x80000000 ≤ addr)
    (hhi : addr + 1 ≤ 0x80100000) :
    Poximv1.write_byte_to_memory s1 addr v =
      { s1 with memory := store_loop (addr - 0x80000000) (v % 2 ^ 8) 1 s1.memory } := by
  have hm : MEM_SIZE = 1048576 := by decide
  have e := store_loop_one_eq s1.memory (addr - 0x80000000) v
  unfold Poximv1.write_byte_to_memory
  simp only []
  rw [v1_index addr hlo (by omega), if_neg (by omega), e]

theorem v1_write_half_word (s1 : Poximv1.State) (addr v : Nat) (hlo : 0x80000000 ≤ addr)
    (hhi : addr + 2 ≤ 0x80100000) :
    Poximv1.write_half_word_to_memory s1 addr v =
      { s1 with memory := store_loop (addr - 0x80000000) (v % 2 ^ 16) 2 s1.memory } := by
  have hm : MEM_SIZE = 1048576 := by decide
  have e := store_loop_two_eq s1.memory (addr - 0x80000000) (v % 2 ^ 16)
  unfold Poximv1.write_half_word_to_memory
  simp only []
  rw [v1_index addr hlo (by omega), if_neg (by omega), e]

theorem v1_write_word (s1 : Poximv1.State) (addr v : Nat) (hlo : 0x80000000 ≤ addr)
    (hhi : addr + 4 ≤ 0x80100000) :
    Poximv1.write_word_to_memory s1 addr v =
      { s1 with memory := store_loop (addr - 0x80000000) v 4 s1.memory } := by
  have hm : MEM_SIZE = 1048576 := by decide
  have e := store_loop_four_eq s1.memory (addr - 0x80000000) v
  unfold Poximv1.write_word_to_memory
  simp only []
  rw [v1_index addr hlo (by omega), if_neg (by omega), e]

/-- The same store in both variants, followed by the trace line. -/
theorem flowAgree_store (s1 : Poximv1.State) (s2 : State) (m1 m2 : Nat → Nat) (p : Nat)
    (n1 n2 : String) (h : Agree s1 s2) (h0 : s2.trap_occurred = 0) (hm : m1 = m2) :
    FlowAgree (.brk (Poximv1.emit { s1 with memory := m1 } p n1) 0)
      (store_trace { s2 with memory := m2 } p n2) := by
  unfold store_trace
  rw [if_pos h0]
  exact ⟨rfl, ⟨h.1, h.2.1, hm⟩, h0⟩

theorem exec_store_sb (s : State) (instruction current_pc : Nat)
    (e : (instruction >>> 12) &&& 0x7 = 0) :
    exec_store s instruction current_pc =
      store_trace (bus_store s
        (u32 (s.registers ((instruction >>> 15) &&& 0x1F) + ofInt32 (imm_s instruction)))
        (s.registers ((instruction >>> 20) &&& 0x1F) % 2 ^ 8) 1) current_pc "sb" := by
  unfold exec_store; simp [e, write_byte_to_memory]

theorem exec_store_sh (s : State) (instruction current_pc : Nat)
    (e : (instruction >>> 12) &&& 0x7 = 1) :
    exec_store s instruction current_pc =
      store_trace (bus_store s
        (u32 (s.registers ((instruction >>> 15) &&& 0x1F) + ofInt32 (imm_s instruction)))
        (s.registers ((instruction >>> 20) &&& 0x1F) % 2 ^ 16) 2) current_pc "sh" := by
  unfold exec_store; simp [e, write_half_word_to_memory]

theorem exec_store_sw (s : State) (instruction current_pc : Nat)
    (e : (instruction >>> 12) &&& 0x7 = 2) :
    exec_store s instruction current_pc =
      store_trace (bus_store s
        (u32 (s.registers ((instruction >>> 15) &&& 0x1F) + ofInt32 (imm_s instruction)))
        (s.registers ((instruction >>> 20) &&& 0x1F)) 4) current_pc "sw" := by
  unfold exec_store; simp [e, write_word_to_memory]

theorem v1_exec_store_sb (s : Poximv1.State) (instruction current_pc : Nat)
    (e : (instruction >>> 12) &&& 0x7 = 0) :
    Poximv1.exec_store s instruction current_pc =
      .brk (Poximv1.emit (Poximv1.write_byte_to_memory s
        (u32 (s.registers ((instruction >>> 15) &&& 0x1F) + ofInt32 (imm_s instruction)))
        (s.registers ((instruction >>> 20) &&& 0x1F))) current_pc "sb") 0 := by
  unfold Poximv1.exec_store; simp [e]

theorem v1_exec_store_sh (s : Poximv1.State) (instruction current_pc : Nat)
    (e : (instruction >>> 12) &&& 0x7 = 1) :
    Poximv1.exec_store s instruction current_pc =
      .brk (Poximv1.emit (Poximv1.write_half_word_to_memory s
        (u32 (s.registers ((instruction >>> 15) &&& 0x1F) + ofInt32 (imm_s instruction)))
        (s.registers ((instruction >>> 20) &&& 0x1F))) current_pc "sh") 0 := by
  unfold Poximv1.exec_store; simp [e]

theorem v1_exec_store_sw (s : Poximv1.State) (instruction current_pc : Nat)
    (e : (instruction >>> 12) &&& 0x7 = 2) :
    Poximv1.exec_store s instruction current_pc =
      .brk (Poximv1.emit (Poximv1.write_word_to_memory s
        (u32 (s.registers ((instruction >>> 15) &&& 0x1F) + ofInt32 (imm_s instruction)))
        (s.registers ((instruction >>> 20) &&& 0x1F))) current_pc "sw") 0 := by
  unfold Poximv1.exec_store; simp [e]

theorem exec_store_agree (s1 : Poximv1.State) (s2 : State) (instruction current_pc : Nat)
    (h : Agree s1 s2) (h0 : s2.trap_occurred = 0)
    (hf3 : (instruction >>> 12) &&& 0x7 = 0 ∨ (instruction >>> 12) &&& 0x7 = 1 ∨
      (instruction >>> 12) &&& 0x7 = 2)
    (hlo : RAM_BASE ≤ u32 (s2.registers ((instruction >>> 15) &&& 0x1F) +
      ofInt32 (imm_s instruction)))
    (hhi : u32 (s2.registers ((instruction >>> 15) &&& 0x1F) + ofInt32 (imm_s instruction)) +
      store_width ((instruction >>> 12) &&& 0x7) ≤ RAM_BASE + MEM_SIZE) :
    FlowAgree (Poximv1.exec_store s1 instruction current_pc)
      (exec_store s2 instruction current_pc) := by
  have hlo2 : 0x80000000 ≤ u32 (s2.registers ((instruction >>> 15) &&& 0x1F) +
      ofInt32 (imm_s instruction)) := hlo
  have hR : RAM_BASE + MEM_SIZE = 0x80100000 := by decide
  have w1 : store_width 0 = 1 := rfl
  have w2 : store_width 1 = 2 := rfl
  have w4 : store_width 2 = 4 := rfl
  rw [hR] at hhi
  rcases hf3 with e | e | e
  · rw [e, w1] at hhi
    rw [exec_store_sb s2 _ _ e, v1_exec_store_sb s1 _ _ e, h.1,
      bus_store_ram s2 _ _ 1 hlo2 hhi (by decide), v1_write_byte s1 _ _ hlo2 hhi]
    exact flowAgree_store s1 s2 _ _ _ _ _ h h0 (by rw [h.2.2])
  · rw [e, w2] at hhi
    rw [exec_store_sh s2 _ _ e, v1_exec_store_sh s1 _ _ e, h.1,
      bus_store_ram s2 _ _ 2 hlo2 hhi (by decide), v1_write_half_word s1 _ _ hlo2 hhi]
    exact flowAgree_store s1 s2 _ _ _ _ _ h h0 (by rw [h.2.2])
  · rw [e, w4] at hhi
    rw [exec_store_sw s2 _ _ e, v1_exec_store_sw s1 _ _ e, h.1,
      bus_store_ram s2 _ _ 4 hlo2 hhi (by decide), v1_write_word s1 _ _ hlo2 hhi]
    exact flowAgree_store s1 s2 _ _ _ _ _ h h0 (by rw [h.2.2])

theorem v1_dispatch_op_imm (s : Poximv1.State) (instruction current_pc : Nat)
    (h : instruction &&& 0x7F = 0x13) :
    Poximv1.dispatch s instruction current_pc = Poximv1.exec_op_imm s instruction current_pc := by
  unfold Poximv1.dispatch; simp [h]

theorem v1_dispatch_op (s : Poximv1.State) (instruction current_pc : Nat)
    (h : instruction &&& 0x7F = 0x33) :
    Poximv1.dispatch s instruction current_pc = Poximv1.exec_op s instruction current_pc := by
  unfold Poximv1.dispatch; simp [h]

theorem v1_dispatch_jal (s : Poximv1.State) (instruction current_pc : Nat)
    (h : instruction &&& 0x7F = 0x6F) :
    Poximv1.dispatch s instruction current_pc = Poximv1.exec_jal s instruction current_pc := by
  unfold Poximv1.dispatch; simp [h]

theorem v1_dispatch_branch (s : Poximv1.State) (instruction current_pc : Nat)
    (h : instruction &&& 0x7F = 0x63) :
    Poximv1.dispatch s instruction current_pc = Poximv1.exec_branch s instruction current_pc := by
  unfold Poximv1.dispatch; simp [h]

theorem v1_dispatch_lui (s : Poximv1.State) (instruction current_pc : Nat)
    (h : instruction &&& 0x7F = 0x37) :
    Poximv1.dispatch s instruction current_pc = Poximv1.exec_lui s instruction current_pc := by
  unfold Poximv1.dispatch; simp [h]

theorem v1_dispatch_auipc (s : Poximv1.State) (instruction current_pc : Nat)
    (h : instruction &&& 0x7F = 0x17) :
    Poximv1.dispatch s instruction current_pc = Poximv1.exec_auipc s instruction current_pc := by
  unfold Poximv1.dispatch; simp [h]

theorem v1_dispatch_jalr (s : Poximv1.State) (instruction current_pc : Nat)
    (h : instruction &&& 0x7F = 0x67) :
    Poximv1.dispatch s instruction current_pc = Poximv1.exec_jalr s instruction current_pc := by
  unfold Poximv1.dispatch; simp [h]

theorem v1_dispatch_load (s : Poximv1.State) (instruction current_pc : Nat)
    (h : instruction &&& 0x7F = 0x03) :
    Poximv1.dispatch s instruction current_pc = Poximv1.exec_load s instruction current_pc := by
  unfold Poximv1.dispatch; simp [h]

theorem v1_dispatch_store (s : Poximv1.State) (instruction current_pc : Nat)
    (h : instruction &&& 0x7F = 0x23) :
    Poximv1.dispatch s instruction current_pc = Poximv1.exec_store s instruction current_pc := by
  unfold Poximv1.dispatch; simp [h]

/-- The two opcode switches agree on the compared instruction words. -/
theorem dispatch_agree (s1 : Poximv1.State) (s2 : State) (instruction current_pc : Nat)
    (h : Agree s1 s2) (h0 : s2.trap_occurred = 0) (hb : ∀ i, s2.memory i < 256)
    (hc : common_instruction s2 instruction) :
    FlowAgree (Poximv1.dispatch s1 instruction current_pc)
      (dispatch s2 instruction current_pc) := by
  unfold common_instruction at hc
  simp only [] at hc
  rcases hc with e | ⟨e, hl⟩ | e | e | e | e | ⟨e, hf⟩ | ⟨e, hf, hlo, hhi⟩ | ⟨e, hf, hlo, hhi⟩
  · rw [v1_dispatch_op_imm _ _ _ e, dispatch_op_imm _ _ _ e]
    exact exec_op_imm_agree s1 s2 _ _ h h0
  · rw [v1_dispatch_op _ _ _ e, dispatch_op _ _ _ e]
    exact exec_op_agree s1 s2 _ _ h h0 hl
  · rw [v1_dispatch_lui _ _ _ e, dispatch_lui _ _ _ e]
    exact exec_lui_agree s1 s2 _ _ h h0
  · rw [v1_dispatch_auipc _ _ _ e, dispatch_auipc _ _ _ e]
    exact exec_auipc_agree s1 s2 _ _ h h0
  · rw [v1_dispatch_jal _ _ _ e, dispatch_jal _ _ _ e]
    exact exec_jal_agree s1 s2 _ _ h h0
  · rw [v1_dispatch_jalr _ _ _ e, dispatch_jalr _ _ _ e]
    exact exec_jalr_agree s1 s2 _ _ h h0
  · rw [v1_dispatch_branch _ _ _ e, dispatch_branch _ _ _ e]
    exact exec_branch_agree s1 s2 _ _ h h0 hf
  · rw [v1_dispatch_load _ _ _ e, dispatch_load _ _ _ e]
    exact exec_load_agree s1 s2 _ _ h h0 hb hf hlo hhi
  · rw [v1_dispatch_store _ _ _ e, dispatch_store _ _ _ e]
    exact exec_store_agree s1 s2 _ _ h h0 hf hlo hhi

/-- C37: the simpler variant (POXIMV1 `execute_instruction`) and the richer
one (poximv2 `execute_instruction`) agree: started in states with the same
registers, the same `pc` and the same memory (bytes below 256), on every
instruction word of the groups OP-IMM, OP (the 18 decoded operations, with
`div`, `divu`, `rem`, `remu` by zero and `INT_MIN / -1`), LUI, AUIPC, JAL,
JALR, the six branches, and loads and stores whose bytes lie wholly in RAM,
both end with the same registers, the same `pc` and the same memory. The
value of `pc` need not be `current_pc` for this. -/
theorem variants_agree (s1 : Poximv1.State) (s2 : State) (instruction current_pc : Nat)
    (hr : s1.registers = s2.registers) (hp : s1.pc = s2.pc) (hm : s1.memory = s2.memory)
    (hb : ∀ i, s2.memory i < 256) (hc : common_instruction s2 instruction) :
    (Poximv1.execute_instruction s1 instruction current_pc).registers =
      (execute_instruction s2 instruction current_pc).registers ∧
    (Poximv1.execute_instruction s1 instruction current_pc).pc =
      (execute_instruction s2 instruction current_pc).pc ∧
    (Poximv1.execute_instruction s1 instruction current_pc).memory =
      (execute_instruction s2 instruction current_pc).memory := by
  unfold Poximv1.execute_instruction execute_instruction
  exact finish_agree _ _
    (dispatch_agree s1 { s2 with trap_occurred := 0 } instruction current_pc ⟨hr, hp, hm⟩ rfl hb hc)

/-- Instance of C37 on `demo_div` (`x1 = 0x80000000`, `x2 = 0xFFFFFFFF`):
`div x3, x1, x0` (word `0x0200C1B3`) leaves `x3 = 0xFFFFFFFF` in both
variants, and `div x3, x1, x2` (word `0x0220C1B3`) leaves `x3 = 0x80000000`
in both. -/
theorem variants_agree_witness :
    (Poximv1.execute_instruction (to_v1 demo_div) 0x0200C1B3 0x80000008).registers 3 =
      0xFFFFFFFF ∧
    (execute_instruction demo_div 0x0200C1B3 0x80000008).registers 3 = 0xFFFFFFFF ∧
    (Poximv1.execute_instruction (to_v1 demo_div) 0x0220C1B3 0x80000008).registers 3 =
      0x80000000 ∧
    (Poximv1.execute_instruction (to_v1 demo_div) 0x0220C1B3 0x80000008).pc =
      (execute_instruction demo_div 0x0220C1B3 0x80000008).pc :=
  have ha := variants_agree (to_v1 demo_div) demo_div 0x0200C1B3 0x80000008 rfl rfl rfl
    (fun _ => (by decide : (0 : Nat) < 256)) (Or.inr (Or.inl ⟨by decide, Or.inr (Or.inr (by decide))⟩))
  have hb := variants_agree (to_v1 demo_div) demo_div 0x0220C1B3 0x80000008 rfl rfl rfl
    (fun _ => (by decide : (0 : Nat) < 256)) (Or.inr (Or.inl ⟨by decide, Or.inr (Or.inr (by decide))⟩))
  ⟨(congrFun ha.1 3).trans (by decide), by decide, (congrFun hb.1 3).trans (by decide), hb.2.1⟩

/-! ## The store/load round trip through the executor -/

/-- The value assembled by the store case before the sign extension is the
12-bit S-type field. -/
theorem s_type_assembled (instruction : Nat) :
    ((((instruction >>> 25) &&& 0x7F) <<< 5) ||| ((instruction >>> 7) &&& 0x1F)) =
      s_type_field instruction := by
  unfold s_type_field
  simp only [and_7f_eq_mod, and_1f_eq_mod, Nat.shiftRight_eq_div_pow, Nat.shiftLeft_eq]
  have ha : instruction / 2 ^ 25 % 128 < 128 := Nat.mod_lt _ (by decide)
  have hb : instruction / 2 ^ 7 % 32 < 32 := Nat.mod_lt _ (by decide)
  generalize instruction / 2 ^ 25 % 128 = a at ha
  generalize instruction / 2 ^ 7 % 32 = b at hb
  rw [lor_eq_add_of_disjoint (a * 2 ^ 5) b 5 (by omega) (by omega)]

theorem s_type_field_lt (instruction : Nat) : s_type_field instruction < 2 ^ 12 := by
  unfold s_type_field
  have ha : instruction / 2 ^ 25 % 2 ^ 7 < 2 ^ 7 := Nat.mod_lt _ (by decide)
  have hb : instruction / 2 ^ 7 % 2 ^ 5 < 2 ^ 5 := Nat.mod_lt _ (by decide)
  omega

/-- The S-type immediate computed by the executor is the 12-bit field
`{inst[31:25], inst[11:7]}` sign-extended to 32 bits. -/
theorem ofInt32_imm_s (instruction : Nat) :
    ofInt32 (imm_s instruction) = sign_extend 12 (s_type_field instruction) := by
  have hlt := s_type_field_lt instruction
  unfold imm_s
  simp only [s_type_assembled]
  rw [int_shiftRight_eq_div]
  generalize s_type_field instruction = v at hlt
  unfold ofInt32 i32 u32 sign_extend
  simp only [Nat.shiftLeft_eq, Nat.cast_pow, Nat.cast_ofNat]
  have h1 : v % 2 ^ 32 = v := by omega
  rw [h1]
  have h2 : (v * 2 ^ 20) % 2 ^ 32 = v * 2 ^ 20 := by omega
  rw [h2]
  split_ifs <;> omega

/-- The address the store case computes is `store_address`. -/
theorem store_address_eq (s : State) (instruction : Nat) :
    u32 (s.registers ((instruction >>> 15) &&& 0x1F) + ofInt32 (imm_s instruction)) =
      store_address s instruction := by
  rw [ofInt32_imm_s]; rfl

/-- A store of `n` bytes that stays inside RAM, run from a clear flag up to
the end of the executor: the bytes are written, one trace line is added and
`pc` advances by 4. -/
theorem finish_store_ram (s : State) (addr v n current_pc : Nat) (name : String)
    (hlo : 0x80000000 ≤ addr) (hhi : addr + n ≤ 0x80100000) (hn : 0 < n) :
    finish (store_trace (bus_store { s with trap_occurred := 0 } addr v n) current_pc name) =
      { s with trap_occurred := 0
               memory := store_loop (addr - 0x80000000) v n s.memory
               trace := s.trace ++ [⟨current_pc, name⟩]
               pc := u32 (s.pc + 4) } := by
  rw [bus_store_ram _ _ _ _ hlo hhi hn]
  unfold store_trace
  rw [if_pos rfl, finish_brk_clear _ rfl]
  rfl

theorem execute_sw (s : State) (instruction current_pc : Nat)
    (hop : instruction &&& 0x7F = 0x23) (hf3 : (instruction >>> 12) &&& 0x7 = 2)
    (hlo : 0x80000000 ≤ store_address s instruction)
    (hhi : store_address s instruction + 4 ≤ 0x80100000) :
    execute_instruction s instruction current_pc =
      { s with trap_occurred := 0
               memory := store_loop (store_address s instruction - 0x80000000)
                 (s.registers ((instruction >>> 20) &&& 0x1F)) 4 s.memory
               trace := s.trace ++ [⟨current_pc, "sw"⟩]
               pc := u32 (s.pc + 4) } := by
  unfold execute_instruction
  rw [dispatch_store _ _ _ hop, exec_store_sw _ _ _ hf3, store_address_eq]
  exact finish_store_ram s _ _ 4 current_pc "sw" hlo hhi (by decide)

theorem execute_sh (s : State) (instruction current_pc : Nat)
    (hop : instruction &&& 0x7F = 0x23) (hf3 : (instruction >>> 12) &&& 0x7 = 1)
    (hlo : 0x80000000 ≤ store_address s instruction)
    (hhi : store_address s instruction + 2 ≤ 0x80100000) :
    execute_instruction s instruction current_pc =
      { s with trap_occurred := 0
               memory := store_loop (store_address s instruction - 0x80000000)
                 (s.registers ((instruction >>> 20) &&& 0x1F) % 2 ^ 16) 2 s.memory
               trace := s.trace ++ [⟨current_pc, "sh"⟩]
               pc := u32 (s.pc + 4) } := by
  unfold execute_instruction
  rw [dispatch_store _ _ _ hop, exec_store_sh _ _ _ hf3, store_address_eq]
  exact finish_store_ram s _ _ 2 current_pc "sh" hlo hhi (by decide)

theorem execute_sb (s : State) (instruction current_pc : Nat)
    (hop : instruction &&& 0x7F = 0x23) (hf3 : (instruction >>> 12) &&& 0x7 = 0)
    (hlo : 0x80000000 ≤ store_address s instruction)
    (hhi : store_address s instruction + 1 ≤ 0x80100000) :
    execute_instruction s instruction current_pc =
      { s with trap_occurred := 0
               memory := store_loop (store_address s instruction - 0x80000000)
                 (s.registers ((instruction >>> 20) &&& 0x1F) % 2 ^ 8) 1 s.memory
               trace := s.trace ++ [⟨current_pc, "sb"⟩]
               pc := u32 (s.pc + 4) } := by
  unfold execute_instruction
  rw [dispatch_store _ _ _ hop, exec_store_sb _ _ _ hf3, store_address_eq]
  exact finish_store_ram s _ _ 1 current_pc "sb" hlo hhi (by decide)

/-- A load with `rd != 0` whose bytes lie inside RAM, run up to the end of the
executor: `x[rd]` receives the extended little-endian value and no trap is
raised. -/
theorem execute_load_value (s : State) (instruction current_pc : Nat)
    (hinstr : instruction < 2 ^ 32)
    (hop : instruction &&& 0x7F = 0x03)
    (hf3 : (instruction >>> 12) &&& 0x7 = 0 ∨ (instruction >>> 12) &&& 0x7 = 1 ∨
      (instruction >>> 12) &&& 0x7 = 2 ∨ (instruction >>> 12) &&& 0x7 = 4 ∨
      (instruction >>> 12) &&& 0x7 = 5)
    (hrd : (instruction >>> 7) &&& 0x1F ≠ 0)
    (hbytes : ∀ i, s.memory i < 256)
    (hlo : 0x80000000 ≤ load_address s instruction)
    (hhi : load_address s instruction + load_width ((instruction >>> 12) &&& 0x7) ≤ 0x80100000) :
    (execute_instruction s instruction current_pc).registers ((instruction >>> 7) &&& 0x1F) =
      load_extend ((instruction >>> 12) &&& 0x7)
        (le_value s.memory (load_address s instruction - 0x80000000)
          (load_width ((instruction >>> 12) &&& 0x7))) ∧
    (execute_instruction s instruction current_pc).trap_occurred = 0 := by
  obtain ⟨name, hexec⟩ := exec_load_ram { s with trap_occurred := 0 } instruction current_pc rfl
    hinstr hf3 hbytes hlo hhi
  unfold execute_instruction
  rw [dispatch_load _ _ _ hop, hexec, finish_brk_clear _ (by simp)]
  refine ⟨?_, ?_⟩
  · simp [write_rd_registers, hrd, setAt]
    rfl
  · simp

/-- C8: let a store instruction (opcode `0x23`) have the address
`A = x[rs1] + sext(imm)` with `0x80000000 <= A <= 0x80100000 - 4` and the
32-bit value `x = x[rs2]`. Executed as `sw`, it raises no trap and leaves the
memory of `bus_store(A, x, 4)`; in any later state whose memory still holds
the stored bytes `A..A+3`, a `lw` with `rd != 0` whose address
`x[rs1] + sext(imm)` is `A` sets `x[rd]` to exactly `x` and raises no trap,
and `bus_load(A, 4)` returns `x`. Likewise `sh` followed by `lhu` yields the
low 16 bits of `x`, and `sb` followed by `lbu` the low 8 bits. -/
theorem store_load_roundtrip (s : State) (st current_pc : Nat)
    (hop : st &&& 0x7F = 0x23)
    (hx : s.registers ((st >>> 20) &&& 0x1F) < 2 ^ 32)
    (hlo : 0x80000000 ≤ store_address s st)
    (hhi : store_address s st ≤ 0x80100000 - 4) :
    ((st >>> 12) &&& 0x7 = 2 →
      (execute_instruction s st current_pc).trap_occurred = 0 ∧
      (execute_instruction s st current_pc).memory =
        (bus_store s (store_address s st) (s.registers ((st >>> 20) &&& 0x1F)) 4).memory ∧
      ∀ (s2 : State) (ld q : Nat), ld < 2 ^ 32 → ld &&& 0x7F = 0x03 → (ld >>> 12) &&& 0x7 = 2 →
        (ld >>> 7) &&& 0x1F ≠ 0 → (∀ i, s2.memory i < 256) →
        load_address s2 ld = store_address s st →
        (∀ i, i < 4 → s2.memory (store_address s st - RAM_BASE + i) =
          (execute_instruction s st current_pc).memory (store_address s st - RAM_BASE + i)) →
        (execute_instruction s2 ld q).registers ((ld >>> 7) &&& 0x1F) =
          s.registers ((st >>> 20) &&& 0x1F) ∧
        (execute_instruction s2 ld q).trap_occurred = 0 ∧
        bus_load s2 (store_address s st) 4 = (s.registers ((st >>> 20) &&& 0x1F), s2)) ∧
    ((st >>> 12) &&& 0x7 = 1 →
      (execute_instruction s st current_pc).trap_occurred = 0 ∧
      (execute_instruction s st current_pc).memory =
        (write_half_word_to_memory s (store_address s st)
          (s.registers ((st >>> 20) &&& 0x1F))).memory ∧
      ∀ (s2 : State) (ld q : Nat), ld < 2 ^ 32 → ld &&& 0x7F = 0x03 → (ld >>> 12) &&& 0x7 = 5 →
        (ld >>> 7) &&& 0x1F ≠ 0 → (∀ i, s2.memory i < 256) →
        load_address s2 ld = store_address s st →
        (∀ i, i < 2 → s2.memory (store_address s st - RAM_BASE + i) =
          (execute_instruction s st current_pc).memory (store_address s st - RAM_BASE + i)) →
        (execute_instruction s2 ld q).registers ((ld >>> 7) &&& 0x1F) =
          s.registers ((st >>> 20) &&& 0x1F) % 2 ^ 16 ∧
        (execute_instruction s2 ld q).trap_occurred = 0 ∧
        read_half_word_from_memory s2 (store_address s st) =
          (s.registers ((st >>> 20) &&& 0x1F) % 2 ^ 16, s2)) ∧
    ((st >>> 12) &&& 0x7 = 0 →
      (execute_instruction s st current_pc).trap_occurred = 0 ∧
      (execute_instruction s st current_pc).memory =
        (write_byte_to_memory s (store_address s st)
          (s.registers ((st >>> 20) &&& 0x1F))).memory ∧
      ∀ (s2 : State) (ld q : Nat), ld < 2 ^ 32 → ld &&& 0x7F = 0x03 → (ld >>> 12) &&& 0x7 = 4 →
        (ld >>> 7) &&& 0x1F ≠ 0 → (∀ i, s2.memory i < 256) →
        load_address s2 ld = store_address s st →
        (∀ i, i < 1 → s2.memory (store_address s st - RAM_BASE + i) =
          (execute_instruction s st current_pc).memory (store_address s st - RAM_BASE + i)) →
        (execute_instruction s2 ld q).registers ((ld >>> 7) &&& 0x1F) =
          s.registers ((st >>> 20) &&& 0x1F) % 2 ^ 8 ∧
        (execute_instruction s2 ld q).trap_occurred = 0 ∧
        read_byte_from_memory s2 (store_address s st) =
          (s.registers ((st >>> 20) &&& 0x1F) % 2 ^ 8, s2)) := by
  obtain ⟨⟨_, r4⟩, ⟨_, r2⟩, ⟨_, r1⟩⟩ :=
    bus_store_load_roundtrip s (store_address s st) (s.registers ((st >>> 20) &&& 0x1F)) hlo hhi hx
  obtain ⟨_, _, w2, w4, w5⟩ := load_width_values
  refine ⟨?_, ?_, ?_⟩
  · intro hf3
    have hs := execute_sw s st current_pc hop hf3 hlo (by omega)
    have hm : (execute_instruction s st current_pc).memory =
        (bus_store s (store_address s st) (s.registers ((st >>> 20) &&& 0x1F)) 4).memory := by
      rw [hs, bus_store_ram s _ _ 4 hlo (by omega) (by decide)]
    refine ⟨by rw [hs], hm, ?_⟩
    intro s2 ld q hld hopl hf3l hrd hbytes haddr hmem
    rw [hm] at hmem
    have hb := r4 s2 hmem
    have hv := execute_load_value s2 ld q hld hopl (Or.inr (Or.inr (Or.inl hf3l))) hrd hbytes
      (by rw [haddr]; exact hlo) (by rw [haddr, hf3l, w2]; omega)
    have hr := read_word_ram s2 (store_address s st) hbytes hlo (by omega)
    have hval : le_value s2.memory (store_address s st - 0x80000000) 4 =
        s.registers ((st >>> 20) &&& 0x1F) := congrArg Prod.fst (hr.symm.trans hb)
    rw [haddr, hf3l, w2, (load_extend_values _).2.2.1, hval] at hv
    exact ⟨hv.1, hv.2, hb⟩
  · intro hf3
    have hs := execute_sh s st current_pc hop hf3 hlo (by omega)
    have hm : (execute_instruction s st current_pc).memory =
        (write_half_word_to_memory s (store_address s st)
          (s.registers ((st >>> 20) &&& 0x1F))).memory := by
      unfold write_half_word_to_memory
      rw [hs, bus_store_ram s _ _ 2 hlo (by omega) (by decide)]
    refine ⟨by rw [hs], hm, ?_⟩
    intro s2 ld q hld hopl hf3l hrd hbytes haddr hmem
    rw [hm] at hmem
    have hb := r2 s2 hmem
    have hv := execute_load_value s2 ld q hld hopl (Or.inr (Or.inr (Or.inr (Or.inr hf3l)))) hrd
      hbytes (by rw [haddr]; exact hlo) (by rw [haddr, hf3l, w5]; omega)
    have hr := read_half_word_ram s2 (store_address s st) hbytes hlo (by omega)
    have hval : le_value s2.memory (store_address s st - 0x80000000) 2 =
        s.registers ((st >>> 20) &&& 0x1F) % 2 ^ 16 := congrArg Prod.fst (hr.symm.trans hb)
    rw [haddr, hf3l, w5, (load_extend_values _).2.2.2.2, hval] at hv
    exact ⟨hv.1, hv.2, hb⟩
  · intro hf3
    have hs := execute_sb s st current_pc hop hf3 hlo (by omega)
    have hm : (execute_instruction s st current_pc).memory =
        (write_byte_to_memory s (store_address s st)
          (s.registers ((st >>> 20) &&& 0x1F))).memory := by
      unfold write_byte_to_memory
      rw [hs, bus_store_ram s _ _ 1 hlo (by omega) (by decide)]
    refine ⟨by rw [hs], hm, ?_⟩
    intro s2 ld q hld hopl hf3l hrd hbytes haddr hmem
    rw [hm] at hmem
    have hb := r1 s2 hmem
    have hv := execute_load_value s2 ld q hld hopl (Or.inr (Or.inr (Or.inr (Or.inl hf3l)))) hrd
      hbytes (by rw [haddr]; exact hlo) (by rw [haddr, hf3l, w4]; omega)
    have hr := read_byte_ram s2 (store_address s st) hbytes hlo (by omega)
    have hval : le_value s2.memory (store_address s st - 0x80000000) 1 =
        s.registers ((st >>> 20) &&& 0x1F) % 2 ^ 8 := congrArg Prod.fst (hr.symm.trans hb)
    rw [haddr, hf3l, w4, (load_extend_values _).2.2.2.1, hval] at hv
    exact ⟨hv.1, hv.2, hb⟩

/-- The store loop writes bytes: a memory of bytes stays a memory of bytes. -/
theorem store_loop_bytes (m : Nat → Nat) (idx v n : Nat) (hm : ∀ i, m i < 256) :
    ∀ i, store_loop idx v n m i < 256 := by
  induction n with
  | zero => exact hm
  | succ k ih =>
    intro i
    show (if i = idx + k then (v >>> (8 * k)) &&& 0xFF else store_loop idx v k m i) < 256
    split_ifs
    · rw [and_ff_eq_mod]; exact Nat.mod_lt _ (by decide)
    · exact ih i

/-- The memory of `demo_store` after any of its three stores holds bytes. -/
theorem demo_store_bytes (st current_pc : Nat) (hop : st &&& 0x7F = 0x23)
    (hf3 : (st >>> 12) &&& 0x7 = 2 ∨ (st >>> 12) &&& 0x7 = 1 ∨ (st >>> 12) &&& 0x7 = 0)
    (hlo : 0x80000000 ≤ store_address demo_store st)
    (hhi : store_address demo_store st ≤ 0x80100000 - 4) :
    ∀ i, (execute_instruction demo_store st current_pc).memory i < 256 := by
  have h0 : ∀ i, demo_store.memory i < 256 := fun _ => (by decide : (0 : Nat) < 256)
  rcases hf3 with h | h | h
  · rw [execute_sw _ _ _ hop h hlo (by omega)]
    exact store_loop_bytes _ _ _ _ h0
  · rw [execute_sh _ _ _ hop h hlo (by omega)]
    exact store_loop_bytes _ _ _ _ h0
  · rw [execute_sb _ _ _ hop h hlo (by omega)]
    exact store_loop_bytes _ _ _ _ h0

/-- Instance of C8 on `demo_store` (`x1 = 0x800FFFFC`, `x2 = 0xDEADBEEF`):
`sw x2, -4(x1)` then `lw x3, -4(x1)` gives `x3 = 0xDEADBEEF`;
`sh x2, -4(x1)` then `lhu x3, -4(x1)` gives `0xBEEF`;
`sb x2, -4(x1)` then `lbu x3, -4(x1)` gives `0xEF`. -/
theorem store_load_roundtrip_witness :
    (0xFE20AE23 : Nat) &&& 0x7F = 0x23 ∧
    demo_store.registers (((0xFE20AE23 : Nat) >>> 20) &&& 0x1F) < 2 ^ 32 ∧
    store_address demo_store 0xFE20AE23 = 0x800FFFF8 ∧
    load_address (execute_instruction demo_store 0xFE20AE23 0x80000008) 0xFFC0A183 = 0x800FFFF8 ∧
    (execute_instruction (execute_instruction demo_store 0xFE20AE23 0x80000008)
      0xFFC0A183 0x8000000C).registers 3 = 0xDEADBEEF ∧
    (execute_instruction (execute_instruction demo_store 0xFE20AE23 0x80000008)
      0xFFC0A183 0x8000000C).trap_occurred = 0 ∧
    (execute_instruction (execute_instruction demo_store 0xFE209E23 0x80000008)
      0xFFC0D183 0x8000000C).registers 3 = 0xBEEF ∧
    (execute_instruction (execute_instruction demo_store 0xFE208E23 0x80000008)
      0xFFC0C183 0x8000000C).registers 3 = 0xEF :=
  ⟨by decide, by decide, by decide, by decide,
    (((store_load_roundtrip demo_store 0xFE20AE23 0x80000008 (by decide) (by decide)
      (by decide) (by decide)).1 (by decide)).2.2
      (execute_instruction demo_store 0xFE20AE23 0x80000008) 0xFFC0A183 0x8000000C
      (by decide) (by decide) (by decide) (by decide)
      (demo_store_bytes 0xFE20AE23 0x80000008 (by decide) (Or.inl (by decide)) (by decide)
        (by decide))
      (by decide) (fun _ _ => rfl)).1,
    (((store_load_roundtrip demo_store 0xFE20AE23 0x80000008 (by decide) (by decide)
      (by decide) (by decide)).1 (by decide)).2.2
      (execute_instruction demo_store 0xFE20AE23 0x80000008) 0xFFC0A183 0x8000000C
      (by decide) (by decide) (by decide) (by decide)
      (demo_store_bytes 0xFE20AE23 0x80000008 (by decide) (Or.inl (by decide)) (by decide)
        (by decide))
      (by decide) (fun _ _ => rfl)).2.1,
    (((store_load_roundtrip demo_store 0xFE209E23 0x80000008 (by decide) (by decide)
      (by decide) (by decide)).2.1 (by decide)).2.2
      (execute_instruction demo_store 0xFE209E23 0x80000008) 0xFFC0D183 0x8000000C
      (by decide) (by decide) (by decide) (by decide)
      (demo_store_bytes 0xFE209E23 0x80000008 (by decide) (Or.inr (Or.inl (by decide)))
        (by decide) (by decide))
      (by decide) (fun _ _ => rfl)).1.trans (by decide),
    (((store_load_roundtrip demo_store 0xFE208E23 0x80000008 (by decide) (by decide)
      (by decide) (by decide)).2.2 (by decide)).2.2
      (execute_instruction demo_store 0xFE208E23 0x80000008) 0xFFC0C183 0x8000000C
      (by decide) (by decide) (by decide) (by decide)
      (demo_store_bytes 0xFE208E23 0x80000008 (by decide) (Or.inr (Or.inr (by decide)))
        (by decide) (by decide))
      (by decide) (fun _ _ => rfl)).1.trans (by decide)⟩

end Poximv2
